import Mathlib

/-!
# Ball-pivoting surface reconstruction: the mesh graph

A shallow embedding of the mesh graph of `BallPivoting/src` (`Edge.cpp`,
`Vertex.cpp`, `Facet.cpp`).  Objects live in a heap indexed by their address
(a natural number); a null pointer is `none`.  A `double` is read as an element
of a linearly ordered commutative ring `K` (exact arithmetic).  A method that
dereferences a null or dangling pointer has no defined result and returns
`none`.
-/

namespace BallPivoting

/-! ## Data model -/

/-- Point.h: three coordinates. -/
structure Point (K : Type) where
  x : K
  y : K
  z : K
deriving DecidableEq, Repr

/-- Vertex.h: a sample point with its normal, its adjacency sets (a `std::set`
of addresses, kept as an increasing duplicate-free list), its mesh index and
its type tag (0 orphan, 1 front, 2 inner). -/
structure Vertex (K : Type) where
  pos : Point K
  m_nx : K
  m_ny : K
  m_nz : K
  m_adjacentEdges : List Nat
  m_adjacentFacets : List Nat
  m_index : Int
  m_type : Nat
deriving DecidableEq, Repr

/-- Edge.h: two end vertices, two facet slots and the type tag
(0 border, 1 front, 2 inner). -/
structure Edge where
  m_src : Nat
  m_tgt : Nat
  m_facet1 : Option Nat
  m_facet2 : Option Nat
  m_type : Int
deriving DecidableEq, Repr

/-- Facet.h: the three vertices `m_vertex[0..2]` and the ball center. -/
structure Facet (K : Type) where
  m_vertex0 : Nat
  m_vertex1 : Nat
  m_vertex2 : Nat
  m_ball_center : Point K
deriving DecidableEq, Repr

/-- The heap: the vertex storage (owned by the octree, never freed), the live
edges and facets by address, and the next address handed out by `new Edge`. -/
structure Mesh (K : Type) where
  vertices : Nat → Vertex K
  edges : Nat → Option Edge
  facets : Nat → Option (Facet K)
  nextEdge : Nat

section Defs

variable {K : Type}

/-- Write a vertex back to the heap. -/
def Mesh.setVertex (m : Mesh K) (v : Nat) (vx : Vertex K) : Mesh K :=
  { m with vertices := fun i => if i = v then vx else m.vertices i }

/-- Write (or free, with `none`) an edge. -/
def Mesh.setEdge (m : Mesh K) (e : Nat) (ed : Option Edge) : Mesh K :=
  { m with edges := fun i => if i = e then ed else m.edges i }

/-- Write (or free, with `none`) a facet. -/
def Mesh.setFacet (m : Mesh K) (f : Nat) (fc : Option (Facet K)) : Mesh K :=
  { m with facets := fun i => if i = f then fc else m.facets i }

/-! ## utilities.h -/

/-- Modelled from the spec: `cross_product` of utilities.h, which is not among
the sources; the spec lists it as `cross(a,b)`, the vector product. -/
def cross_product [CommRing K] (ax ay az bx b_y bz : K) : K × K × K :=
  (ay * bz - az * b_y, az * bx - ax * bz, ax * b_y - ay * bx)

/-- Modelled from the spec: `getCommonElement` of utilities.h, which is not
among the sources; the spec says the linking edge is found by intersecting the
two adjacent-edge sets, returning the shared element if any, else none.  The
sets are iterated in increasing address order. -/
def getCommonElement (s1 s2 : List Nat) : Option Nat :=
  s1.find? (fun e => decide (e ∈ s2))

/-- Insertion in a `std::set`: the list stays increasing and duplicate-free;
the flag tells whether the element was new. -/
def setInsert (a : Nat) : List Nat → List Nat × Bool
  | [] => ([a], true)
  | b :: l =>
    if a < b then (a :: b :: l, true)
    else if a = b then (b :: l, false)
    else ((setInsert a l).1.cons b, (setInsert a l).2)

/-- Removal by key in a `std::set`. -/
def setErase (a : Nat) (l : List Nat) : List Nat :=
  l.filter (fun b => b != a)

/-- A positive scaling: what `normalize` of utilities.h does to a vector over
the reals (division by the norm, or nothing at all on a near-zero vector). -/
def PositiveScaling [LinearOrderedCommRing K] (normalize : K × K × K → K × K × K) : Prop :=
  ∀ v : K × K × K, ∃ k : K, 0 < k ∧ normalize v = (k * v.1, k * v.2.1, k * v.2.2)

/-! ## Facet accessors -/

/-- Facet::vertex: `m_vertex[i % 3]`. -/
def Facet.vertex (f : Facet K) (i : Nat) : Nat :=
  match i % 3 with
  | 0 => f.m_vertex0
  | 1 => f.m_vertex1
  | _ => f.m_vertex2

/-- Facet::hasVertex. -/
def Facet.hasVertex (f : Facet K) (v : Nat) : Bool :=
  f.m_vertex0 == v || f.m_vertex1 == v || f.m_vertex2 == v

/-! ## Edge.cpp -/

/-- Edge::Edge(Vertex*, Vertex*), the fields of the new object: no facet,
type 1. -/
def Edge.init (src tgt : Nat) : Edge :=
  { m_src := src, m_tgt := tgt, m_facet1 := none, m_facet2 := none, m_type := 1 }

/-- Edge::getOppositeVertex: null when `m_facet1` is null, else the first of
the three vertices of `m_facet1` that is neither end of the edge (null when
there is none).  The outer `none` is a dangling `m_facet1`. -/
def Edge.getOppositeVertex (m : Mesh K) (e : Edge) : Option (Option Nat) :=
  match e.m_facet1 with
  | none => some none
  | some f =>
    match m.facets f with
    | none => none
    | some fc =>
      some ([fc.vertex 0, fc.vertex 1, fc.vertex 2].find?
        (fun opp => opp != e.m_src && opp != e.m_tgt))

/-- The quantity tested by Edge::updateOrientation, without the two
normalisations: `dot(cross(t - s, o - s), n(s) + n(t) + n(o))`. -/
def orientationDot [CommRing K] (s t o : Vertex K) : K :=
  let v := cross_product (t.pos.x - s.pos.x) (t.pos.y - s.pos.y) (t.pos.z - s.pos.z)
    (o.pos.x - s.pos.x) (o.pos.y - s.pos.y) (o.pos.z - s.pos.z)
  v.1 * (s.m_nx + t.m_nx + o.m_nx) + v.2.1 * (s.m_ny + t.m_ny + o.m_ny)
    + v.2.2 * (s.m_nz + t.m_nz + o.m_nz)

/-- Edge::updateOrientation: swap source and target when the normalised cross
product of `tgt - src` and `opp - src` has a negative dot product with the
normalised sum of the three normals.  `opp` is dereferenced unchecked. -/
def Edge.updateOrientation [LinearOrderedCommRing K] (normalize : K × K × K → K × K × K)
    (m : Mesh K) (e : Edge) : Option Edge :=
  match e.getOppositeVertex m with
  | none => none
  | some none => none
  | some (some opp) =>
    let s := m.vertices e.m_src
    let t := m.vertices e.m_tgt
    let o := m.vertices opp
    let v := normalize (cross_product (t.pos.x - s.pos.x) (t.pos.y - s.pos.y)
      (t.pos.z - s.pos.z) (o.pos.x - s.pos.x) (o.pos.y - s.pos.y) (o.pos.z - s.pos.z))
    let n := normalize (s.m_nx + t.m_nx + o.m_nx, s.m_ny + t.m_ny + o.m_ny,
      s.m_nz + t.m_nz + o.m_nz)
    if v.1 * n.1 + v.2.1 * n.2.1 + v.2.2 * n.2.2 < 0 then
      some { e with m_src := e.m_tgt, m_tgt := e.m_src }
    else some e

/-- Edge::addAdjacentFacet. -/
def Edge.addAdjacentFacet [LinearOrderedCommRing K] (normalize : K × K × K → K × K × K)
    (m : Mesh K) (e : Edge) (facet : Nat) : Option (Edge × Bool) :=
  if e.m_facet1 = some facet ∨ e.m_facet2 = some facet then some (e, false)
  else if e.m_facet1 = none then
    (Edge.updateOrientation normalize m { e with m_facet1 := some facet }).map
      (fun e1 => ({ e1 with m_type := 1 }, true))
  else if e.m_facet2 = none then
    some ({ e with m_facet2 := some facet, m_type := 2 }, true)
  else some (e, false)

/-- Edge::removeAdjacentFacet. -/
def Edge.removeAdjacentFacet (e : Edge) (facet : Nat) : Edge × Bool :=
  if e.m_facet1 = some facet then ({ e with m_facet1 := none, m_type := 1 }, true)
  else if e.m_facet2 = some facet then ({ e with m_facet2 := none, m_type := 1 }, true)
  else (e, false)

/-- Edge::hasVertex. -/
def Edge.hasVertex (e : Edge) (vertex : Nat) : Bool :=
  vertex == e.m_src || vertex == e.m_tgt

/-- Edge::isInnerEdge: false exactly when `m_facet2` is null. -/
def Edge.isInnerEdge (e : Edge) : Bool :=
  if e.m_facet2 = none then false else true

/-- A call made on an edge by its clients. -/
inductive EdgeOp where
  | add (facet : Nat)
  | remove (facet : Nat)
deriving DecidableEq, Repr

/-- One call of addAdjacentFacet or removeAdjacentFacet (the returned flag is
dropped), in the heap `m` of the moment. -/
def Edge.applyOp [LinearOrderedCommRing K] (normalize : K × K × K → K × K × K)
    (m : Mesh K) (e : Edge) : EdgeOp → Option Edge
  | EdgeOp.add f => (e.addAdjacentFacet normalize m f).map Prod.fst
  | EdgeOp.remove f => some (e.removeAdjacentFacet f).1

/-- A finite sequence of calls, each in its own heap. -/
def Edge.run [LinearOrderedCommRing K] (normalize : K × K × K → K × K × K)
    (e : Edge) : List (Mesh K × EdgeOp) → Option Edge
  | [] => some e
  | (m, op) :: rest =>
    match e.applyOp normalize m op with
    | none => none
    | some e1 => Edge.run normalize e1 rest

/-! ## Vertex.cpp -/

/-- Vertex::addAdjacentEdge. -/
def Vertex.addAdjacentEdge (v : Vertex K) (edge : Nat) : Vertex K × Bool :=
  ({ v with m_adjacentEdges := (setInsert edge v.m_adjacentEdges).1 },
    (setInsert edge v.m_adjacentEdges).2)

/-- Vertex::removeAdjacentEdge. -/
def Vertex.removeAdjacentEdge (v : Vertex K) (edge : Nat) : Vertex K :=
  { v with m_adjacentEdges := setErase edge v.m_adjacentEdges }

/-- Vertex::addAdjacentFacet. -/
def Vertex.addAdjacentFacet (v : Vertex K) (facet : Nat) : Vertex K × Bool :=
  ({ v with m_adjacentFacets := (setInsert facet v.m_adjacentFacets).1 },
    (setInsert facet v.m_adjacentFacets).2)

/-- Vertex::removeAdjacentFacet. -/
def Vertex.removeAdjacentFacet (v : Vertex K) (facet : Nat) : Vertex K :=
  { v with m_adjacentFacets := setErase facet v.m_adjacentFacets }

/-- Vertex::getLinkingEdge: the common element of the two adjacent-edge sets,
null when there is none. -/
def Vertex.getLinkingEdge (v vertex : Vertex K) : Option Nat :=
  getCommonElement v.m_adjacentEdges vertex.m_adjacentEdges

/-- Vertex::isAdjacent. -/
def Vertex.isAdjacent (v : Vertex K) (facet : Nat) : Bool :=
  decide (facet ∈ v.m_adjacentFacets)

/-- The loop of Vertex::updateType: 1 at the first adjacent edge whose type is
not 2, and 2 when the loop runs to its end.  Each edge is dereferenced. -/
def Vertex.updateTypeLoop (m : Mesh K) : List Nat → Option Nat
  | [] => some 2
  | e :: rest =>
    match m.edges e with
    | none => none
    | some ed => if ed.m_type ≠ 2 then some 1 else Vertex.updateTypeLoop m rest

/-- Vertex::updateType. -/
def Vertex.updateType (m : Mesh K) (v : Vertex K) : Option (Vertex K) :=
  if v.m_adjacentEdges.isEmpty then some { v with m_type := 0 }
  else (Vertex.updateTypeLoop m v.m_adjacentEdges).map (fun t => { v with m_type := t })

/-- The types of the edges adjacent to a vertex (0 for a dangling address). -/
def Vertex.adjacentEdgeTypes (m : Mesh K) (v : Vertex K) : List Int :=
  v.m_adjacentEdges.map (fun e => ((m.edges e).map Edge.m_type).getD 0)

/-! ## Edge and facet construction on the heap -/

/-- Edge::Edge(Vertex*, Vertex*) run at address `self`: register the edge with
both end vertices and initialise its fields. -/
def Edge.ctor (m : Mesh K) (self src tgt : Nat) : Mesh K :=
  let m1 := m.setVertex src ((m.vertices src).addAdjacentEdge self).1
  let m2 := m1.setVertex tgt ((m1.vertices tgt).addAdjacentEdge self).1
  m2.setEdge self (some (Edge.init src tgt))

/-- The expression `new Edge(src, tgt)`: the next free address, and the heap
after the constructor has run there. -/
def Mesh.newEdge (m : Mesh K) (src tgt : Nat) : Mesh K × Nat :=
  (Edge.ctor { m with nextEdge := m.nextEdge + 1 } m.nextEdge src tgt, m.nextEdge)

/-- The call `e->addAdjacentFacet(facet)` through the pointer `e`. -/
def Mesh.edgeAddAdjacentFacet [LinearOrderedCommRing K]
    (normalize : K × K × K → K × K × K) (m : Mesh K) (e facet : Nat) : Option (Mesh K) :=
  match m.edges e with
  | none => none
  | some ed =>
    (ed.addAdjacentFacet normalize m facet).map (fun r => m.setEdge e (some r.1))

/-- The three statements the facet constructors repeat for a pair of vertices:
`e = a->getLinkingEdge(b); if(e == NULL) e = new Edge(a, b);
e->addAdjacentFacet(this);`. -/
def Facet.attachEdge [LinearOrderedCommRing K] (normalize : K × K × K → K × K × K)
    (m : Mesh K) (self a b : Nat) : Option (Mesh K) :=
  match (m.vertices a).getLinkingEdge (m.vertices b) with
  | some e => m.edgeAddAdjacentFacet normalize e self
  | none => (m.newEdge a b).1.edgeAddAdjacentFacet normalize (m.newEdge a b).2 self

/-- The body of the last loop of the facet constructors:
`v->addAdjacentFacet(this); v->updateType();`. -/
def Facet.registerVertex (m : Mesh K) (self v : Nat) : Option (Mesh K) :=
  let m1 := m.setVertex v ((m.vertices v).addAdjacentFacet self).1
  (Vertex.updateType m1 (m1.vertices v)).map (fun vx => m1.setVertex v vx)

/-- Facet::Facet(Vertex*, Vertex*, Vertex*, Point&) run at address `self`. -/
def Facet.ctor [LinearOrderedCommRing K] (normalize : K × K × K → K × K × K)
    (m : Mesh K) (self v0 v1 v2 : Nat) (ball_center : Point K) : Option (Mesh K) :=
  let m0 := m.setFacet self (some ⟨v0, v1, v2, ball_center⟩)
  (Facet.attachEdge normalize m0 self v0 v1).bind fun m1 =>
  (Facet.attachEdge normalize m1 self v1 v2).bind fun m2 =>
  (Facet.attachEdge normalize m2 self v2 v0).bind fun m3 =>
  (Facet.registerVertex m3 self v0).bind fun m4 =>
  (Facet.registerVertex m4 self v1).bind fun m5 =>
  Facet.registerVertex m5 self v2

/-- Modelled from the spec: the default `Point()` of Point.h, which is not
among the sources; the spec says a facet built without a ball center records
none, or zero. -/
def Point.default [Zero K] : Point K := ⟨0, 0, 0⟩

/-- Facet::Facet(Vertex*, Vertex*, Vertex*): the same statements, the ball
center left default-constructed. -/
def Facet.ctorNoCenter [LinearOrderedCommRing K] (normalize : K × K × K → K × K × K)
    (m : Mesh K) (self v0 v1 v2 : Nat) : Option (Mesh K) :=
  Facet.ctor normalize m self v0 v1 v2 Point.default

/-- Facet::Facet(Edge*, Vertex*, Point&) run at address `self`: the vertices
are the edge source, the new vertex and the edge target; the given edge takes
the facet first, then the pairs (source, vertex) and (vertex, target). -/
def Facet.ctorOnEdge [LinearOrderedCommRing K] (normalize : K × K × K → K × K × K)
    (m : Mesh K) (self edge vertex : Nat) (ball_center : Point K) : Option (Mesh K) :=
  match m.edges edge with
  | none => none
  | some ed =>
    let src := ed.m_src
    let tgt := ed.m_tgt
    let m0 := m.setFacet self (some ⟨src, vertex, tgt, ball_center⟩)
    (m0.edgeAddAdjacentFacet normalize edge self).bind fun m1 =>
    (Facet.attachEdge normalize m1 self src vertex).bind fun m2 =>
    (Facet.attachEdge normalize m2 self vertex tgt).bind fun m3 =>
    (Facet.registerVertex m3 self src).bind fun m4 =>
    (Facet.registerVertex m4 self vertex).bind fun m5 =>
    Facet.registerVertex m5 self tgt

/-- Facet::Facet(Edge*, Vertex*): the same statements, the ball center left
default-constructed. -/
def Facet.ctorOnEdgeNoCenter [LinearOrderedCommRing K] (normalize : K × K × K → K × K × K)
    (m : Mesh K) (self edge vertex : Nat) : Option (Mesh K) :=
  Facet.ctorOnEdge normalize m self edge vertex Point.default

/-- The body of the second loop of the facet destructor for the pair
`(m_vertex[i], m_vertex[i+1])`: the linking edge is dereferenced unchecked;
when its `m_facet2` is null (the test is written twice) it is erased from both
vertices and deleted, otherwise it drops the facet. -/
def Facet.releaseEdge (m : Mesh K) (self a b : Nat) : Option (Mesh K) :=
  match (m.vertices a).getLinkingEdge (m.vertices b) with
  | none => none
  | some e =>
    match m.edges e with
    | none => none
    | some ed =>
      if ed.m_facet2 = none ∧ ed.m_facet2 = none then
        let m1 := m.setVertex a ((m.vertices a).removeAdjacentEdge e)
        let m2 := m1.setVertex b ((m1.vertices b).removeAdjacentEdge e)
        some (m2.setEdge e none)
      else some (m.setEdge e (some (ed.removeAdjacentFacet self).1))

/-- The facet destructor run on the facet at address `self`, followed by the
release of the object: the facet leaves the adjacent-facet sets of its three
vertices, then the loop `for(int i = 0; i < 2; ++i)` treats the pairs
(0,1) and (1,2). -/
def Facet.dtor (m : Mesh K) (self : Nat) : Option (Mesh K) :=
  match m.facets self with
  | none => none
  | some fc =>
    let m1 := m.setVertex fc.m_vertex0 ((m.vertices fc.m_vertex0).removeAdjacentFacet self)
    let m2 := m1.setVertex fc.m_vertex1 ((m1.vertices fc.m_vertex1).removeAdjacentFacet self)
    let m3 := m2.setVertex fc.m_vertex2 ((m2.vertices fc.m_vertex2).removeAdjacentFacet self)
    (Facet.releaseEdge m3 self fc.m_vertex0 fc.m_vertex1).bind fun m4 =>
    (Facet.releaseEdge m4 self fc.m_vertex1 fc.m_vertex2).bind fun m5 =>
    some (m5.setFacet self none)

/-- Facet::edge: the linking edge of `m_vertex[(i+1)%3]` and
`m_vertex[(i+2)%3]`. -/
def Facet.edge (m : Mesh K) (f : Facet K) (i : Nat) : Option Nat :=
  (m.vertices (f.vertex (i + 1))).getLinkingEdge (m.vertices (f.vertex (i + 2)))

/-! ## Predicates on edges and heaps -/

/-- The edge has the facet in `facet1` or in `facet2`. -/
def Edge.holds (e : Edge) (f : Nat) : Prop :=
  e.m_facet1 = some f ∨ e.m_facet2 = some f

/-- The edge has at most one adjacent facet: one of its slots is empty. -/
def Edge.hasFreeSlot (e : Edge) : Prop :=
  e.m_facet1 = none ∨ e.m_facet2 = none

/-- Every address in an adjacent-edge set is that of a live edge, handed out
before `nextEdge`. -/
def Mesh.AdjacencyLive (m : Mesh K) : Prop :=
  ∀ v, ∀ e ∈ (m.vertices v).m_adjacentEdges, e < m.nextEdge ∧ ∃ ed, m.edges e = some ed

/-- Two distinct vertices share at most one edge in their adjacent-edge
sets. -/
def Mesh.UniqueEdges (m : Mesh K) : Prop :=
  ∀ u v, u ≠ v → ∀ e1 e2,
    e1 ∈ (m.vertices u).m_adjacentEdges → e1 ∈ (m.vertices v).m_adjacentEdges →
    e2 ∈ (m.vertices u).m_adjacentEdges → e2 ∈ (m.vertices v).m_adjacentEdges → e1 = e2

/-- The pair of vertices has a linking edge, and it holds the facet. -/
def Mesh.LinkedBy (m : Mesh K) (a b f : Nat) : Prop :=
  ∃ e ed, (m.vertices a).getLinkingEdge (m.vertices b) = some e ∧ m.edges e = some ed ∧
    ed.holds f

/-- The linking edge of the pair, if there is one, has at most one adjacent
facet. -/
def Mesh.LinkFree (m : Mesh K) (a b : Nat) : Prop :=
  ∀ e ed, (m.vertices a).getLinkingEdge (m.vertices b) = some e → m.edges e = some ed →
    ed.hasFreeSlot

/-- The heap `m1` has the edges, the facets and the adjacent-edge sets of
`m`. -/
def Mesh.SameEdges (m m1 : Mesh K) : Prop :=
  m1.edges = m.edges ∧ m1.facets = m.facets ∧ m1.nextEdge = m.nextEdge ∧
    ∀ u, (m1.vertices u).m_adjacentEdges = (m.vertices u).m_adjacentEdges

/-- What attaching the facet `facet` to the pair `(a, b)` does to the heap `m`,
giving `m1`: facets are untouched; when the pair had no linking edge both
vertices receive the new address `m.nextEdge`, the only one handed out; no
edge is freed or loses the facet or its last free slot. -/
structure AttachStep (facet a b : Nat) (m m1 : Mesh K) : Prop where
  facets_eq : m1.facets = m.facets
  vertices_eq : ∀ v, m1.vertices v =
    if (m.vertices a).getLinkingEdge (m.vertices b) = none ∧ (v = a ∨ v = b) then
      { m.vertices v with
        m_adjacentEdges := (setInsert m.nextEdge (m.vertices v).m_adjacentEdges).1 }
    else m.vertices v
  edges_mono : ∀ e ed, m.edges e = some ed →
    ∃ ed1, m1.edges e = some ed1 ∧ (ed.holds facet → ed1.holds facet) ∧
      (ed.holds facet ∨ ed.hasFreeSlot → ed1.holds facet ∨ ed1.hasFreeSlot)
  linked : (∀ e ed, (m.vertices a).getLinkingEdge (m.vertices b) = some e →
      m.edges e = some ed → ed.holds facet ∨ ed.hasFreeSlot) → m1.LinkedBy a b facet
  live : m1.AdjacencyLive
  nextEdge_eq : m1.nextEdge =
    m.nextEdge + (if (m.vertices a).getLinkingEdge (m.vertices b) = none then 1 else 0)

/-! ## Sample heaps -/

/-- A sample point of the plane `z = 0` with normal (0,0,1), not yet meshed. -/
def sampleVertex (x y : Int) : Vertex Int :=
  { pos := ⟨x, y, 0⟩, m_nx := 0, m_ny := 0, m_nz := 1, m_adjacentEdges := [],
    m_adjacentFacets := [], m_index := -1, m_type := 0 }

/-- Four samples, at (0,0), (1,0), (0,1) and (0,-1), with no edge and no facet
yet. -/
def sampleCloud : Mesh Int :=
  { vertices := fun i =>
      match i with
      | 0 => sampleVertex 0 0
      | 1 => sampleVertex 1 0
      | 2 => sampleVertex 0 1
      | _ => sampleVertex 0 (-1)
    edges := fun _ => none
    facets := fun _ => none
    nextEdge := 0 }

/-- The sample cloud with two facet objects on the pair of vertices 0 and 1:
facet 0 on (0,1,2), on the left of 0→1, and facet 1 on (0,1,3), on its
right. -/
def sampleFacets : Mesh Int :=
  (sampleCloud.setFacet 0 (some ⟨0, 1, 2, ⟨0, 0, 0⟩⟩)).setFacet 1 (some ⟨0, 1, 3, ⟨0, 0, 0⟩⟩)

/-- The sample cloud after the seed facet 0 on the vertices 0, 1, 2: the three
edges 0 (0→1), 1 (1→2) and 2 (2→0) are front edges holding the facet. -/
def seedMesh : Mesh Int :=
  { vertices := fun i =>
      match i with
      | 0 => { sampleVertex 0 0 with
                m_adjacentEdges := [0, 2], m_adjacentFacets := [0], m_type := 1 }
      | 1 => { sampleVertex 1 0 with
                m_adjacentEdges := [0, 1], m_adjacentFacets := [0], m_type := 1 }
      | 2 => { sampleVertex 0 1 with
                m_adjacentEdges := [1, 2], m_adjacentFacets := [0], m_type := 1 }
      | _ => sampleVertex 0 (-1)
    edges := fun i =>
      match i with
      | 0 => some ⟨0, 1, some 0, none, 1⟩
      | 1 => some ⟨1, 2, some 0, none, 1⟩
      | 2 => some ⟨2, 0, some 0, none, 1⟩
      | _ => none
    facets := fun i =>
      match i with
      | 0 => some ⟨0, 1, 2, ⟨0, 0, 0⟩⟩
      | _ => none
    nextEdge := 3 }

/-- A vertex meshed by hand: adjacent to the edges 0, 2 and 3. -/
def fanVertex : Vertex Int :=
  { pos := ⟨0, 0, 0⟩, m_nx := 0, m_ny := 0, m_nz := 1, m_adjacentEdges := [0, 2, 3],
    m_adjacentFacets := [0, 1], m_index := 0, m_type := 0 }

/-- A heap in which vertex 0 is the vertex above and its three adjacent edges
are an inner edge (0), a front edge (2) and an edge retired to the border
(3). -/
def fanMesh : Mesh Int :=
  { vertices := fun i =>
      match i with
      | 0 => fanVertex
      | 1 => sampleVertex 1 0
      | 2 => sampleVertex 0 1
      | _ => sampleVertex 0 (-1)
    edges := fun i =>
      match i with
      | 0 => some ⟨0, 1, some 0, some 1, 2⟩
      | 2 => some ⟨2, 0, some 0, none, 1⟩
      | 3 => some ⟨0, 3, some 1, none, 0⟩
      | _ => none
    facets := fun i =>
      match i with
      | 0 => some ⟨0, 1, 2, ⟨0, 0, 0⟩⟩
      | 1 => some ⟨0, 3, 1, ⟨0, 0, 0⟩⟩
      | _ => none
    nextEdge := 5 }

end Defs

/-! ## Mesher.cpp: the geometry of the pivoting ball -/

section MesherDefs

variable {K : Type}

/-- Modelled from the spec: `dist2` of the missing Point.h and utilities.h, the
squared distance of two points. -/
def dist2 [CommRing K] (p q : Point K) : K :=
  (p.x - q.x) * (p.x - q.x) + (p.y - q.y) * (p.y - q.y) + (p.z - q.z) * (p.z - q.z)

/-- Modelled from the spec: `midpoint` of the missing Point.h and
utilities.h. -/
def midpoint [Field K] (p q : Point K) : Point K :=
  ⟨(p.x + q.x) / 2, (p.y + q.y) / 2, (p.z + q.z) / 2⟩

/-- Modelled from the spec: `normalize` of the missing utilities.h, given the
square root: a vector of norm below 1e-300 is left unchanged, any other is
divided by its norm. -/
def normalizeWith [LinearOrderedField K] (sqrt : K → K) (v : K × K × K) : K × K × K :=
  if sqrt (v.1 * v.1 + v.2.1 * v.2.1 + v.2.2 * v.2.2) < 1 / 10 ^ 300 then v
  else (v.1 / sqrt (v.1 * v.1 + v.2.1 * v.2.1 + v.2.2 * v.2.2),
    v.2.1 / sqrt (v.1 * v.1 + v.2.1 * v.2.1 + v.2.2 * v.2.2),
    v.2.2 / sqrt (v.1 * v.1 + v.2.1 * v.2.1 + v.2.2 * v.2.2))

/-- What the sources take from outside: `sqrt` and `acos` of `<cmath>`, and the
queries of the octree iterator (OctreeIterator.h is not among the sources), each
read with the radius set just before the call: `getNeighbors` lists the
vertices around a point, `getSortedNeighbors` maps squared distances to the
vertices around a vertex, in increasing order, and `containsOnly` tells
whether the ball around a center holds no vertex besides those given. -/
structure Env (K : Type) where
  sqrt : K → K
  acos : K → K
  getNeighbors : K → Point K → List Nat
  getSortedNeighbors : K → Nat → List (K × Nat)
  containsOnly : K → Point K → List Nat → Bool

/-- Mesher.h: the object store, the next address handed out by `new Facet`, and
the members of the mesher. -/
structure Mesher (K : Type) where
  heap : Mesh K
  nextFacet : Nat
  m_edge_front : List Nat
  m_facets : List Nat
  m_vertices : List Nat
  m_border_edges : List Nat
  m_node_border_edges : List Nat
  m_ball_radius : K
  m_sq_ball_radius : K
  m_nvertices : Nat
  m_nfacets : Nat

/-- The constant `PI` of Mesher.cpp. -/
def Mesher.PI [Field K] : K := 31415926535 / 10000000000

/-- Mesher::setBallRadius. -/
def Mesher.setBallRadius [Mul K] (s : Mesher K) (r : K) : Mesher K :=
  { s with m_ball_radius := r, m_sq_ball_radius := r * r }

/-- The sum `alpha + beta + gamma` of Mesher::computeBallCenter (its `temp`),
with `a`, `b`, `c` the squared lengths of the sides opposite to `v1`, `v2`,
`v3`. -/
def Mesher.tau [CommRing K] (v1 v2 v3 : Vertex K) : K :=
  dist2 v3.pos v2.pos * (dist2 v1.pos v3.pos + dist2 v2.pos v1.pos - dist2 v3.pos v2.pos)
    + dist2 v1.pos v3.pos * (dist2 v3.pos v2.pos + dist2 v2.pos v1.pos - dist2 v1.pos v3.pos)
    + dist2 v2.pos v1.pos * (dist2 v3.pos v2.pos + dist2 v1.pos v3.pos - dist2 v2.pos v1.pos)

/-- The point `(x, y, z)` of Mesher::computeBallCenter: the combination of the
three vertices with the weights `alpha`, `beta`, `gamma` divided by their
sum. -/
def Mesher.circumcenter [Field K] (v1 v2 v3 : Vertex K) : Point K :=
  let c := dist2 v2.pos v1.pos
  let b := dist2 v1.pos v3.pos
  let a := dist2 v3.pos v2.pos
  let alpha := a * (b + c - a) / Mesher.tau v1 v2 v3
  let beta := b * (a + c - b) / Mesher.tau v1 v2 v3
  let gamma := c * (a + b - c) / Mesher.tau v1 v2 v3
  ⟨alpha * v1.pos.x + beta * v2.pos.x + gamma * v3.pos.x,
    alpha * v1.pos.y + beta * v2.pos.y + gamma * v3.pos.y,
    alpha * v1.pos.z + beta * v2.pos.z + gamma * v3.pos.z⟩

/-- The value `sq_circumradius` of Mesher::computeBallCenter: `a * b * c` over
the product of four sums of the square roots of `a`, `b`, `c`. -/
def Mesher.sqCircumradius [Field K] (sqrt : K → K) (v1 v2 v3 : Vertex K) : K :=
  let c := dist2 v2.pos v1.pos
  let b := dist2 v1.pos v3.pos
  let a := dist2 v3.pos v2.pos
  a * b * c / ((sqrt a + sqrt b + sqrt c) * (sqrt b + sqrt c - sqrt a)
    * (sqrt c + sqrt a - sqrt b) * (sqrt a + sqrt b - sqrt c))

/-- Mesher::computeNormal: the normalised cross product of `v2 - v1` and
`v3 - v1`, negated when its dot product with the normalised sum of the three
normals is negative. -/
def Mesher.computeNormal [LinearOrderedField K] (env : Env K) (v1 v2 v3 : Vertex K) :
    K × K × K :=
  let n := normalizeWith env.sqrt (cross_product (v2.pos.x - v1.pos.x) (v2.pos.y - v1.pos.y)
    (v2.pos.z - v1.pos.z) (v3.pos.x - v1.pos.x) (v3.pos.y - v1.pos.y) (v3.pos.z - v1.pos.z))
  let mn := normalizeWith env.sqrt
    (v1.m_nx + v2.m_nx + v3.m_nx, v1.m_ny + v2.m_ny + v3.m_ny, v1.m_nz + v2.m_nz + v3.m_nz)
  if n.1 * mn.1 + n.2.1 * mn.2.1 + n.2.2 * mn.2.2 < 0 then (-n.1, -n.2.1, -n.2.2) else n

/-- Mesher::computeBallCenter: `none` is the return value false, the center
then left unwritten. -/
def Mesher.computeBallCenter [LinearOrderedField K] (env : Env K) (s : Mesher K)
    (v1 v2 v3 : Vertex K) : Option (Point K) :=
  let c := dist2 v2.pos v1.pos
  let b := dist2 v1.pos v3.pos
  let a := dist2 v3.pos v2.pos
  let alpha := a * (b + c - a)
  let beta := b * (a + c - b)
  let gamma := c * (a + b - c)
  let temp := alpha + beta + gamma
  if temp < 1 / 10 ^ 30 then none
  else
    let alpha := alpha / temp
    let beta := beta / temp
    let gamma := gamma / temp
    let x := alpha * v1.pos.x + beta * v2.pos.x + gamma * v3.pos.x
    let y := alpha * v1.pos.y + beta * v2.pos.y + gamma * v3.pos.y
    let z := alpha * v1.pos.z + beta * v2.pos.z + gamma * v3.pos.z
    let sq_circumradius := a * b * c
    let sa := env.sqrt a
    let sb := env.sqrt b
    let sc := env.sqrt c
    let sq_circumradius := sq_circumradius /
      ((sa + sb + sc) * (sb + sc - sa) * (sc + sa - sb) * (sa + sb - sc))
    let height := s.m_sq_ball_radius - sq_circumradius
    if height ≥ 0 then
      let n := Mesher.computeNormal env v1 v2 v3
      let height := env.sqrt height
      some ⟨x + height * n.1, y + height * n.2.1, z + height * n.2.2⟩
    else none

/-- The square root is exact at `x`: its value there is non-negative and its
square is `x`. -/
def ExactSqrt [Mul K] [Zero K] [LE K] (sqrt : K → K) (x : K) : Prop :=
  0 ≤ sqrt x ∧ sqrt x * sqrt x = x

/-- The squared norm of the cross product of `v2 - v1` and `v3 - v1`, the
vector that Mesher::computeNormal normalises. -/
def Mesher.crossNorm2 [CommRing K] (v1 v2 v3 : Vertex K) : K :=
  (cross_product (v2.pos.x - v1.pos.x) (v2.pos.y - v1.pos.y) (v2.pos.z - v1.pos.z)
      (v3.pos.x - v1.pos.x) (v3.pos.y - v1.pos.y) (v3.pos.z - v1.pos.z)).1
    * (cross_product (v2.pos.x - v1.pos.x) (v2.pos.y - v1.pos.y) (v2.pos.z - v1.pos.z)
      (v3.pos.x - v1.pos.x) (v3.pos.y - v1.pos.y) (v3.pos.z - v1.pos.z)).1
  + (cross_product (v2.pos.x - v1.pos.x) (v2.pos.y - v1.pos.y) (v2.pos.z - v1.pos.z)
      (v3.pos.x - v1.pos.x) (v3.pos.y - v1.pos.y) (v3.pos.z - v1.pos.z)).2.1
    * (cross_product (v2.pos.x - v1.pos.x) (v2.pos.y - v1.pos.y) (v2.pos.z - v1.pos.z)
      (v3.pos.x - v1.pos.x) (v3.pos.y - v1.pos.y) (v3.pos.z - v1.pos.z)).2.1
  + (cross_product (v2.pos.x - v1.pos.x) (v2.pos.y - v1.pos.y) (v2.pos.z - v1.pos.z)
      (v3.pos.x - v1.pos.x) (v3.pos.y - v1.pos.y) (v3.pos.z - v1.pos.z)).2.2
    * (cross_product (v2.pos.x - v1.pos.x) (v2.pos.y - v1.pos.y) (v2.pos.z - v1.pos.z)
      (v3.pos.x - v1.pos.x) (v3.pos.y - v1.pos.y) (v3.pos.z - v1.pos.z)).2.2

/-- The square roots taken by Mesher::computeBallCenter on the vertices `v1`,
`v2`, `v3` are exact: those of the three squared side lengths, of the squared
norm of the cross product that computeNormal normalises, and of the height
`r^2 - sq_circumradius` when it is not negative.  Over the reals this always
holds. -/
def Mesher.ExactRoots [LinearOrderedField K] (env : Env K) (s : Mesher K)
    (v1 v2 v3 : Vertex K) : Prop :=
  ExactSqrt env.sqrt (dist2 v3.pos v2.pos) ∧ ExactSqrt env.sqrt (dist2 v1.pos v3.pos) ∧
  ExactSqrt env.sqrt (dist2 v2.pos v1.pos) ∧
  ExactSqrt env.sqrt (Mesher.crossNorm2 v1 v2 v3) ∧
  (0 ≤ s.m_sq_ball_radius - Mesher.sqCircumradius env.sqrt v1 v2 v3 →
    ExactSqrt env.sqrt (s.m_sq_ball_radius - Mesher.sqCircumradius env.sqrt v1 v2 v3))

/-- The three positions lie on one line: the cross product of `q - p` and
`r - p` vanishes. -/
def Collinear [CommRing K] (p q r : Point K) : Prop :=
  cross_product (q.x - p.x) (q.y - p.y) (q.z - p.z) (r.x - p.x) (r.y - p.y) (r.z - p.z)
    = (0, 0, 0)

/-- The dot product tested by Mesher::computeNormal: normalised cross product
against normalised sum of the three normals. -/
def Mesher.normalDot [LinearOrderedField K] (env : Env K) (v1 v2 v3 : Vertex K) : K :=
  let n := normalizeWith env.sqrt (cross_product (v2.pos.x - v1.pos.x) (v2.pos.y - v1.pos.y)
    (v2.pos.z - v1.pos.z) (v3.pos.x - v1.pos.x) (v3.pos.y - v1.pos.y) (v3.pos.z - v1.pos.z))
  let mn := normalizeWith env.sqrt
    (v1.m_nx + v2.m_nx + v3.m_nx, v1.m_ny + v2.m_ny + v3.m_ny, v1.m_nz + v2.m_nz + v3.m_nz)
  n.1 * mn.1 + n.2.1 * mn.2.1 + n.2.2 * mn.2.2

/-- The dot product of the vector from `P` to `c` with the sum of the normals
of three vertices. -/
def Mesher.outwardDot [CommRing K] (v1 v2 v3 : Vertex K) (P c : Point K) : K :=
  (c.x - P.x) * (v1.m_nx + v2.m_nx + v3.m_nx) + (c.y - P.y) * (v1.m_ny + v2.m_ny + v3.m_ny)
    + (c.z - P.z) * (v1.m_nz + v2.m_nz + v3.m_nz)

/-! ## A sample scene over the rationals -/

/-- A square root on the rationals, exact on the squares of rationals: the
integer square roots of the numerator and of the denominator. -/
def ratSqrt (q : ℚ) : ℚ := (Nat.sqrt q.num.toNat : ℚ) / (Nat.sqrt q.den : ℚ)

/-- A sample of the plane `z = 0` with normal (0,0,1), given its adjacency,
index and type. -/
def rectVertex (x y : ℚ) (edges facets : List Nat) (index : Int) (type : Nat) : Vertex ℚ :=
  { pos := ⟨x, y, 0⟩, m_nx := 0, m_ny := 0, m_nz := 1, m_adjacentEdges := edges,
    m_adjacentFacets := facets, m_index := index, m_type := type }

/-- Five samples: the corners 0, 1, 2, 3 of the rectangle of sides 153 and 104
(diagonal 185) and the mirror image 4 of corner 3.  Facet 0 is on the vertices
0, 4, 1, with its edges 0 (0→4) and 1 (4→1), retired to the border, and 2
(1→0), a front edge.  The ball of radius 697/2 through 0, 4, 1 has its center
at height 336 above the middle of 4 and 1. -/
def rectHeap : Mesh ℚ :=
  { vertices := fun i =>
      match i with
      | 0 => rectVertex 0 0 [0, 2] [0] 0 1
      | 1 => rectVertex 153 0 [1, 2] [0] 2 1
      | 2 => rectVertex 153 104 [] [] (-1) 0
      | 3 => rectVertex 0 104 [] [] (-1) 0
      | _ => rectVertex 0 (-104) [0, 1] [0] 1 1
    edges := fun i =>
      match i with
      | 0 => some ⟨0, 4, some 0, none, 0⟩
      | 1 => some ⟨4, 1, some 0, none, 0⟩
      | 2 => some ⟨1, 0, some 0, none, 1⟩
      | _ => none
    facets := fun i =>
      match i with
      | 0 => some ⟨0, 4, 1, ⟨153 / 2, -52, 336⟩⟩
      | _ => none
    nextEdge := 3 }

/-- A stand-in for the library on the rationals: the exact-on-squares square
root, an arc cosine falling linearly from `PI` at -1 to 0 at 1, and an
iterator that reports the five samples around every point. -/
def rectEnv : Env ℚ :=
  { sqrt := ratSqrt
    acos := fun x => Mesher.PI / 2 * (1 - x)
    getNeighbors := fun _ _ => [0, 1, 2, 3, 4]
    getSortedNeighbors := fun _ _ => []
    containsOnly := fun _ _ _ => true }

/-- The mesher after the seed facet 0, with ball radius 697/2: the front holds
edge 2, the border list the edges 0 and 1. -/
def rectMesher : Mesher ℚ :=
  { heap := rectHeap
    nextFacet := 1
    m_edge_front := [2]
    m_facets := [0]
    m_vertices := [0, 4, 1]
    m_border_edges := [0, 1]
    m_node_border_edges := []
    m_ball_radius := 697 / 2
    m_sq_ball_radius := 485809 / 4
    m_nvertices := 3
    m_nfacets := 1 }

/-! ## Compatibility of normals and the empty-ball tests -/

/-- Vertex::isCompatibleWith(const Edge&), for the vertex `v` and the edge
whose ends are `src` and `tgt`: the normalised cross product of `v - src` and
`tgt - src`, not flipped, against the three normals. -/
def Vertex.isCompatibleWith [LinearOrderedField K] (normalize : K × K × K → K × K × K)
    (v src tgt : Vertex K) : Bool :=
  let nt := normalize (cross_product (v.pos.x - src.pos.x) (v.pos.y - src.pos.y)
    (v.pos.z - src.pos.z) (tgt.pos.x - src.pos.x) (tgt.pos.y - src.pos.y)
    (tgt.pos.z - src.pos.z))
  decide (nt.1 * v.m_nx + nt.2.1 * v.m_ny + nt.2.2 * v.m_nz > -(1 / 10 ^ 16))
    && decide (nt.1 * src.m_nx + nt.2.1 * src.m_ny + nt.2.2 * src.m_nz > -(1 / 10 ^ 16))
    && decide (nt.1 * tgt.m_nx + nt.2.1 * tgt.m_ny + nt.2.2 * tgt.m_nz > -(1 / 10 ^ 16))

/-- Vertex::isCompatibleWith(const Vertex&, const Vertex&): the normal is
flipped when it is against the normal of the vertex itself, then tested
against the normals of `v1` and `v2`. -/
def Vertex.isCompatibleWithPair [LinearOrderedField K] (normalize : K × K × K → K × K × K)
    (v v1 v2 : Vertex K) : Bool :=
  let nt := normalize (cross_product (v.pos.x - v1.pos.x) (v.pos.y - v1.pos.y)
    (v.pos.z - v1.pos.z) (v2.pos.x - v1.pos.x) (v2.pos.y - v1.pos.y)
    (v2.pos.z - v1.pos.z))
  let nt := if nt.1 * v.m_nx + nt.2.1 * v.m_ny + nt.2.2 * v.m_nz < -(1 / 10 ^ 16)
    then (-nt.1, -nt.2.1, -nt.2.2) else nt
  decide (nt.1 * v1.m_nx + nt.2.1 * v1.m_ny + nt.2.2 * v1.m_nz > -(1 / 10 ^ 16))
    && decide (nt.1 * v2.m_nx + nt.2.1 * v2.m_ny + nt.2.2 * v2.m_nz > -(1 / 10 ^ 16))

/-- Mesher::checkEmptyBallConfiguration: the loop over the neighbor list. -/
def Mesher.checkEmptyBallConfiguration [LinearOrderedField K] (s : Mesher K)
    (v1 v2 v3 : Nat) : List Nat → Point K → Bool
  | [], _ => true
  | v :: rest, center =>
    if v = v1 ∨ v = v2 ∨ v = v3 then
      Mesher.checkEmptyBallConfiguration s v1 v2 v3 rest center
    else if dist2 (s.heap.vertices v).pos center < s.m_sq_ball_radius - 1 / 10 ^ 16 then false
    else Mesher.checkEmptyBallConfiguration s v1 v2 v3 rest center

/-- The last loop of Mesher::tryTriangleSeed, over the values of the sorted
neighbor map. -/
def Mesher.seedBallEmpty [LinearOrderedField K] (s : Mesher K) (v1 v2 v3 : Nat)
    (center : Point K) : List (K × Nat) → Bool
  | [] => true
  | ni :: rest =>
    if ni.2 = v1 ∨ ni.2 = v2 ∨ ni.2 = v3 then Mesher.seedBallEmpty s v1 v2 v3 center rest
    else if dist2 center (s.heap.vertices ni.2).pos < s.m_sq_ball_radius - 1 / 10 ^ 16 then false
    else Mesher.seedBallEmpty s v1 v2 v3 center rest

/-- The test `(e != NULL) && P(e->getType())` on the linking edge `e` of two
vertices; `none` when that edge is dangling. -/
def Mesh.linkTypeIs (m : Mesh K) (a b : Nat) (P : Int → Bool) : Option Bool :=
  match (m.vertices a).getLinkingEdge (m.vertices b) with
  | none => some false
  | some e => (m.edges e).map (fun ed => P ed.m_type)

/-- Mesher::tryTriangleSeed: `some (some center)` is the return value true with
the center written, `some none` the return value false, and `none` an
undefined run (a dangling linking edge). -/
def Mesher.tryTriangleSeed [LinearOrderedField K] (env : Env K) (s : Mesher K)
    (v1 v2 v3 : Nat) (neighbors : List (K × Nat)) : Option (Option (Point K)) :=
  if (s.heap.vertices v3).m_type ≠ 0
      ∨ (Vertex.isCompatibleWithPair (normalizeWith env.sqrt) (s.heap.vertices v3)
          (s.heap.vertices v1) (s.heap.vertices v2)) = false then some none
  else
    match s.heap.linkTypeIs v1 v3 (fun t => t == 2) with
    | none => none
    | some true => some none
    | some false =>
      match s.heap.linkTypeIs v2 v3 (fun t => t == 2) with
      | none => none
      | some true => some none
      | some false =>
        match Mesher.computeBallCenter env s (s.heap.vertices v1) (s.heap.vertices v2)
            (s.heap.vertices v3) with
        | none => some none
        | some center =>
          if Mesher.seedBallEmpty s v1 v2 v3 center neighbors then some (some center)
          else some none

/-- A sample at (1, 0, 0) whose normal (0, 0, -1/10^16) is against the normal
(0, 0, 1) of the triangle it spans with the corners 0 and 3 of the sample
rectangle, by exactly the tolerance. -/
def grazingVertex : Vertex ℚ :=
  { pos := ⟨1, 0, 0⟩, m_nx := 0, m_ny := 0, m_nz := -(1 / 10 ^ 16), m_adjacentEdges := [],
    m_adjacentFacets := [], m_index := -1, m_type := 0 }

/-! ## The pivoting step: Mesher::findCandidateVertex -/

/-- The local variables of Mesher::findCandidateVertex before its loop: the
ends of the edge, the opposite vertex of its first facet (possibly null), the
middle `mp` of the edge, the normalised vector `a` from `mp` to the ball center
of the first facet, the normalised direction `v` of the edge and the neighbor
list returned by the octree iterator for the radius `d` around `mp`. -/
structure PivotFrame (K : Type) where
  src : Nat
  tgt : Nat
  opp : Option Nat
  mp : Point K
  a : K × K × K
  v : K × K × K
  neighbors : List Nat

/-- The statements of Mesher::findCandidateVertex before its loop, for the
edge `ed`, its first facet `fc` and its opposite vertex `opp`. -/
def Mesher.pivotFrame [LinearOrderedField K] (env : Env K) (s : Mesher K) (ed : Edge)
    (fc : Facet K) (opp : Option Nat) : PivotFrame K :=
  let src := s.heap.vertices ed.m_src
  let tgt := s.heap.vertices ed.m_tgt
  let mp := midpoint src.pos tgt.pos
  let d := s.m_ball_radius + env.sqrt (s.m_sq_ball_radius - dist2 mp src.pos)
  let center := fc.m_ball_center
  { src := ed.m_src, tgt := ed.m_tgt, opp := opp, mp := mp,
    a := normalizeWith env.sqrt (center.x - mp.x, center.y - mp.y, center.z - mp.z),
    v := normalizeWith env.sqrt
      (tgt.pos.x - src.pos.x, tgt.pos.y - src.pos.y, tgt.pos.z - src.pos.z),
    neighbors := env.getNeighbors d mp }

/-- The angle computed in the loop of Mesher::findCandidateVertex for the ball
center `new_center`: the arc cosine of the clamped dot product of `a` and the
normalised vector `b` from `mp` to `new_center`, replaced by `2 PI` minus
itself when the cross product of `a` and `b` is against `v`. -/
def Mesher.pivotAngle [LinearOrderedField K] (env : Env K) (mp : Point K) (a v : K × K × K)
    (new_center : Point K) : K :=
  let b := normalizeWith env.sqrt
    (new_center.x - mp.x, new_center.y - mp.y, new_center.z - mp.z)
  let cosinus := a.1 * b.1 + a.2.1 * b.2.1 + a.2.2 * b.2.2
  let cosinus := if 1 < cosinus then 1 else cosinus
  let cosinus := if -1 > cosinus then -1 else cosinus
  let angle := env.acos cosinus
  let cp := cross_product a.1 a.2.1 a.2.2 b.1 b.2.1 b.2.2
  if cp.1 * v.1 + cp.2.1 * v.2.1 + cp.2.2 * v.2.2 < 0 then 2 * Mesher.PI - angle else angle

/-- The body of the loop of Mesher::findCandidateVertex for the neighbor `w`;
the accumulator is the candidate with its ball center (none for NULL) and
`min_angle`. -/
def Mesher.candidateStep [LinearOrderedField K] (env : Env K) (s : Mesher K)
    (fr : PivotFrame K) (acc : Option (Nat × Point K) × K) (w : Nat) :
    Option (Nat × Point K) × K :=
  if w = fr.src ∨ w = fr.tgt ∨ some w = fr.opp then acc
  else
    match Mesher.computeBallCenter env s (s.heap.vertices fr.src) (s.heap.vertices fr.tgt)
        (s.heap.vertices w) with
    | none => acc
    | some new_center =>
      if Mesher.pivotAngle env fr.mp fr.a fr.v new_center > acc.2 then acc
      else if Mesher.checkEmptyBallConfiguration s fr.src fr.tgt w fr.neighbors new_center
          = false then acc
      else (some (w, new_center), Mesher.pivotAngle env fr.mp fr.a fr.v new_center)

/-- Mesher::findCandidateVertex: `some (some (v, center))` is the candidate `v`
returned with `center` written to the output parameter, `some none` the return
value NULL, and `none` an undefined run (the edge or its first facet is null or
dangling). -/
def Mesher.findCandidateVertex [LinearOrderedField K] (env : Env K) (s : Mesher K)
    (edge : Nat) : Option (Option (Nat × Point K)) :=
  match s.heap.edges edge with
  | none => none
  | some ed =>
    match ed.m_facet1 with
    | none => none
    | some f =>
      match s.heap.facets f, ed.getOppositeVertex s.heap with
      | some fc, some opp =>
        some (((Mesher.pivotFrame env s ed fc opp).neighbors.foldl
          (Mesher.candidateStep env s (Mesher.pivotFrame env s ed fc opp))
          (none, 2 * Mesher.PI)).1)
      | _, _ => none

/-- A neighbor is admissible when it is none of the source, the target and the
opposite vertex, the ball through it and the two ends of the edge has a center,
and that ball is empty; the value is its pivot angle with that center. -/
def Mesher.admissible [LinearOrderedField K] (env : Env K) (s : Mesher K)
    (fr : PivotFrame K) (w : Nat) : Option (K × Point K) :=
  if w = fr.src ∨ w = fr.tgt ∨ some w = fr.opp then none
  else
    match Mesher.computeBallCenter env s (s.heap.vertices fr.src) (s.heap.vertices fr.tgt)
        (s.heap.vertices w) with
    | none => none
    | some c =>
      if Mesher.checkEmptyBallConfiguration s fr.src fr.tgt w fr.neighbors c = true
      then some (Mesher.pivotAngle env fr.mp fr.a fr.v c, c) else none

/-- Keep the element of smallest value, the later one on a tie: what one turn
of the loop of findCandidateVertex does in terms of `admissible`. -/
def pickStep {C : Type} [LinearOrder K] (adm : Nat → Option (K × C))
    (acc : Option (Nat × C) × K) (w : Nat) : Option (Nat × C) × K :=
  match adm w with
  | none => acc
  | some r => if r.1 > acc.2 then acc else (some (w, r.2), r.1)

/-- The state of the loop after the neighbors `pre`, started with the bound
`B`: without a candidate no neighbor so far had a value up to `B`; with the
candidate `w`, the bound is its value, no neighbor before it has a smaller
value and every neighbor after it has a greater one. -/
def PickInv {C : Type} [LinearOrder K] (adm : Nat → Option (K × C)) (B : K)
    (pre : List Nat) (acc : Option (Nat × C) × K) : Prop :=
  acc.2 ≤ B ∧
  (acc.1 = none → acc.2 = B ∧ ∀ x ∈ pre, ∀ r, adm x = some r → B < r.1) ∧
  (∀ w c, acc.1 = some (w, c) → adm w = some (acc.2, c) ∧
    ∃ p q, pre = p ++ w :: q ∧ (∀ x ∈ p, ∀ r, adm x = some r → acc.2 ≤ r.1) ∧
      (∀ x ∈ q, ∀ r, adm x = some r → acc.2 < r.1))

/-! ## Mesher::addFacet and the expansion of the front -/

/-- The value of an `unsigned int` converted to `int` (two's complement on 32
bits), as in `v->setIndex(m_nvertices)`. -/
def toInt32 (n : Nat) : Int :=
  if n % 2 ^ 32 < 2 ^ 31 then ((n % 2 ^ 32 : Nat) : Int) else ((n % 2 ^ 32 : Nat) : Int) - 2 ^ 32

/-- Mesher::addVertex: a vertex whose index is -1 takes the index
`m_nvertices` and joins the vertex list; the counter is an `unsigned int`. -/
def Mesher.addVertex (s : Mesher K) (v : Nat) : Mesher K :=
  if (s.heap.vertices v).m_index ≠ -1 then s
  else
    { s with
      heap := s.heap.setVertex v { s.heap.vertices v with m_index := toInt32 s.m_nvertices }
      m_vertices := s.m_vertices ++ [v]
      m_nvertices := (s.m_nvertices + 1) % 2 ^ 32 }

/-- Mesher::addFacet: the three vertices of the facet are added, the facet
joins the facet list and the `unsigned int` counter is incremented.  The facet
is dereferenced. -/
def Mesher.addFacet (s : Mesher K) (f : Nat) : Option (Mesher K) :=
  match s.heap.facets f with
  | none => none
  | some fc =>
    let s3 := ((s.addVertex (fc.vertex 0)).addVertex (fc.vertex 1)).addVertex (fc.vertex 2)
    some { s3 with m_facets := s3.m_facets ++ [f], m_nfacets := (s3.m_nfacets + 1) % 2 ^ 32 }

/-- The statements `edge->setType(0); m_border_edges.push_back(edge);` of
Mesher::expandTriangulation, for the edge `edge` whose fields are `ed`. -/
def Mesher.retireEdge (s : Mesher K) (edge : Nat) (ed : Edge) : Mesher K :=
  { s with
    heap := s.heap.setEdge edge (some { ed with m_type := 0 })
    m_border_edges := s.m_border_edges ++ [edge] }

/-- The statements `e = a->getLinkingEdge(b); if(e->getType() == 1)
m_edge_front.push_front(e);`, with `e` dereferenced unchecked. -/
def Mesher.pushIfFront (s : Mesher K) (a b : Nat) : Option (Mesher K) :=
  match (s.heap.vertices a).getLinkingEdge (s.heap.vertices b) with
  | none => none
  | some e =>
    match s.heap.edges e with
    | none => none
    | some ed => some (if ed.m_type = 1 then { s with m_edge_front := e :: s.m_edge_front } else s)

/-- The expression `new Facet(edge, candidate, center)` followed by
`addFacet(facet)`: the facet is built at the next free facet address. -/
def Mesher.newFacetOnEdge [LinearOrderedField K] (env : Env K) (s : Mesher K)
    (edge candidate : Nat) (center : Point K) : Option (Mesher K) :=
  (Facet.ctorOnEdge (normalizeWith env.sqrt) s.heap s.nextFacet edge candidate center).bind
    fun h1 => Mesher.addFacet { s with heap := h1, nextFacet := s.nextFacet + 1 } s.nextFacet

/-- One turn of the loop of Mesher::expandTriangulation; on an empty front the
loop is over and the state is returned as it is.  `none` is an undefined run
(a null or dangling pointer is dereferenced). -/
def Mesher.expandStep [LinearOrderedField K] (env : Env K) (s : Mesher K) :
    Option (Mesher K) :=
  match s.m_edge_front with
  | [] => some s
  | edge :: rest =>
    match s.heap.edges edge with
    | none => none
    | some ed =>
      if ed.m_type ≠ 1 then some { s with m_edge_front := rest }
      else
        match Mesher.findCandidateVertex env { s with m_edge_front := rest } edge with
        | none => none
        | some none => some (Mesher.retireEdge { s with m_edge_front := rest } edge ed)
        | some (some (candidate, center)) =>
          if (s.heap.vertices candidate).m_type = 2
              ∨ Vertex.isCompatibleWith (normalizeWith env.sqrt) (s.heap.vertices candidate)
                  (s.heap.vertices ed.m_src) (s.heap.vertices ed.m_tgt) = false then
            some (Mesher.retireEdge { s with m_edge_front := rest } edge ed)
          else
            match s.heap.linkTypeIs candidate ed.m_src (fun t => t != 1) with
            | none => none
            | some true => some (Mesher.retireEdge { s with m_edge_front := rest } edge ed)
            | some false =>
              match s.heap.linkTypeIs candidate ed.m_tgt (fun t => t != 1) with
              | none => none
              | some true => some (Mesher.retireEdge { s with m_edge_front := rest } edge ed)
              | some false =>
                (Mesher.newFacetOnEdge env { s with m_edge_front := rest } edge candidate
                  center).bind fun s1 =>
                match s1.heap.edges edge with
                | none => none
                | some ed1 =>
                  (s1.pushIfFront candidate ed1.m_src).bind fun s2 =>
                  match s2.heap.edges edge with
                  | none => none
                  | some ed2 => s2.pushIfFront candidate ed2.m_tgt

/-- Mesher::expandTriangulation: the loop runs while the front is not empty.
The first argument bounds the number of turns; `none` is an undefined run, or a
front that is not empty when the bound is reached. -/
def Mesher.expandTriangulation [LinearOrderedField K] (env : Env K) :
    Nat → Mesher K → Option (Mesher K)
  | 0, s => if s.m_edge_front = [] then some s else none
  | fuel + 1, s =>
    if s.m_edge_front = [] then some s
    else (Mesher.expandStep env s).bind (Mesher.expandTriangulation env fuel)

/-! ## The seed search and Mesher::reconstruct -/

/-- The inner loop of Mesher::trySeed, over the entries `nj` after `ni`: the
first vertex for which tryTriangleSeed returns true, with the center it
wrote. -/
def Mesher.trySeedInner [LinearOrderedField K] (env : Env K) (s : Mesher K) (v vtest : Nat)
    (neighbors : List (K × Nat)) : List (K × Nat) → Option (Option (Nat × Point K))
  | [] => some none
  | nj :: rest =>
    match Mesher.tryTriangleSeed env s v vtest nj.2 neighbors with
    | none => none
    | some (some center) => some (some (nj.2, center))
    | some none => Mesher.trySeedInner env s v vtest neighbors rest

/-- The expression `new Facet(&v, &vtest, candidate, center)` followed by
`addFacet(facet)`. -/
def Mesher.newFacet [LinearOrderedField K] (env : Env K) (s : Mesher K)
    (v0 v1 v2 : Nat) (center : Point K) : Option (Mesher K) :=
  (Facet.ctor (normalizeWith env.sqrt) s.heap s.nextFacet v0 v1 v2 center).bind
    fun h1 => Mesher.addFacet { s with heap := h1, nextFacet := s.nextFacet + 1 } s.nextFacet

/-- The outer loop of Mesher::trySeed, over the entries `ni` of the sorted
neighbor map `neighbors` that are still to be visited; the flag is the return
value. -/
def Mesher.trySeedLoop [LinearOrderedField K] (env : Env K) (v : Nat)
    (neighbors : List (K × Nat)) : List (K × Nat) → Mesher K → Option (Mesher K × Bool)
  | [], s => some (s, false)
  | ni :: rest, s =>
    if (s.heap.vertices ni.2).m_type ≠ 0 ∨ ni.2 = v then
      Mesher.trySeedLoop env v neighbors rest s
    else
      match Mesher.trySeedInner env s v ni.2 neighbors rest with
      | none => none
      | some none => Mesher.trySeedLoop env v neighbors rest s
      | some (some (candidate, center)) =>
        match s.heap.linkTypeIs v candidate (fun t => t != 1) with
        | none => none
        | some true => Mesher.trySeedLoop env v neighbors rest s
        | some false =>
          match s.heap.linkTypeIs ni.2 candidate (fun t => t != 1) with
          | none => none
          | some true => Mesher.trySeedLoop env v neighbors rest s
          | some false =>
            match s.heap.linkTypeIs v ni.2 (fun t => t != 1) with
            | none => none
            | some true => Mesher.trySeedLoop env v neighbors rest s
            | some false =>
              match (Mesher.newFacet env s v ni.2 candidate center).bind fun s1 =>
                (s1.pushIfFront v candidate).bind fun s2 =>
                (s2.pushIfFront ni.2 candidate).bind fun s3 =>
                s3.pushIfFront v ni.2 with
              | none => none
              | some s4 =>
                if s4.m_edge_front.length > 0 then some (s4, true)
                else Mesher.trySeedLoop env v neighbors rest s4

/-- Mesher::trySeed on the vertex `v`: the sorted neighbors within twice the
ball radius are asked from the octree iterator. -/
def Mesher.trySeed [LinearOrderedField K] (env : Env K) (s : Mesher K) (v : Nat) :
    Option (Mesher K × Bool) :=
  if (env.getSortedNeighbors (2 * s.m_ball_radius) v).length < 3 then some (s, false)
  else
    Mesher.trySeedLoop env v (env.getSortedNeighbors (2 * s.m_ball_radius) v)
      (env.getSortedNeighbors (2 * s.m_ball_radius) v) s

/-- Modelled from the spec: a node of the octree of OctreeNode.h, which is not
among the sources.  The spec describes a tree of cubic cells, each with up to
eight children, in which the cells of depth 0 hold the points; `null` is a
missing child. -/
inductive OctreeNode where
  | null : OctreeNode
  | leaf (points : List Nat) : OctreeNode
  | inner (c0 c1 c2 c3 c4 c5 c6 c7 : OctreeNode) : OctreeNode

/-- The loop of Mesher::findSeedTriangle(node, found) over the points of a
node of depth 0, with the flag `found`. -/
def Mesher.seedPoints [LinearOrderedField K] (env : Env K) (fuel : Nat) :
    List Nat → Mesher K × Bool → Option (Mesher K × Bool)
  | [], acc => some acc
  | p :: rest, acc =>
    if (acc.1.heap.vertices p).m_type = 0 then
      match Mesher.trySeed env acc.1 p with
      | none => none
      | some (s1, true) =>
        match Mesher.expandTriangulation env fuel s1 with
        | none => none
        | some s2 => Mesher.seedPoints env fuel rest (s2, true)
      | some (s1, false) => Mesher.seedPoints env fuel rest (s1, acc.2)
    else Mesher.seedPoints env fuel rest acc

/-- Mesher::findSeedTriangle(node, found): the children of a node of non-zero
depth are visited in order, the null ones skipped. -/
def Mesher.findSeedTriangleNode [LinearOrderedField K] (env : Env K) (fuel : Nat) :
    OctreeNode → Mesher K × Bool → Option (Mesher K × Bool)
  | OctreeNode.null, acc => some acc
  | OctreeNode.leaf points, acc => Mesher.seedPoints env fuel points acc
  | OctreeNode.inner c0 c1 c2 c3 c4 c5 c6 c7, acc =>
    (Mesher.findSeedTriangleNode env fuel c0 acc).bind fun a0 =>
    (Mesher.findSeedTriangleNode env fuel c1 a0).bind fun a1 =>
    (Mesher.findSeedTriangleNode env fuel c2 a1).bind fun a2 =>
    (Mesher.findSeedTriangleNode env fuel c3 a2).bind fun a3 =>
    (Mesher.findSeedTriangleNode env fuel c4 a3).bind fun a4 =>
    (Mesher.findSeedTriangleNode env fuel c5 a4).bind fun a5 =>
    (Mesher.findSeedTriangleNode env fuel c6 a5).bind fun a6 =>
    Mesher.findSeedTriangleNode env fuel c7 a6

/-- Mesher::findSeedTriangle(): the search from the root of the octree, which
is dereferenced. -/
def Mesher.findSeedTriangle [LinearOrderedField K] (env : Env K) (fuel : Nat)
    (root : OctreeNode) (s : Mesher K) : Option (Mesher K × Bool) :=
  match root with
  | OctreeNode.null => none
  | node => Mesher.findSeedTriangleNode env fuel node (s, false)

/-- Mesher::reconstruct(): the seed search when the front is empty, the
expansion of the front otherwise. -/
def Mesher.reconstruct [LinearOrderedField K] (env : Env K) (fuel : Nat) (root : OctreeNode)
    (s : Mesher K) : Option (Mesher K) :=
  if s.m_edge_front = [] then (Mesher.findSeedTriangle env fuel root s).map Prod.fst
  else Mesher.expandTriangulation env fuel s

/-- The heap `m1` continues the heap `m`: the facets are the same, no edge
address is handed out twice, no vertex loses an adjacent edge, and an edge that
has a first facet keeps it, with its source and its target. -/
def Mesh.Grows (m m1 : Mesh K) : Prop :=
  m1.facets = m.facets ∧ m.nextEdge ≤ m1.nextEdge ∧
  (∀ v e, e ∈ (m.vertices v).m_adjacentEdges → e ∈ (m1.vertices v).m_adjacentEdges) ∧
  (∀ e ed, e < m.nextEdge → m.edges e = some ed → ed.m_facet1 ≠ none →
    ∃ ed1, m1.edges e = some ed1 ∧ ed1.m_src = ed.m_src ∧ ed1.m_tgt = ed.m_tgt ∧
      ed1.m_facet1 = ed.m_facet1)

/-- The candidate returned by findCandidateVertex for the edge `ed` is turned
down by Mesher::expandTriangulation: there is none, or it is an inner vertex,
or it is not compatible with the edge, or one of its linking edges to the ends
of the edge exists with a type other than 1. -/
def Mesher.Rejects [LinearOrderedField K] (env : Env K) (s : Mesher K) (ed : Edge)
    (r : Option (Nat × Point K)) : Prop :=
  r = none ∨ ∃ candidate center, r = some (candidate, center) ∧
    ((s.heap.vertices candidate).m_type = 2 ∨
      Vertex.isCompatibleWith (normalizeWith env.sqrt) (s.heap.vertices candidate)
        (s.heap.vertices ed.m_src) (s.heap.vertices ed.m_tgt) = false ∨
      (∃ e ed1, (s.heap.vertices candidate).getLinkingEdge (s.heap.vertices ed.m_src) = some e ∧
        s.heap.edges e = some ed1 ∧ ed1.m_type ≠ 1) ∨
      (∃ e ed1, (s.heap.vertices candidate).getLinkingEdge (s.heap.vertices ed.m_tgt) = some e ∧
        s.heap.edges e = some ed1 ∧ ed1.m_type ≠ 1))

/-! ## A sample cloud on a line -/

/-- The samples `(i, 0, 0)`, all with the normal (0, 0, 1), none with an edge
or a facet. -/
def lineHeap : Mesh ℚ :=
  { vertices := fun i =>
      { pos := ⟨(i : ℚ), 0, 0⟩, m_nx := 0, m_ny := 0, m_nz := 1, m_adjacentEdges := [],
        m_adjacentFacets := [], m_index := -1, m_type := 0 }
    edges := fun _ => none
    facets := fun _ => none
    nextEdge := 0 }

/-- A stand-in for the library around the samples on the line: every sorted
neighbor query reports the samples 0, 1, 2, 3. -/
def lineEnv : Env ℚ :=
  { sqrt := ratSqrt
    acos := fun x => Mesher.PI / 2 * (1 - x)
    getNeighbors := fun _ _ => [0, 1, 2, 3]
    getSortedNeighbors := fun _ _ => [(0, 0), (1, 1), (2, 2), (3, 3)]
    containsOnly := fun _ _ _ => true }

/-- A new mesher of ball radius 2 on the samples of the line. -/
def lineMesher : Mesher ℚ :=
  { heap := lineHeap, nextFacet := 0, m_edge_front := [], m_facets := [], m_vertices := [],
    m_border_edges := [], m_node_border_edges := [], m_ball_radius := 2,
    m_sq_ball_radius := 4, m_nvertices := 0, m_nfacets := 0 }

/-! ## The change of radius and the sequential driver -/

/-- Mesher::emptyBallConfiguration: the ball center of the three vertices
exists and the octree iterator, set to the ball radius, finds no other vertex
around it.  The three vertices are handed over as a `std::set`. -/
def Mesher.emptyBallConfiguration [LinearOrderedField K] (env : Env K) (s : Mesher K)
    (v1 v2 v3 : Nat) : Bool :=
  match Mesher.computeBallCenter env s (s.heap.vertices v1) (s.heap.vertices v2)
      (s.heap.vertices v3) with
  | none => false
  | some center =>
    env.containsOnly s.m_ball_radius center
      (setInsert v3 (setInsert v2 (setInsert v1 []).1).1).1

/-- The loop of Mesher::changeRadius over the border list.  The edges still to
be visited are the first argument; the border list of the state holds the
edges visited and kept so far, so that erasing an edge is not appending it. -/
def Mesher.changeRadiusLoop [LinearOrderedField K] (env : Env K) :
    List Nat → Mesher K → Option (Mesher K)
  | [], s => some s
  | e :: rest, s =>
    match s.heap.edges e with
    | none => none
    | some ed =>
      match ed.m_facet1 with
      | none => none
      | some f =>
        match s.heap.facets f with
        | none => none
        | some fc =>
          if Mesher.emptyBallConfiguration env s (fc.vertex 0) (fc.vertex 1) (fc.vertex 2) then
            Mesher.changeRadiusLoop env rest
              { s with
                heap := s.heap.setEdge e (some { ed with m_type := 1 })
                m_edge_front := s.m_edge_front ++ [e] }
          else
            Mesher.changeRadiusLoop env rest
              { s with m_border_edges := s.m_border_edges ++ [e] }

/-- Mesher::changeRadius. -/
def Mesher.changeRadius [LinearOrderedField K] (env : Env K) (s : Mesher K) (radius : K) :
    Option (Mesher K) :=
  Mesher.changeRadiusLoop env s.m_border_edges
    { s.setBallRadius radius with m_border_edges := [] }

/-- Mesher::reconstruct(radii), the sequential driver: for each radius of the
list in turn, changeRadius then reconstruct. -/
def Mesher.reconstructAll [LinearOrderedField K] (env : Env K) (fuel : Nat)
    (root : OctreeNode) : List K → Mesher K → Option (Mesher K)
  | [], s => some s
  | radius :: rest, s =>
    (Mesher.changeRadius env s radius).bind fun s1 =>
    (Mesher.reconstruct env fuel root s1).bind fun s2 =>
    Mesher.reconstructAll env fuel root rest s2

/-! ## The claims on Mesher::changeRadius, Mesher::addFacet and Mesher::merge -/

/-- The test Mesher::changeRadius makes on a border edge, read on a state:
the edge and its first facet are live, and emptyBallConfiguration holds on the
three vertices of that facet. -/
def Mesher.promotes [LinearOrderedField K] (env : Env K) (s : Mesher K) (e : Nat) : Bool :=
  match s.heap.edges e with
  | none => false
  | some ed =>
    match ed.m_facet1 with
    | none => false
    | some f =>
      match s.heap.facets f with
      | none => false
      | some fc =>
        Mesher.emptyBallConfiguration env s (fc.vertex 0) (fc.vertex 1) (fc.vertex 2)

/-- The border edges the loop of changeRadius has to dereference: each is
live and has a live first facet. -/
def Mesher.BorderLive (s : Mesher K) (l : List Nat) : Prop :=
  ∀ e ∈ l, ∃ ed f fc, s.heap.edges e = some ed ∧ ed.m_facet1 = some f ∧
    s.heap.facets f = some fc

/-- Mesher::Mesher(Octree*, OctreeIterator*): the radius is read from the
iterator, the counters are 0 and the four lists are empty.  The object store
and the next facet address are those of the program at that point. -/
def Mesher.ctor [Mul K] (heap : Mesh K) (nextFacet : Nat) (r : K) : Mesher K :=
  { heap := heap
    nextFacet := nextFacet
    m_edge_front := []
    m_facets := []
    m_vertices := []
    m_border_edges := []
    m_node_border_edges := []
    m_ball_radius := r
    m_sq_ball_radius := r * r
    m_nvertices := 0
    m_nfacets := 0 }

/-- A sequence of Mesher::addFacet calls, one for each facet of the list in
turn. -/
def Mesher.addFacets : List Nat → Mesher K → Option (Mesher K)
  | [], s => some s
  | f :: rest, s => (s.addFacet f).bind (Mesher.addFacets rest)

/-- The i-th vertex of the vertex list has index i. -/
def Mesher.VerticesIndexed (s : Mesher K) : Prop :=
  ∀ (i v : Nat), s.m_vertices[i]? = some v → (s.heap.vertices v).m_index = (i : Int)

/-- The vertex list and its counter after calls of Mesher::addVertex only: the
counter is the length of the list, the i-th vertex of the list has index i,
and a vertex outside the list has index -1. -/
def Mesher.Indexed (s : Mesher K) : Prop :=
  s.m_nvertices = s.m_vertices.length ∧ s.VerticesIndexed ∧
  ∀ v, v ∉ s.m_vertices → (s.heap.vertices v).m_index = -1

/-! ## Mesher::merge -/

/-- The conversion of an `int` to `unsigned int`. -/
def toUInt32 (i : Int) : Nat :=
  (i % 2 ^ 32).toNat

/-- The edge is live and its type is `t`. -/
def Mesh.edgeTypeIs (m : Mesh K) (t : Int) (e : Nat) : Bool :=
  match m.edges e with
  | none => false
  | some ed => decide (ed.m_type = t)

/-- The edge is live and its second facet slot is empty. -/
def Mesh.edgeFacet2Null (m : Mesh K) (e : Nat) : Bool :=
  match m.edges e with
  | none => false
  | some ed => decide (ed.m_facet2 = none)

/-- The first loop of Mesher::merge, over the front of the global mesher: an
edge of type 2 or 0 is erased, an edge of type 1 is stepped over.  On any
other type no branch moves the iterator and the loop does not end: `none`, as
for a dangling edge. -/
def Mesher.mergeFront (m : Mesh K) : List Nat → Option (List Nat)
  | [] => some []
  | e :: rest =>
    match m.edges e with
    | none => none
    | some ed =>
      if ed.m_type = 2 then Mesher.mergeFront m rest
      else if ed.m_type = 1 then (Mesher.mergeFront m rest).map (fun l => e :: l)
      else if ed.m_type = 0 then Mesher.mergeFront m rest
      else none

/-- The statements `unsigned int index = v->index(); v->setIndex(index +
m_nvertices);` of Mesher::merge, with `n` the counter of the global mesher. -/
def Mesher.mergeVertex (n : Nat) (m : Mesh K) (v : Nat) : Mesh K :=
  m.setVertex v
    { m.vertices v with
      m_index := toInt32 ((toUInt32 (m.vertices v).m_index + n) % 2 ^ 32) }

/-- The renumbering loop of Mesher::merge over the vertex list of the local
mesher; the counter of the global mesher is not touched inside the loop. -/
def Mesher.mergeVertices (n : Nat) (vs : List Nat) (m : Mesh K) : Mesh K :=
  vs.foldl (Mesher.mergeVertex n) m

/-- The last loop of Mesher::merge, over the border list of the local mesher:
the edges whose second facet is null, in their order.  Each edge is
dereferenced. -/
def Mesher.mergeBorder (m : Mesh K) : List Nat → Option (List Nat)
  | [] => some []
  | e :: rest =>
    match m.edges e with
    | none => none
    | some ed =>
      if ed.m_facet2 ≠ none then Mesher.mergeBorder m rest
      else (Mesher.mergeBorder m rest).map (fun l => e :: l)

/-- Mesher::merge(mesher), called on the global mesher `g` with the local
mesher `l`.  The two share one object store, which is read from and written to
`g.heap`; the result is the pair of the global and the local mesher after the
call.  The facet list of `l` is spliced away, its node-border and border lists
are cleared, its vertex list and its counters are left as they are; the
counters of `g` are the `size()` of its lists, as `unsigned int`. -/
def Mesher.merge (g l : Mesher K) : Option (Mesher K × Mesher K) :=
  (Mesher.mergeFront g.heap g.m_edge_front).bind fun front =>
  (Mesher.mergeBorder g.heap l.m_border_edges).map fun border =>
  let heap := Mesher.mergeVertices g.m_nvertices l.m_vertices g.heap
  ({ g with
      heap := heap
      m_facets := g.m_facets ++ l.m_facets
      m_edge_front := front ++ l.m_node_border_edges
      m_vertices := g.m_vertices ++ l.m_vertices
      m_border_edges := g.m_border_edges ++ border
      m_nfacets := (g.m_facets ++ l.m_facets).length % 2 ^ 32
      m_nvertices := (g.m_vertices ++ l.m_vertices).length % 2 ^ 32 },
    { l with
      heap := heap
      m_facets := []
      m_node_border_edges := []
      m_border_edges := [] })

/-- The front edges the first loop of Mesher::merge can get through: each is
live and of type 0, 1 or 2. -/
def Mesher.FrontTyped (m : Mesh K) (front : List Nat) : Prop :=
  ∀ e ∈ front, ∃ ed, m.edges e = some ed ∧ (ed.m_type = 0 ∨ ed.m_type = 1 ∨ ed.m_type = 2)

/-- Every edge of the list is live. -/
def Mesher.EdgesLive (m : Mesh K) (l : List Nat) : Prop :=
  ∀ e ∈ l, ∃ ed, m.edges e = some ed

/-- A store for the merge samples.  The vertex `v` has index `v % 3`: the
vertices 0, 1, 2 are those of a global mesher, 3, 4, 5 and 6, 7, 8 those of two
local ones, each numbered from 0.  The edges 0 and 3 are front edges, 1, 4 and 6
are inner edges, 2, 5 and 7 border edges. -/
def mergeHeap : Mesh Int :=
  { vertices := fun v => { sampleVertex 0 0 with m_index := ((v % 3 : Nat) : Int) }
    edges := fun e =>
      match e with
      | 0 => some ⟨0, 1, some 0, none, 1⟩
      | 1 => some ⟨1, 2, some 0, some 3, 2⟩
      | 2 => some ⟨2, 0, some 0, none, 0⟩
      | 3 => some ⟨3, 4, some 1, none, 1⟩
      | 4 => some ⟨4, 5, some 1, some 3, 2⟩
      | 5 => some ⟨5, 3, some 1, none, 0⟩
      | 6 => some ⟨6, 7, some 2, some 3, 2⟩
      | 7 => some ⟨7, 8, some 2, none, 0⟩
      | _ => none
    facets := fun _ => none
    nextEdge := 8 }

/-- The global mesher of the merge samples: the facet 0 on the vertices 0, 1,
2, the three edges of the facet on the front and the edge 2 on the border
list. -/
def mergeGlobal : Mesher Int :=
  { heap := mergeHeap
    nextFacet := 4
    m_edge_front := [0, 1, 2]
    m_facets := [0]
    m_vertices := [0, 1, 2]
    m_border_edges := [2]
    m_node_border_edges := []
    m_ball_radius := 1
    m_sq_ball_radius := 1
    m_nvertices := 3
    m_nfacets := 1 }

/-- The first local mesher of the merge samples: the facet 1 on the vertices
3, 4, 5, the edge 3 on the node-border list, the edges 4 and 5 on the border
list. -/
def mergeLocal1 : Mesher Int :=
  { mergeGlobal with
    m_edge_front := []
    m_facets := [1]
    m_vertices := [3, 4, 5]
    m_border_edges := [4, 5]
    m_node_border_edges := [3] }

/-- The second local mesher of the merge samples: the facet 2 on the vertices
6, 7, 8, the edge 6, inner by now, on the node-border list and the edge 7 on
the border list. -/
def mergeLocal2 : Mesher Int :=
  { mergeGlobal with
    m_edge_front := []
    m_facets := [2]
    m_vertices := [6, 7, 8]
    m_border_edges := [7]
    m_node_border_edges := [6] }

/-! ## Vertex::findBorder and Mesher::fillHoles -/

/-- The loop of Vertex::findBorder over the adjacent edges of `self` still to
be visited; `facet` is the first facet of the linking edge of `self` and
`test`.  The result is the vertex returned, `some none` for NULL, and `none`
for an undefined run: a dangling adjacent edge, a null or dangling `facet`
when `hasVertex` is called on it, a dangling linking edge. -/
def Vertex.findBorderLoop (m : Mesh K) (self test : Nat) (facet : Option Nat) :
    List Nat → Option (Option Nat)
  | [] => some none
  | ei :: rest =>
    match m.edges ei with
    | none => none
    | some ed =>
      if ed.m_type ≠ 0 then Vertex.findBorderLoop m self test facet rest
      else if ed.m_src = self then Vertex.findBorderLoop m self test facet rest
      else
        match facet.bind m.facets with
        | none => none
        | some fc =>
          if fc.hasVertex ed.m_src = true then Vertex.findBorderLoop m self test facet rest
          else
            match (m.vertices ed.m_src).getLinkingEdge (m.vertices test) with
            | none => Vertex.findBorderLoop m self test facet rest
            | some e =>
              match m.edges e with
              | none => none
              | some ed1 =>
                if ed1.m_type ≠ 0 ∨ ed1.m_src ≠ test then
                  Vertex.findBorderLoop m self test facet rest
                else some (some ed.m_src)

/-- Vertex::findBorder, called on the vertex `self` with the argument `test`:
the linking edge of the two is dereferenced unchecked for its first facet. -/
def Vertex.findBorder (m : Mesh K) (self test : Nat) : Option (Option Nat) :=
  match (m.vertices self).getLinkingEdge (m.vertices test) with
  | none => none
  | some e0 =>
    match m.edges e0 with
    | none => none
    | some ed0 =>
      Vertex.findBorderLoop m self test ed0.m_facet1 (m.vertices self).m_adjacentEdges

/-- The expression `new Facet(src, tgt, v)` followed by `addFacet(f)`: the
facet is built at the next free facet address, without a ball center. -/
def Mesher.newFacetNoCenter [LinearOrderedField K] (env : Env K) (s : Mesher K)
    (v0 v1 v2 : Nat) : Option (Mesher K) :=
  (Facet.ctorNoCenter (normalizeWith env.sqrt) s.heap s.nextFacet v0 v1 v2).bind
    fun h1 => Mesher.addFacet { s with heap := h1, nextFacet := s.nextFacet + 1 } s.nextFacet

/-- The loop of Mesher::fillHoles.  The edges still to be visited are the
first argument; the border list of the state holds the edges visited and kept
so far.  An edge whose type is not 0 is erased; an edge for which findBorder
returns NULL is kept; otherwise the facet on the source, the target and the
vertex found is built and added, and the edge is erased. -/
def Mesher.fillHolesLoop [LinearOrderedField K] (env : Env K) :
    List Nat → Mesher K → Option (Mesher K)
  | [], s => some s
  | ei :: rest, s =>
    match s.heap.edges ei with
    | none => none
    | some ed =>
      if ed.m_type ≠ 0 then Mesher.fillHolesLoop env rest s
      else
        match Vertex.findBorder s.heap ed.m_src ed.m_tgt with
        | none => none
        | some none =>
          Mesher.fillHolesLoop env rest { s with m_border_edges := s.m_border_edges ++ [ei] }
        | some (some v) =>
          match Mesher.newFacetNoCenter env s ed.m_src ed.m_tgt v with
          | none => none
          | some s1 => Mesher.fillHolesLoop env rest s1

/-- Mesher::fillHoles. -/
def Mesher.fillHoles [LinearOrderedField K] (env : Env K) (s : Mesher K) :
    Option (Mesher K) :=
  Mesher.fillHolesLoop env s.m_border_edges { s with m_border_edges := [] }

/-- The test of the loop of Vertex::findBorder on the adjacent edge `ei`, with
`fc` the facet of the linking edge of `self` and `test`: `ei` is a border edge
whose source is not `self` and not on `fc`, and the linking edge of that source
and `test` is a border edge whose source is `test`. -/
def Mesh.BorderGood (m : Mesh K) (self test : Nat) (fc : Facet K) (ei : Nat) : Prop :=
  ∃ ed e ed1, m.edges ei = some ed ∧ ed.m_type = 0 ∧ ed.m_src ≠ self ∧
    fc.hasVertex ed.m_src = false ∧
    (m.vertices ed.m_src).getLinkingEdge (m.vertices test) = some e ∧
    m.edges e = some ed1 ∧ ed1.m_type = 0 ∧ ed1.m_src = test

/-- The allocators are ahead of the live objects: no edge is live at or
beyond `nextEdge`, no facet at or beyond the next facet address. -/
def Mesher.Fresh (s : Mesher K) : Prop :=
  (∀ e, s.heap.nextEdge ≤ e → s.heap.edges e = none) ∧
  (∀ f, s.nextFacet ≤ f → s.heap.facets f = none)

/-- A border edge as Mesher::fillHoles expects it: live, with a live first
facet that holds its target, registered with both its ends, which differ. -/
def Mesh.BorderEdge (m : Mesh K) (e : Nat) : Prop :=
  ∃ ed f fc, m.edges e = some ed ∧ ed.m_facet1 = some f ∧ m.facets f = some fc ∧
    fc.hasVertex ed.m_tgt = true ∧ ed.m_src ≠ ed.m_tgt ∧
    e ∈ (m.vertices ed.m_src).m_adjacentEdges ∧ e ∈ (m.vertices ed.m_tgt).m_adjacentEdges

/-- A store with a triangular hole: the border edges 0 (0→1), 1 (1→2) and
2 (2→0) run around the hole, each holding one facet, on the far side of the
hole: the facets 0 on (0,1,3), 1 on (1,2,4) and 2 on (2,0,5).  The other edges
of those facets are left out. -/
def holeHeap : Mesh ℚ :=
  { vertices := fun i =>
      match i with
      | 0 => rectVertex 0 0 [0, 2] [0, 2] 0 1
      | 1 => rectVertex 4 0 [0, 1] [0, 1] 1 1
      | 2 => rectVertex 2 3 [1, 2] [1, 2] 2 1
      | 3 => rectVertex 2 (-3) [] [0] 3 1
      | 4 => rectVertex 6 3 [] [1] 4 1
      | _ => rectVertex (-2) 3 [] [2] 5 1
    edges := fun i =>
      match i with
      | 0 => some ⟨0, 1, some 0, none, 0⟩
      | 1 => some ⟨1, 2, some 1, none, 0⟩
      | 2 => some ⟨2, 0, some 2, none, 0⟩
      | _ => none
    facets := fun i =>
      match i with
      | 0 => some ⟨0, 1, 3, ⟨0, 0, 0⟩⟩
      | 1 => some ⟨1, 2, 4, ⟨0, 0, 0⟩⟩
      | 2 => some ⟨2, 0, 5, ⟨0, 0, 0⟩⟩
      | _ => none
    nextEdge := 3 }

/-- The mesher on the store with the triangular hole: the three edges around
the hole are its border list. -/
def holeMesher : Mesher ℚ :=
  { heap := holeHeap
    nextFacet := 3
    m_edge_front := []
    m_facets := [0, 1, 2]
    m_vertices := [0, 1, 2, 3, 4, 5]
    m_border_edges := [0, 1, 2]
    m_node_border_edges := []
    m_ball_radius := 3
    m_sq_ball_radius := 9
    m_nvertices := 6
    m_nfacets := 3 }

/-- No edge is live at or beyond the next edge address. -/
def Mesh.EdgesFresh (m : Mesh K) : Prop :=
  ∀ e, m.nextEdge ≤ e → m.edges e = none

/-- What the facets built in between do to the heap, from one moment of
Mesher::fillHoles to a later one: a live facet stays as it is; the edge
allocator moves forward; the adjacent-edge sets gain new addresses only; a live
edge stays live; and an edge of type 0 at the later moment was the same edge
before. -/
def Mesh.FillStep (m m1 : Mesh K) : Prop :=
  (∀ f fc, m.facets f = some fc → m1.facets f = some fc) ∧
  m.nextEdge ≤ m1.nextEdge ∧
  (∀ u e, e ∈ (m.vertices u).m_adjacentEdges → e ∈ (m1.vertices u).m_adjacentEdges) ∧
  (∀ u e, e ∈ (m1.vertices u).m_adjacentEdges →
    e ∈ (m.vertices u).m_adjacentEdges ∨ m.nextEdge ≤ e) ∧
  (∀ e ed, m.edges e = some ed → ∃ ed1, m1.edges e = some ed1) ∧
  (∀ e ed1, m1.edges e = some ed1 → ed1.m_type = 0 → m.edges e = some ed1)

/-- The heap invariants of a mesher that Mesher::fillHoles relies on: adjacent
edges are live, two vertices share at most one edge, and the allocators are
ahead of the live objects. -/
def Mesher.Sound (s : Mesher K) : Prop :=
  s.heap.AdjacencyLive ∧ s.heap.UniqueEdges ∧ s.Fresh

/-- An entry of the border list: a live edge which, if it still has type 0, is
a border edge as fillHoles expects it. -/
def Mesh.BorderListed (m : Mesh K) (e : Nat) : Prop :=
  ∃ ed, m.edges e = some ed ∧ (ed.m_type = 0 → m.BorderEdge e)

/-- An entry of the border list that a run of fillHoles leaves alone: a live
edge which, if it still has type 0, is a border edge for which findBorder
returns NULL. -/
def Mesh.Stable (m : Mesh K) (e : Nat) : Prop :=
  ∃ ed, m.edges e = some ed ∧
    (ed.m_type = 0 → m.BorderEdge e ∧ Vertex.findBorder m ed.m_src ed.m_tgt = some none)

/-- The edge `ed` is a front edge of the facet `f` between the vertices `a`
and `b`: type 1, the facet in the first slot, the second slot empty, and the
two vertices as its ends, in one orientation or the other. -/
def Edge.FrontOf (ed : Edge) (f a b : Nat) : Prop :=
  ed.m_type = 1 ∧ ed.m_facet1 = some f ∧ ed.m_facet2 = none ∧
    ((ed.m_src = a ∧ ed.m_tgt = b) ∨ (ed.m_src = b ∧ ed.m_tgt = a))

/-- What a successful Mesher::trySeed does to the state `s`, giving `s1`, when
it builds the facet on `v`, `va`, `vb` with the ball center `center`: one facet
is written, at the next facet address, listed and counted; the three vertices
have type 1; the edges at the next three edge addresses are the linking edges
of the pairs (v,va), (va,vb), (v,vb), each a front edge of the facet, and they
are the three new entries at the head of the front; no other edge changes and
the border list is as before. -/
def Mesher.SeedFacet (s : Mesher K) (v va vb : Nat) (center : Point K) (s1 : Mesher K) :
    Prop :=
  s1.heap.facets = (s.heap.setFacet s.nextFacet (some ⟨v, va, vb, center⟩)).facets ∧
  s1.m_facets = s.m_facets ++ [s.nextFacet] ∧
  s1.m_nfacets = (s.m_nfacets + 1) % 2 ^ 32 ∧ s1.nextFacet = s.nextFacet + 1 ∧
  s1.m_border_edges = s.m_border_edges ∧
  (s1.heap.vertices v).m_type = 1 ∧ (s1.heap.vertices va).m_type = 1 ∧
  (s1.heap.vertices vb).m_type = 1 ∧
  s1.m_edge_front
    = s.heap.nextEdge :: (s.heap.nextEdge + 1) :: (s.heap.nextEdge + 2) :: s.m_edge_front ∧
  (s1.heap.vertices v).getLinkingEdge (s1.heap.vertices va) = some s.heap.nextEdge ∧
  (s1.heap.vertices va).getLinkingEdge (s1.heap.vertices vb) = some (s.heap.nextEdge + 1) ∧
  (s1.heap.vertices v).getLinkingEdge (s1.heap.vertices vb) = some (s.heap.nextEdge + 2) ∧
  (∃ ed0 ed1 ed2, s1.heap.edges s.heap.nextEdge = some ed0 ∧
    s1.heap.edges (s.heap.nextEdge + 1) = some ed1 ∧
    s1.heap.edges (s.heap.nextEdge + 2) = some ed2 ∧
    ed0.FrontOf s.nextFacet v va ∧ ed1.FrontOf s.nextFacet va vb ∧
    ed2.FrontOf s.nextFacet vb v) ∧
  ∀ x, x ≠ s.heap.nextEdge → x ≠ s.heap.nextEdge + 1 → x ≠ s.heap.nextEdge + 2 →
    s1.heap.edges x = s.heap.edges x

/-- The five samples of the rectangle scene before any facet: every vertex is
an orphan, with index -1, and there is no edge and no facet. -/
def cloudHeap : Mesh ℚ :=
  { vertices := fun i =>
      match i with
      | 0 => rectVertex 0 0 [] [] (-1) 0
      | 1 => rectVertex 153 0 [] [] (-1) 0
      | 2 => rectVertex 153 104 [] [] (-1) 0
      | 3 => rectVertex 0 104 [] [] (-1) 0
      | _ => rectVertex 0 (-104) [] [] (-1) 0
    edges := fun _ => none
    facets := fun _ => none
    nextEdge := 0 }

/-- The library around the cloud: the sorted neighbors of a vertex are reported
as those of the corner 0, by increasing squared distance: 0 itself, then the
corners 3, 1 and 2. -/
def cloudEnv : Env ℚ :=
  { rectEnv with
    getSortedNeighbors := fun _ _ => [(0, 0), (10816, 3), (23409, 1), (34225, 2)] }

/-- A new mesher on the cloud, with ball radius 697/2. -/
def cloudMesher : Mesher ℚ :=
  Mesher.ctor cloudHeap 0 (697 / 2)

/-! ## The contract of Vertex::findBorder -/

/-- The condition under which Vertex::findBorder, called on `self` with the
argument `test`, can return the vertex `v`, with `fc` the first facet of the
linking edge of `self` and `test`: some border edge adjacent to `self` has the
source `v`, which is not `self` and not a vertex of `fc`, and the linking edge
of `v` and `test` is a border edge whose source is `test`. -/
def Mesh.BorderVia (m : Mesh K) (self test : Nat) (fc : Facet K) (v : Nat) : Prop :=
  ∃ ei ∈ (m.vertices self).m_adjacentEdges, ∃ ed e ed1, m.edges ei = some ed ∧
    ed.m_type = 0 ∧ ed.m_src = v ∧ v ≠ self ∧ fc.hasVertex v = false ∧
    (m.vertices v).getLinkingEdge (m.vertices test) = some e ∧
    m.edges e = some ed1 ∧ ed1.m_type = 0 ∧ ed1.m_src = test

/-! ## Mesher::parallelReconstruct: the processing depth -/

/-- The statements of Mesher::parallelReconstruct that choose the processing
depth, for an octree of depth `octreeDepth` and size `size` and the largest
radius `radius`.  `floorLog2` stands for `floor(log2(.))` of `<cmath>`, with an
integer value; the conversion of the `double` to `unsigned int` and the
subtraction `getDepth() - 3` are taken modulo 2^32. -/
def Mesher.processingDepth [Field K] (floorLog2 : K → Int) (octreeDepth : Nat)
    (size radius : K) : Nat :=
  let d := 21 / 10 * radius
  let depth := toUInt32 ((octreeDepth : Int) - floorLog2 (size / (3 / 2 * d)))
  if depth < (octreeDepth + (2 ^ 32 - 3)) % 2 ^ 32 then (octreeDepth + (2 ^ 32 - 3)) % 2 ^ 32
  else if depth > octreeDepth then octreeDepth
  else depth

/-- The library around the cloud when the octree iterator finds nothing: the
neighbor list around a point is empty and `containsOnly` answers false; the
sorted neighbors of a vertex are those of the cloud. -/
def sparseEnv : Env ℚ :=
  { cloudEnv with getNeighbors := fun _ _ => [], containsOnly := fun _ _ _ => false }

/-! ## The edges under a turn of the expansion -/

/-- The type of an edge matches its facet count: type 0 or 1 with exactly one
facet, in the first slot, or type 2 with both slots occupied. -/
def Edge.Counted (ed : Edge) : Prop :=
  ((ed.m_type = 0 ∨ ed.m_type = 1) ∧ ed.m_facet1 ≠ none ∧ ed.m_facet2 = none) ∨
  (ed.m_type = 2 ∧ ed.m_facet1 ≠ none ∧ ed.m_facet2 ≠ none)

/-- Every live edge of the heap has a type that matches its facet count. -/
def Mesh.Counted (m : Mesh K) : Prop :=
  ∀ e ed, m.edges e = some ed → ed.Counted

/-- Every entry of the border list is a live edge of type 0 or 2. -/
def Mesher.BorderTyped (s : Mesher K) : Prop :=
  ∀ e ∈ s.m_border_edges, ∃ ed, s.heap.edges e = some ed ∧ (ed.m_type = 0 ∨ ed.m_type = 2)

/-- What the construction of the facet `self` can do to an edge `ed` that has
a first facet, giving `ed1`: nothing, or, when the edge does not hold the facet
and its second slot is empty, the facet goes to the second slot and the type
becomes 2. -/
def Edge.Attached (self : Nat) (ed ed1 : Edge) : Prop :=
  ed1 = ed ∨ (ed.m_facet1 ≠ none ∧ ed.m_facet1 ≠ some self ∧ ed.m_facet2 = none ∧
    ed1 = { ed with m_facet2 := some self, m_type := 2 })

/-- An edge created by the construction of the facet `self`, as it is in the
heap `m1`: of type 1, with the facet in its first slot and the second slot
empty, between two distinct vertices that satisfy `V` and both list it. -/
def Mesh.NewOn (V : Nat → Prop) (self : Nat) (m1 : Mesh K) (e : Nat) (ed1 : Edge) : Prop :=
  ed1.m_type = 1 ∧ ed1.m_facet1 = some self ∧ ed1.m_facet2 = none ∧ ed1.m_src ≠ ed1.m_tgt ∧
  V ed1.m_src ∧ V ed1.m_tgt ∧ e ∈ (m1.vertices ed1.m_src).m_adjacentEdges ∧
  e ∈ (m1.vertices ed1.m_tgt).m_adjacentEdges

/-- What the statements of a facet constructor do to the edges, from the heap
`m` to the heap `m1`, while the facet `self` is built between vertices that
satisfy `V`: the edge allocator moves forward, no vertex loses an adjacent edge,
a live edge stays live and is left alone or takes the facet in its second slot,
and an edge that was not live is a new one, at an address handed out in
between. -/
def Mesh.PivotStep (V : Nat → Prop) (self : Nat) (m m1 : Mesh K) : Prop :=
  m.nextEdge ≤ m1.nextEdge ∧
  (∀ u e, e ∈ (m.vertices u).m_adjacentEdges → e ∈ (m1.vertices u).m_adjacentEdges) ∧
  (∀ e ed, m.edges e = some ed → ∃ ed1, m1.edges e = some ed1 ∧ Edge.Attached self ed ed1) ∧
  (∀ e ed1, m1.edges e = some ed1 → m.edges e = none →
    m.nextEdge ≤ e ∧ e < m1.nextEdge ∧ m1.NewOn V self e ed1)

/-- Every live edge has a first facet. -/
def Mesh.Facetted (m : Mesh K) : Prop :=
  ∀ e ed, m.edges e = some ed → ed.m_facet1 ≠ none

/-! ## The measure of Mesher::expandTriangulation -/

/-- The number of inner edges: the live edges of type 2 among the addresses
handed out so far. -/
def Mesh.innerCount (m : Mesh K) : Nat :=
  ((Finset.range m.nextEdge).filter (fun e => m.edgeTypeIs 2 e = true)).card

/-- Every live edge of the heap is well formed for a cloud of `N` points: its
type matches its facet count, its ends are two different points of the cloud,
both list it as an adjacent edge, and its first facet is live. -/
def Mesh.EdgeSound (N : Nat) (m : Mesh K) : Prop :=
  ∀ e ed, m.edges e = some ed →
    ed.Counted ∧ ed.m_src ≠ ed.m_tgt ∧ ed.m_src < N ∧ ed.m_tgt < N ∧
    e ∈ (m.vertices ed.m_src).m_adjacentEdges ∧ e ∈ (m.vertices ed.m_tgt).m_adjacentEdges ∧
    ∀ f, ed.m_facet1 = some f → ∃ fc, m.facets f = some fc

/-- The state of a mesher over a cloud of `N` points between two turns of
Mesher::expandTriangulation: the heap is sound, every live edge is well formed
and every entry of the front is a live edge. -/
def Mesher.PivotInv (N : Nat) (s : Mesher K) : Prop :=
  s.Sound ∧ s.heap.EdgeSound N ∧ ∀ e ∈ s.m_edge_front, ∃ ed, s.heap.edges e = some ed

/-- The bound on the number of turns left to Mesher::expandTriangulation over a
cloud of `N` points: the length of the front plus twice the number of vertex
pairs without an inner edge. -/
def Mesher.pivotBound (N : Nat) (s : Mesher K) : Nat :=
  s.m_edge_front.length + 2 * (N.choose 2 - s.heap.innerCount)

/-- The sample rectangle with its five samples only: every other address is a
sample without edges. -/
def pivotHeap : Mesh ℚ :=
  { rectHeap with
    vertices := fun i =>
      match i with
      | 0 => rectVertex 0 0 [0, 2] [0] 0 1
      | 1 => rectVertex 153 0 [1, 2] [0] 2 1
      | 2 => rectVertex 153 104 [] [] (-1) 0
      | 3 => rectVertex 0 104 [] [] (-1) 0
      | 4 => rectVertex 0 (-104) [0, 1] [0] 1 1
      | _ => rectVertex 0 0 [] [] (-1) 0 }

/-- The mesher of the sample rectangle on that heap. -/
def pivotMesher : Mesher ℚ := { rectMesher with heap := pivotHeap }

/-! ## The expansion of the front around a node -/

/-- The statements `edge->setType(1); m_node_border_edges.push_back(edge);` of
Mesher::expandTriangulationAroundNode, for the edge `edge` whose fields are
`ed`. -/
def Mesher.setAside (s : Mesher K) (edge : Nat) (ed : Edge) : Mesher K :=
  { s with
    heap := s.heap.setEdge edge (some { ed with m_type := 1 })
    m_node_border_edges := s.m_node_border_edges ++ [edge] }

/-- One turn of the loop of Mesher::expandTriangulationAroundNode; on an empty
front the loop is over and the state is returned as it is.  `inside v` is the
value of `containment_node->isInside(*v, d)` for the node and the margin of
the call.  `none` is an undefined run (a null or dangling pointer is
dereferenced). -/
def Mesher.expandStepAroundNode [LinearOrderedField K] (env : Env K) (inside : Nat → Bool)
    (s : Mesher K) : Option (Mesher K) :=
  match s.m_edge_front with
  | [] => some s
  | edge :: rest =>
    match s.heap.edges edge with
    | none => none
    | some ed =>
      if ed.m_type ≠ 1 then some { s with m_edge_front := rest }
      else
        match Mesher.findCandidateVertex env { s with m_edge_front := rest } edge with
        | none => none
        | some none => some (Mesher.retireEdge { s with m_edge_front := rest } edge ed)
        | some (some (candidate, center)) =>
          if (s.heap.vertices candidate).m_type = 2
              ∨ Vertex.isCompatibleWith (normalizeWith env.sqrt) (s.heap.vertices candidate)
                  (s.heap.vertices ed.m_src) (s.heap.vertices ed.m_tgt) = false then
            some (Mesher.retireEdge { s with m_edge_front := rest } edge ed)
          else
            match s.heap.linkTypeIs candidate ed.m_src (fun t => t != 1) with
            | none => none
            | some true => some (Mesher.retireEdge { s with m_edge_front := rest } edge ed)
            | some false =>
              match s.heap.linkTypeIs candidate ed.m_tgt (fun t => t != 1) with
              | none => none
              | some true => some (Mesher.retireEdge { s with m_edge_front := rest } edge ed)
              | some false =>
                if inside candidate = false then
                  some (Mesher.setAside { s with m_edge_front := rest } edge ed)
                else
                  (Mesher.newFacetOnEdge env { s with m_edge_front := rest } edge candidate
                    center).bind fun s1 =>
                  match s1.heap.edges edge with
                  | none => none
                  | some ed1 =>
                    (s1.pushIfFront candidate ed1.m_src).bind fun s2 =>
                    match s2.heap.edges edge with
                    | none => none
                    | some ed2 => s2.pushIfFront candidate ed2.m_tgt

/-- Mesher::expandTriangulationAroundNode: the loop runs while the front is not
empty.  The first number bounds the number of turns; `none` is an undefined
run, or a front that is not empty when the bound is reached. -/
def Mesher.expandTriangulationAroundNode [LinearOrderedField K] (env : Env K)
    (inside : Nat → Bool) : Nat → Mesher K → Option (Mesher K)
  | 0, s => if s.m_edge_front = [] then some s else none
  | fuel + 1, s =>
    if s.m_edge_front = [] then some s
    else (Mesher.expandStepAroundNode env inside s).bind
      (Mesher.expandTriangulationAroundNode env inside fuel)

/-! ## The parallel driver: Mesher::parallelReconstruct -/

/-- The queries Mesher::parallelReconstruct makes to the octree library, which
is not among the sources; they are taken as given.  `inside node d v` is
`node->isInside(v, d)`; `getNodes depth i` is the content of
`node_collection[i]` after `m_octree->getNodes(depth, root, node_collection)`;
`depth` and `size` are `m_octree->getDepth()` and `m_octree->getSize()`;
`floorLog2 x` is `floor(log2(x))`; `iterR` is the radius of a new
`OctreeIterator`. -/
structure Cells (K : Type) where
  inside : OctreeNode → K → Nat → Bool
  getNodes : Nat → Nat → List OctreeNode
  depth : Nat
  size : K
  floorLog2 : K → Int
  iterR : K

/-- The outer loop of Mesher::trySeed(v, containment_node, d), over the
entries `ni` of the sorted neighbor map `neighbors` that are still to be
visited; the flag is the return value.  `inside w` is
`containment_node->isInside(w, d)`. -/
def Mesher.trySeedLoopAroundNode [LinearOrderedField K] (env : Env K) (inside : Nat → Bool)
    (v : Nat) (neighbors : List (K × Nat)) :
    List (K × Nat) → Mesher K → Option (Mesher K × Bool)
  | [], s => some (s, decide (s.m_edge_front.length > 0))
  | ni :: rest, s =>
    if (s.heap.vertices ni.2).m_type ≠ 0 ∨ ni.2 = v ∨ inside ni.2 = false then
      Mesher.trySeedLoopAroundNode env inside v neighbors rest s
    else
      match Mesher.trySeedInner env s v ni.2 neighbors rest with
      | none => none
      | some none =>
        match (s.heap.vertices v).getLinkingEdge (s.heap.vertices ni.2) with
        | none => Mesher.trySeedLoopAroundNode env inside v neighbors rest s
        | some e =>
          match s.heap.edges e with
          | none => none
          | some ed =>
            if ed.m_type = 1 then
              Mesher.trySeedLoopAroundNode env inside v neighbors rest
                { s with m_edge_front := e :: s.m_edge_front }
            else Mesher.trySeedLoopAroundNode env inside v neighbors rest s
      | some (some (candidate, center)) =>
        if inside candidate = false then
          Mesher.trySeedLoopAroundNode env inside v neighbors rest s
        else
          match s.heap.linkTypeIs v candidate (fun t => t != 1) with
          | none => none
          | some true => Mesher.trySeedLoopAroundNode env inside v neighbors rest s
          | some false =>
            match s.heap.linkTypeIs ni.2 candidate (fun t => t != 1) with
            | none => none
            | some true => Mesher.trySeedLoopAroundNode env inside v neighbors rest s
            | some false =>
              match s.heap.linkTypeIs v ni.2 (fun t => t != 1) with
              | none => none
              | some true => Mesher.trySeedLoopAroundNode env inside v neighbors rest s
              | some false =>
                match (Mesher.newFacet env s v ni.2 candidate center).bind fun s1 =>
                  (s1.pushIfFront v candidate).bind fun s2 =>
                  (s2.pushIfFront ni.2 candidate).bind fun s3 =>
                  s3.pushIfFront v ni.2 with
                | none => none
                | some s4 =>
                  if s4.m_edge_front.length > 0 then some (s4, true)
                  else Mesher.trySeedLoopAroundNode env inside v neighbors rest s4

/-- Mesher::trySeed(v, containment_node, d): the sorted neighbors within twice
the ball radius are asked from the octree iterator. -/
def Mesher.trySeedAroundNode [LinearOrderedField K] (env : Env K) (inside : Nat → Bool)
    (s : Mesher K) (v : Nat) : Option (Mesher K × Bool) :=
  if (env.getSortedNeighbors (2 * s.m_ball_radius) v).length < 3 then some (s, false)
  else
    Mesher.trySeedLoopAroundNode env inside v (env.getSortedNeighbors (2 * s.m_ball_radius) v)
      (env.getSortedNeighbors (2 * s.m_ball_radius) v) s

/-- The loop `for(ei = edges.begin(); ...) if((*ei)->getType() == 1)
m_edge_front.push_front(*ei);` of Mesher::findSeedTriangle(containment_node,
node, d, found) over the adjacent edges of a point; each edge is
dereferenced. -/
def Mesher.pushFrontEdges (m : Mesh K) : List Nat → List Nat → Option (List Nat)
  | [], front => some front
  | e :: rest, front =>
    match m.edges e with
    | none => none
    | some ed =>
      if ed.m_type = 1 then Mesher.pushFrontEdges m rest (e :: front)
      else Mesher.pushFrontEdges m rest front

/-- The loop of Mesher::findSeedTriangle(containment_node, node, d, found) over
the points of a node of depth 0.  A point of type 1 has its adjacent edges of
type 1 pushed on the front, which is then expanded around the node; on a point
of type 0 for which trySeed returns true the front is expanded and the same
point is visited again.  The first number bounds the turns of each expansion,
the second the turns of this loop.  The flag `found` is written and never
read on this path, and is left out. -/
def Mesher.seedPointsAroundNode [LinearOrderedField K] (env : Env K) (inside : Nat → Bool)
    (fuel : Nat) : Nat → List Nat → Mesher K → Option (Mesher K)
  | _, [], s => some s
  | 0, _ :: _, _ => none
  | n + 1, p :: rest, s =>
    if (s.heap.vertices p).m_type = 1 then
      (Mesher.pushFrontEdges s.heap (s.heap.vertices p).m_adjacentEdges s.m_edge_front).bind
        fun front =>
      (Mesher.expandTriangulationAroundNode env inside fuel
        { s with m_edge_front := front }).bind fun s1 =>
      Mesher.seedPointsAroundNode env inside fuel n rest s1
    else if (s.heap.vertices p).m_type = 0 then
      match Mesher.trySeedAroundNode env inside s p with
      | none => none
      | some (s1, true) =>
        (Mesher.expandTriangulationAroundNode env inside fuel s1).bind fun s2 =>
        Mesher.seedPointsAroundNode env inside fuel n (p :: rest) s2
      | some (s1, false) => Mesher.seedPointsAroundNode env inside fuel n rest s1
    else Mesher.seedPointsAroundNode env inside fuel n rest s

/-- Mesher::findSeedTriangle(containment_node, node, d, found): the children
of a node of non-zero depth are visited in order, the null ones skipped. -/
def Mesher.findSeedTriangleAroundNode [LinearOrderedField K] (env : Env K)
    (inside : Nat → Bool) (fuel : Nat) : OctreeNode → Mesher K → Option (Mesher K)
  | OctreeNode.null, s => some s
  | OctreeNode.leaf points, s => Mesher.seedPointsAroundNode env inside fuel fuel points s
  | OctreeNode.inner c0 c1 c2 c3 c4 c5 c6 c7, s =>
    (Mesher.findSeedTriangleAroundNode env inside fuel c0 s).bind fun a0 =>
    (Mesher.findSeedTriangleAroundNode env inside fuel c1 a0).bind fun a1 =>
    (Mesher.findSeedTriangleAroundNode env inside fuel c2 a1).bind fun a2 =>
    (Mesher.findSeedTriangleAroundNode env inside fuel c3 a2).bind fun a3 =>
    (Mesher.findSeedTriangleAroundNode env inside fuel c4 a3).bind fun a4 =>
    (Mesher.findSeedTriangleAroundNode env inside fuel c5 a4).bind fun a5 =>
    (Mesher.findSeedTriangleAroundNode env inside fuel c6 a5).bind fun a6 =>
    Mesher.findSeedTriangleAroundNode env inside fuel c7 a6

/-- Mesher::reconstructAroundNode(containment_node, d): the front is expanded
around the node if it is not empty, then seeds are searched in the node, which
is dereferenced. -/
def Mesher.reconstructAroundNode [LinearOrderedField K] (env : Env K) (inside : Nat → Bool)
    (fuel : Nat) (node : OctreeNode) (s : Mesher K) : Option (Mesher K) :=
  (if s.m_edge_front = [] then some s
    else Mesher.expandTriangulationAroundNode env inside fuel s).bind fun s1 =>
  match node with
  | OctreeNode.null => none
  | node => Mesher.findSeedTriangleAroundNode env inside fuel node s1

/-- The loop of Mesher::collectBorderEdges(node, border_edges) over the
adjacent edges of a point: the edges of type 0 are inserted in the set; each
edge is dereferenced. -/
def Mesher.collectEdges (m : Mesh K) : List Nat → List Nat → Option (List Nat)
  | [], set => some set
  | e :: rest, set =>
    match m.edges e with
    | none => none
    | some ed =>
      if ed.m_type = 0 then Mesher.collectEdges m rest (setInsert e set).1
      else Mesher.collectEdges m rest set

/-- The loop of Mesher::collectBorderEdges(node, border_edges) over the points
of a node of depth 0: the points whose type is not 1 are skipped. -/
def Mesher.collectPoints (m : Mesh K) : List Nat → List Nat → Option (List Nat)
  | [], set => some set
  | p :: rest, set =>
    if (m.vertices p).m_type ≠ 1 then Mesher.collectPoints m rest set
    else (Mesher.collectEdges m (m.vertices p).m_adjacentEdges set).bind
      (Mesher.collectPoints m rest)

/-- Mesher::collectBorderEdges(node, border_edges): the children of a node of
non-zero depth are visited in order, the null ones skipped. -/
def Mesher.collectBorderEdgesNode (m : Mesh K) : OctreeNode → List Nat → Option (List Nat)
  | OctreeNode.null, set => some set
  | OctreeNode.leaf points, set => Mesher.collectPoints m points set
  | OctreeNode.inner c0 c1 c2 c3 c4 c5 c6 c7, set =>
    (Mesher.collectBorderEdgesNode m c0 set).bind fun a0 =>
    (Mesher.collectBorderEdgesNode m c1 a0).bind fun a1 =>
    (Mesher.collectBorderEdgesNode m c2 a1).bind fun a2 =>
    (Mesher.collectBorderEdgesNode m c3 a2).bind fun a3 =>
    (Mesher.collectBorderEdgesNode m c4 a3).bind fun a4 =>
    (Mesher.collectBorderEdgesNode m c5 a4).bind fun a5 =>
    (Mesher.collectBorderEdgesNode m c6 a5).bind fun a6 =>
    Mesher.collectBorderEdgesNode m c7 a6

/-- Mesher::collectBorderEdges(node): the set of the border edges around the
points of the node, in increasing address order, is appended to the border
list; the node is dereferenced. -/
def Mesher.collectBorderEdges (s : Mesher K) (node : OctreeNode) : Option (Mesher K) :=
  match node with
  | OctreeNode.null => none
  | node =>
    (Mesher.collectBorderEdgesNode s.heap node []).map fun set =>
      { s with m_border_edges := s.m_border_edges ++ set }

/-- The body of the loop of Mesher::parallelReconstruct over the nodes, for
the global mesher `g`: a new mesher on the shared object store collects the
border edges of the node (after the first radius), changes its radius, runs
reconstructAroundNode (for the first radius) or expandTriangulationAroundNode
(after it), and is merged into the global mesher.  After the merge its facet
list is empty, so that its destructor frees nothing. -/
def Mesher.nodeTask [LinearOrderedField K] (env : Env K) (cells : Cells K) (fuel : Nat)
    (init : Nat) (radius d : K) (node : OctreeNode) (g : Mesher K) : Option (Mesher K) :=
  (if init > 0 then (Mesher.ctor g.heap g.nextFacet cells.iterR).collectBorderEdges node
    else some (Mesher.ctor g.heap g.nextFacet cells.iterR)).bind fun l1 =>
  (Mesher.changeRadius env l1 radius).bind fun l2 =>
  (if init = 0 then Mesher.reconstructAroundNode env (cells.inside node d) fuel node l2
    else Mesher.expandTriangulationAroundNode env (cells.inside node d) fuel l2).bind fun l3 =>
  (Mesher.merge { g with heap := l3.heap, nextFacet := l3.nextFacet } l3).map Prod.fst

/-- The loop over the nodes `node_collection[i]` of one group, run in index
order (the loop carries an OpenMP pragma unless USE_CLANG is defined; the
merge is in a critical section). -/
def Mesher.nodeTasks [LinearOrderedField K] (env : Env K) (cells : Cells K) (fuel : Nat)
    (init : Nat) (radius d : K) : List OctreeNode → Mesher K → Option (Mesher K)
  | [], g => some g
  | node :: rest, g =>
    (Mesher.nodeTask env cells fuel init radius d node g).bind
      (Mesher.nodeTasks env cells fuel init radius d rest)

/-- The loop `for(i = 0; i < 8; ++i)` of Mesher::parallelReconstruct over the
groups of nodes still to be visited, for one radius. -/
def Mesher.nodeGroups [LinearOrderedField K] (env : Env K) (cells : Cells K) (fuel : Nat)
    (depth init : Nat) (radius d : K) : List Nat → Mesher K → Option (Mesher K)
  | [], g => some g
  | i :: rest, g =>
    (Mesher.nodeTasks env cells fuel init radius d (cells.getNodes depth i) g).bind
      (Mesher.nodeGroups env cells fuel depth init radius d rest)

/-- The loop of Mesher::parallelReconstruct over the radii still to be used,
with the counter `init`. -/
def Mesher.radiusWaves [LinearOrderedField K] (env : Env K) (cells : Cells K) (fuel : Nat)
    (depth : Nat) (d : K) : Nat → List K → Mesher K → Option (Mesher K)
  | _, [], g => some g
  | init, radius :: rest, g =>
    (Mesher.nodeGroups env cells fuel depth init radius d (List.range 8) g).bind
      (Mesher.radiusWaves env cells fuel depth d (init + 1) rest)

/-- Mesher::parallelReconstruct(radii): the processing depth and the margin
`d` come from the last radius (`radii.back()`, undefined on an empty list);
after the loop over the radii the front is expanded once more, with the last
radius, if the list has more than one radius. -/
def Mesher.parallelReconstruct [LinearOrderedField K] (env : Env K) (cells : Cells K)
    (fuel : Nat) (radii : List K) (g : Mesher K) : Option (Mesher K) :=
  match radii.getLast? with
  | none => none
  | some back =>
    (Mesher.radiusWaves env cells fuel
      (Mesher.processingDepth cells.floorLog2 cells.depth cells.size back)
      (21 / 10 * back) 0 radii g).bind fun g1 =>
    if radii.length > 1 then Mesher.expandTriangulation env fuel (g1.setBallRadius back)
    else some g1

/-- The octree queries of the sample scenes: the nodes of the first group are
`nodes`, the other groups are empty, and a point is inside the dilated cell of
a node unless it is in `outside`. -/
def sampleCells (nodes : List OctreeNode) (outside : List Nat) : Cells ℚ :=
  { inside := fun _ _ v => !(outside.contains v)
    getNodes := fun _ i => if i = 0 then nodes else []
    depth := 7
    size := 1024
    floorLog2 := fun x => Int.log 2 x
    iterR := 697 / 2 }

/-- A new mesher on the object store of the sample rectangle, which holds the
facet 0: the state of a mesher made by `Mesher(octree, iterator)` on an octree
whose points are meshed in part, as every local mesher of the parallel driver
is. -/
def restartMesher : Mesher ℚ := Mesher.ctor rectHeap 1 (697 / 2)

/-- The local mesher made from `restartMesher` by the parallel driver, after
its changeRadius(697/2). -/
def restartLocal : Mesher ℚ :=
  { restartMesher.setBallRadius (697 / 2) with m_border_edges := [] }

/-- The octree queries of the sample run: one node, which holds the corner 1,
and the corner 3 outside its dilated cell. -/
def restartCells : Cells ℚ := sampleCells [OctreeNode.leaf [1]] [3]

/-! ## A seed search from a front vertex -/

/-- The mesher of the sample rectangle once its front edge 2 has been retired
to the border as well, as Mesher::expandTriangulation does with a front edge
that finds no candidate: the front is empty, the three edges of facet 0 are
border edges, and the corners 0, 1 and 4 of that facet keep type 1. -/
def borderMesher : Mesher ℚ :=
  Mesher.retireEdge { pivotMesher with m_edge_front := [] } 2 ⟨1, 0, some 0, none, 1⟩

end MesherDefs

/-! ## Edges: facet slots, type and orientation -/

section EdgeTheorems

variable {K : Type}

theorem Facet.vertex_mem (fc : Facet K) (i : Nat) :
    fc.vertex i ∈ [fc.vertex 0, fc.vertex 1, fc.vertex 2] := by
  have h3 : i % 3 = 0 ∨ i % 3 = 1 ∨ i % 3 = 2 := by omega
  rcases h3 with h | h | h <;> simp [Facet.vertex, h]

/-- An edge whose first facet has a vertex off the edge has an opposite
vertex, found off the edge among the facet's vertices. -/
theorem Edge.getOppositeVertex_of_third (m : Mesh K) (e : Edge) (f : Nat) (fc : Facet K)
    (hf1 : e.m_facet1 = some f) (hfc : m.facets f = some fc)
    (h3 : ∃ i, fc.vertex i ≠ e.m_src ∧ fc.vertex i ≠ e.m_tgt) :
    ∃ o, e.getOppositeVertex m = some (some o) ∧ o ≠ e.m_src ∧ o ≠ e.m_tgt := by
  obtain ⟨i, hi1, hi2⟩ := h3
  have hsome : ([fc.vertex 0, fc.vertex 1, fc.vertex 2].find?
      (fun opp => opp != e.m_src && opp != e.m_tgt)).isSome = true := by
    rw [List.find?_isSome]
    exact ⟨fc.vertex i, Facet.vertex_mem fc i, by simp [hi1, hi2]⟩
  obtain ⟨o, ho⟩ := Option.isSome_iff_exists.mp hsome
  refine ⟨o, ?_, ?_⟩
  · simp [Edge.getOppositeVertex, hf1, hfc, ho]
  · have := List.find?_some ho
    simpa using this

variable [LinearOrderedCommRing K]

/-- What updateOrientation returns once the opposite vertex is known. -/
theorem Edge.updateOrientation_eq (normalize : K × K × K → K × K × K) (m : Mesh K)
    (e : Edge) (o : Nat) (ho : e.getOppositeVertex m = some (some o)) :
    e.updateOrientation normalize m = some e ∨
      e.updateOrientation normalize m = some { e with m_src := e.m_tgt, m_tgt := e.m_src } := by
  unfold Edge.updateOrientation
  rw [ho]
  dsimp only
  split
  · exact Or.inr rfl
  · exact Or.inl rfl

/-- The sign tested by updateOrientation is the sign of the dot product without
the normalisations. -/
theorem Edge.updateOrientation_sign (normalize : K × K × K → K × K × K)
    (hn : PositiveScaling normalize) (m : Mesh K) (e : Edge) (o : Nat)
    (ho : e.getOppositeVertex m = some (some o)) :
    e.updateOrientation normalize m =
      if orientationDot (m.vertices e.m_src) (m.vertices e.m_tgt) (m.vertices o) < 0 then
        some { e with m_src := e.m_tgt, m_tgt := e.m_src }
      else some e := by
  unfold Edge.updateOrientation
  rw [ho]
  dsimp only
  obtain ⟨k1, hk1, e1⟩ := hn (cross_product
    ((m.vertices e.m_tgt).pos.x - (m.vertices e.m_src).pos.x)
    ((m.vertices e.m_tgt).pos.y - (m.vertices e.m_src).pos.y)
    ((m.vertices e.m_tgt).pos.z - (m.vertices e.m_src).pos.z)
    ((m.vertices o).pos.x - (m.vertices e.m_src).pos.x)
    ((m.vertices o).pos.y - (m.vertices e.m_src).pos.y)
    ((m.vertices o).pos.z - (m.vertices e.m_src).pos.z))
  obtain ⟨k2, hk2, e2⟩ := hn ((m.vertices e.m_src).m_nx + (m.vertices e.m_tgt).m_nx
      + (m.vertices o).m_nx,
    (m.vertices e.m_src).m_ny + (m.vertices e.m_tgt).m_ny + (m.vertices o).m_ny,
    (m.vertices e.m_src).m_nz + (m.vertices e.m_tgt).m_nz + (m.vertices o).m_nz)
  rw [e1, e2]
  have hk : 0 < k1 * k2 := mul_pos hk1 hk2
  have key : ∀ a b c x y z : K,
      k1 * a * (k2 * x) + k1 * b * (k2 * y) + k1 * c * (k2 * z)
        = k1 * k2 * (a * x + b * y + c * z) := by
    intro a b c x y z
    ring
  simp only [key]
  have hiff : ∀ d : K, k1 * k2 * d < 0 ↔ d < 0 := by
    intro d
    constructor
    · intro h
      by_contra hd
      have : 0 ≤ k1 * k2 * d := mul_nonneg hk.le (not_lt.mp hd)
      exact absurd h (not_lt.mpr this)
    · intro h
      exact mul_neg_of_pos_of_neg hk h
  simp only [orientationDot, hiff]

/-- Swapping the ends of the edge negates the tested dot product. -/
theorem orientationDot_swap (s t o : Vertex K) :
    orientationDot t s o = - orientationDot s t o := by
  simp only [orientationDot, cross_product]
  ring

/-- The identity is a positive scaling (factor 1). -/
theorem positiveScaling_id : PositiveScaling (id : K × K × K → K × K × K) := by
  intro v
  exact ⟨1, one_pos, by simp⟩

/-- C1: Edge::addAdjacentFacet, for a facet `f` held in neither slot.  When
`facet1` is empty (and the facet has a vertex off the edge, which is the
documented prerequisite that the facet contains the edge) the call stores `f`
in `facet1`, sets the type to Front (1) and returns true; otherwise, when
`facet2` is empty, it stores `f` in `facet2`, sets the type to Inner (2) and
returns true. -/
theorem Edge.addAdjacentFacet_fills_empty_slot (normalize : K × K × K → K × K × K)
    (m : Mesh K) (e : Edge) (f : Nat)
    (h1 : e.m_facet1 ≠ some f) (h2 : e.m_facet2 ≠ some f) :
    (e.m_facet1 = none →
      (∃ fc, m.facets f = some fc ∧ ∃ i, fc.vertex i ≠ e.m_src ∧ fc.vertex i ≠ e.m_tgt) →
      ∃ e1, e.addAdjacentFacet normalize m f = some (e1, true) ∧
        e1.m_facet1 = some f ∧ e1.m_facet2 = e.m_facet2 ∧ e1.m_type = 1) ∧
    (e.m_facet1 ≠ none → e.m_facet2 = none →
      ∃ e1, e.addAdjacentFacet normalize m f = some (e1, true) ∧
        e1.m_facet2 = some f ∧ e1.m_facet1 = e.m_facet1 ∧ e1.m_type = 2 ∧
        e1.m_src = e.m_src ∧ e1.m_tgt = e.m_tgt) := by
  constructor
  · rintro hnone ⟨fc, hfc, h3⟩
    obtain ⟨o, ho, -, -⟩ := Edge.getOppositeVertex_of_third m
      { e with m_facet1 := some f } f fc rfl hfc h3
    have hadd : e.addAdjacentFacet normalize m f =
        (Edge.updateOrientation normalize m { e with m_facet1 := some f }).map
          (fun e1 => ({ e1 with m_type := 1 }, true)) := by
      unfold Edge.addAdjacentFacet
      rw [if_neg (by simp [h1, h2]), if_pos hnone]
    rcases Edge.updateOrientation_eq normalize m _ o ho with h | h <;>
      (rw [hadd, h]; exact ⟨_, rfl, rfl, rfl, rfl⟩)
  · intro hsome hnone
    refine ⟨{ e with m_facet2 := some f, m_type := 2 }, ?_, rfl, rfl, rfl, rfl, rfl⟩
    unfold Edge.addAdjacentFacet
    rw [if_neg (by simp [h1, h2]), if_neg hsome, if_pos hnone]

/-- C1, at the fresh edge 0→1 taking facet 0 of the sample heap, then facet 1. -/
theorem Edge.addAdjacentFacet_fills_empty_slot_witness :
    (∃ e1, (Edge.init 0 1).addAdjacentFacet id sampleFacets 0 = some (e1, true) ∧
      e1.m_facet1 = some 0 ∧ e1.m_facet2 = (Edge.init 0 1).m_facet2 ∧ e1.m_type = 1) ∧
    (∃ e1, (Edge.mk 0 1 (some 0) none 1).addAdjacentFacet id sampleFacets 1 = some (e1, true) ∧
      e1.m_facet2 = some 1 ∧ e1.m_facet1 = some 0 ∧ e1.m_type = 2 ∧
      e1.m_src = 0 ∧ e1.m_tgt = 1) :=
  ⟨(Edge.addAdjacentFacet_fills_empty_slot id sampleFacets (Edge.init 0 1) 0
      (by decide) (by decide)).1 rfl ⟨⟨0, 1, 2, ⟨0, 0, 0⟩⟩, rfl, 2, by decide, by decide⟩,
    (Edge.addAdjacentFacet_fills_empty_slot id sampleFacets (Edge.mk 0 1 (some 0) none 1) 1
      (by decide) (by decide)).2 (by decide) rfl⟩

/-- C3, evaluated: from the fresh edge 0→1, attach facets 0 and 1 and remove
facet 0.  The edge then has `facet1` empty and type 1, yet isInnerEdge answers
true; attaching facet 0 again fills both slots and leaves the type at 1. -/
theorem Edge.inner_iff_two_facets_fails :
    (∃ e, Edge.run id (Edge.init 0 1)
        [(sampleFacets, EdgeOp.add 0), (sampleFacets, EdgeOp.add 1),
          (sampleFacets, EdgeOp.remove 0)] = some e ∧
      e.m_facet1 = none ∧ e.m_facet2 = some 1 ∧ e.m_type = 1 ∧ e.isInnerEdge = true) ∧
    (∃ e, Edge.run id (Edge.init 0 1)
        [(sampleFacets, EdgeOp.add 0), (sampleFacets, EdgeOp.add 1),
          (sampleFacets, EdgeOp.remove 0), (sampleFacets, EdgeOp.add 0)] = some e ∧
      e.m_facet1 = some 0 ∧ e.m_facet2 = some 1 ∧ e.m_type = 1 ∧ e.m_type ≠ 2) :=
  ⟨⟨Edge.mk 0 1 none (some 1) 1, by decide, rfl, rfl, rfl, rfl⟩,
    ⟨Edge.mk 0 1 (some 0) (some 1) 1, by decide, rfl, rfl, rfl, by decide⟩⟩

/-- C4: Edge::updateOrientation on an edge whose first facet has the opposite
vertex `o`.  The call returns; afterwards the dot product of
`cross(t - s, o - s)` with `n(s) + n(t) + n(o)` is non-negative; the ends were
swapped exactly when that dot product was negative before; and the two ends are
the same pair of vertices, facing the same opposite vertex. -/
theorem Edge.updateOrientation_orients (normalize : K × K × K → K × K × K)
    (hn : PositiveScaling normalize) (m : Mesh K) (e : Edge) (o : Nat)
    (ho : e.getOppositeVertex m = some (some o)) :
    ∃ e1, e.updateOrientation normalize m = some e1 ∧
      0 ≤ orientationDot (m.vertices e1.m_src) (m.vertices e1.m_tgt) (m.vertices o) ∧
      (orientationDot (m.vertices e.m_src) (m.vertices e.m_tgt) (m.vertices o) < 0 →
        e1 = { e with m_src := e.m_tgt, m_tgt := e.m_src }) ∧
      (¬ orientationDot (m.vertices e.m_src) (m.vertices e.m_tgt) (m.vertices o) < 0 →
        e1 = e) ∧
      ((e1.m_src = e.m_src ∧ e1.m_tgt = e.m_tgt) ∨
        (e1.m_src = e.m_tgt ∧ e1.m_tgt = e.m_src)) ∧
      e1.getOppositeVertex m = some (some o) := by
  rw [Edge.updateOrientation_sign normalize hn m e o ho]
  by_cases hneg : orientationDot (m.vertices e.m_src) (m.vertices e.m_tgt) (m.vertices o) < 0
  · refine ⟨{ e with m_src := e.m_tgt, m_tgt := e.m_src }, if_pos hneg, ?_, fun _ => rfl,
      fun h => absurd hneg h, Or.inr ⟨rfl, rfl⟩, ?_⟩
    · show 0 ≤ orientationDot (m.vertices e.m_tgt) (m.vertices e.m_src) (m.vertices o)
      rw [orientationDot_swap]
      exact (neg_pos.mpr hneg).le
    · rw [← ho]
      simp only [Edge.getOppositeVertex, Bool.and_comm]
  · exact ⟨e, if_neg hneg, not_lt.mp hneg, fun h => absurd h hneg, fun _ => rfl,
      Or.inl ⟨rfl, rfl⟩, ho⟩

/-- C4, at the edge 0→1 of the sample heap holding facet 1, whose opposite
vertex 3 lies on the right of 0→1: the ends are swapped. -/
theorem Edge.updateOrientation_orients_witness :
    ∃ e1, (Edge.mk 0 1 (some 1) none 1).updateOrientation id sampleFacets = some e1 ∧
      0 ≤ orientationDot (sampleFacets.vertices e1.m_src) (sampleFacets.vertices e1.m_tgt)
        (sampleFacets.vertices 3) ∧
      e1 = Edge.mk 1 0 (some 1) none 1 :=
  match Edge.updateOrientation_orients id positiveScaling_id sampleFacets
      (Edge.mk 0 1 (some 1) none 1) 3 rfl with
  | ⟨e1, h1, h2, h3, _, _, _⟩ => ⟨e1, h1, h2, h3 (by decide)⟩

/-- One call that is not the removal of the facet in `facet1` keeps that
facet in `facet1` and keeps both ends. -/
theorem Edge.applyOp_keeps_facet1 (normalize : K × K × K → K × K × K) (m : Mesh K)
    (e : Edge) (f1 : Nat) (op : EdgeOp) (hf1 : e.m_facet1 = some f1)
    (hop : op ≠ EdgeOp.remove f1) :
    ∃ e1, e.applyOp normalize m op = some e1 ∧ e1.m_src = e.m_src ∧ e1.m_tgt = e.m_tgt ∧
      e1.m_facet1 = some f1 := by
  cases op with
  | add f =>
    have hne : e.m_facet1 ≠ none := by simp [hf1]
    simp only [Edge.applyOp, Edge.addAdjacentFacet, if_neg hne]
    split_ifs <;> exact ⟨_, rfl, rfl, rfl, hf1⟩
  | remove f =>
    have hff : f ≠ f1 := fun h => hop (by rw [h])
    have hne : e.m_facet1 ≠ some f := by
      rw [hf1]
      simpa using fun h => hff h.symm
    simp only [Edge.applyOp, Edge.removeAdjacentFacet, if_neg hne]
    split_ifs <;> exact ⟨_, rfl, rfl, rfl, hf1⟩

/-- C5, refuted as stated: the fresh edge 0→1 is oriented 0→1 by its first
facet (facet 0, on its left); after that facet is removed from `facet1` and
facet 1 (on the right) is attached, source and target are exchanged. -/
theorem Edge.orientation_reevaluated_on_refill :
    Edge.run id (Edge.init 0 1) [(sampleFacets, EdgeOp.add 0)]
      = some (Edge.mk 0 1 (some 0) none 1) ∧
    Edge.run id (Edge.mk 0 1 (some 0) none 1)
      [(sampleFacets, EdgeOp.remove 0), (sampleFacets, EdgeOp.add 1)]
      = some (Edge.mk 1 0 (some 1) none 1) := by
  decide

/-- C5, amended: once an edge holds a facet `f1` in `facet1`, every sequence
of addAdjacentFacet / removeAdjacentFacet calls that does not remove `f1` runs
to its end, keeps `f1` in `facet1` and keeps source and target as they are. -/
theorem Edge.run_keeps_orientation (normalize : K × K × K → K × K × K) (f1 : Nat)
    (ops : List (Mesh K × EdgeOp)) (e : Edge) (hf1 : e.m_facet1 = some f1)
    (hops : ∀ p ∈ ops, p.2 ≠ EdgeOp.remove f1) :
    ∃ e1, Edge.run normalize e ops = some e1 ∧ e1.m_src = e.m_src ∧ e1.m_tgt = e.m_tgt ∧
      e1.m_facet1 = some f1 := by
  induction ops generalizing e with
  | nil => exact ⟨e, rfl, rfl, rfl, hf1⟩
  | cons p rest ih =>
    obtain ⟨m, op⟩ := p
    obtain ⟨e1, h1, hs, ht, hf⟩ := Edge.applyOp_keeps_facet1 normalize m e f1 op hf1
      (hops (m, op) (List.mem_cons_self _ _))
    obtain ⟨e2, h2, hs2, ht2, hf2⟩ := ih e1 hf
      (fun p hp => hops p (List.mem_cons_of_mem _ hp))
    refine ⟨e2, ?_, hs2.trans hs, ht2.trans ht, hf2⟩
    simp only [Edge.run, h1]
    exact h2

/-- C5 amended, at the edge 0→1 holding facet 0: attaching facet 1, removing
it and attaching it again leaves the edge oriented 0→1. -/
theorem Edge.run_keeps_orientation_witness :
    ∃ e1, Edge.run id (Edge.mk 0 1 (some 0) none 1)
        [(sampleFacets, EdgeOp.add 1), (sampleFacets, EdgeOp.remove 1),
          (sampleFacets, EdgeOp.add 1)] = some e1 ∧
      e1.m_src = 0 ∧ e1.m_tgt = 1 ∧ e1.m_facet1 = some 0 :=
  Edge.run_keeps_orientation id 0
    [(sampleFacets, EdgeOp.add 1), (sampleFacets, EdgeOp.remove 1),
      (sampleFacets, EdgeOp.add 1)]
    (Edge.mk 0 1 (some 0) none 1) rfl (by decide)

end EdgeTheorems

/-! ## Vertices: classification -/

section VertexTheorems

variable {K : Type}

/-- The loop of updateType over live edges: it ends with 2 when every edge has
type 2 and with 1 when some edge has another type. -/
theorem Vertex.updateTypeLoop_spec (m : Mesh K) (l : List Nat)
    (hlive : ∀ e ∈ l, ∃ ed, m.edges e = some ed) :
    (Vertex.updateTypeLoop m l = some 2 ∧
        ∀ e ∈ l, ∀ ed, m.edges e = some ed → ed.m_type = 2) ∨
      (Vertex.updateTypeLoop m l = some 1 ∧
        ∃ e ∈ l, ∃ ed, m.edges e = some ed ∧ ed.m_type ≠ 2) := by
  induction l with
  | nil => exact Or.inl ⟨rfl, fun e he => absurd he (List.not_mem_nil e)⟩
  | cons a rest ih =>
    obtain ⟨ad, had⟩ := hlive a (List.mem_cons_self _ _)
    by_cases h2 : ad.m_type = 2
    · have hstep : Vertex.updateTypeLoop m (a :: rest) = Vertex.updateTypeLoop m rest := by
        simp [Vertex.updateTypeLoop, had, h2]
      rw [hstep]
      rcases ih (fun e he => hlive e (List.mem_cons_of_mem _ he)) with ⟨hr, hall⟩ | ⟨hr, hex⟩
      · refine Or.inl ⟨hr, ?_⟩
        intro e he ed hed
        rcases List.mem_cons.mp he with rfl | hmem
        · rw [had] at hed
          cases hed
          exact h2
        · exact hall e hmem ed hed
      · obtain ⟨e, he, ed, hed, hne⟩ := hex
        exact Or.inr ⟨hr, e, List.mem_cons_of_mem _ he, ed, hed, hne⟩
    · refine Or.inr ⟨?_, a, List.mem_cons_self _ _, ad, had, h2⟩
      simp [Vertex.updateTypeLoop, had, h2]

/-- The result of updateType on a vertex whose adjacent edges are live: the
other fields are kept, and the type is 0 on an empty set, 2 when every
adjacent edge has type 2, and 1 when some adjacent edge has another type. -/
theorem Vertex.updateType_spec (m : Mesh K) (v : Vertex K)
    (hlive : ∀ e ∈ v.m_adjacentEdges, ∃ ed, m.edges e = some ed) :
    ∃ t, v.updateType m = some { v with m_type := t } ∧
      ((t = 0 ∧ v.m_adjacentEdges = []) ∨
        (t = 2 ∧ v.m_adjacentEdges ≠ [] ∧
          ∀ e ∈ v.m_adjacentEdges, ∀ ed, m.edges e = some ed → ed.m_type = 2) ∨
        (t = 1 ∧ ∃ e ∈ v.m_adjacentEdges, ∃ ed, m.edges e = some ed ∧ ed.m_type ≠ 2)) := by
  by_cases hemp : v.m_adjacentEdges = []
  · refine ⟨0, ?_, Or.inl ⟨rfl, hemp⟩⟩
    simp [Vertex.updateType, hemp]
  · have hne : v.m_adjacentEdges.isEmpty = false := by
      cases h : v.m_adjacentEdges with
      | nil => exact absurd h hemp
      | cons a l => rfl
    rcases Vertex.updateTypeLoop_spec m v.m_adjacentEdges hlive with ⟨hr, hall⟩ | ⟨hr, hex⟩
    · refine ⟨2, ?_, Or.inr (Or.inl ⟨rfl, hemp, hall⟩)⟩
      simp [Vertex.updateType, hne, hr]
    · refine ⟨1, ?_, Or.inr (Or.inr ⟨rfl, hex⟩)⟩
      simp [Vertex.updateType, hne, hr]

/-- C6: Vertex::updateType on a vertex whose adjacent edges are live and
typed 0, 1 or 2.  The call returns, changing only the type, which is
Orphan (0) iff the adjacent-edge set is empty, Inner (2) iff the set is
non-empty and every adjacent edge is Inner (2), and Front (1) iff some adjacent
edge is Front (1) or Border (0). -/
theorem Vertex.updateType_classifies (m : Mesh K) (v : Vertex K)
    (htyped : ∀ e ∈ v.m_adjacentEdges, ∃ ed, m.edges e = some ed ∧
      (ed.m_type = 0 ∨ ed.m_type = 1 ∨ ed.m_type = 2)) :
    ∃ v1, v.updateType m = some v1 ∧ v1 = { v with m_type := v1.m_type } ∧
      (v1.m_type = 0 ↔ v.m_adjacentEdges = []) ∧
      (v1.m_type = 2 ↔ v.m_adjacentEdges ≠ [] ∧
        ∀ e ∈ v.m_adjacentEdges, ∀ ed, m.edges e = some ed → ed.m_type = 2) ∧
      (v1.m_type = 1 ↔
        ∃ e ∈ v.m_adjacentEdges, ∃ ed, m.edges e = some ed ∧
          (ed.m_type = 1 ∨ ed.m_type = 0)) := by
  have hlive : ∀ e ∈ v.m_adjacentEdges, ∃ ed, m.edges e = some ed := by
    intro e he
    obtain ⟨ed, hed, -⟩ := htyped e he
    exact ⟨ed, hed⟩
  have hfront : ∀ e ∈ v.m_adjacentEdges, ∀ ed, m.edges e = some ed →
      (ed.m_type ≠ 2 ↔ (ed.m_type = 1 ∨ ed.m_type = 0)) := by
    intro e he ed hed
    obtain ⟨ed1, hed1, ht⟩ := htyped e he
    rw [hed] at hed1
    cases hed1
    constructor
    · intro hne
      rcases ht with h | h | h
      · exact Or.inr h
      · exact Or.inl h
      · exact absurd h hne
    · rintro (h | h) <;> rw [h] <;> decide
  obtain ⟨t, hres, hcase⟩ := Vertex.updateType_spec m v hlive
  refine ⟨_, hres, rfl, ?_⟩
  show (t = 0 ↔ _) ∧ (t = 2 ↔ _) ∧ (t = 1 ↔ _)
  rcases hcase with ⟨ht, hemp⟩ | ⟨ht, hne, hall⟩ | ⟨ht, e, he, ed, hed, hty⟩
  · subst ht
    refine ⟨⟨fun _ => hemp, fun _ => rfl⟩, ⟨fun h => absurd h (by decide),
      fun h => absurd hemp h.1⟩, ⟨fun h => absurd h (by decide), ?_⟩⟩
    rintro ⟨e, he, -⟩
    rw [hemp] at he
    exact absurd he (List.not_mem_nil e)
  · subst ht
    refine ⟨⟨fun h => absurd h (by decide), fun h => absurd h hne⟩,
      ⟨fun _ => ⟨hne, hall⟩, fun _ => rfl⟩, ⟨fun h => absurd h (by decide), ?_⟩⟩
    rintro ⟨e, he, ed, hed, hty⟩
    exact absurd (hall e he ed hed) ((hfront e he ed hed).mpr hty)
  · subst ht
    refine ⟨⟨fun h => absurd h (by decide), ?_⟩, ⟨fun h => absurd h (by decide), ?_⟩,
      ⟨fun _ => ⟨e, he, ed, hed, (hfront e he ed hed).mp hty⟩, fun _ => rfl⟩⟩
    · intro hemp
      rw [hemp] at he
      exact absurd he (List.not_mem_nil e)
    · rintro ⟨-, hall⟩
      exact absurd (hall e he ed hed) hty

/-- The adjacent edges of the hand-meshed vertex are live and typed 0, 1
or 2. -/
theorem fanVertex_typed : ∀ e ∈ fanVertex.m_adjacentEdges, ∃ ed, fanMesh.edges e = some ed ∧
    (ed.m_type = 0 ∨ ed.m_type = 1 ∨ ed.m_type = 2) := by
  intro e he
  have h3 : e = 0 ∨ e = 2 ∨ e = 3 := by simpa [fanVertex] using he
  rcases h3 with rfl | rfl | rfl
  · exact ⟨_, rfl, Or.inr (Or.inr rfl)⟩
  · exact ⟨_, rfl, Or.inr (Or.inl rfl)⟩
  · exact ⟨_, rfl, Or.inl rfl⟩

/-- C6, at the hand-meshed vertex with an inner, a front and a border edge:
it is classified Front. -/
theorem Vertex.updateType_classifies_witness :
    ∃ v1, fanVertex.updateType fanMesh = some v1 ∧ v1.m_type = 1 :=
  match Vertex.updateType_classifies fanMesh fanVertex fanVertex_typed with
  | ⟨v1, h1, _, _, _, h5⟩ =>
    ⟨v1, h1, h5.mpr ⟨3, by decide, ⟨0, 3, some 1, none, 0⟩, rfl, Or.inr rfl⟩⟩

/-- C7, refuted as stated: the hand-meshed vertex has a Border (0) edge among
its adjacent edges, so the minimum of their types is 0, but updateType gives
it type 1. -/
theorem Vertex.updateType_not_minimum :
    (fanVertex.updateType fanMesh).map Vertex.m_type = some 1 ∧
    fanVertex.adjacentEdgeTypes fanMesh = [2, 1, 0] ∧
    (fanVertex.adjacentEdgeTypes fanMesh).minimum = ((0 : Int) : WithTop Int) := by
  refine ⟨by decide, by decide, ?_⟩
  rw [List.minimum_eq_coe_iff]
  decide

/-- C7, amended: after updateType on a vertex whose adjacent edges are live
and typed 0, 1 or 2, the vertex type is the minimum over the adjacent edges of
the edge type with Border (0) counted as Front (1); it is Orphan (0) when the
set is empty. -/
theorem Vertex.updateType_minimum_front (m : Mesh K) (v : Vertex K)
    (htyped : ∀ e ∈ v.m_adjacentEdges, ∃ ed, m.edges e = some ed ∧
      (ed.m_type = 0 ∨ ed.m_type = 1 ∨ ed.m_type = 2)) :
    ∃ v1, v.updateType m = some v1 ∧
      (v.m_adjacentEdges = [] → v1.m_type = 0) ∧
      (v.m_adjacentEdges ≠ [] →
        ((v.adjacentEdgeTypes m).map (fun t => max t 1)).minimum
          = (((v1.m_type : Nat) : Int) : WithTop Int)) := by
  have hlive : ∀ e ∈ v.m_adjacentEdges, ∃ ed, m.edges e = some ed := by
    intro e he
    obtain ⟨ed, hed, -⟩ := htyped e he
    exact ⟨ed, hed⟩
  obtain ⟨t, hres, hcase⟩ := Vertex.updateType_spec m v hlive
  refine ⟨_, hres, ?_, ?_⟩
  · intro hemp
    rcases hcase with ⟨ht, -⟩ | ⟨-, hne, -⟩ | ⟨-, e, he, -⟩
    · exact ht
    · exact absurd hemp hne
    · rw [hemp] at he
      exact absurd he (List.not_mem_nil e)
  · intro hne
    show _ = (((t : Nat) : Int) : WithTop Int)
    rw [List.minimum_eq_coe_iff]
    have hmem : ∀ x : Int, x ∈ (v.adjacentEdgeTypes m).map (fun t => max t 1) ↔
        ∃ e ∈ v.m_adjacentEdges, ∃ ed, m.edges e = some ed ∧ x = max ed.m_type 1 := by
      intro x
      simp only [Vertex.adjacentEdgeTypes, List.mem_map, List.map_map]
      constructor
      · rintro ⟨e, he, hx⟩
        obtain ⟨ed, hed, -⟩ := htyped e he
        refine ⟨e, he, ed, hed, ?_⟩
        rw [← hx]
        simp [hed]
      · rintro ⟨e, he, ed, hed, hx⟩
        refine ⟨e, he, ?_⟩
        rw [hx]
        simp [hed]
    have hbound : ∀ e ∈ v.m_adjacentEdges, ∀ ed, m.edges e = some ed →
        1 ≤ max ed.m_type 1 ∧ max ed.m_type 1 ≤ 2 ∧
          (ed.m_type = 2 → max ed.m_type 1 = 2) ∧ (ed.m_type ≠ 2 → max ed.m_type 1 = 1) := by
      intro e he ed hed
      obtain ⟨ed1, hed1, ht⟩ := htyped e he
      rw [hed] at hed1
      cases hed1
      rcases ht with h | h | h <;> rw [h] <;> decide
    rcases hcase with ⟨-, hemp⟩ | ⟨ht, -, hall⟩ | ⟨ht, e, he, ed, hed, hty⟩
    · exact absurd hemp hne
    · subst ht
      constructor
      · obtain ⟨a, l, hal⟩ := List.exists_cons_of_ne_nil hne
        have ha : a ∈ v.m_adjacentEdges := by rw [hal]; exact List.mem_cons_self _ _
        obtain ⟨ad, had⟩ := hlive a ha
        exact (hmem _).mpr ⟨a, ha, ad, had,
          ((hbound a ha ad had).2.2.1 (hall a ha ad had)).symm⟩
      · intro x hx
        obtain ⟨e, he, ed, hed, rfl⟩ := (hmem x).mp hx
        rw [(hbound e he ed hed).2.2.1 (hall e he ed hed)]
        rfl
    · subst ht
      constructor
      · exact (hmem _).mpr ⟨e, he, ed, hed, ((hbound e he ed hed).2.2.2 hty).symm⟩
      · intro x hx
        obtain ⟨e1, he1, ed1, hed1, rfl⟩ := (hmem x).mp hx
        exact (hbound e1 he1 ed1 hed1).1

/-- C7 amended, at the hand-meshed vertex: edge types 2, 1, 0 are counted as
2, 1, 1, whose minimum is the vertex type 1. -/
theorem Vertex.updateType_minimum_front_witness :
    ∃ v1, fanVertex.updateType fanMesh = some v1 ∧
      ((fanVertex.adjacentEdgeTypes fanMesh).map (fun t => max t 1)).minimum
        = (((v1.m_type : Nat) : Int) : WithTop Int) :=
  match Vertex.updateType_minimum_front fanMesh fanVertex fanVertex_typed with
  | ⟨v1, h1, _, h3⟩ => ⟨v1, h1, h3 (by decide)⟩

end VertexTheorems

/-! ## Adjacency sets -/

section SetLemmas

theorem mem_setInsert (a x : Nat) (l : List Nat) :
    x ∈ (setInsert a l).1 ↔ x = a ∨ x ∈ l := by
  induction l with
  | nil => simp [setInsert]
  | cons b l ih =>
    unfold setInsert
    by_cases h1 : a < b
    · simp [h1]
    · by_cases h2 : a = b
      · subst h2
        simp
      · simp only [if_neg h1, if_neg h2, List.mem_cons, ih]
        constructor
        · rintro (h | h | h)
          · exact Or.inr (Or.inl h)
          · exact Or.inl h
          · exact Or.inr (Or.inr h)
        · rintro (h | h | h)
          · exact Or.inr (Or.inl h)
          · exact Or.inl h
          · exact Or.inr (Or.inr h)

/-- Inserting an element that fails the test does not change the first
element passing it. -/
theorem find?_setInsert_of_false (p : Nat → Bool) (a : Nat) (l : List Nat)
    (hp : p a = false) : (setInsert a l).1.find? p = l.find? p := by
  induction l with
  | nil => simp [setInsert, hp]
  | cons b l ih =>
    unfold setInsert
    by_cases h1 : a < b
    · simp [h1, hp]
    · by_cases h2 : a = b
      · simp [h2]
      · simp only [if_neg h1, if_neg h2, List.find?_cons, ih]

theorem find?_agree (p q : Nat → Bool) (l : List Nat) (h : ∀ x ∈ l, p x = q x) :
    l.find? p = l.find? q := by
  induction l with
  | nil => rfl
  | cons b l ih =>
    simp only [List.find?_cons, h b (List.mem_cons_self _ _)]
    rw [ih (fun x hx => h x (List.mem_cons_of_mem _ hx))]

theorem getCommonElement_mem (s1 s2 : List Nat) (e : Nat)
    (h : getCommonElement s1 s2 = some e) : e ∈ s1 ∧ e ∈ s2 := by
  unfold getCommonElement at h
  exact ⟨List.mem_of_find?_eq_some h, by simpa using List.find?_some h⟩

theorem getCommonElement_none (s1 s2 : List Nat) (h : getCommonElement s1 s2 = none)
    (x : Nat) (h1 : x ∈ s1) (h2 : x ∈ s2) : False := by
  unfold getCommonElement at h
  rw [List.find?_eq_none] at h
  have := h x h1
  simp [h2] at this

theorem getCommonElement_insert_left (a : Nat) (s1 s2 : List Nat) (ha : a ∉ s2) :
    getCommonElement (setInsert a s1).1 s2 = getCommonElement s1 s2 := by
  unfold getCommonElement
  exact find?_setInsert_of_false _ a s1 (by simp [ha])

theorem getCommonElement_insert_right (a : Nat) (s1 s2 : List Nat) (ha : a ∉ s1) :
    getCommonElement s1 (setInsert a s2).1 = getCommonElement s1 s2 := by
  unfold getCommonElement
  apply find?_agree
  intro x hx
  have hxa : x ≠ a := fun h => ha (h ▸ hx)
  simp [mem_setInsert, hxa]

/-- Inserting an element that passes the test, among elements that all fail
it, makes it the first element passing it. -/
theorem find?_setInsert_of_true (p : Nat → Bool) (a : Nat) (l : List Nat)
    (hp : p a = true) (hl : ∀ x ∈ l, x ≠ a → p x = false) :
    (setInsert a l).1.find? p = some a := by
  induction l with
  | nil => simp [setInsert, hp]
  | cons b l ih =>
    unfold setInsert
    by_cases h1 : a < b
    · simp [h1, hp]
    · by_cases h2 : a = b
      · subst h2
        simp [hp]
      · have hb : p b = false := hl b (List.mem_cons_self _ _) (fun h => h2 h.symm)
        simp only [if_neg h1, if_neg h2, List.find?_cons, hb]
        exact ih (fun x hx => hl x (List.mem_cons_of_mem _ hx))

theorem getCommonElement_insert_both (a : Nat) (s1 s2 : List Nat)
    (h : getCommonElement s1 s2 = none) :
    getCommonElement (setInsert a s1).1 (setInsert a s2).1 = some a := by
  unfold getCommonElement
  apply find?_setInsert_of_true
  · simp [mem_setInsert]
  · intro x hx hxa
    have hx2 : x ∉ s2 := fun h2 => getCommonElement_none s1 s2 h x hx h2
    simp [mem_setInsert, hxa, hx2]

end SetLemmas

/-! ## Facets: construction -/

section FacetTheorems

variable {K : Type}

/-- Three pairwise distinct vertices cannot all lie on two given ends. -/
theorem Facet.third_vertex (fc : Facet K)
    (hd : fc.m_vertex0 ≠ fc.m_vertex1 ∧ fc.m_vertex1 ≠ fc.m_vertex2 ∧
      fc.m_vertex2 ≠ fc.m_vertex0) (s t : Nat) :
    ∃ i, fc.vertex i ≠ s ∧ fc.vertex i ≠ t := by
  obtain ⟨h01, h12, h20⟩ := hd
  by_cases h0 : fc.m_vertex0 ≠ s ∧ fc.m_vertex0 ≠ t
  · exact ⟨0, h0⟩
  · by_cases h1 : fc.m_vertex1 ≠ s ∧ fc.m_vertex1 ≠ t
    · exact ⟨1, h1⟩
    · refine ⟨2, ?_⟩
      show fc.m_vertex2 ≠ s ∧ fc.m_vertex2 ≠ t
      omega

/-- The vertices after `new Edge(a, b)`: both ends receive the new address. -/
theorem Mesh.newEdge_vertices (m : Mesh K) (a b : Nat) (hab : a ≠ b) (v : Nat) :
    (m.newEdge a b).1.vertices v =
      if v = a ∨ v = b then
        { m.vertices v with
          m_adjacentEdges := (setInsert m.nextEdge (m.vertices v).m_adjacentEdges).1 }
      else m.vertices v := by
  by_cases hb : v = b
  · subst hb
    have hva : ¬ v = a := fun h => hab h.symm
    simp [Mesh.newEdge, Edge.ctor, Mesh.setVertex, Mesh.setEdge, Vertex.addAdjacentEdge, hva]
  · by_cases ha : v = a
    · subst ha
      simp [Mesh.newEdge, Edge.ctor, Mesh.setVertex, Mesh.setEdge, Vertex.addAdjacentEdge, hb]
    · simp [Mesh.newEdge, Edge.ctor, Mesh.setVertex, Mesh.setEdge, ha, hb]

/-- A step on the pair `(c, d)` leaves the linking edge of every other pair as
it was. -/
theorem AttachStep.link_other {self c d : Nat} {m m1 : Mesh K}
    (h : AttachStep self c d m m1) (hlive : m.AdjacencyLive) (a b : Nat)
    (hne : ¬ ((a = c ∨ a = d) ∧ (b = c ∨ b = d))) :
    (m1.vertices a).getLinkingEdge (m1.vertices b)
      = (m.vertices a).getLinkingEdge (m.vertices b) := by
  have hfresh : ∀ v, m.nextEdge ∉ (m.vertices v).m_adjacentEdges := by
    intro v hin
    exact absurd (hlive v _ hin).1 (lt_irrefl _)
  rw [h.vertices_eq a, h.vertices_eq b]
  by_cases hnone : (m.vertices c).getLinkingEdge (m.vertices d) = none
  · by_cases ha : a = c ∨ a = d
    · have hb : ¬ (b = c ∨ b = d) := fun hb => hne ⟨ha, hb⟩
      rw [if_pos ⟨hnone, ha⟩, if_neg (fun hh => hb hh.2)]
      exact getCommonElement_insert_left _ _ _ (hfresh b)
    · rw [if_neg (fun hh => ha hh.2)]
      by_cases hb : b = c ∨ b = d
      · rw [if_pos ⟨hnone, hb⟩]
        exact getCommonElement_insert_right _ _ _ (hfresh a)
      · rw [if_neg (fun hh => hb hh.2)]
  · rw [if_neg (fun hh => hnone hh.1), if_neg (fun hh => hnone hh.1)]

/-- A step on another pair keeps a pair linked by an edge holding the
facet. -/
theorem AttachStep.linkedBy_other {self c d : Nat} {m m1 : Mesh K}
    (h : AttachStep self c d m m1) (hlive : m.AdjacencyLive) (a b : Nat)
    (hne : ¬ ((a = c ∨ a = d) ∧ (b = c ∨ b = d))) (hl : m.LinkedBy a b self) :
    m1.LinkedBy a b self := by
  obtain ⟨e, ed, hlink, hed, hholds⟩ := hl
  obtain ⟨ed1, hed1, hk, -⟩ := h.edges_mono e ed hed
  exact ⟨e, ed1, by rw [h.link_other hlive a b hne]; exact hlink, hed1, hk hholds⟩

/-- A step on another pair keeps the linking edge of a pair attachable: free
of the facet with a free slot, or holding the facet already. -/
theorem AttachStep.attachable_other {self c d : Nat} {m m1 : Mesh K}
    (h : AttachStep self c d m m1) (hlive : m.AdjacencyLive) (a b : Nat)
    (hne : ¬ ((a = c ∨ a = d) ∧ (b = c ∨ b = d)))
    (hfree : ∀ e ed, (m.vertices a).getLinkingEdge (m.vertices b) = some e →
      m.edges e = some ed → ed.holds self ∨ ed.hasFreeSlot) :
    ∀ e ed, (m1.vertices a).getLinkingEdge (m1.vertices b) = some e →
      m1.edges e = some ed → ed.holds self ∨ ed.hasFreeSlot := by
  intro e ed1 hlink hed1
  rw [h.link_other hlive a b hne] at hlink
  obtain ⟨-, ed, hed⟩ := hlive a e (getCommonElement_mem _ _ e hlink).1
  obtain ⟨ed2, hed2, -, hat⟩ := h.edges_mono e ed hed
  rw [hed1] at hed2
  cases hed2
  exact hat (hfree e ed hlink hed)

/-- A step keeps edge uniqueness: the only new shared address is that of the
edge created for a pair without a linking edge. -/
theorem AttachStep.keeps_unique {self c d : Nat} {m m1 : Mesh K}
    (h : AttachStep self c d m m1) (hlive : m.AdjacencyLive) (hu : m.UniqueEdges) :
    m1.UniqueEdges := by
  have hfresh : ∀ v, m.nextEdge ∉ (m.vertices v).m_adjacentEdges := by
    intro v hin
    exact absurd (hlive v _ hin).1 (lt_irrefl _)
  have hold : ∀ v x, x ∈ (m1.vertices v).m_adjacentEdges →
      (x ∈ (m.vertices v).m_adjacentEdges) ∨
        (x = m.nextEdge ∧ (m.vertices c).getLinkingEdge (m.vertices d) = none ∧
          (v = c ∨ v = d)) := by
    intro v x hx
    rw [h.vertices_eq v] at hx
    by_cases hc : (m.vertices c).getLinkingEdge (m.vertices d) = none ∧ (v = c ∨ v = d)
    · rw [if_pos hc] at hx
      rcases (mem_setInsert _ _ _).mp hx with hxe | hxm
      · exact Or.inr ⟨hxe, hc.1, hc.2⟩
      · exact Or.inl hxm
    · rw [if_neg hc] at hx
      exact Or.inl hx
  intro u v huv e1 e2 h1u h1v h2u h2v
  rcases hold u e1 h1u with a1 | ⟨n1, hnone, hcu⟩
  · rcases hold v e1 h1v with b1 | ⟨n1, -, -⟩
    · rcases hold u e2 h2u with a2 | ⟨n2, hnone, hcu⟩
      · rcases hold v e2 h2v with b2 | ⟨n2, -, -⟩
        · exact hu u v huv e1 e2 a1 b1 a2 b2
        · exact absurd (n2 ▸ a2) (hfresh u)
      · rcases hold v e2 h2v with b2 | ⟨-, -, hcv⟩
        · exact absurd (n2 ▸ b2) (hfresh v)
        · exfalso
          have hcd : (u = c ∧ v = d) ∨ (u = d ∧ v = c) := by omega
          rcases hcd with ⟨rfl, rfl⟩ | ⟨rfl, rfl⟩
          · exact getCommonElement_none _ _ hnone e1 a1 b1
          · have := getCommonElement_mem
            cases hg : getCommonElement (m.vertices v).m_adjacentEdges
                (m.vertices u).m_adjacentEdges with
            | none => exact getCommonElement_none _ _ hg e1 b1 a1
            | some g =>
              rw [Vertex.getLinkingEdge, hg] at hnone
              cases hnone
    · exact absurd (n1 ▸ a1) (hfresh u)
  · rcases hold v e1 h1v with b1 | ⟨-, -, hcv⟩
    · exact absurd (n1 ▸ b1) (hfresh v)
    · rcases hold u e2 h2u with a2 | ⟨n2, -, -⟩
      · rcases hold v e2 h2v with b2 | ⟨n2, -, -⟩
        · exfalso
          have hcd : (u = c ∧ v = d) ∨ (u = d ∧ v = c) := by omega
          rcases hcd with ⟨rfl, rfl⟩ | ⟨rfl, rfl⟩
          · exact getCommonElement_none _ _ hnone e2 a2 b2
          · exact getCommonElement_none _ _ hnone e2 b2 a2
        · exact absurd (n2 ▸ a2) (hfresh u)
      · rw [n1, n2]

theorem Mesh.SameEdges.trans {m m1 m2 : Mesh K} (h1 : m.SameEdges m1)
    (h2 : m1.SameEdges m2) : m.SameEdges m2 :=
  ⟨h2.1.trans h1.1, h2.2.1.trans h1.2.1, h2.2.2.1.trans h1.2.2.1,
    fun u => (h2.2.2.2 u).trans (h1.2.2.2 u)⟩

theorem Mesh.SameEdges.link {m m1 : Mesh K} (h : m.SameEdges m1) (a b : Nat) :
    (m1.vertices a).getLinkingEdge (m1.vertices b)
      = (m.vertices a).getLinkingEdge (m.vertices b) := by
  simp only [Vertex.getLinkingEdge, h.2.2.2 a, h.2.2.2 b]

theorem Mesh.SameEdges.live {m m1 : Mesh K} (h : m.SameEdges m1) (hl : m.AdjacencyLive) :
    m1.AdjacencyLive := by
  intro v e he
  rw [h.2.2.2 v] at he
  rw [h.1, h.2.2.1]
  exact hl v e he

theorem Mesh.SameEdges.linkedBy {m m1 : Mesh K} (h : m.SameEdges m1) (a b f : Nat)
    (hl : m.LinkedBy a b f) : m1.LinkedBy a b f := by
  obtain ⟨e, ed, hlink, hed, hh⟩ := hl
  exact ⟨e, ed, by rw [h.link a b]; exact hlink, by rw [h.1]; exact hed, hh⟩

theorem Mesh.SameEdges.unique_transfer {m m1 : Mesh K} (h : m.SameEdges m1)
    (hu : m.UniqueEdges) : m1.UniqueEdges := by
  intro u v huv e1 e2 h1u h1v h2u h2v
  rw [h.2.2.2 u] at h1u h2u
  rw [h.2.2.2 v] at h1v h2v
  exact hu u v huv e1 e2 h1u h1v h2u h2v

/-- The last loop body of the facet constructors, on a heap whose adjacent
edges are live: it returns, leaves the edge graph alone, and the vertex lists
the facet; no vertex forgets a facet. -/
theorem Facet.registerVertex_spec (m : Mesh K) (self v : Nat) (hlive : m.AdjacencyLive) :
    ∃ m1, Facet.registerVertex m self v = some m1 ∧ m.SameEdges m1 ∧
      self ∈ (m1.vertices v).m_adjacentFacets ∧
      ∀ u g, g ∈ (m.vertices u).m_adjacentFacets → g ∈ (m1.vertices u).m_adjacentFacets := by
  have hl : ∀ e ∈ ((m.setVertex v ((m.vertices v).addAdjacentFacet self).1).vertices
      v).m_adjacentEdges,
      ∃ ed, (m.setVertex v ((m.vertices v).addAdjacentFacet self).1).edges e = some ed := by
    intro e he
    have he1 : e ∈ (m.vertices v).m_adjacentEdges := by
      simpa [Mesh.setVertex, Vertex.addAdjacentFacet] using he
    exact (hlive v e he1).2
  obtain ⟨t, ht, -⟩ := Vertex.updateType_spec _ _ hl
  have hreg : Facet.registerVertex m self v =
      some ((m.setVertex v ((m.vertices v).addAdjacentFacet self).1).setVertex v
        { (m.setVertex v ((m.vertices v).addAdjacentFacet self).1).vertices v with
          m_type := t }) := by
    simp only [Facet.registerVertex, ht]
    rfl
  refine ⟨_, hreg, ⟨rfl, rfl, rfl, ?_⟩, ?_, ?_⟩
  · intro u
    by_cases huv : u = v
    · subst huv
      simp [Mesh.setVertex, Vertex.addAdjacentFacet]
    · simp [Mesh.setVertex, huv]
  · simp [Mesh.setVertex, Vertex.addAdjacentFacet, mem_setInsert]
  · intro u g hg
    by_cases huv : u = v
    · subst huv
      simp [Mesh.setVertex, Vertex.addAdjacentFacet, mem_setInsert, hg]
    · simpa [Mesh.setVertex, huv] using hg

/-- The last loop of the facet constructors, over three vertices. -/
theorem Facet.register_three_spec (m : Mesh K) (self r1 r2 r3 : Nat)
    (hlive : m.AdjacencyLive) :
    ∃ m3, ((Facet.registerVertex m self r1).bind fun m4 =>
        (Facet.registerVertex m4 self r2).bind fun m5 =>
        Facet.registerVertex m5 self r3) = some m3 ∧ m.SameEdges m3 ∧
      self ∈ (m3.vertices r1).m_adjacentFacets ∧ self ∈ (m3.vertices r2).m_adjacentFacets ∧
      self ∈ (m3.vertices r3).m_adjacentFacets := by
  obtain ⟨m4, h4, s4, f4, k4⟩ := Facet.registerVertex_spec m self r1 hlive
  obtain ⟨m5, h5, s5, f5, k5⟩ := Facet.registerVertex_spec m4 self r2 (s4.live hlive)
  obtain ⟨m6, h6, s6, f6, k6⟩ := Facet.registerVertex_spec m5 self r3
    (s5.live (s4.live hlive))
  refine ⟨m6, ?_, (s4.trans s5).trans s6, k6 _ _ (k5 _ _ f4), k6 _ _ f5, f6⟩
  simp only [h4, h5, h6, Option.some_bind]

variable [LinearOrderedCommRing K]

/-- Edge::addAdjacentFacet with a facet on three pairwise distinct vertices
always returns; a facet already held stays held, and an edge with a free slot
(or already holding the facet) holds it afterwards. -/
theorem Edge.addAdjacentFacet_spec (normalize : K × K × K → K × K × K) (m : Mesh K)
    (ed : Edge) (f : Nat) (fc : Facet K) (hfc : m.facets f = some fc)
    (hd : fc.m_vertex0 ≠ fc.m_vertex1 ∧ fc.m_vertex1 ≠ fc.m_vertex2 ∧
      fc.m_vertex2 ≠ fc.m_vertex0) :
    ∃ r, ed.addAdjacentFacet normalize m f = some r ∧ (ed.holds f → r.1.holds f) ∧
      (ed.holds f ∨ ed.hasFreeSlot → r.1.holds f) := by
  by_cases hh : ed.m_facet1 = some f ∨ ed.m_facet2 = some f
  · refine ⟨(ed, false), ?_, fun h => h, fun _ => hh⟩
    unfold Edge.addAdjacentFacet
    rw [if_pos hh]
  · by_cases hn1 : ed.m_facet1 = none
    · obtain ⟨o, ho, -, -⟩ := Edge.getOppositeVertex_of_third m
        { ed with m_facet1 := some f } f fc rfl hfc (Facet.third_vertex fc hd _ _)
      have hadd : ed.addAdjacentFacet normalize m f =
          (Edge.updateOrientation normalize m { ed with m_facet1 := some f }).map
            (fun e1 => ({ e1 with m_type := 1 }, true)) := by
        unfold Edge.addAdjacentFacet
        rw [if_neg hh, if_pos hn1]
      rcases Edge.updateOrientation_eq normalize m _ o ho with h | h <;>
        (rw [hadd, h]; exact ⟨_, rfl, fun _ => Or.inl rfl, fun _ => Or.inl rfl⟩)
    · by_cases hn2 : ed.m_facet2 = none
      · refine ⟨({ ed with m_facet2 := some f, m_type := 2 }, true), ?_,
          fun _ => Or.inr rfl, fun _ => Or.inr rfl⟩
        unfold Edge.addAdjacentFacet
        rw [if_neg hh, if_neg hn1, if_pos hn2]
      · refine ⟨(ed, false), ?_, fun h => h, ?_⟩
        · unfold Edge.addAdjacentFacet
          rw [if_neg hh, if_neg hn1, if_neg hn2]
        · rintro (h | h | h)
          · exact h
          · exact absurd h hn1
          · exact absurd h hn2

/-- The call `e->addAdjacentFacet(f)` on a live edge rewrites that edge
only. -/
theorem Mesh.edgeAddAdjacentFacet_spec (normalize : K × K × K → K × K × K) (m : Mesh K)
    (e f : Nat) (ed : Edge) (fc : Facet K) (he : m.edges e = some ed)
    (hfc : m.facets f = some fc)
    (hd : fc.m_vertex0 ≠ fc.m_vertex1 ∧ fc.m_vertex1 ≠ fc.m_vertex2 ∧
      fc.m_vertex2 ≠ fc.m_vertex0) :
    ∃ ed1, m.edgeAddAdjacentFacet normalize e f = some (m.setEdge e (some ed1)) ∧
      (ed.holds f → ed1.holds f) ∧ (ed.holds f ∨ ed.hasFreeSlot → ed1.holds f) := by
  obtain ⟨r, hr, hk, ha⟩ := Edge.addAdjacentFacet_spec normalize m ed f fc hfc hd
  refine ⟨r.1, ?_, hk, ha⟩
  simp [Mesh.edgeAddAdjacentFacet, he, hr]

/-- The statements repeated by the facet constructors for a pair of distinct
vertices always run to their end, with the effect described by
`AttachStep`. -/
theorem Facet.attachEdge_spec (normalize : K × K × K → K × K × K) (m : Mesh K)
    (self a b : Nat) (fc : Facet K) (hlive : m.AdjacencyLive) (hab : a ≠ b)
    (hfc : m.facets self = some fc)
    (hd : fc.m_vertex0 ≠ fc.m_vertex1 ∧ fc.m_vertex1 ≠ fc.m_vertex2 ∧
      fc.m_vertex2 ≠ fc.m_vertex0) :
    ∃ m1, Facet.attachEdge normalize m self a b = some m1 ∧ AttachStep self a b m m1 := by
  cases hlink : (m.vertices a).getLinkingEdge (m.vertices b) with
  | some e =>
    have hmem := getCommonElement_mem _ _ e hlink
    obtain ⟨-, ed, hed⟩ := hlive a e hmem.1
    obtain ⟨ed1, hres, hk, hat⟩ :=
      Mesh.edgeAddAdjacentFacet_spec normalize m e self ed fc hed hfc hd
    refine ⟨m.setEdge e (some ed1), ?_, ?_⟩
    · simp only [Facet.attachEdge, hlink]
      exact hres
    · refine ⟨rfl, ?_, ?_, ?_, ?_, by rw [hlink]; rfl⟩
      · intro v
        rw [hlink]
        simp [Mesh.setEdge]
      · intro x edx hx
        by_cases hxe : x = e
        · subst hxe
          rw [hed] at hx
          cases hx
          exact ⟨ed1, by simp [Mesh.setEdge], hk, fun h => Or.inl (hat h)⟩
        · exact ⟨edx, by simp [Mesh.setEdge, hxe, hx], fun h => h, fun h => h⟩
      · intro hfree
        exact ⟨e, ed1, hlink, by simp [Mesh.setEdge], hat (hfree e ed hlink hed)⟩
      · intro v x hx
        obtain ⟨hlt, edx, hedx⟩ := hlive v x hx
        refine ⟨hlt, ?_⟩
        by_cases hxe : x = e
        · exact ⟨ed1, by simp [Mesh.setEdge, hxe]⟩
        · exact ⟨edx, by simp [Mesh.setEdge, hxe, hedx]⟩
  | none =>
    have hnew : (m.newEdge a b).1.edges m.nextEdge = some (Edge.init a b) := by
      simp [Mesh.newEdge, Edge.ctor, Mesh.setEdge]
    have hfc1 : (m.newEdge a b).1.facets self = some fc := hfc
    obtain ⟨ed1, hres, -, hat⟩ := Mesh.edgeAddAdjacentFacet_spec normalize
      (m.newEdge a b).1 m.nextEdge self (Edge.init a b) fc hnew hfc1 hd
    have hholds : ed1.holds self := hat (Or.inr (Or.inl rfl))
    have hv : ∀ v, ((m.newEdge a b).1.setEdge m.nextEdge (some ed1)).vertices v =
        if v = a ∨ v = b then
          { m.vertices v with
            m_adjacentEdges := (setInsert m.nextEdge (m.vertices v).m_adjacentEdges).1 }
        else m.vertices v := fun v => Mesh.newEdge_vertices m a b hab v
    have hfresh : ∀ v, m.nextEdge ∉ (m.vertices v).m_adjacentEdges := by
      intro v hin
      exact absurd (hlive v _ hin).1 (lt_irrefl _)
    refine ⟨(m.newEdge a b).1.setEdge m.nextEdge (some ed1), ?_, ?_⟩
    · simp only [Facet.attachEdge, hlink]
      exact hres
    · refine ⟨rfl, ?_, ?_, ?_, ?_, by rw [hlink]; rfl⟩
      · intro v
        rw [hv v, hlink]
        simp
      · intro x edx hx
        by_cases hxe : x = m.nextEdge
        · exact ⟨ed1, by simp [Mesh.setEdge, hxe], fun _ => hholds, fun _ => Or.inl hholds⟩
        · refine ⟨edx, ?_, fun h => h, fun h => h⟩
          simp [Mesh.setEdge, Mesh.setVertex, Mesh.newEdge, Edge.ctor, hxe, hx]
      · intro _
        refine ⟨m.nextEdge, ed1, ?_, by simp [Mesh.setEdge], hholds⟩
        rw [hv a, hv b]
        simp only [true_or, or_true, if_true, Vertex.getLinkingEdge]
        exact getCommonElement_insert_both _ _ _ hlink
      · intro v x hx
        have hnext : ((m.newEdge a b).1.setEdge m.nextEdge (some ed1)).nextEdge
            = m.nextEdge + 1 := rfl
        rw [hnext]
        rw [hv v] at hx
        have hx1 : x = m.nextEdge ∨ x ∈ (m.vertices v).m_adjacentEdges := by
          by_cases hc : v = a ∨ v = b
          · rw [if_pos hc] at hx
            exact (mem_setInsert _ _ _).mp hx
          · rw [if_neg hc] at hx
            exact Or.inr hx
        rcases hx1 with hxe | hxm
        · exact ⟨by omega, ed1, by simp [Mesh.setEdge, hxe]⟩
        · obtain ⟨hlt, edx, hedx⟩ := hlive v x hxm
          refine ⟨by omega, edx, ?_⟩
          have hxe : x ≠ m.nextEdge := by omega
          simp [Mesh.setEdge, Mesh.setVertex, Mesh.newEdge, Edge.ctor, hxe, hedx]

/-- The three attachments made by a facet constructor around a triangle
`x, y, z` of pairwise distinct vertices, in the order (x,y), (y,z), (z,x): all
three run to their end; the facets are untouched, adjacent edges stay live,
edge uniqueness is kept, and when each pre-existing linking edge has a free
slot all three pairs end up linked by an edge holding the facet. -/
theorem Facet.attach_cycle_spec (normalize : K × K × K → K × K × K) (m : Mesh K)
    (self x y z : Nat) (fc : Facet K) (hlive : m.AdjacencyLive)
    (hfc : m.facets self = some fc)
    (hd : fc.m_vertex0 ≠ fc.m_vertex1 ∧ fc.m_vertex1 ≠ fc.m_vertex2 ∧
      fc.m_vertex2 ≠ fc.m_vertex0)
    (hxy : x ≠ y) (hyz : y ≠ z) (hzx : z ≠ x) :
    ∃ m3, ((Facet.attachEdge normalize m self x y).bind fun m1 =>
        (Facet.attachEdge normalize m1 self y z).bind fun m2 =>
        Facet.attachEdge normalize m2 self z x) = some m3 ∧
      m3.facets = m.facets ∧ m3.AdjacencyLive ∧ (m.UniqueEdges → m3.UniqueEdges) ∧
      (m.LinkFree x y → m.LinkFree y z → m.LinkFree z x →
        m3.LinkedBy x y self ∧ m3.LinkedBy y z self ∧ m3.LinkedBy z x self) ∧
      m3.nextEdge = m.nextEdge
        + (if (m.vertices x).getLinkingEdge (m.vertices y) = none then 1 else 0)
        + (if (m.vertices y).getLinkingEdge (m.vertices z) = none then 1 else 0)
        + (if (m.vertices z).getLinkingEdge (m.vertices x) = none then 1 else 0) := by
  obtain ⟨m1, h1, s1⟩ := Facet.attachEdge_spec normalize m self x y fc hlive hxy hfc hd
  have hfc1 : m1.facets self = some fc := by rw [s1.facets_eq]; exact hfc
  obtain ⟨m2, h2, s2⟩ := Facet.attachEdge_spec normalize m1 self y z fc s1.live hyz hfc1 hd
  have hfc2 : m2.facets self = some fc := by rw [s2.facets_eq]; exact hfc1
  obtain ⟨m3, h3, s3⟩ := Facet.attachEdge_spec normalize m2 self z x fc s2.live hzx hfc2 hd
  have n_xy_yz : ¬ ((x = y ∨ x = z) ∧ (y = y ∨ y = z)) := by omega
  have n_xy_zx : ¬ ((x = z ∨ x = x) ∧ (y = z ∨ y = x)) := by omega
  have n_yz_xy : ¬ ((y = x ∨ y = y) ∧ (z = x ∨ z = y)) := by omega
  have n_yz_zx : ¬ ((y = z ∨ y = x) ∧ (z = z ∨ z = x)) := by omega
  have n_zx_xy : ¬ ((z = x ∨ z = y) ∧ (x = x ∨ x = y)) := by omega
  have n_zx_yz : ¬ ((z = y ∨ z = z) ∧ (x = y ∨ x = z)) := by omega
  refine ⟨m3, by simp only [h1, h2, h3, Option.some_bind],
    by rw [s3.facets_eq, s2.facets_eq, s1.facets_eq], s3.live,
    fun hu => s3.keeps_unique s2.live (s2.keeps_unique s1.live (s1.keeps_unique hlive hu)),
    ?_, ?_⟩
  swap
  · rw [s3.nextEdge_eq, s2.nextEdge_eq, s1.nextEdge_eq,
      s2.link_other s1.live z x n_zx_yz, s1.link_other hlive z x n_zx_xy,
      s1.link_other hlive y z n_yz_xy]
  intro fxy fyz fzx
  have a_xy : ∀ e ed, (m.vertices x).getLinkingEdge (m.vertices y) = some e →
      m.edges e = some ed → ed.holds self ∨ ed.hasFreeSlot :=
    fun e ed h1 h2 => Or.inr (fxy e ed h1 h2)
  have a_yz : ∀ e ed, (m.vertices y).getLinkingEdge (m.vertices z) = some e →
      m.edges e = some ed → ed.holds self ∨ ed.hasFreeSlot :=
    fun e ed h1 h2 => Or.inr (fyz e ed h1 h2)
  have a_zx : ∀ e ed, (m.vertices z).getLinkingEdge (m.vertices x) = some e →
      m.edges e = some ed → ed.holds self ∨ ed.hasFreeSlot :=
    fun e ed h1 h2 => Or.inr (fzx e ed h1 h2)
  have l_xy := s3.linkedBy_other s2.live x y n_xy_zx
    (s2.linkedBy_other s1.live x y n_xy_yz (s1.linked a_xy))
  have l_yz := s3.linkedBy_other s2.live y z n_yz_zx
    (s2.linked (s1.attachable_other hlive y z n_yz_xy a_yz))
  have l_zx := s3.linked (s2.attachable_other s1.live z x n_zx_yz
    (s1.attachable_other hlive z x n_zx_xy a_zx))
  exact ⟨l_xy, l_yz, l_zx⟩

/-- The two vertex-based facet constructors, on three pairwise distinct
vertices of a heap whose adjacent edges are live: the constructor returns;
the facet is recorded with its three vertices, which all list it; edge
uniqueness is kept; and when each pre-existing linking edge has a free slot
the three pairs are linked by edges holding the facet. -/
theorem Facet.ctor_spec (normalize : K × K × K → K × K × K) (m : Mesh K)
    (self v0 v1 v2 : Nat) (c : Point K) (hlive : m.AdjacencyLive)
    (h01 : v0 ≠ v1) (h12 : v1 ≠ v2) (h20 : v2 ≠ v0) :
    ∃ m1, Facet.ctor normalize m self v0 v1 v2 c = some m1 ∧
      m1.facets self = some ⟨v0, v1, v2, c⟩ ∧ m1.AdjacencyLive ∧
      self ∈ (m1.vertices v0).m_adjacentFacets ∧ self ∈ (m1.vertices v1).m_adjacentFacets ∧
      self ∈ (m1.vertices v2).m_adjacentFacets ∧
      (m.UniqueEdges → m1.UniqueEdges) ∧
      (m.LinkFree v0 v1 → m.LinkFree v1 v2 → m.LinkFree v2 v0 →
        m1.LinkedBy v0 v1 self ∧ m1.LinkedBy v1 v2 self ∧ m1.LinkedBy v2 v0 self) ∧
      m1.nextEdge = m.nextEdge
        + (if (m.vertices v0).getLinkingEdge (m.vertices v1) = none then 1 else 0)
        + (if (m.vertices v1).getLinkingEdge (m.vertices v2) = none then 1 else 0)
        + (if (m.vertices v2).getLinkingEdge (m.vertices v0) = none then 1 else 0) := by
  have hfc : (m.setFacet self (some ⟨v0, v1, v2, c⟩)).facets self = some ⟨v0, v1, v2, c⟩ := by
    simp [Mesh.setFacet]
  obtain ⟨m3, hm3, hf3, hl3, hu3, hk3, hn3⟩ := Facet.attach_cycle_spec normalize
    (m.setFacet self (some ⟨v0, v1, v2, c⟩)) self v0 v1 v2 ⟨v0, v1, v2, c⟩ hlive hfc
    ⟨h01, h12, h20⟩ h01 h12 h20
  obtain ⟨m6, hm6, hs, r0, r1, r2⟩ := Facet.register_three_spec m3 self v0 v1 v2 hl3
  refine ⟨m6, ?_, ?_, hs.live hl3, r0, r1, r2, fun hu => hs.unique_transfer (hu3 hu), ?_,
    by rw [hs.2.2.1, hn3]; rfl⟩
  · rw [← hm6]
    simp only [Facet.ctor, Option.bind_eq_bind] at hm3 ⊢
    cases ha : Facet.attachEdge normalize (m.setFacet self (some ⟨v0, v1, v2, c⟩)) self v0 v1 with
    | none => rw [ha] at hm3; cases hm3
    | some a1 =>
      rw [ha] at hm3
      simp only [Option.some_bind] at hm3 ⊢
      cases hb : Facet.attachEdge normalize a1 self v1 v2 with
      | none => rw [hb] at hm3; cases hm3
      | some a2 =>
        rw [hb] at hm3
        simp only [Option.some_bind] at hm3 ⊢
        rw [hm3]
        rfl
  · rw [hs.2.1, hf3]
    exact hfc
  · intro f01 f12 f20
    obtain ⟨l01, l12, l20⟩ := hk3 f01 f12 f20
    exact ⟨hs.linkedBy _ _ _ l01, hs.linkedBy _ _ _ l12, hs.linkedBy _ _ _ l20⟩

/-- The two edge-based facet constructors, on a live edge that is the linking
edge of its target and source, and a vertex distinct from both: the
constructor returns; the facet is recorded on (source, vertex, target), which
all list it; edge uniqueness is kept; and when each pre-existing linking edge
has a free slot the three pairs are linked by edges holding the facet. -/
theorem Facet.ctorOnEdge_spec (normalize : K × K × K → K × K × K) (m : Mesh K)
    (self edge vertex : Nat) (c : Point K) (ed : Edge) (hlive : m.AdjacencyLive)
    (hed : m.edges edge = some ed)
    (hlink : (m.vertices ed.m_tgt).getLinkingEdge (m.vertices ed.m_src) = some edge)
    (hsv : ed.m_src ≠ vertex) (hvt : vertex ≠ ed.m_tgt) (hts : ed.m_tgt ≠ ed.m_src) :
    ∃ m1, Facet.ctorOnEdge normalize m self edge vertex c = some m1 ∧
      m1.facets self = some ⟨ed.m_src, vertex, ed.m_tgt, c⟩ ∧ m1.AdjacencyLive ∧
      self ∈ (m1.vertices ed.m_src).m_adjacentFacets ∧
      self ∈ (m1.vertices vertex).m_adjacentFacets ∧
      self ∈ (m1.vertices ed.m_tgt).m_adjacentFacets ∧
      (m.UniqueEdges → m1.UniqueEdges) ∧
      (m.LinkFree ed.m_src vertex → m.LinkFree vertex ed.m_tgt → m.LinkFree ed.m_tgt ed.m_src →
        m1.LinkedBy ed.m_src vertex self ∧ m1.LinkedBy vertex ed.m_tgt self ∧
          m1.LinkedBy ed.m_tgt ed.m_src self) ∧
      m1.nextEdge = m.nextEdge
        + (if (m.vertices ed.m_src).getLinkingEdge (m.vertices vertex) = none then 1 else 0)
        + (if (m.vertices vertex).getLinkingEdge (m.vertices ed.m_tgt) = none then 1 else 0)
        := by
  have hfc : (m.setFacet self (some ⟨ed.m_src, vertex, ed.m_tgt, c⟩)).facets self
      = some ⟨ed.m_src, vertex, ed.m_tgt, c⟩ := by
    simp [Mesh.setFacet]
  obtain ⟨m3, hm3, hf3, hl3, hu3, hk3, hn3⟩ := Facet.attach_cycle_spec normalize
    (m.setFacet self (some ⟨ed.m_src, vertex, ed.m_tgt, c⟩)) self ed.m_tgt ed.m_src vertex
    ⟨ed.m_src, vertex, ed.m_tgt, c⟩ hlive hfc ⟨hsv, hvt, hts⟩ hts hsv hvt
  obtain ⟨m6, hm6, hs, r0, r1, r2⟩ :=
    Facet.register_three_spec m3 self ed.m_src vertex ed.m_tgt hl3
  have hfirst : Facet.attachEdge normalize
      (m.setFacet self (some ⟨ed.m_src, vertex, ed.m_tgt, c⟩)) self ed.m_tgt ed.m_src
      = (m.setFacet self (some ⟨ed.m_src, vertex, ed.m_tgt, c⟩)).edgeAddAdjacentFacet
          normalize edge self := by
    have hlink0 : ((m.setFacet self (some ⟨ed.m_src, vertex, ed.m_tgt, c⟩)).vertices
        ed.m_tgt).getLinkingEdge
        ((m.setFacet self (some ⟨ed.m_src, vertex, ed.m_tgt, c⟩)).vertices ed.m_src)
        = some edge := hlink
    simp only [Facet.attachEdge, hlink0]
  have hnext : m6.nextEdge = m.nextEdge
      + (if (m.vertices ed.m_src).getLinkingEdge (m.vertices vertex) = none then 1 else 0)
      + (if (m.vertices vertex).getLinkingEdge (m.vertices ed.m_tgt) = none then 1 else 0)
      := by
    have hlink0 : ((m.setFacet self (some ⟨ed.m_src, vertex, ed.m_tgt, c⟩)).vertices
        ed.m_tgt).getLinkingEdge
        ((m.setFacet self (some ⟨ed.m_src, vertex, ed.m_tgt, c⟩)).vertices ed.m_src)
        = some edge := hlink
    rw [hs.2.2.1, hn3, hlink0]
    simp only [reduceCtorEq, if_false, Nat.add_zero]
    rfl
  refine ⟨m6, ?_, ?_, hs.live hl3, r0, r1, r2, fun hu => hs.unique_transfer (hu3 hu), ?_, hnext⟩
  · rw [← hm6]
    rw [hfirst] at hm3
    simp only [Facet.ctorOnEdge, hed]
    cases ha : (m.setFacet self (some ⟨ed.m_src, vertex, ed.m_tgt, c⟩)).edgeAddAdjacentFacet
        normalize edge self with
    | none => rw [ha] at hm3; cases hm3
    | some a1 =>
      rw [ha] at hm3
      simp only [Option.some_bind] at hm3 ⊢
      cases hb : Facet.attachEdge normalize a1 self ed.m_src vertex with
      | none => rw [hb] at hm3; cases hm3
      | some a2 =>
        rw [hb] at hm3
        simp only [Option.some_bind] at hm3 ⊢
        rw [hm3]
        rfl
  · rw [hs.2.1, hf3]
    exact hfc
  · intro fsv fvt fts
    obtain ⟨lts, lsv, lvt⟩ := hk3 fts fsv fvt
    exact ⟨hs.linkedBy _ _ _ lsv, hs.linkedBy _ _ _ lvt, hs.linkedBy _ _ _ lts⟩

/-- The sample cloud has no edge yet. -/
theorem sampleCloud_adjacentEdges (v : Nat) :
    (sampleCloud.vertices v).m_adjacentEdges = [] := by
  unfold sampleCloud
  dsimp only
  split <;> rfl

theorem sampleCloud_live : sampleCloud.AdjacencyLive := by
  intro v e he
  rw [sampleCloud_adjacentEdges v] at he
  exact absurd he (List.not_mem_nil e)

theorem sampleCloud_linkFree (a b : Nat) : sampleCloud.LinkFree a b := by
  intro e ed hlink
  have := (getCommonElement_mem _ _ e hlink).1
  rw [sampleCloud_adjacentEdges a] at this
  exact absurd this (List.not_mem_nil e)

theorem sampleCloud_uniqueEdges : sampleCloud.UniqueEdges := by
  intro u v _ e1 e2 h1 _ _ _
  rw [sampleCloud_adjacentEdges u] at h1
  exact absurd h1 (List.not_mem_nil e1)

/-- In the seed heap every adjacent edge is one of the live edges 0, 1, 2. -/
theorem seedMesh_live : seedMesh.AdjacencyLive := by
  intro v e he
  have hv : ∀ w, (seedMesh.vertices w).m_adjacentEdges = [] ∨
      (seedMesh.vertices w).m_adjacentEdges = [0, 2] ∨
      (seedMesh.vertices w).m_adjacentEdges = [0, 1] ∨
      (seedMesh.vertices w).m_adjacentEdges = [1, 2] := by
    intro w
    unfold seedMesh
    dsimp only
    split
    · exact Or.inr (Or.inl rfl)
    · exact Or.inr (Or.inr (Or.inl rfl))
    · exact Or.inr (Or.inr (Or.inr rfl))
    · exact Or.inl rfl
  have he3 : e = 0 ∨ e = 1 ∨ e = 2 := by
    rcases hv v with h | h | h | h <;> rw [h] at he <;> simp at he <;> omega
  rcases he3 with rfl | rfl | rfl
  · exact ⟨by decide, _, rfl⟩
  · exact ⟨by decide, _, rfl⟩
  · exact ⟨by decide, _, rfl⟩

/-- In the seed heap the linking edges that exist are front edges, with
`facet2` empty. -/
theorem seedMesh_linkFree (a b : Nat) : seedMesh.LinkFree a b := by
  intro e ed hlink hed
  have he := (seedMesh_live a e (getCommonElement_mem _ _ e hlink).1)
  have he3 : e = 0 ∨ e = 1 ∨ e = 2 := by
    have := he.1
    have h3 : seedMesh.nextEdge = 3 := rfl
    omega
  rcases he3 with rfl | rfl | rfl <;>
    (have hed1 : some _ = some ed := hed
     cases hed1
     exact Or.inr rfl)

/-- C8: the facet constructors, run at address `self` on a heap whose
adjacent-edge sets hold live edges.  For Facet(v0,v1,v2[,center]) on three
pairwise distinct vertices, and for Facet(edge,vertex[,center]) on a live edge
that is the linking edge of its ends and a vertex distinct from both ends
(the facet is then on source, vertex, target): when each pre-existing linking
edge among the three vertices has at most one adjacent facet, the constructor
returns, each pair `(v[i], v[i+1 mod 3])` has a linking edge holding the new
facet in `facet1` or `facet2`, and each of the three vertices lists the facet.
The constructors without a center are these with the default point as `c`. -/
theorem Facet.ctor_links_facet (normalize : K × K × K → K × K × K) (m : Mesh K)
    (self : Nat) (c : Point K) (hlive : m.AdjacencyLive) :
    (∀ v0 v1 v2, v0 ≠ v1 → v1 ≠ v2 → v2 ≠ v0 →
      m.LinkFree v0 v1 → m.LinkFree v1 v2 → m.LinkFree v2 v0 →
      ∃ m1, Facet.ctor normalize m self v0 v1 v2 c = some m1 ∧
        m1.facets self = some ⟨v0, v1, v2, c⟩ ∧
        m1.LinkedBy v0 v1 self ∧ m1.LinkedBy v1 v2 self ∧ m1.LinkedBy v2 v0 self ∧
        self ∈ (m1.vertices v0).m_adjacentFacets ∧
        self ∈ (m1.vertices v1).m_adjacentFacets ∧
        self ∈ (m1.vertices v2).m_adjacentFacets) ∧
    (∀ edge vertex ed, m.edges edge = some ed →
      (m.vertices ed.m_tgt).getLinkingEdge (m.vertices ed.m_src) = some edge →
      ed.m_src ≠ vertex → vertex ≠ ed.m_tgt → ed.m_tgt ≠ ed.m_src →
      m.LinkFree ed.m_src vertex → m.LinkFree vertex ed.m_tgt →
      m.LinkFree ed.m_tgt ed.m_src →
      ∃ m1, Facet.ctorOnEdge normalize m self edge vertex c = some m1 ∧
        m1.facets self = some ⟨ed.m_src, vertex, ed.m_tgt, c⟩ ∧
        m1.LinkedBy ed.m_src vertex self ∧ m1.LinkedBy vertex ed.m_tgt self ∧
        m1.LinkedBy ed.m_tgt ed.m_src self ∧
        self ∈ (m1.vertices ed.m_src).m_adjacentFacets ∧
        self ∈ (m1.vertices vertex).m_adjacentFacets ∧
        self ∈ (m1.vertices ed.m_tgt).m_adjacentFacets) := by
  constructor
  · intro v0 v1 v2 h01 h12 h20 f01 f12 f20
    obtain ⟨m1, hm1, hf, -, r0, r1, r2, -, hk, -⟩ :=
      Facet.ctor_spec normalize m self v0 v1 v2 c hlive h01 h12 h20
    obtain ⟨l01, l12, l20⟩ := hk f01 f12 f20
    exact ⟨m1, hm1, hf, l01, l12, l20, r0, r1, r2⟩
  · intro edge vertex ed hed hlink hsv hvt hts fsv fvt fts
    obtain ⟨m1, hm1, hf, -, r0, r1, r2, -, hk, -⟩ :=
      Facet.ctorOnEdge_spec normalize m self edge vertex c ed hlive hed hlink hsv hvt hts
    obtain ⟨lsv, lvt, lts⟩ := hk fsv fvt fts
    exact ⟨m1, hm1, hf, lsv, lvt, lts, r0, r1, r2⟩

/-- C8, at the seed facet 0 built on the vertices 0, 1, 2 of the sample
cloud, and at facet 1 built on edge 0 (0→1) of the seed heap and vertex 3. -/
theorem Facet.ctor_links_facet_witness :
    (∃ m1, Facet.ctor id sampleCloud 0 0 1 2 ⟨0, 0, 0⟩ = some m1 ∧
      m1.facets 0 = some ⟨0, 1, 2, ⟨0, 0, 0⟩⟩ ∧
      m1.LinkedBy 0 1 0 ∧ m1.LinkedBy 1 2 0 ∧ m1.LinkedBy 2 0 0 ∧
      0 ∈ (m1.vertices 0).m_adjacentFacets ∧ 0 ∈ (m1.vertices 1).m_adjacentFacets ∧
      0 ∈ (m1.vertices 2).m_adjacentFacets) ∧
    (∃ m1, Facet.ctorOnEdge id seedMesh 1 0 3 ⟨0, 0, 0⟩ = some m1 ∧
      m1.facets 1 = some ⟨0, 3, 1, ⟨0, 0, 0⟩⟩ ∧
      m1.LinkedBy 0 3 1 ∧ m1.LinkedBy 3 1 1 ∧ m1.LinkedBy 1 0 1 ∧
      1 ∈ (m1.vertices 0).m_adjacentFacets ∧ 1 ∈ (m1.vertices 3).m_adjacentFacets ∧
      1 ∈ (m1.vertices 1).m_adjacentFacets) :=
  ⟨(Facet.ctor_links_facet id sampleCloud 0 ⟨0, 0, 0⟩ sampleCloud_live).1 0 1 2
      (by decide) (by decide) (by decide) (sampleCloud_linkFree 0 1)
      (sampleCloud_linkFree 1 2) (sampleCloud_linkFree 2 0),
    (Facet.ctor_links_facet id seedMesh 1 ⟨0, 0, 0⟩ seedMesh_live).2 0 3
      ⟨0, 1, some 0, none, 1⟩ rfl rfl (by decide) (by decide) (by decide)
      (seedMesh_linkFree 0 3) (seedMesh_linkFree 3 1) (seedMesh_linkFree 1 0)⟩

/-- C9: the facet constructors keep edge uniqueness.  On a heap whose
adjacent-edge sets hold live edges and in which two distinct vertices share at
most one edge, constructing a facet on three pairwise distinct vertices (by
either kind of constructor) returns a heap in which two distinct vertices
still share at most one edge; the number of edges created is the number of
pairs of the triangle that had no linking edge. -/
theorem Facet.ctor_keeps_uniqueEdges (normalize : K × K × K → K × K × K) (m : Mesh K)
    (self : Nat) (c : Point K) (hlive : m.AdjacencyLive) (hu : m.UniqueEdges) :
    (∀ v0 v1 v2, v0 ≠ v1 → v1 ≠ v2 → v2 ≠ v0 →
      ∃ m1, Facet.ctor normalize m self v0 v1 v2 c = some m1 ∧ m1.UniqueEdges ∧
        m1.nextEdge = m.nextEdge
          + (if (m.vertices v0).getLinkingEdge (m.vertices v1) = none then 1 else 0)
          + (if (m.vertices v1).getLinkingEdge (m.vertices v2) = none then 1 else 0)
          + (if (m.vertices v2).getLinkingEdge (m.vertices v0) = none then 1 else 0)) ∧
    (∀ edge vertex ed, m.edges edge = some ed →
      (m.vertices ed.m_tgt).getLinkingEdge (m.vertices ed.m_src) = some edge →
      ed.m_src ≠ vertex → vertex ≠ ed.m_tgt → ed.m_tgt ≠ ed.m_src →
      ∃ m1, Facet.ctorOnEdge normalize m self edge vertex c = some m1 ∧ m1.UniqueEdges ∧
        m1.nextEdge = m.nextEdge
          + (if (m.vertices ed.m_src).getLinkingEdge (m.vertices vertex) = none
              then 1 else 0)
          + (if (m.vertices vertex).getLinkingEdge (m.vertices ed.m_tgt) = none
              then 1 else 0)) := by
  constructor
  · intro v0 v1 v2 h01 h12 h20
    obtain ⟨m1, hm1, -, -, -, -, -, hu1, -, hn⟩ :=
      Facet.ctor_spec normalize m self v0 v1 v2 c hlive h01 h12 h20
    exact ⟨m1, hm1, hu1 hu, hn⟩
  · intro edge vertex ed hed hlink hsv hvt hts
    obtain ⟨m1, hm1, -, -, -, -, -, hu1, -, hn⟩ :=
      Facet.ctorOnEdge_spec normalize m self edge vertex c ed hlive hed hlink hsv hvt hts
    exact ⟨m1, hm1, hu1 hu, hn⟩

/-- In the seed heap the three edges join three different pairs. -/
theorem seedMesh_uniqueEdges : seedMesh.UniqueEdges := by
  have hv : ∀ w, (w = 0 ∧ (seedMesh.vertices w).m_adjacentEdges = [0, 2]) ∨
      (w = 1 ∧ (seedMesh.vertices w).m_adjacentEdges = [0, 1]) ∨
      (w = 2 ∧ (seedMesh.vertices w).m_adjacentEdges = [1, 2]) ∨
      (seedMesh.vertices w).m_adjacentEdges = [] := by
    intro w
    unfold seedMesh
    dsimp only
    split
    · exact Or.inl ⟨rfl, rfl⟩
    · exact Or.inr (Or.inl ⟨rfl, rfl⟩)
    · exact Or.inr (Or.inr (Or.inl ⟨rfl, rfl⟩))
    · exact Or.inr (Or.inr (Or.inr rfl))
  intro u v huv e1 e2 h1u h1v h2u h2v
  rcases hv u with ⟨hu, h⟩ | ⟨hu, h⟩ | ⟨hu, h⟩ | h <;> rw [h] at h1u h2u <;>
    rcases hv v with ⟨hw, k⟩ | ⟨hw, k⟩ | ⟨hw, k⟩ | k <;> rw [k] at h1v h2v <;>
    simp at h1u h2u h1v h2v <;> omega

/-- C9, at the seed facet built on the sample cloud (three edges created) and
at facet 1 built on edge 0 of the seed heap and vertex 3 (two edges
created). -/
theorem Facet.ctor_keeps_uniqueEdges_witness :
    (∃ m1, Facet.ctor id sampleCloud 0 0 1 2 ⟨0, 0, 0⟩ = some m1 ∧ m1.UniqueEdges ∧
      m1.nextEdge = 3) ∧
    (∃ m1, Facet.ctorOnEdge id seedMesh 1 0 3 ⟨0, 0, 0⟩ = some m1 ∧ m1.UniqueEdges ∧
      m1.nextEdge = 5) :=
  ⟨(Facet.ctor_keeps_uniqueEdges id sampleCloud 0 ⟨0, 0, 0⟩ sampleCloud_live
      sampleCloud_uniqueEdges).1 0 1 2 (by decide) (by decide) (by decide),
    (Facet.ctor_keeps_uniqueEdges id seedMesh 1 ⟨0, 0, 0⟩ seedMesh_live
      seedMesh_uniqueEdges).2 0 3 ⟨0, 1, some 0, none, 1⟩ rfl rfl
      (by decide) (by decide) (by decide)⟩

/-- C10, evaluated: the seed facet 0 is built on the vertices 0, 1, 2 of the
sample cloud and then destroyed.  Its edges 0 and 1 are erased from their end
vertices and deleted, but its third edge, edge 2 between the vertices 2 and 0,
has no other facet and yet stays live, stays in the adjacent-edge sets of both
its ends, and still refers to the destroyed facet in `facet1`. -/
theorem Facet.dtor_leaves_third_edge :
    ((Facet.ctor id sampleCloud 0 0 1 2 ⟨0, 0, 0⟩).bind (fun m => Facet.dtor m 0)).map
      (fun m => (m.facets 0, m.edges 0, m.edges 1, m.edges 2,
        (m.vertices 0).m_adjacentEdges, (m.vertices 1).m_adjacentEdges,
        (m.vertices 2).m_adjacentEdges))
    = some (none, none, none, some ⟨2, 0, some 0, none, 1⟩, [2], [], [2]) := by
  rfl

end FacetTheorems

/-! ## The pivoting ball: center, radius and degenerate triangles -/

section MesherGeometry
variable {K : Type} [LinearOrderedField K]

/-- The weights of the circumcenter, in terms of the squared lengths `b`, `c`
of two sides and their dot product `g`. -/
theorem circum_key (a b c g T : K) (ha : a = b + c - 2 * g)
    (hT : T = a * (b + c - a) + b * (a + c - b) + c * (a + b - c)) :
    (b * (a + c - b)) ^ 2 * c + 2 * (b * (a + c - b)) * (c * (a + b - c)) * g
        + (c * (a + b - c)) ^ 2 * b = a * b * c * T ∧
    (b * (a + c - b) - T) ^ 2 * c + 2 * (b * (a + c - b) - T) * (c * (a + b - c)) * g
        + (c * (a + b - c)) ^ 2 * b = a * b * c * T ∧
    (b * (a + c - b)) ^ 2 * c + 2 * (b * (a + c - b)) * (c * (a + b - c) - T) * g
        + (c * (a + b - c) - T) ^ 2 * b = a * b * c * T := by
  subst hT
  subst ha
  refine ⟨by ring, by ring, by ring⟩

theorem circum_vec (u1 u2 u3 w1 w2 w3 B C : K) :
    (B * u1 + C * w1) * (B * u1 + C * w1) + (B * u2 + C * w2) * (B * u2 + C * w2)
        + (B * u3 + C * w3) * (B * u3 + C * w3)
      = B ^ 2 * (u1 * u1 + u2 * u2 + u3 * u3) + 2 * B * C * (u1 * w1 + u2 * w2 + u3 * w3)
        + C ^ 2 * (w1 * w1 + w2 * w2 + w3 * w3) := by
  ring

theorem circum_dist_aux (x1 y1 z1 x2 y2 z2 x3 y3 z3 a b c T : K)
    (hc : c = (x2 - x1) * (x2 - x1) + (y2 - y1) * (y2 - y1) + (z2 - z1) * (z2 - z1))
    (hb : b = (x1 - x3) * (x1 - x3) + (y1 - y3) * (y1 - y3) + (z1 - z3) * (z1 - z3))
    (ha : a = (x3 - x2) * (x3 - x2) + (y3 - y2) * (y3 - y2) + (z3 - z2) * (z3 - z2))
    (hT : T = a * (b + c - a) + b * (a + c - b) + c * (a + b - c)) (hT0 : T ≠ 0)
    (px py pz : K)
    (hpx : px = a * (b + c - a) / T * x1 + b * (a + c - b) / T * x2 + c * (a + b - c) / T * x3)
    (hpy : py = a * (b + c - a) / T * y1 + b * (a + c - b) / T * y2 + c * (a + b - c) / T * y3)
    (hpz : pz = a * (b + c - a) / T * z1 + b * (a + c - b) / T * z2
      + c * (a + b - c) / T * z3) :
    (px - x1) * (px - x1) + (py - y1) * (py - y1) + (pz - z1) * (pz - z1) = a * b * c / T ∧
    (px - x2) * (px - x2) + (py - y2) * (py - y2) + (pz - z2) * (pz - z2) = a * b * c / T ∧
    (px - x3) * (px - x3) + (py - y3) * (py - y3) + (pz - z3) * (pz - z3) = a * b * c / T := by
  have hag : a = b + c - 2 * ((x2 - x1) * (x3 - x1) + (y2 - y1) * (y3 - y1)
      + (z2 - z1) * (z3 - z1)) := by
    rw [ha, hb, hc]
    ring
  obtain ⟨k1, k2, k3⟩ := circum_key a b c _ T hag hT
  have hb1 : (x3 - x1) * (x3 - x1) + (y3 - y1) * (y3 - y1) + (z3 - z1) * (z3 - z1) = b := by
    rw [hb]
    ring
  have main : ∀ B C : K,
      B ^ 2 * c + 2 * B * C * ((x2 - x1) * (x3 - x1) + (y2 - y1) * (y3 - y1)
        + (z2 - z1) * (z3 - z1)) + C ^ 2 * b = a * b * c * T →
      ∀ X Y Z : K, X = (B * (x2 - x1) + C * (x3 - x1)) / T →
        Y = (B * (y2 - y1) + C * (y3 - y1)) / T → Z = (B * (z2 - z1) + C * (z3 - z1)) / T →
        X * X + Y * Y + Z * Z = a * b * c / T := by
    intro B C hk X Y Z hX hY hZ
    rw [hX, hY, hZ, div_mul_div_comm, div_mul_div_comm, div_mul_div_comm, ← add_div, ← add_div,
      circum_vec, ← hc, hb1, hk]
    field_simp
    ring
  have hA : a * (b + c - a) = T - b * (a + c - b) - c * (a + b - c) := by
    rw [hT]
    ring
  refine ⟨main _ _ k1 _ _ _ ?_ ?_ ?_, main _ _ k2 _ _ _ ?_ ?_ ?_, main _ _ k3 _ _ _ ?_ ?_ ?_⟩ <;>
    first
      | (rw [hpx, hA]; field_simp; ring)
      | (rw [hpy, hA]; field_simp; ring)
      | (rw [hpz, hA]; field_simp; ring)

theorem Mesher.dist2_circumcenter (v1 v2 v3 : Vertex K) (hτ : Mesher.tau v1 v2 v3 ≠ 0) :
    dist2 (Mesher.circumcenter v1 v2 v3) v1.pos
      = dist2 v3.pos v2.pos * dist2 v1.pos v3.pos * dist2 v2.pos v1.pos / Mesher.tau v1 v2 v3 ∧
    dist2 (Mesher.circumcenter v1 v2 v3) v2.pos
      = dist2 v3.pos v2.pos * dist2 v1.pos v3.pos * dist2 v2.pos v1.pos / Mesher.tau v1 v2 v3 ∧
    dist2 (Mesher.circumcenter v1 v2 v3) v3.pos
      = dist2 v3.pos v2.pos * dist2 v1.pos v3.pos * dist2 v2.pos v1.pos
        / Mesher.tau v1 v2 v3 :=
  circum_dist_aux _ _ _ _ _ _ _ _ _ _ _ _ _ rfl rfl rfl rfl hτ _ _ _ rfl rfl rfl
/-- Mesher::computeBallCenter in terms of the named quantities. -/
theorem Mesher.computeBallCenter_eq (env : Env K) (s : Mesher K) (v1 v2 v3 : Vertex K) :
    Mesher.computeBallCenter env s v1 v2 v3 =
      if Mesher.tau v1 v2 v3 < 1 / 10 ^ 30 then none
      else if 0 ≤ s.m_sq_ball_radius - Mesher.sqCircumradius env.sqrt v1 v2 v3 then
        some ⟨(Mesher.circumcenter v1 v2 v3).x
            + env.sqrt (s.m_sq_ball_radius - Mesher.sqCircumradius env.sqrt v1 v2 v3)
              * (Mesher.computeNormal env v1 v2 v3).1,
          (Mesher.circumcenter v1 v2 v3).y
            + env.sqrt (s.m_sq_ball_radius - Mesher.sqCircumradius env.sqrt v1 v2 v3)
              * (Mesher.computeNormal env v1 v2 v3).2.1,
          (Mesher.circumcenter v1 v2 v3).z
            + env.sqrt (s.m_sq_ball_radius - Mesher.sqCircumradius env.sqrt v1 v2 v3)
              * (Mesher.computeNormal env v1 v2 v3).2.2⟩
      else none := rfl

/-- The sum `alpha + beta + gamma` is four times the squared norm of the cross
product of two sides (sixteen times the squared area). -/
theorem Mesher.tau_eq_crossNorm2 (v1 v2 v3 : Vertex K) :
    Mesher.tau v1 v2 v3 = 4 * Mesher.crossNorm2 v1 v2 v3 := by
  simp only [Mesher.tau, Mesher.crossNorm2, dist2, cross_product]
  ring

/-- Heron: with exact square roots of the squared side lengths, the divisor of
`sq_circumradius` is `alpha + beta + gamma`. -/
theorem Mesher.heron (sqrt : K → K) (v1 v2 v3 : Vertex K)
    (ha : ExactSqrt sqrt (dist2 v3.pos v2.pos)) (hb : ExactSqrt sqrt (dist2 v1.pos v3.pos))
    (hc : ExactSqrt sqrt (dist2 v2.pos v1.pos)) :
    (sqrt (dist2 v3.pos v2.pos) + sqrt (dist2 v1.pos v3.pos) + sqrt (dist2 v2.pos v1.pos))
      * (sqrt (dist2 v1.pos v3.pos) + sqrt (dist2 v2.pos v1.pos) - sqrt (dist2 v3.pos v2.pos))
      * (sqrt (dist2 v2.pos v1.pos) + sqrt (dist2 v3.pos v2.pos) - sqrt (dist2 v1.pos v3.pos))
      * (sqrt (dist2 v3.pos v2.pos) + sqrt (dist2 v1.pos v3.pos) - sqrt (dist2 v2.pos v1.pos))
      = Mesher.tau v1 v2 v3 := by
  unfold Mesher.tau
  generalize dist2 v3.pos v2.pos = a at *
  generalize dist2 v1.pos v3.pos = b at *
  generalize dist2 v2.pos v1.pos = c at *
  obtain ⟨-, ha⟩ := ha
  obtain ⟨-, hb⟩ := hb
  obtain ⟨-, hc⟩ := hc
  generalize sqrt a = sa at *
  generalize sqrt b = sb at *
  generalize sqrt c = sc at *
  subst ha hb hc
  ring

theorem Mesher.sqCircumradius_eq (sqrt : K → K) (v1 v2 v3 : Vertex K)
    (ha : ExactSqrt sqrt (dist2 v3.pos v2.pos)) (hb : ExactSqrt sqrt (dist2 v1.pos v3.pos))
    (hc : ExactSqrt sqrt (dist2 v2.pos v1.pos)) :
    Mesher.sqCircumradius sqrt v1 v2 v3
      = dist2 v3.pos v2.pos * dist2 v1.pos v3.pos * dist2 v2.pos v1.pos
        / Mesher.tau v1 v2 v3 := by
  unfold Mesher.sqCircumradius
  dsimp only
  rw [Mesher.heron sqrt v1 v2 v3 ha hb hc]

/-- The squared distance from a point moved by `t` along `n`. -/
theorem dist2_offset (P p : Point K) (t : K) (n : K × K × K) :
    dist2 ⟨P.x + t * n.1, P.y + t * n.2.1, P.z + t * n.2.2⟩ p
      = dist2 P p
        + 2 * t * (n.1 * (P.x - p.x) + n.2.1 * (P.y - p.y) + n.2.2 * (P.z - p.z))
        + t * t * (n.1 * n.1 + n.2.1 * n.2.1 + n.2.2 * n.2.2) := by
  simp only [dist2]
  ring

/-- The model of `normalize` scales by a positive factor, whatever the square
root is. -/
theorem normalizeWith_scaling (sqrt : K → K) : PositiveScaling (normalizeWith sqrt) := by
  intro v
  unfold normalizeWith
  split_ifs with h
  · exact ⟨1, one_pos, by simp⟩
  · have hpos : 0 < sqrt (v.1 * v.1 + v.2.1 * v.2.1 + v.2.2 * v.2.2) :=
      lt_of_lt_of_le (by positivity) (not_lt.mp h)
    refine ⟨1 / sqrt (v.1 * v.1 + v.2.1 * v.2.1 + v.2.2 * v.2.2), by positivity, ?_⟩
    simp only [one_div, div_eq_inv_mul, mul_one]

/-- With an exact square root of its squared norm, a vector that is not tiny is
normalised to a unit vector. -/
theorem normalizeWith_unit (sqrt : K → K) (v : K × K × K)
    (hex : ExactSqrt sqrt (v.1 * v.1 + v.2.1 * v.2.1 + v.2.2 * v.2.2))
    (hbig : 1 / 10 ^ 600 ≤ v.1 * v.1 + v.2.1 * v.2.1 + v.2.2 * v.2.2) :
    (normalizeWith sqrt v).1 * (normalizeWith sqrt v).1
      + (normalizeWith sqrt v).2.1 * (normalizeWith sqrt v).2.1
      + (normalizeWith sqrt v).2.2 * (normalizeWith sqrt v).2.2 = 1 := by
  obtain ⟨h0, hsq⟩ := hex
  unfold normalizeWith
  generalize sqrt (v.1 * v.1 + v.2.1 * v.2.1 + v.2.2 * v.2.2) = N at *
  have hN : ¬ N < 1 / 10 ^ 300 := by
    intro hlt
    have h2 : N * N < 1 / 10 ^ 300 * (1 / 10 ^ 300) := mul_lt_mul'' hlt hlt h0 h0
    have h3 : (1 : K) / 10 ^ 300 * (1 / 10 ^ 300) = 1 / 10 ^ 600 := by
      rw [div_mul_div_comm, one_mul, ← pow_add]
    rw [h3, hsq] at h2
    exact absurd hbig (not_le.mpr h2)
  have hpos : 0 < N := lt_of_lt_of_le (by positivity) (not_lt.mp hN)
  rw [if_neg hN]
  dsimp only
  rw [div_mul_div_comm, div_mul_div_comm, div_mul_div_comm, ← add_div, ← add_div, ← hsq]
  exact div_self (mul_pos hpos hpos).ne'


/-- Mesher::computeNormal returns the normalised cross product or its
opposite. -/
theorem Mesher.computeNormal_sign (env : Env K) (v1 v2 v3 : Vertex K) :
    ∃ σ : K, (σ = 1 ∨ σ = -1) ∧
      Mesher.computeNormal env v1 v2 v3 =
        (σ * (normalizeWith env.sqrt (cross_product (v2.pos.x - v1.pos.x)
            (v2.pos.y - v1.pos.y) (v2.pos.z - v1.pos.z) (v3.pos.x - v1.pos.x)
            (v3.pos.y - v1.pos.y) (v3.pos.z - v1.pos.z))).1,
          σ * (normalizeWith env.sqrt (cross_product (v2.pos.x - v1.pos.x)
            (v2.pos.y - v1.pos.y) (v2.pos.z - v1.pos.z) (v3.pos.x - v1.pos.x)
            (v3.pos.y - v1.pos.y) (v3.pos.z - v1.pos.z))).2.1,
          σ * (normalizeWith env.sqrt (cross_product (v2.pos.x - v1.pos.x)
            (v2.pos.y - v1.pos.y) (v2.pos.z - v1.pos.z) (v3.pos.x - v1.pos.x)
            (v3.pos.y - v1.pos.y) (v3.pos.z - v1.pos.z))).2.2) := by
  unfold Mesher.computeNormal
  dsimp only
  split_ifs
  · exact ⟨-1, Or.inr rfl, by simp⟩
  · exact ⟨1, Or.inl rfl, by simp⟩

/-- One coordinate of the circumcenter, seen from each of the three
vertices. -/
theorem circum_offset (x1 x2 x3 A B C T p : K) (hT0 : T ≠ 0) (hsum : A + B + C = T)
    (hp : p = A / T * x1 + B / T * x2 + C / T * x3) :
    p - x1 = (B * (x2 - x1) + C * (x3 - x1)) / T ∧
    p - x2 = ((B - T) * (x2 - x1) + C * (x3 - x1)) / T ∧
    p - x3 = (B * (x2 - x1) + (C - T) * (x3 - x1)) / T := by
  have hA : A = T - B - C := by rw [← hsum]; ring
  subst hp
  subst hA
  refine ⟨?_, ?_, ?_⟩ <;> (field_simp; ring)

/-- The cross product of two vectors is orthogonal to their combinations. -/
theorem cross_dot_comb (u1 u2 u3 w1 w2 w3 B C T : K) :
    (cross_product u1 u2 u3 w1 w2 w3).1 * ((B * u1 + C * w1) / T)
      + (cross_product u1 u2 u3 w1 w2 w3).2.1 * ((B * u2 + C * w2) / T)
      + (cross_product u1 u2 u3 w1 w2 w3).2.2 * ((B * u3 + C * w3) / T) = 0 := by
  simp only [cross_product]
  rw [← mul_div_assoc, ← mul_div_assoc, ← mul_div_assoc, ← add_div, ← add_div]
  have : (u2 * w3 - u3 * w2) * (B * u1 + C * w1) + (u3 * w1 - u1 * w3) * (B * u2 + C * w2)
      + (u1 * w2 - u2 * w1) * (B * u3 + C * w3) = 0 := by ring
  rw [this, zero_div]

/-- The cross product of two sides is orthogonal to the vector from each
vertex to the circumcenter. -/
theorem Mesher.cross_dot_circumcenter (v1 v2 v3 : Vertex K) (hτ : Mesher.tau v1 v2 v3 ≠ 0)
    (n : K × K × K)
    (hn : n = cross_product (v2.pos.x - v1.pos.x) (v2.pos.y - v1.pos.y)
      (v2.pos.z - v1.pos.z) (v3.pos.x - v1.pos.x) (v3.pos.y - v1.pos.y)
      (v3.pos.z - v1.pos.z)) :
    (n.1 * ((Mesher.circumcenter v1 v2 v3).x - v1.pos.x)
      + n.2.1 * ((Mesher.circumcenter v1 v2 v3).y - v1.pos.y)
      + n.2.2 * ((Mesher.circumcenter v1 v2 v3).z - v1.pos.z) = 0) ∧
    (n.1 * ((Mesher.circumcenter v1 v2 v3).x - v2.pos.x)
      + n.2.1 * ((Mesher.circumcenter v1 v2 v3).y - v2.pos.y)
      + n.2.2 * ((Mesher.circumcenter v1 v2 v3).z - v2.pos.z) = 0) ∧
    (n.1 * ((Mesher.circumcenter v1 v2 v3).x - v3.pos.x)
      + n.2.1 * ((Mesher.circumcenter v1 v2 v3).y - v3.pos.y)
      + n.2.2 * ((Mesher.circumcenter v1 v2 v3).z - v3.pos.z) = 0) := by
  obtain ⟨hx1, hx2, hx3⟩ := circum_offset v1.pos.x v2.pos.x v3.pos.x _ _ _ _
    (Mesher.circumcenter v1 v2 v3).x hτ rfl rfl
  obtain ⟨hy1, hy2, hy3⟩ := circum_offset v1.pos.y v2.pos.y v3.pos.y _ _ _ _
    (Mesher.circumcenter v1 v2 v3).y hτ rfl rfl
  obtain ⟨hz1, hz2, hz3⟩ := circum_offset v1.pos.z v2.pos.z v3.pos.z _ _ _ _
    (Mesher.circumcenter v1 v2 v3).z hτ rfl rfl
  subst hn
  refine ⟨?_, ?_, ?_⟩
  · rw [hx1, hy1, hz1]
    exact cross_dot_comb _ _ _ _ _ _ _ _ _
  · rw [hx2, hy2, hz2]
    exact cross_dot_comb _ _ _ _ _ _ _ _ _
  · rw [hx3, hy3, hz3]
    exact cross_dot_comb _ _ _ _ _ _ _ _ _


/-- What a successful call of computeBallCenter has tested and returns. -/
theorem Mesher.computeBallCenter_some (env : Env K) (s : Mesher K) (v1 v2 v3 : Vertex K)
    (ctr : Point K) (hok : Mesher.computeBallCenter env s v1 v2 v3 = some ctr) :
    1 / 10 ^ 30 ≤ Mesher.tau v1 v2 v3 ∧
    0 ≤ s.m_sq_ball_radius - Mesher.sqCircumradius env.sqrt v1 v2 v3 ∧
    ctr = ⟨(Mesher.circumcenter v1 v2 v3).x
          + env.sqrt (s.m_sq_ball_radius - Mesher.sqCircumradius env.sqrt v1 v2 v3)
            * (Mesher.computeNormal env v1 v2 v3).1,
        (Mesher.circumcenter v1 v2 v3).y
          + env.sqrt (s.m_sq_ball_radius - Mesher.sqCircumradius env.sqrt v1 v2 v3)
            * (Mesher.computeNormal env v1 v2 v3).2.1,
        (Mesher.circumcenter v1 v2 v3).z
          + env.sqrt (s.m_sq_ball_radius - Mesher.sqCircumradius env.sqrt v1 v2 v3)
            * (Mesher.computeNormal env v1 v2 v3).2.2⟩ := by
  rw [Mesher.computeBallCenter_eq] at hok
  by_cases h1 : Mesher.tau v1 v2 v3 < 1 / 10 ^ 30
  · rw [if_pos h1] at hok
    cases hok
  · rw [if_neg h1] at hok
    by_cases h2 : 0 ≤ s.m_sq_ball_radius - Mesher.sqCircumradius env.sqrt v1 v2 v3
    · rw [if_pos h2] at hok
      exact ⟨not_lt.mp h1, h2, (Option.some.inj hok).symm⟩
    · rw [if_neg h2] at hok
      cases hok

/-- The normal used by a successful computeBallCenter, under exact square
roots: a unit vector orthogonal to the vectors from the three vertices to the
circumcenter. -/
theorem Mesher.computeNormal_unit_orthogonal (env : Env K) (v1 v2 v3 : Vertex K)
    (hτ : 1 / 10 ^ 30 ≤ Mesher.tau v1 v2 v3)
    (hex : ExactSqrt env.sqrt (Mesher.crossNorm2 v1 v2 v3)) :
    ((Mesher.computeNormal env v1 v2 v3).1 * (Mesher.computeNormal env v1 v2 v3).1
      + (Mesher.computeNormal env v1 v2 v3).2.1 * (Mesher.computeNormal env v1 v2 v3).2.1
      + (Mesher.computeNormal env v1 v2 v3).2.2 * (Mesher.computeNormal env v1 v2 v3).2.2
      = 1) ∧
    ∀ p : Point K, p = v1.pos ∨ p = v2.pos ∨ p = v3.pos →
      (Mesher.computeNormal env v1 v2 v3).1 * ((Mesher.circumcenter v1 v2 v3).x - p.x)
      + (Mesher.computeNormal env v1 v2 v3).2.1 * ((Mesher.circumcenter v1 v2 v3).y - p.y)
      + (Mesher.computeNormal env v1 v2 v3).2.2 * ((Mesher.circumcenter v1 v2 v3).z - p.z)
      = 0 := by
  have hτ0 : Mesher.tau v1 v2 v3 ≠ 0 := (lt_of_lt_of_le (by positivity) hτ).ne'
  obtain ⟨σ, hσ, hn⟩ := Mesher.computeNormal_sign env v1 v2 v3
  have hσ2 : σ * σ = 1 := by
    rcases hσ with h | h <;> rw [h] <;> norm_num
  have hbig : 1 / 10 ^ 600 ≤ Mesher.crossNorm2 v1 v2 v3 := by
    have h4 := Mesher.tau_eq_crossNorm2 v1 v2 v3
    have h5 : (1 : K) / 10 ^ 30 ≤ 4 * Mesher.crossNorm2 v1 v2 v3 := h4 ▸ hτ
    have h6 : (1 : K) / 10 ^ 600 ≤ 1 / 10 ^ 30 / 4 := by norm_num
    have h7 : (1 : K) / 10 ^ 30 / 4 ≤ Mesher.crossNorm2 v1 v2 v3 := by linarith
    exact h6.trans h7
  have hunit := normalizeWith_unit env.sqrt _ hex hbig
  obtain ⟨k, -, hk⟩ := normalizeWith_scaling env.sqrt (cross_product (v2.pos.x - v1.pos.x)
    (v2.pos.y - v1.pos.y) (v2.pos.z - v1.pos.z) (v3.pos.x - v1.pos.x)
    (v3.pos.y - v1.pos.y) (v3.pos.z - v1.pos.z))
  obtain ⟨o1, o2, o3⟩ := Mesher.cross_dot_circumcenter v1 v2 v3 hτ0 _ rfl
  rw [hn]
  constructor
  · dsimp only
    calc σ * _ * (σ * _) + σ * _ * (σ * _) + σ * _ * (σ * _)
        = σ * σ * ((normalizeWith env.sqrt _).1 * (normalizeWith env.sqrt _).1
          + (normalizeWith env.sqrt _).2.1 * (normalizeWith env.sqrt _).2.1
          + (normalizeWith env.sqrt _).2.2 * (normalizeWith env.sqrt _).2.2) := by ring
      _ = 1 := by rw [hσ2, hunit, mul_one]
  · intro p hp
    rw [hk]
    dsimp only
    rcases hp with rfl | rfl | rfl
    · linear_combination (σ * k) * o1
    · linear_combination (σ * k) * o2
    · linear_combination (σ * k) * o3

/-- The squared distances from the returned center to the three vertices,
under exact square roots. -/
theorem Mesher.computeBallCenter_dist2 (env : Env K) (s : Mesher K) (v1 v2 v3 : Vertex K)
    (ctr : Point K) (hex : Mesher.ExactRoots env s v1 v2 v3)
    (hok : Mesher.computeBallCenter env s v1 v2 v3 = some ctr) :
    dist2 ctr v1.pos = s.m_sq_ball_radius ∧ dist2 ctr v2.pos = s.m_sq_ball_radius ∧
    dist2 ctr v3.pos = s.m_sq_ball_radius := by
  obtain ⟨ha, hb, hc, hcr, hh⟩ := hex
  obtain ⟨hτ, hh0, hctr⟩ := Mesher.computeBallCenter_some env s v1 v2 v3 ctr hok
  have hτ0 : Mesher.tau v1 v2 v3 ≠ 0 := (lt_of_lt_of_le (by positivity) hτ).ne'
  obtain ⟨-, hsq⟩ := hh hh0
  obtain ⟨hunit, horth⟩ := Mesher.computeNormal_unit_orthogonal env v1 v2 v3 hτ hcr
  obtain ⟨d1, d2, d3⟩ := Mesher.dist2_circumcenter v1 v2 v3 hτ0
  have hρ := Mesher.sqCircumradius_eq env.sqrt v1 v2 v3 ha hb hc
  have key : ∀ p : Point K, p = v1.pos ∨ p = v2.pos ∨ p = v3.pos →
      dist2 (Mesher.circumcenter v1 v2 v3) p = Mesher.sqCircumradius env.sqrt v1 v2 v3 →
      dist2 ctr p = s.m_sq_ball_radius := by
    intro p hp hd
    rw [hctr, dist2_offset, horth p hp, hunit, hd, hsq]
    ring
  exact ⟨key _ (Or.inl rfl) (by rw [d1, hρ]), key _ (Or.inr (Or.inl rfl)) (by rw [d2, hρ]),
    key _ (Or.inr (Or.inr rfl)) (by rw [d3, hρ])⟩

/-- Mesher::computeBallCenter fails exactly on its two tests. -/
theorem Mesher.computeBallCenter_none (env : Env K) (s : Mesher K) (v1 v2 v3 : Vertex K) :
    Mesher.computeBallCenter env s v1 v2 v3 = none ↔
      Mesher.tau v1 v2 v3 < 1 / 10 ^ 30 ∨
        s.m_sq_ball_radius - Mesher.sqCircumradius env.sqrt v1 v2 v3 < 0 := by
  rw [Mesher.computeBallCenter_eq]
  by_cases h1 : Mesher.tau v1 v2 v3 < 1 / 10 ^ 30
  · rw [if_pos h1]
    exact ⟨fun _ => Or.inl h1, fun _ => rfl⟩
  · rw [if_neg h1]
    by_cases h2 : 0 ≤ s.m_sq_ball_radius - Mesher.sqCircumradius env.sqrt v1 v2 v3
    · rw [if_pos h2]
      constructor
      · intro h
        cases h
      · rintro (h | h)
        · exact absurd h h1
        · exact absurd h2 (not_le.mpr h)
    · rw [if_neg h2]
      exact ⟨fun _ => Or.inr (not_le.mp h2), fun _ => rfl⟩

/-- C12: Mesher::computeBallCenter returns false, writing no center, if and
only if `tau = alpha + beta + gamma < 1e-30` or `r^2 - sq_circumradius < 0`,
where `a = dist2(v3,v2)`, `b = dist2(v1,v3)`, `c = dist2(v2,v1)`,
`alpha = a(b+c-a)`, `beta = b(a+c-b)`, `gamma = c(a+b-c)`; with `tau` at least
1e-30, a squared circumradius equal to `r^2` succeeds. -/
theorem Mesher.computeBallCenter_fails_iff (env : Env K) (s : Mesher K)
    (v1 v2 v3 : Vertex K) :
    (Mesher.tau v1 v2 v3 =
      dist2 v3.pos v2.pos
          * (dist2 v1.pos v3.pos + dist2 v2.pos v1.pos - dist2 v3.pos v2.pos)
        + dist2 v1.pos v3.pos
          * (dist2 v3.pos v2.pos + dist2 v2.pos v1.pos - dist2 v1.pos v3.pos)
        + dist2 v2.pos v1.pos
          * (dist2 v3.pos v2.pos + dist2 v1.pos v3.pos - dist2 v2.pos v1.pos)) ∧
    (Mesher.computeBallCenter env s v1 v2 v3 = none ↔
      Mesher.tau v1 v2 v3 < 1 / 10 ^ 30 ∨
        s.m_sq_ball_radius - Mesher.sqCircumradius env.sqrt v1 v2 v3 < 0) ∧
    (1 / 10 ^ 30 ≤ Mesher.tau v1 v2 v3 →
      Mesher.sqCircumradius env.sqrt v1 v2 v3 = s.m_sq_ball_radius →
      ∃ ctr, Mesher.computeBallCenter env s v1 v2 v3 = some ctr) := by
  refine ⟨rfl, Mesher.computeBallCenter_none env s v1 v2 v3, ?_⟩
  intro hτ hρ
  cases hres : Mesher.computeBallCenter env s v1 v2 v3 with
  | some ctr => exact ⟨ctr, rfl⟩
  | none =>
    rcases (Mesher.computeBallCenter_none env s v1 v2 v3).mp hres with h | h
    · exact absurd hτ (not_le.mpr h)
    · rw [hρ, sub_self] at h
      exact absurd h (lt_irrefl 0)

theorem dist2_comm (p q : Point K) : dist2 p q = dist2 q p := by
  simp only [dist2]
  ring

theorem dist2_self (p : Point K) : dist2 p p = 0 := by
  simp only [dist2]
  ring

/-- With two of the three positions equal, `alpha + beta + gamma` is zero. -/
theorem Mesher.tau_coincident (v1 v2 v3 : Vertex K)
    (h : v1.pos = v2.pos ∨ v2.pos = v3.pos ∨ v3.pos = v1.pos) : Mesher.tau v1 v2 v3 = 0 := by
  unfold Mesher.tau
  rcases h with h | h | h
  · rw [h, dist2_self, dist2_comm v2.pos v3.pos]
    ring
  · rw [h, dist2_self, dist2_comm v3.pos v1.pos]
    ring
  · rw [h, dist2_self, dist2_comm v2.pos v1.pos]
    ring

theorem Mesher.computeBallCenter_of_tau_zero (env : Env K) (s : Mesher K)
    (v1 v2 v3 : Vertex K) (h : Mesher.tau v1 v2 v3 = 0) :
    Mesher.computeBallCenter env s v1 v2 v3 = none := by
  rw [Mesher.computeBallCenter_none]
  left
  rw [h]
  positivity

/-- C14: for every triple of vertices in which two of the three positions
coincide, `tau` is 0, below 1e-30, and computeBallCenter returns false,
whatever the radius. -/
theorem Mesher.computeBallCenter_coincident (env : Env K) (s : Mesher K)
    (v1 v2 v3 : Vertex K) (h : v1.pos = v2.pos ∨ v2.pos = v3.pos ∨ v3.pos = v1.pos) :
    Mesher.tau v1 v2 v3 = 0 ∧ Mesher.tau v1 v2 v3 < 1 / 10 ^ 30 ∧
      ∀ r : K, Mesher.computeBallCenter env (s.setBallRadius r) v1 v2 v3 = none := by
  have h0 := Mesher.tau_coincident v1 v2 v3 h
  refine ⟨h0, ?_, fun r => Mesher.computeBallCenter_of_tau_zero env _ v1 v2 v3 h0⟩
  rw [h0]
  positivity

/-- C14, at two samples of the scene taken as a triple with a repeated
position. -/
theorem Mesher.computeBallCenter_coincident_witness :
    Mesher.tau (rectHeap.vertices 0) (rectHeap.vertices 0) (rectHeap.vertices 1) = 0 ∧
    Mesher.tau (rectHeap.vertices 0) (rectHeap.vertices 0) (rectHeap.vertices 1) < 1 / 10 ^ 30 ∧
    ∀ r : ℚ, Mesher.computeBallCenter rectEnv (rectMesher.setBallRadius r)
      (rectHeap.vertices 0) (rectHeap.vertices 0) (rectHeap.vertices 1) = none :=
  Mesher.computeBallCenter_coincident rectEnv rectMesher (rectHeap.vertices 0)
    (rectHeap.vertices 0) (rectHeap.vertices 1) (Or.inl rfl)

/-- Collinear positions make `alpha + beta + gamma` zero. -/
theorem Mesher.tau_collinear (v1 v2 v3 : Vertex K) (h : Collinear v1.pos v2.pos v3.pos) :
    Mesher.tau v1 v2 v3 = 0 := by
  rw [Mesher.tau_eq_crossNorm2]
  unfold Collinear at h
  unfold Mesher.crossNorm2
  rw [h]
  simp

/-- C11: whenever Mesher::computeBallCenter succeeds for the ball radius `r`
(set by setBallRadius), with exact square roots, the returned center is at
squared distance `r * r` from each of the three vertices; for a non-negative
radius its distance to each of them, the non-negative number whose square is
that squared distance, is exactly `r`. -/
theorem Mesher.computeBallCenter_equidistant (env : Env K) (s : Mesher K) (r : K)
    (v1 v2 v3 : Vertex K) (ctr : Point K)
    (hex : Mesher.ExactRoots env (s.setBallRadius r) v1 v2 v3)
    (hok : Mesher.computeBallCenter env (s.setBallRadius r) v1 v2 v3 = some ctr) :
    dist2 ctr v1.pos = r * r ∧ dist2 ctr v2.pos = r * r ∧ dist2 ctr v3.pos = r * r ∧
    (0 ≤ r → ∀ d : K, 0 ≤ d →
      d * d = dist2 ctr v1.pos ∨ d * d = dist2 ctr v2.pos ∨ d * d = dist2 ctr v3.pos →
      d = r) := by
  obtain ⟨h1, h2, h3⟩ := Mesher.computeBallCenter_dist2 env _ v1 v2 v3 ctr hex hok
  have hr : (s.setBallRadius r).m_sq_ball_radius = r * r := rfl
  rw [hr] at h1 h2 h3
  refine ⟨h1, h2, h3, ?_⟩
  intro hr0 d hd hdd
  have hsq : d * d = r * r := by
    rcases hdd with h | h | h
    · rw [h, h1]
    · rw [h, h2]
    · rw [h, h3]
  exact (mul_self_inj hd hr0).mp hsq

/-- The rational square root is exact on squares. -/
theorem ratSqrt_mul_self (q : ℚ) (hq : 0 ≤ q) : ratSqrt (q * q) = q := by
  unfold ratSqrt
  rw [Rat.mul_self_num, Rat.mul_self_den]
  have hn : 0 ≤ q.num := Rat.num_nonneg.mpr hq
  obtain ⟨n, hn1⟩ := Int.eq_ofNat_of_zero_le hn
  rw [hn1]
  have h1 : ((n : ℤ) * (n : ℤ)).toNat = n * n := by
    rw [← Int.natCast_mul, Int.toNat_natCast]
  rw [h1, Nat.sqrt_eq, Nat.sqrt_eq]
  have h2 := Rat.num_div_den q
  rw [hn1, Int.cast_natCast] at h2
  exact h2

theorem ratSqrt_of_sq (q r : ℚ) (hr : 0 ≤ r) (h : r * r = q) : ratSqrt q = r := by
  subst h
  exact ratSqrt_mul_self r hr

theorem ratSqrt_exact (q r : ℚ) (hr : 0 ≤ r) (h : r * r = q) : ExactSqrt ratSqrt q := by
  unfold ExactSqrt
  rw [ratSqrt_of_sq q r hr h]
  exact ⟨hr, h⟩

/-- The square roots met in the sample scene. -/
theorem rect_sqrt_values :
    ratSqrt 34225 = 185 ∧ ratSqrt 10816 = 104 ∧ ratSqrt 23409 = 153 ∧
    ratSqrt 253191744 = 15912 ∧ ratSqrt 112896 = 336 ∧ ratSqrt 9 = 3 ∧
    ratSqrt 115600 = 340 :=
  ⟨ratSqrt_of_sq _ _ (by norm_num) (by norm_num), ratSqrt_of_sq _ _ (by norm_num) (by norm_num),
    ratSqrt_of_sq _ _ (by norm_num) (by norm_num), ratSqrt_of_sq _ _ (by norm_num) (by norm_num),
    ratSqrt_of_sq _ _ (by norm_num) (by norm_num), ratSqrt_of_sq _ _ (by norm_num) (by norm_num),
    ratSqrt_of_sq _ _ (by norm_num) (by norm_num)⟩

/-- In the sample scene the ball through the front edge 1→0 and corner 2 has
its center at height 336 above the middle of the rectangle. -/
theorem rect_ball2 :
    Mesher.computeBallCenter rectEnv rectMesher (rectHeap.vertices 1) (rectHeap.vertices 0)
      (rectHeap.vertices 2) = some ⟨153 / 2, 52, 336⟩ := by
  obtain ⟨h1, h2, h3, h4, h5, h6, -⟩ := rect_sqrt_values
  simp only [Mesher.computeBallCenter, Mesher.computeNormal, normalizeWith, cross_product,
    dist2, rectHeap, rectVertex, rectEnv, rectMesher]
  norm_num [h1, h2, h3, h4, h5, h6]

/-- The same ball passes through corner 3. -/
theorem rect_ball3 :
    Mesher.computeBallCenter rectEnv rectMesher (rectHeap.vertices 1) (rectHeap.vertices 0)
      (rectHeap.vertices 3) = some ⟨153 / 2, 52, 336⟩ := by
  obtain ⟨h1, h2, h3, h4, h5, h6, -⟩ := rect_sqrt_values
  simp only [Mesher.computeBallCenter, Mesher.computeNormal, normalizeWith, cross_product,
    dist2, rectHeap, rectVertex, rectEnv, rectMesher]
  norm_num [h1, h2, h3, h4, h5, h6]

theorem rect_exact2_a : ExactSqrt ratSqrt (dist2 (rectHeap.vertices 2).pos (rectHeap.vertices 0).pos) :=
  ratSqrt_exact _ 185 (by norm_num) (by norm_num [dist2, rectHeap, rectVertex])

theorem rect_exact2_b : ExactSqrt ratSqrt (dist2 (rectHeap.vertices 1).pos (rectHeap.vertices 2).pos) :=
  ratSqrt_exact _ 104 (by norm_num) (by norm_num [dist2, rectHeap, rectVertex])

theorem rect_exact2_c : ExactSqrt ratSqrt (dist2 (rectHeap.vertices 0).pos (rectHeap.vertices 1).pos) :=
  ratSqrt_exact _ 153 (by norm_num) (by norm_num [dist2, rectHeap, rectVertex])

theorem rect_exact2_n : ExactSqrt ratSqrt
    (Mesher.crossNorm2 (rectHeap.vertices 1) (rectHeap.vertices 0) (rectHeap.vertices 2)) :=
  ratSqrt_exact _ 15912 (by norm_num)
    (by norm_num [Mesher.crossNorm2, cross_product, rectHeap, rectVertex])

theorem rect_dist2_values :
    dist2 (rectHeap.vertices 2).pos (rectHeap.vertices 0).pos = 34225 ∧
    dist2 (rectHeap.vertices 1).pos (rectHeap.vertices 2).pos = 10816 ∧
    dist2 (rectHeap.vertices 0).pos (rectHeap.vertices 1).pos = 23409 := by
  refine ⟨?_, ?_, ?_⟩ <;> norm_num [dist2, rectHeap, rectVertex]

theorem rect_sqCircumradius2 :
    Mesher.sqCircumradius ratSqrt (rectHeap.vertices 1) (rectHeap.vertices 0)
      (rectHeap.vertices 2) = 34225 / 4 := by
  obtain ⟨h1, h2, h3, h4, h5, h6, -⟩ := rect_sqrt_values
  obtain ⟨d1, d2, d3⟩ := rect_dist2_values
  unfold Mesher.sqCircumradius
  dsimp only
  rw [d1, d2, d3, h1, h2, h3]
  norm_num

theorem rect_exact2_h : ExactSqrt ratSqrt (rectMesher.m_sq_ball_radius -
    Mesher.sqCircumradius ratSqrt (rectHeap.vertices 1) (rectHeap.vertices 0)
      (rectHeap.vertices 2)) := by
  rw [rect_sqCircumradius2]
  exact ratSqrt_exact _ 336 (by norm_num) (by norm_num [rectMesher])

/-- All square roots of that computation are exact. -/
theorem rect_exact2 :
    Mesher.ExactRoots rectEnv rectMesher (rectHeap.vertices 1) (rectHeap.vertices 0)
      (rectHeap.vertices 2) :=
  ⟨rect_exact2_a, rect_exact2_b, rect_exact2_c, rect_exact2_n, fun _ => rect_exact2_h⟩

theorem rect_setBallRadius : rectMesher.setBallRadius (697 / 2) = rectMesher := by
  simp only [Mesher.setBallRadius, rectMesher]
  norm_num

/-- C11, at the ball of radius 697/2 through the corners 1, 0 and 2 of the
sample rectangle: computeBallCenter returns (153/2, 52, 336), which is at
squared distance (697/2)^2 from each of them. -/
theorem Mesher.computeBallCenter_equidistant_witness :
    Mesher.computeBallCenter rectEnv (rectMesher.setBallRadius (697 / 2)) (rectHeap.vertices 1)
      (rectHeap.vertices 0) (rectHeap.vertices 2) = some ⟨153 / 2, 52, 336⟩ ∧
    dist2 (⟨153 / 2, 52, 336⟩ : Point ℚ) (rectHeap.vertices 1).pos = 697 / 2 * (697 / 2) ∧
    dist2 (⟨153 / 2, 52, 336⟩ : Point ℚ) (rectHeap.vertices 0).pos = 697 / 2 * (697 / 2) ∧
    dist2 (⟨153 / 2, 52, 336⟩ : Point ℚ) (rectHeap.vertices 2).pos = 697 / 2 * (697 / 2) :=
  have h := Mesher.computeBallCenter_equidistant rectEnv rectMesher (697 / 2)
    (rectHeap.vertices 1) (rectHeap.vertices 0) (rectHeap.vertices 2) ⟨153 / 2, 52, 336⟩
    (rect_setBallRadius ▸ rect_exact2) (rect_setBallRadius ▸ rect_ball2)
  ⟨rect_setBallRadius ▸ rect_ball2, h.1, h.2.1, h.2.2.1⟩

/-- The model of `normalize` commutes with negation. -/
theorem normalizeWith_neg (sqrt : K → K) (v : K × K × K) :
    normalizeWith sqrt (-v.1, -v.2.1, -v.2.2)
      = (-(normalizeWith sqrt v).1, -(normalizeWith sqrt v).2.1, -(normalizeWith sqrt v).2.2) := by
  unfold normalizeWith
  simp only [neg_mul_neg]
  split_ifs with h
  · rfl
  · simp only [neg_div]

theorem cross_swap12 (p q r : Point K) :
    cross_product (p.x - q.x) (p.y - q.y) (p.z - q.z) (r.x - q.x) (r.y - q.y) (r.z - q.z)
      = (-(cross_product (q.x - p.x) (q.y - p.y) (q.z - p.z)
            (r.x - p.x) (r.y - p.y) (r.z - p.z)).1,
          -(cross_product (q.x - p.x) (q.y - p.y) (q.z - p.z)
            (r.x - p.x) (r.y - p.y) (r.z - p.z)).2.1,
          -(cross_product (q.x - p.x) (q.y - p.y) (q.z - p.z)
            (r.x - p.x) (r.y - p.y) (r.z - p.z)).2.2) := by
  simp only [cross_product, Prod.mk.injEq]
  refine ⟨?_, ?_, ?_⟩ <;> ring

theorem cross_swap23 (p q r : Point K) :
    cross_product (r.x - p.x) (r.y - p.y) (r.z - p.z) (q.x - p.x) (q.y - p.y) (q.z - p.z)
      = (-(cross_product (q.x - p.x) (q.y - p.y) (q.z - p.z)
            (r.x - p.x) (r.y - p.y) (r.z - p.z)).1,
          -(cross_product (q.x - p.x) (q.y - p.y) (q.z - p.z)
            (r.x - p.x) (r.y - p.y) (r.z - p.z)).2.1,
          -(cross_product (q.x - p.x) (q.y - p.y) (q.z - p.z)
            (r.x - p.x) (r.y - p.y) (r.z - p.z)).2.2) := by
  simp only [cross_product, Prod.mk.injEq]
  refine ⟨?_, ?_, ?_⟩ <;> ring

/-- Negating the vector under test does not change the vector chosen by the
sign test of computeNormal, unless the tested dot product is zero. -/
theorem flip_neg (n mn : K × K × K) (h : n.1 * mn.1 + n.2.1 * mn.2.1 + n.2.2 * mn.2.2 ≠ 0) :
    (if (-n.1) * mn.1 + (-n.2.1) * mn.2.1 + (-n.2.2) * mn.2.2 < 0
      then (- -n.1, - -n.2.1, - -n.2.2) else (-n.1, -n.2.1, -n.2.2))
      = (if n.1 * mn.1 + n.2.1 * mn.2.1 + n.2.2 * mn.2.2 < 0
          then (-n.1, -n.2.1, -n.2.2) else n) := by
  have e : (-n.1) * mn.1 + (-n.2.1) * mn.2.1 + (-n.2.2) * mn.2.2
      = -(n.1 * mn.1 + n.2.1 * mn.2.1 + n.2.2 * mn.2.2) := by ring
  rw [e]
  rcases lt_or_gt_of_ne h with hlt | hgt
  · rw [if_neg (by linarith), if_pos hlt]
  · rw [if_pos (by linarith), if_neg (by linarith)]
    simp only [neg_neg]

theorem Mesher.normalDot_swap12 (env : Env K) (v1 v2 v3 : Vertex K) :
    Mesher.normalDot env v2 v1 v3 = -Mesher.normalDot env v1 v2 v3 := by
  unfold Mesher.normalDot
  dsimp only
  rw [cross_swap12, normalizeWith_neg, add_comm v2.m_nx v1.m_nx, add_comm v2.m_ny v1.m_ny,
    add_comm v2.m_nz v1.m_nz]
  ring

theorem Mesher.normalDot_swap23 (env : Env K) (v1 v2 v3 : Vertex K) :
    Mesher.normalDot env v1 v3 v2 = -Mesher.normalDot env v1 v2 v3 := by
  unfold Mesher.normalDot
  dsimp only
  rw [cross_swap23, normalizeWith_neg, add_assoc v1.m_nx, add_comm v3.m_nx, ← add_assoc,
    add_assoc v1.m_ny, add_comm v3.m_ny, ← add_assoc,
    add_assoc v1.m_nz, add_comm v3.m_nz, ← add_assoc]
  ring

theorem Mesher.computeNormal_swap12 (env : Env K) (v1 v2 v3 : Vertex K)
    (h : Mesher.normalDot env v1 v2 v3 ≠ 0) :
    Mesher.computeNormal env v2 v1 v3 = Mesher.computeNormal env v1 v2 v3 := by
  unfold Mesher.computeNormal
  dsimp only
  rw [cross_swap12, normalizeWith_neg, add_comm v2.m_nx v1.m_nx, add_comm v2.m_ny v1.m_ny,
    add_comm v2.m_nz v1.m_nz]
  exact flip_neg _ _ h

theorem Mesher.computeNormal_swap23 (env : Env K) (v1 v2 v3 : Vertex K)
    (h : Mesher.normalDot env v1 v2 v3 ≠ 0) :
    Mesher.computeNormal env v1 v3 v2 = Mesher.computeNormal env v1 v2 v3 := by
  unfold Mesher.computeNormal
  dsimp only
  rw [cross_swap23, normalizeWith_neg, add_assoc v1.m_nx, add_comm v3.m_nx, ← add_assoc,
    add_assoc v1.m_ny, add_comm v3.m_ny, ← add_assoc,
    add_assoc v1.m_nz, add_comm v3.m_nz, ← add_assoc]
  exact flip_neg _ _ h

theorem Mesher.tau_swap12 (v1 v2 v3 : Vertex K) : Mesher.tau v2 v1 v3 = Mesher.tau v1 v2 v3 := by
  simp only [Mesher.tau, dist2]
  ring

theorem Mesher.tau_swap23 (v1 v2 v3 : Vertex K) : Mesher.tau v1 v3 v2 = Mesher.tau v1 v2 v3 := by
  simp only [Mesher.tau, dist2]
  ring

theorem Mesher.sqCircumradius_swap12 (sqrt : K → K) (v1 v2 v3 : Vertex K) :
    Mesher.sqCircumradius sqrt v2 v1 v3 = Mesher.sqCircumradius sqrt v1 v2 v3 := by
  unfold Mesher.sqCircumradius
  dsimp only
  rw [dist2_comm v1.pos v2.pos, dist2_comm v2.pos v3.pos, dist2_comm v3.pos v1.pos]
  ring

theorem Mesher.sqCircumradius_swap23 (sqrt : K → K) (v1 v2 v3 : Vertex K) :
    Mesher.sqCircumradius sqrt v1 v3 v2 = Mesher.sqCircumradius sqrt v1 v2 v3 := by
  unfold Mesher.sqCircumradius
  dsimp only
  rw [dist2_comm v3.pos v1.pos, dist2_comm v1.pos v2.pos, dist2_comm v2.pos v3.pos]
  ring

theorem Mesher.circumcenter_swap12 (v1 v2 v3 : Vertex K) :
    Mesher.circumcenter v2 v1 v3 = Mesher.circumcenter v1 v2 v3 := by
  unfold Mesher.circumcenter
  dsimp only
  rw [Mesher.tau_swap12, dist2_comm v1.pos v2.pos, dist2_comm v2.pos v3.pos,
    dist2_comm v3.pos v1.pos]
  congr 1 <;> ring

theorem Mesher.circumcenter_swap23 (v1 v2 v3 : Vertex K) :
    Mesher.circumcenter v1 v3 v2 = Mesher.circumcenter v1 v2 v3 := by
  unfold Mesher.circumcenter
  dsimp only
  rw [Mesher.tau_swap23, dist2_comm v3.pos v1.pos, dist2_comm v1.pos v2.pos,
    dist2_comm v2.pos v3.pos]
  congr 1 <;> ring

/-- Exchanging the first two vertices does not change the result of
computeBallCenter, when the dot product tested by computeNormal is not zero. -/
theorem Mesher.computeBallCenter_swap12 (env : Env K) (s : Mesher K) (v1 v2 v3 : Vertex K)
    (h : Mesher.normalDot env v1 v2 v3 ≠ 0) :
    Mesher.computeBallCenter env s v2 v1 v3 = Mesher.computeBallCenter env s v1 v2 v3 := by
  rw [Mesher.computeBallCenter_eq, Mesher.computeBallCenter_eq, Mesher.tau_swap12,
    Mesher.sqCircumradius_swap12, Mesher.circumcenter_swap12, Mesher.computeNormal_swap12 env _ _ _ h]

/-- Exchanging the last two vertices does not change it either. -/
theorem Mesher.computeBallCenter_swap23 (env : Env K) (s : Mesher K) (v1 v2 v3 : Vertex K)
    (h : Mesher.normalDot env v1 v2 v3 ≠ 0) :
    Mesher.computeBallCenter env s v1 v3 v2 = Mesher.computeBallCenter env s v1 v2 v3 := by
  rw [Mesher.computeBallCenter_eq, Mesher.computeBallCenter_eq, Mesher.tau_swap23,
    Mesher.sqCircumradius_swap23, Mesher.circumcenter_swap23, Mesher.computeNormal_swap23 env _ _ _ h]

/-- The normal chosen by computeNormal has a non-negative dot product with the
sum of the three vertex normals; that dot product is zero exactly when the
dot product tested by computeNormal is. -/
theorem Mesher.computeNormal_dot_sum (env : Env K) (v1 v2 v3 : Vertex K) :
    0 ≤ (Mesher.computeNormal env v1 v2 v3).1 * (v1.m_nx + v2.m_nx + v3.m_nx)
        + (Mesher.computeNormal env v1 v2 v3).2.1 * (v1.m_ny + v2.m_ny + v3.m_ny)
        + (Mesher.computeNormal env v1 v2 v3).2.2 * (v1.m_nz + v2.m_nz + v3.m_nz) ∧
    (Mesher.normalDot env v1 v2 v3 = 0 →
      (Mesher.computeNormal env v1 v2 v3).1 * (v1.m_nx + v2.m_nx + v3.m_nx)
        + (Mesher.computeNormal env v1 v2 v3).2.1 * (v1.m_ny + v2.m_ny + v3.m_ny)
        + (Mesher.computeNormal env v1 v2 v3).2.2 * (v1.m_nz + v2.m_nz + v3.m_nz) = 0) := by
  obtain ⟨k, hk, hmn⟩ := normalizeWith_scaling env.sqrt
    (v1.m_nx + v2.m_nx + v3.m_nx, v1.m_ny + v2.m_ny + v3.m_ny, v1.m_nz + v2.m_nz + v3.m_nz)
  unfold Mesher.computeNormal Mesher.normalDot
  dsimp only
  rw [hmn]
  dsimp only
  generalize normalizeWith env.sqrt (cross_product (v2.pos.x - v1.pos.x) (v2.pos.y - v1.pos.y)
    (v2.pos.z - v1.pos.z) (v3.pos.x - v1.pos.x) (v3.pos.y - v1.pos.y)
    (v3.pos.z - v1.pos.z)) = n
  generalize v1.m_nx + v2.m_nx + v3.m_nx = sx
  generalize v1.m_ny + v2.m_ny + v3.m_ny = sy
  generalize v1.m_nz + v2.m_nz + v3.m_nz = sz
  have e : n.1 * (k * sx) + n.2.1 * (k * sy) + n.2.2 * (k * sz)
      = k * (n.1 * sx + n.2.1 * sy + n.2.2 * sz) := by ring
  rw [e]
  split_ifs with h
  · dsimp only
    have h1 : n.1 * sx + n.2.1 * sy + n.2.2 * sz < 0 := by
      by_contra hc
      exact absurd h (not_lt.mpr (mul_nonneg hk.le (not_lt.mp hc)))
    refine ⟨by linarith, fun h0 => ?_⟩
    rw [h0] at h
    exact absurd h (lt_irrefl 0)
  · have h1 : 0 ≤ n.1 * sx + n.2.1 * sy + n.2.2 * sz := by
      by_contra hc
      exact h (mul_neg_of_pos_of_neg hk (not_le.mp hc))
    refine ⟨h1, fun h0 => ?_⟩
    rcases mul_eq_zero.mp h0 with hk0 | h2
    · exact absurd hk0 hk.ne'
    · exact h2

/-- C13: whenever Mesher::computeBallCenter succeeds (square roots exact),
the vector from the circumcenter `P` to the returned center has a non-negative
dot product with the sum of the three vertex normals; its squared length is
`r^2` minus the squared circumradius (the squared distance from `P` to a
vertex), so that its length is the square root taken by the code; and when
that dot product is not zero, every other order of the three vertices gives
the same result. -/
theorem Mesher.computeBallCenter_outward (env : Env K) (s : Mesher K) (v1 v2 v3 : Vertex K)
    (ctr : Point K) (hex : Mesher.ExactRoots env s v1 v2 v3)
    (hok : Mesher.computeBallCenter env s v1 v2 v3 = some ctr) :
    0 ≤ Mesher.outwardDot v1 v2 v3 (Mesher.circumcenter v1 v2 v3) ctr ∧
    dist2 ctr (Mesher.circumcenter v1 v2 v3)
      = s.m_sq_ball_radius - dist2 (Mesher.circumcenter v1 v2 v3) v1.pos ∧
    (∀ d : K, 0 ≤ d → d * d = dist2 ctr (Mesher.circumcenter v1 v2 v3) →
      d = env.sqrt (s.m_sq_ball_radius - Mesher.sqCircumradius env.sqrt v1 v2 v3)) ∧
    (Mesher.outwardDot v1 v2 v3 (Mesher.circumcenter v1 v2 v3) ctr ≠ 0 →
      Mesher.computeBallCenter env s v1 v3 v2 = some ctr ∧
      Mesher.computeBallCenter env s v2 v1 v3 = some ctr ∧
      Mesher.computeBallCenter env s v2 v3 v1 = some ctr ∧
      Mesher.computeBallCenter env s v3 v1 v2 = some ctr ∧
      Mesher.computeBallCenter env s v3 v2 v1 = some ctr) := by
  obtain ⟨ha, hb, hc, hcr, hh⟩ := hex
  obtain ⟨hτ, hh0, hctr⟩ := Mesher.computeBallCenter_some env s v1 v2 v3 ctr hok
  have hτ0 : Mesher.tau v1 v2 v3 ≠ 0 := (lt_of_lt_of_le (by positivity) hτ).ne'
  obtain ⟨hs0, hsq⟩ := hh hh0
  obtain ⟨hunit, -⟩ := Mesher.computeNormal_unit_orthogonal env v1 v2 v3 hτ hcr
  obtain ⟨d1, -, -⟩ := Mesher.dist2_circumcenter v1 v2 v3 hτ0
  have hρ := Mesher.sqCircumradius_eq env.sqrt v1 v2 v3 ha hb hc
  obtain ⟨hdot, hzero⟩ := Mesher.computeNormal_dot_sum env v1 v2 v3
  have hout : Mesher.outwardDot v1 v2 v3 (Mesher.circumcenter v1 v2 v3) ctr
      = env.sqrt (s.m_sq_ball_radius - Mesher.sqCircumradius env.sqrt v1 v2 v3)
        * ((Mesher.computeNormal env v1 v2 v3).1 * (v1.m_nx + v2.m_nx + v3.m_nx)
          + (Mesher.computeNormal env v1 v2 v3).2.1 * (v1.m_ny + v2.m_ny + v3.m_ny)
          + (Mesher.computeNormal env v1 v2 v3).2.2 * (v1.m_nz + v2.m_nz + v3.m_nz)) := by
    rw [hctr]
    unfold Mesher.outwardDot
    dsimp only
    ring
  have hlen : dist2 ctr (Mesher.circumcenter v1 v2 v3)
      = s.m_sq_ball_radius - Mesher.sqCircumradius env.sqrt v1 v2 v3 := by
    rw [hctr, dist2_offset, dist2_self, hunit, hsq]
    ring
  refine ⟨?_, ?_, ?_, ?_⟩
  · rw [hout]
    exact mul_nonneg hs0 hdot
  · rw [hlen, d1, hρ]
  · intro d hd hdd
    rw [hlen, ← hsq] at hdd
    exact (mul_self_inj hd hs0).mp hdd
  · intro hne
    have hnd : Mesher.normalDot env v1 v2 v3 ≠ 0 := by
      intro h0
      apply hne
      rw [hout, hzero h0, mul_zero]
    have hnd12 : Mesher.normalDot env v2 v1 v3 ≠ 0 := by
      rw [Mesher.normalDot_swap12]
      exact neg_ne_zero.mpr hnd
    have hnd23 : Mesher.normalDot env v1 v3 v2 ≠ 0 := by
      rw [Mesher.normalDot_swap23]
      exact neg_ne_zero.mpr hnd
    have hnd231 : Mesher.normalDot env v2 v3 v1 ≠ 0 := by
      rw [Mesher.normalDot_swap23]
      exact neg_ne_zero.mpr hnd12
    have e23 := Mesher.computeBallCenter_swap23 env s v1 v2 v3 hnd
    have e12 := Mesher.computeBallCenter_swap12 env s v1 v2 v3 hnd
    have e231 := Mesher.computeBallCenter_swap23 env s v2 v1 v3 hnd12
    have e312 := Mesher.computeBallCenter_swap12 env s v1 v3 v2 hnd23
    have e321 := Mesher.computeBallCenter_swap12 env s v2 v3 v1 hnd231
    refine ⟨?_, ?_, ?_, ?_, ?_⟩
    · rw [e23, hok]
    · rw [e12, hok]
    · rw [e231, e12, hok]
    · rw [e312, e23, hok]
    · rw [e321, e231, e12, hok]

theorem rect_outwardDot2 :
    Mesher.outwardDot (rectHeap.vertices 1) (rectHeap.vertices 0) (rectHeap.vertices 2)
      (Mesher.circumcenter (rectHeap.vertices 1) (rectHeap.vertices 0) (rectHeap.vertices 2))
      ⟨153 / 2, 52, 336⟩ = 1008 := by
  simp only [Mesher.outwardDot, Mesher.circumcenter, Mesher.tau, dist2, rectHeap, rectVertex]
  norm_num

/-- C13, at the ball through the corners 1, 0 and 2 of the sample rectangle:
the center is 336 above the circumcenter, on the side of the normals, and the
call with the vertices in the opposite order returns the same center. -/
theorem Mesher.computeBallCenter_outward_witness :
    Mesher.computeBallCenter rectEnv rectMesher (rectHeap.vertices 1) (rectHeap.vertices 0)
      (rectHeap.vertices 2) = some ⟨153 / 2, 52, 336⟩ ∧
    Mesher.outwardDot (rectHeap.vertices 1) (rectHeap.vertices 0) (rectHeap.vertices 2)
      (Mesher.circumcenter (rectHeap.vertices 1) (rectHeap.vertices 0) (rectHeap.vertices 2))
      ⟨153 / 2, 52, 336⟩ ≠ 0 ∧
    Mesher.computeBallCenter rectEnv rectMesher (rectHeap.vertices 2) (rectHeap.vertices 0)
      (rectHeap.vertices 1) = some ⟨153 / 2, 52, 336⟩ :=
  have hne : Mesher.outwardDot (rectHeap.vertices 1) (rectHeap.vertices 0) (rectHeap.vertices 2)
      (Mesher.circumcenter (rectHeap.vertices 1) (rectHeap.vertices 0) (rectHeap.vertices 2))
      ⟨153 / 2, 52, 336⟩ ≠ 0 := by
    rw [rect_outwardDot2]
    norm_num
  ⟨rect_ball2, hne,
    ((Mesher.computeBallCenter_outward rectEnv rectMesher (rectHeap.vertices 1)
      (rectHeap.vertices 0) (rectHeap.vertices 2) ⟨153 / 2, 52, 336⟩ rect_exact2
      rect_ball2).2.2.2 hne).2.2.2.2⟩

/-! ## Compatibility of normals and the empty-ball tests -/

/-- Vertex::isCompatibleWith(edge) returns true if and only if the unflipped
normal `n = normalize(cross(v - src, tgt - src))`
has a dot product strictly greater than -1e-16 with each of the normals of
`v`, of the source and of the target. -/
theorem Vertex.isCompatibleWith_spec (normalize : K × K × K → K × K × K)
    (v src tgt : Vertex K) :
    Vertex.isCompatibleWith normalize v src tgt = true ↔
      (-(1 / 10 ^ 16) <
          (normalize (cross_product (v.pos.x - src.pos.x) (v.pos.y - src.pos.y)
            (v.pos.z - src.pos.z) (tgt.pos.x - src.pos.x) (tgt.pos.y - src.pos.y)
            (tgt.pos.z - src.pos.z))).1 * v.m_nx
          + (normalize (cross_product (v.pos.x - src.pos.x) (v.pos.y - src.pos.y)
            (v.pos.z - src.pos.z) (tgt.pos.x - src.pos.x) (tgt.pos.y - src.pos.y)
            (tgt.pos.z - src.pos.z))).2.1 * v.m_ny
          + (normalize (cross_product (v.pos.x - src.pos.x) (v.pos.y - src.pos.y)
            (v.pos.z - src.pos.z) (tgt.pos.x - src.pos.x) (tgt.pos.y - src.pos.y)
            (tgt.pos.z - src.pos.z))).2.2 * v.m_nz) ∧
      (-(1 / 10 ^ 16) <
          (normalize (cross_product (v.pos.x - src.pos.x) (v.pos.y - src.pos.y)
            (v.pos.z - src.pos.z) (tgt.pos.x - src.pos.x) (tgt.pos.y - src.pos.y)
            (tgt.pos.z - src.pos.z))).1 * src.m_nx
          + (normalize (cross_product (v.pos.x - src.pos.x) (v.pos.y - src.pos.y)
            (v.pos.z - src.pos.z) (tgt.pos.x - src.pos.x) (tgt.pos.y - src.pos.y)
            (tgt.pos.z - src.pos.z))).2.1 * src.m_ny
          + (normalize (cross_product (v.pos.x - src.pos.x) (v.pos.y - src.pos.y)
            (v.pos.z - src.pos.z) (tgt.pos.x - src.pos.x) (tgt.pos.y - src.pos.y)
            (tgt.pos.z - src.pos.z))).2.2 * src.m_nz) ∧
      (-(1 / 10 ^ 16) <
          (normalize (cross_product (v.pos.x - src.pos.x) (v.pos.y - src.pos.y)
            (v.pos.z - src.pos.z) (tgt.pos.x - src.pos.x) (tgt.pos.y - src.pos.y)
            (tgt.pos.z - src.pos.z))).1 * tgt.m_nx
          + (normalize (cross_product (v.pos.x - src.pos.x) (v.pos.y - src.pos.y)
            (v.pos.z - src.pos.z) (tgt.pos.x - src.pos.x) (tgt.pos.y - src.pos.y)
            (tgt.pos.z - src.pos.z))).2.1 * tgt.m_ny
          + (normalize (cross_product (v.pos.x - src.pos.x) (v.pos.y - src.pos.y)
            (v.pos.z - src.pos.z) (tgt.pos.x - src.pos.x) (tgt.pos.y - src.pos.y)
            (tgt.pos.z - src.pos.z))).2.2 * tgt.m_nz) := by
  unfold Vertex.isCompatibleWith
  simp only [Bool.and_eq_true, decide_eq_true_eq, gt_iff_lt, and_assoc]

/-- C16 (as the code has it): Vertex::isCompatibleWith(edge) returns true if
and only if the unflipped normal `n = normalize(cross(v - src, tgt - src))`
has a dot product strictly greater than -1e-16 with each of the normals of
`v`, of the source and of the target. -/
theorem Vertex.isCompatibleWith_iff_strict (normalize : K × K × K → K × K × K)
    (v src tgt : Vertex K) :
    Vertex.isCompatibleWith normalize v src tgt = true ↔
      (-(1 / 10 ^ 16) <
          (normalize (cross_product (v.pos.x - src.pos.x) (v.pos.y - src.pos.y)
            (v.pos.z - src.pos.z) (tgt.pos.x - src.pos.x) (tgt.pos.y - src.pos.y)
            (tgt.pos.z - src.pos.z))).1 * v.m_nx
          + (normalize (cross_product (v.pos.x - src.pos.x) (v.pos.y - src.pos.y)
            (v.pos.z - src.pos.z) (tgt.pos.x - src.pos.x) (tgt.pos.y - src.pos.y)
            (tgt.pos.z - src.pos.z))).2.1 * v.m_ny
          + (normalize (cross_product (v.pos.x - src.pos.x) (v.pos.y - src.pos.y)
            (v.pos.z - src.pos.z) (tgt.pos.x - src.pos.x) (tgt.pos.y - src.pos.y)
            (tgt.pos.z - src.pos.z))).2.2 * v.m_nz) ∧
      (-(1 / 10 ^ 16) <
          (normalize (cross_product (v.pos.x - src.pos.x) (v.pos.y - src.pos.y)
            (v.pos.z - src.pos.z) (tgt.pos.x - src.pos.x) (tgt.pos.y - src.pos.y)
            (tgt.pos.z - src.pos.z))).1 * src.m_nx
          + (normalize (cross_product (v.pos.x - src.pos.x) (v.pos.y - src.pos.y)
            (v.pos.z - src.pos.z) (tgt.pos.x - src.pos.x) (tgt.pos.y - src.pos.y)
            (tgt.pos.z - src.pos.z))).2.1 * src.m_ny
          + (normalize (cross_product (v.pos.x - src.pos.x) (v.pos.y - src.pos.y)
            (v.pos.z - src.pos.z) (tgt.pos.x - src.pos.x) (tgt.pos.y - src.pos.y)
            (tgt.pos.z - src.pos.z))).2.2 * src.m_nz) ∧
      (-(1 / 10 ^ 16) <
          (normalize (cross_product (v.pos.x - src.pos.x) (v.pos.y - src.pos.y)
            (v.pos.z - src.pos.z) (tgt.pos.x - src.pos.x) (tgt.pos.y - src.pos.y)
            (tgt.pos.z - src.pos.z))).1 * tgt.m_nx
          + (normalize (cross_product (v.pos.x - src.pos.x) (v.pos.y - src.pos.y)
            (v.pos.z - src.pos.z) (tgt.pos.x - src.pos.x) (tgt.pos.y - src.pos.y)
            (tgt.pos.z - src.pos.z))).2.1 * tgt.m_ny
          + (normalize (cross_product (v.pos.x - src.pos.x) (v.pos.y - src.pos.y)
            (v.pos.z - src.pos.z) (tgt.pos.x - src.pos.x) (tgt.pos.y - src.pos.y)
            (tgt.pos.z - src.pos.z))).2.2 * tgt.m_nz) :=
  Vertex.isCompatibleWith_spec normalize v src tgt

theorem grazing_normal :
    normalizeWith ratSqrt (cross_product (grazingVertex.pos.x - (rectHeap.vertices 0).pos.x)
      (grazingVertex.pos.y - (rectHeap.vertices 0).pos.y)
      (grazingVertex.pos.z - (rectHeap.vertices 0).pos.z)
      ((rectHeap.vertices 3).pos.x - (rectHeap.vertices 0).pos.x)
      ((rectHeap.vertices 3).pos.y - (rectHeap.vertices 0).pos.y)
      ((rectHeap.vertices 3).pos.z - (rectHeap.vertices 0).pos.z)) = (0, 0, 1) := by
  obtain ⟨-, h2, -⟩ := rect_sqrt_values
  simp only [normalizeWith, cross_product, grazingVertex, rectHeap, rectVertex]
  norm_num [h2]

/-- C16, the case the claim singles out: the normal of this triangle is
(0, 0, 1) and its dot product with the normal of the vertex is exactly
-1/10^16, with the two others equal to 1; all three are at least -1/10^16,
yet isCompatibleWith returns false. -/
theorem Vertex.isCompatibleWith_rejects_exact_tolerance :
    Vertex.isCompatibleWith (normalizeWith ratSqrt) grazingVertex (rectHeap.vertices 0)
      (rectHeap.vertices 3) = false ∧
    (0 : ℚ) * grazingVertex.m_nx + 0 * grazingVertex.m_ny + 1 * grazingVertex.m_nz
      = -(1 / 10 ^ 16) ∧
    -(1 / 10 ^ 16) ≤ (0 : ℚ) * (rectHeap.vertices 0).m_nx + 0 * (rectHeap.vertices 0).m_ny
      + 1 * (rectHeap.vertices 0).m_nz ∧
    -(1 / 10 ^ 16) ≤ (0 : ℚ) * (rectHeap.vertices 3).m_nx + 0 * (rectHeap.vertices 3).m_ny
      + 1 * (rectHeap.vertices 3).m_nz ∧
    normalizeWith ratSqrt (cross_product (grazingVertex.pos.x - (rectHeap.vertices 0).pos.x)
      (grazingVertex.pos.y - (rectHeap.vertices 0).pos.y)
      (grazingVertex.pos.z - (rectHeap.vertices 0).pos.z)
      ((rectHeap.vertices 3).pos.x - (rectHeap.vertices 0).pos.x)
      ((rectHeap.vertices 3).pos.y - (rectHeap.vertices 0).pos.y)
      ((rectHeap.vertices 3).pos.z - (rectHeap.vertices 0).pos.z)) = (0, 0, 1) := by
  refine ⟨?_, ?_, ?_, ?_, grazing_normal⟩
  · rw [← Bool.not_eq_true, Vertex.isCompatibleWith_spec, grazing_normal]
    intro h
    have h1 := h.1
    simp only [grazingVertex] at h1
    norm_num at h1
  · norm_num [grazingVertex]
  · norm_num [rectHeap, rectVertex]
  · norm_num [rectHeap, rectVertex]


theorem Mesher.checkEmptyBallConfiguration_spec (s : Mesher K) (v1 v2 v3 : Nat)
    (neighbors : List Nat) (center : Point K) :
    Mesher.checkEmptyBallConfiguration s v1 v2 v3 neighbors center = true ↔
      ∀ v ∈ neighbors, v ≠ v1 → v ≠ v2 → v ≠ v3 →
        ¬ dist2 (s.heap.vertices v).pos center < s.m_sq_ball_radius - 1 / 10 ^ 16 := by
  induction neighbors with
  | nil => simp [Mesher.checkEmptyBallConfiguration]
  | cons w rest ih =>
    unfold Mesher.checkEmptyBallConfiguration
    by_cases hw : w = v1 ∨ w = v2 ∨ w = v3
    · rw [if_pos hw, ih]
      constructor
      · intro h v hv n1 n2 n3
        rcases List.mem_cons.mp hv with rfl | hv
        · rcases hw with h1 | h1 | h1
          · exact absurd h1 n1
          · exact absurd h1 n2
          · exact absurd h1 n3
        · exact h v hv n1 n2 n3
      · intro h v hv
        exact h v (List.mem_cons_of_mem _ hv)
    · rw [if_neg hw]
      have hw1 : w ≠ v1 := fun h => hw (Or.inl h)
      have hw2 : w ≠ v2 := fun h => hw (Or.inr (Or.inl h))
      have hw3 : w ≠ v3 := fun h => hw (Or.inr (Or.inr h))
      by_cases hd : dist2 (s.heap.vertices w).pos center < s.m_sq_ball_radius - 1 / 10 ^ 16
      · rw [if_pos hd]
        constructor
        · intro h
          cases h
        · intro h
          exact absurd hd (h w (List.mem_cons_self _ _) hw1 hw2 hw3)
      · rw [if_neg hd, ih]
        constructor
        · intro h v hv n1 n2 n3
          rcases List.mem_cons.mp hv with rfl | hv
          · exact hd
          · exact h v hv n1 n2 n3
        · intro h v hv
          exact h v (List.mem_cons_of_mem _ hv)

/-- The loop of tryTriangleSeed is the test of checkEmptyBallConfiguration on
the values of the map. -/
theorem Mesher.seedBallEmpty_eq (s : Mesher K) (v1 v2 v3 : Nat) (center : Point K)
    (neighbors : List (K × Nat)) :
    Mesher.seedBallEmpty s v1 v2 v3 center neighbors
      = Mesher.checkEmptyBallConfiguration s v1 v2 v3 (neighbors.map Prod.snd) center := by
  induction neighbors with
  | nil => rfl
  | cons ni rest ih =>
    simp only [List.map_cons]
    unfold Mesher.seedBallEmpty Mesher.checkEmptyBallConfiguration
    rw [ih, dist2_comm center]

/-- What a successful Mesher::tryTriangleSeed has gone through. -/
theorem Mesher.tryTriangleSeed_some (env : Env K) (s : Mesher K) (v1 v2 v3 : Nat)
    (neighbors : List (K × Nat)) (center : Point K) :
    Mesher.tryTriangleSeed env s v1 v2 v3 neighbors = some (some center) ↔
      (s.heap.vertices v3).m_type = 0 ∧
      Vertex.isCompatibleWithPair (normalizeWith env.sqrt) (s.heap.vertices v3)
        (s.heap.vertices v1) (s.heap.vertices v2) = true ∧
      s.heap.linkTypeIs v1 v3 (fun t => t == 2) = some false ∧
      s.heap.linkTypeIs v2 v3 (fun t => t == 2) = some false ∧
      Mesher.computeBallCenter env s (s.heap.vertices v1) (s.heap.vertices v2)
        (s.heap.vertices v3) = some center ∧
      Mesher.seedBallEmpty s v1 v2 v3 center neighbors = true := by
  unfold Mesher.tryTriangleSeed
  by_cases hg : (s.heap.vertices v3).m_type ≠ 0
      ∨ (Vertex.isCompatibleWithPair (normalizeWith env.sqrt) (s.heap.vertices v3)
          (s.heap.vertices v1) (s.heap.vertices v2)) = false
  · rw [if_pos hg]
    constructor
    · intro h
      cases h
    · rintro ⟨h1, h2, -⟩
      rcases hg with h | h
      · exact absurd h1 h
      · rw [h2] at h
        cases h
  · rw [if_neg hg]
    have ht : (s.heap.vertices v3).m_type = 0 := by
      by_contra h
      exact hg (Or.inl h)
    have hc : Vertex.isCompatibleWithPair (normalizeWith env.sqrt) (s.heap.vertices v3)
        (s.heap.vertices v1) (s.heap.vertices v2) = true := by
      cases h : Vertex.isCompatibleWithPair (normalizeWith env.sqrt) (s.heap.vertices v3)
        (s.heap.vertices v1) (s.heap.vertices v2)
      · exact absurd (Or.inr h) hg
      · rfl
    rcases h1 : s.heap.linkTypeIs v1 v3 (fun t => t == 2) with _ | _ | _
    · simp
    · rcases h2 : s.heap.linkTypeIs v2 v3 (fun t => t == 2) with _ | _ | _
      · simp
      · cases h3 : Mesher.computeBallCenter env s (s.heap.vertices v1) (s.heap.vertices v2)
          (s.heap.vertices v3) with
        | none => simp
        | some c =>
          by_cases h4 : Mesher.seedBallEmpty s v1 v2 v3 c neighbors = true
          · simp only [h4, if_true, Option.some.injEq, ht, hc, true_and]
            constructor
            · intro h
              subst h
              exact ⟨rfl, h4⟩
            · intro h
              exact h.1
          · simp only [h4, Bool.false_eq_true, if_false, Option.some.injEq, ht, hc, true_and,
              reduceCtorEq, false_iff, not_and]
            intro h
            subst h
            exact h4
      · simp
    · simp

/-- C17: Mesher::checkEmptyBallConfiguration returns true if and only if no
vertex of the neighbor list other than `v1`, `v2`, `v3` has a squared distance
to the center strictly less than `r^2 - 1e-16`; the loop of tryTriangleSeed
is that same test on the vertices of its sorted-neighbor map, and
tryTriangleSeed returns true only with a center that passes it. -/
theorem Mesher.checkEmptyBallConfiguration_iff (env : Env K) (s : Mesher K) (v1 v2 v3 : Nat)
    (neighbors : List Nat) (sorted : List (K × Nat)) (center : Point K) :
    (Mesher.checkEmptyBallConfiguration s v1 v2 v3 neighbors center = true ↔
      ∀ v ∈ neighbors, v ≠ v1 → v ≠ v2 → v ≠ v3 →
        ¬ dist2 (s.heap.vertices v).pos center < s.m_sq_ball_radius - 1 / 10 ^ 16) ∧
    Mesher.seedBallEmpty s v1 v2 v3 center sorted
      = Mesher.checkEmptyBallConfiguration s v1 v2 v3 (sorted.map Prod.snd) center ∧
    (Mesher.tryTriangleSeed env s v1 v2 v3 sorted = some (some center) ↔
      (s.heap.vertices v3).m_type = 0 ∧
      Vertex.isCompatibleWithPair (normalizeWith env.sqrt) (s.heap.vertices v3)
        (s.heap.vertices v1) (s.heap.vertices v2) = true ∧
      s.heap.linkTypeIs v1 v3 (fun t => t == 2) = some false ∧
      s.heap.linkTypeIs v2 v3 (fun t => t == 2) = some false ∧
      Mesher.computeBallCenter env s (s.heap.vertices v1) (s.heap.vertices v2)
        (s.heap.vertices v3) = some center ∧
      ∀ ni ∈ sorted, ni.2 ≠ v1 → ni.2 ≠ v2 → ni.2 ≠ v3 →
        ¬ dist2 center (s.heap.vertices ni.2).pos < s.m_sq_ball_radius - 1 / 10 ^ 16) := by
  refine ⟨Mesher.checkEmptyBallConfiguration_spec s v1 v2 v3 neighbors center,
    Mesher.seedBallEmpty_eq s v1 v2 v3 center sorted, ?_⟩
  rw [Mesher.tryTriangleSeed_some, Mesher.seedBallEmpty_eq,
    Mesher.checkEmptyBallConfiguration_spec]
  have e : (∀ v ∈ sorted.map Prod.snd, v ≠ v1 → v ≠ v2 → v ≠ v3 →
        ¬ dist2 (s.heap.vertices v).pos center < s.m_sq_ball_radius - 1 / 10 ^ 16) ↔
      (∀ ni ∈ sorted, ni.2 ≠ v1 → ni.2 ≠ v2 → ni.2 ≠ v3 →
        ¬ dist2 center (s.heap.vertices ni.2).pos < s.m_sq_ball_radius - 1 / 10 ^ 16) := by
    constructor
    · intro h ni hni
      rw [dist2_comm center]
      exact h ni.2 (List.mem_map_of_mem _ hni)
    · intro h v hv
      obtain ⟨ni, hni, rfl⟩ := List.mem_map.mp hv
      rw [dist2_comm _ center]
      exact h ni hni
  rw [e]

/-! ## The pivoting step -/

/-- One turn of the loop of findCandidateVertex keeps the admissible neighbor
of smallest angle so far, the later one on a tie. -/
theorem Mesher.candidateStep_eq (env : Env K) (s : Mesher K) (fr : PivotFrame K)
    (acc : Option (Nat × Point K) × K) (w : Nat) :
    Mesher.candidateStep env s fr acc w = pickStep (Mesher.admissible env s fr) acc w := by
  unfold Mesher.candidateStep pickStep Mesher.admissible
  by_cases hw : w = fr.src ∨ w = fr.tgt ∨ some w = fr.opp
  · rw [if_pos hw, if_pos hw]
  · rw [if_neg hw, if_neg hw]
    cases hc : Mesher.computeBallCenter env s (s.heap.vertices fr.src)
        (s.heap.vertices fr.tgt) (s.heap.vertices w) with
    | none => rfl
    | some c =>
      dsimp only
      cases he : Mesher.checkEmptyBallConfiguration s fr.src fr.tgt w fr.neighbors c with
      | false =>
        simp only [Bool.false_eq_true, if_false, if_true]
        split_ifs <;> rfl
      | true =>
        simp only [if_true, Bool.true_eq_false, if_false]

theorem Mesher.candidate_foldl_eq (env : Env K) (s : Mesher K) (fr : PivotFrame K)
    (l : List Nat) (acc : Option (Nat × Point K) × K) :
    l.foldl (Mesher.candidateStep env s fr) acc
      = l.foldl (pickStep (Mesher.admissible env s fr)) acc := by
  induction l generalizing acc with
  | nil => rfl
  | cons w rest ih => rw [List.foldl_cons, List.foldl_cons, Mesher.candidateStep_eq, ih]

theorem pickStep_inv {C : Type} (adm : Nat → Option (K × C)) (B : K) (pre : List Nat)
    (acc : Option (Nat × C) × K) (w : Nat) (h : PickInv adm B pre acc) :
    PickInv adm B (pre ++ [w]) (pickStep adm acc w) := by
  obtain ⟨hB, hnone, hsome⟩ := h
  unfold pickStep
  cases hw : adm w with
  | none =>
    dsimp only
    refine ⟨hB, ?_, ?_⟩
    · intro hn
      refine ⟨(hnone hn).1, ?_⟩
      intro x hx r hr
      rcases List.mem_append.mp hx with hx | hx
      · exact (hnone hn).2 x hx r hr
      · rw [List.mem_singleton.mp hx, hw] at hr
        cases hr
    · intro w0 c h0
      obtain ⟨ha, p, q, hpq, hp, hq⟩ := hsome w0 c h0
      refine ⟨ha, p, q ++ [w], by rw [hpq]; simp, hp, ?_⟩
      intro x hx r hr
      rcases List.mem_append.mp hx with hx | hx
      · exact hq x hx r hr
      · rw [List.mem_singleton.mp hx, hw] at hr
        cases hr
  | some r0 =>
    dsimp only
    by_cases hgt : r0.1 > acc.2
    · rw [if_pos hgt]
      refine ⟨hB, ?_, ?_⟩
      · intro hn
        refine ⟨(hnone hn).1, ?_⟩
        intro x hx r hr
        rcases List.mem_append.mp hx with hx | hx
        · exact (hnone hn).2 x hx r hr
        · rw [List.mem_singleton.mp hx, hw] at hr
          cases hr
          rw [← (hnone hn).1]
          exact hgt
      · intro w0 c h0
        obtain ⟨ha, p, q, hpq, hp, hq⟩ := hsome w0 c h0
        refine ⟨ha, p, q ++ [w], by rw [hpq]; simp, hp, ?_⟩
        intro x hx r hr
        rcases List.mem_append.mp hx with hx | hx
        · exact hq x hx r hr
        · rw [List.mem_singleton.mp hx, hw] at hr
          cases hr
          exact hgt
    · rw [if_neg hgt]
      have hle : r0.1 ≤ acc.2 := not_lt.mp hgt
      refine ⟨hle.trans hB, ?_, ?_⟩
      · intro hn
        cases hn
      · intro w0 c h0
        cases h0
        refine ⟨hw, pre, [], rfl, ?_, ?_⟩
        · intro x hx r hr
          cases hacc : acc.1 with
          | none => exact (hle.trans hB).trans ((hnone hacc).2 x hx r hr).le
          | some wc =>
            obtain ⟨ha, p, q, hpq, hp, hq⟩ := hsome wc.1 wc.2 hacc
            rw [hpq] at hx
            rcases List.mem_append.mp hx with hx | hx
            · exact hle.trans (hp x hx r hr)
            · rcases List.mem_cons.mp hx with hx | hx
              · rw [hx, ha] at hr
                cases hr
                exact hle
              · exact hle.trans (hq x hx r hr).le
        · intro x hx
          cases hx

/-- The loop keeps its invariant over a whole list. -/
theorem pick_foldl_inv {C : Type} (adm : Nat → Option (K × C)) (B : K) (l pre : List Nat)
    (acc : Option (Nat × C) × K) (h : PickInv adm B pre acc) :
    PickInv adm B (pre ++ l) (l.foldl (pickStep adm) acc) := by
  induction l generalizing pre acc with
  | nil => simpa using h
  | cons w rest ih =>
    have h1 := ih (pre ++ [w]) (pickStep adm acc w) (pickStep_inv adm B pre acc w h)
    rw [List.append_assoc] at h1
    exact h1

theorem pick_init {C : Type} (adm : Nat → Option (K × C)) (B : K) :
    PickInv adm B [] ((none : Option (Nat × C)), B) := by
  refine ⟨le_rfl, fun _ => ⟨rfl, ?_⟩, ?_⟩
  · intro x hx
    cases hx
  · intro w c h
    cases h

/-- With an arc cosine that takes its values between 0 and the `2 PI` of the
code on [-1, 1], no pivot angle exceeds the initial `min_angle`. -/
theorem Mesher.pivotAngle_le (env : Env K) (mp : Point K) (a v : K × K × K) (c : Point K)
    (hacos : ∀ x : K, -1 ≤ x → x ≤ 1 → 0 ≤ env.acos x ∧ env.acos x ≤ 2 * Mesher.PI) :
    Mesher.pivotAngle env mp a v c ≤ 2 * Mesher.PI := by
  unfold Mesher.pivotAngle
  dsimp only
  generalize (a.1 * (normalizeWith env.sqrt (c.x - mp.x, c.y - mp.y, c.z - mp.z)).1
    + a.2.1 * (normalizeWith env.sqrt (c.x - mp.x, c.y - mp.y, c.z - mp.z)).2.1
    + a.2.2 * (normalizeWith env.sqrt (c.x - mp.x, c.y - mp.y, c.z - mp.z)).2.2) = t
  have hclamp : -1 ≤ (if -1 > (if 1 < t then 1 else t) then -1 else (if 1 < t then 1 else t))
      ∧ (if -1 > (if 1 < t then 1 else t) then -1 else (if 1 < t then 1 else t)) ≤ 1 := by
    split_ifs with h1 h2 h3 <;> constructor <;> linarith
  obtain ⟨h0, h2⟩ := hacos _ hclamp.1 hclamp.2
  generalize (if -1 > (if 1 < t then 1 else t) then -1 else (if 1 < t then 1 else t)) = u at *
  split_ifs <;> linarith

theorem Mesher.admissible_some (env : Env K) (s : Mesher K) (fr : PivotFrame K) (w : Nat)
    (r : K × Point K) (h : Mesher.admissible env s fr w = some r) :
    w ≠ fr.src ∧ w ≠ fr.tgt ∧ some w ≠ fr.opp ∧
    Mesher.computeBallCenter env s (s.heap.vertices fr.src) (s.heap.vertices fr.tgt)
      (s.heap.vertices w) = some r.2 ∧
    Mesher.checkEmptyBallConfiguration s fr.src fr.tgt w fr.neighbors r.2 = true ∧
    r.1 = Mesher.pivotAngle env fr.mp fr.a fr.v r.2 := by
  unfold Mesher.admissible at h
  by_cases hw : w = fr.src ∨ w = fr.tgt ∨ some w = fr.opp
  · rw [if_pos hw] at h
    cases h
  · rw [if_neg hw] at h
    have h1 : w ≠ fr.src := fun e => hw (Or.inl e)
    have h2 : w ≠ fr.tgt := fun e => hw (Or.inr (Or.inl e))
    have h3 : some w ≠ fr.opp := fun e => hw (Or.inr (Or.inr e))
    cases hc : Mesher.computeBallCenter env s (s.heap.vertices fr.src)
        (s.heap.vertices fr.tgt) (s.heap.vertices w) with
    | none =>
      rw [hc] at h
      cases h
    | some c =>
      rw [hc] at h
      dsimp only at h
      by_cases he : Mesher.checkEmptyBallConfiguration s fr.src fr.tgt w fr.neighbors c = true
      · rw [if_pos he] at h
        cases h
        exact ⟨h1, h2, h3, rfl, he, rfl⟩
      · rw [if_neg he] at h
        cases h

/-- Mesher::findCandidateVertex on a live edge with a live first facet: the
call returns; it returns NULL only when no neighbor is admissible, and a
returned candidate is an admissible neighbor, returned with its ball center,
such that no admissible neighbor before it in the list has a smaller angle and
every admissible neighbor after it has a greater one. -/
theorem Mesher.findCandidateVertex_spec (env : Env K) (s : Mesher K) (edge f : Nat)
    (ed : Edge) (fc : Facet K) (opp : Option Nat)
    (hed : s.heap.edges edge = some ed) (hf1 : ed.m_facet1 = some f)
    (hfc : s.heap.facets f = some fc) (hopp : ed.getOppositeVertex s.heap = some opp)
    (hacos : ∀ x : K, -1 ≤ x → x ≤ 1 → 0 ≤ env.acos x ∧ env.acos x ≤ 2 * Mesher.PI) :
    ∃ r, Mesher.findCandidateVertex env s edge = some r ∧
      (r = none → ∀ x ∈ (Mesher.pivotFrame env s ed fc opp).neighbors,
        Mesher.admissible env s (Mesher.pivotFrame env s ed fc opp) x = none) ∧
      (∀ w c, r = some (w, c) → ∃ θ,
        Mesher.admissible env s (Mesher.pivotFrame env s ed fc opp) w = some (θ, c) ∧
        ∃ p q, (Mesher.pivotFrame env s ed fc opp).neighbors = p ++ w :: q ∧
          (∀ x ∈ p, ∀ r1, Mesher.admissible env s (Mesher.pivotFrame env s ed fc opp) x
            = some r1 → θ ≤ r1.1) ∧
          (∀ x ∈ q, ∀ r1, Mesher.admissible env s (Mesher.pivotFrame env s ed fc opp) x
            = some r1 → θ < r1.1)) := by
  have hrun : Mesher.findCandidateVertex env s edge
      = some (((Mesher.pivotFrame env s ed fc opp).neighbors.foldl
          (Mesher.candidateStep env s (Mesher.pivotFrame env s ed fc opp))
          (none, 2 * Mesher.PI)).1) := by
    unfold Mesher.findCandidateVertex
    rw [hed]
    dsimp only
    rw [hf1]
    dsimp only
    rw [hfc, hopp]
  have hinv := pick_foldl_inv (Mesher.admissible env s (Mesher.pivotFrame env s ed fc opp))
    (2 * Mesher.PI) (Mesher.pivotFrame env s ed fc opp).neighbors [] _
    (pick_init _ _)
  rw [← Mesher.candidate_foldl_eq, List.nil_append] at hinv
  obtain ⟨-, hnone, hsome⟩ := hinv
  refine ⟨_, hrun, ?_, ?_⟩
  · intro hr x hx
    cases hx1 : Mesher.admissible env s (Mesher.pivotFrame env s ed fc opp) x with
    | none => rfl
    | some r1 =>
      have hlt := (hnone hr).2 x hx r1 hx1
      obtain ⟨-, -, -, -, -, hθ⟩ := Mesher.admissible_some env s _ x r1 hx1
      rw [hθ] at hlt
      exact absurd (Mesher.pivotAngle_le env _ _ _ _ hacos) (not_le.mpr hlt)
  · intro w c hr
    obtain ⟨ha, p, q, hpq, hp, hq⟩ := hsome w c hr
    exact ⟨_, ha, p, q, hpq, hp, hq⟩

/-! ## The pivot around the front edge of the sample scene -/

theorem rect_frame :
    Mesher.pivotFrame rectEnv rectMesher ⟨1, 0, some 0, none, 1⟩
      ⟨0, 4, 1, ⟨153 / 2, -52, 336⟩⟩ (some 4)
      = { src := 1, tgt := 0, opp := some 4, mp := ⟨153 / 2, 0, 0⟩,
          a := (0, -(13 / 85), 84 / 85), v := (-1, 0, 0), neighbors := [0, 1, 2, 3, 4] } := by
  obtain ⟨-, -, h3, -, -, -, h7⟩ := rect_sqrt_values
  simp only [Mesher.pivotFrame, midpoint, normalizeWith, rectEnv, rectMesher, rectHeap,
    rectVertex]
  norm_num [h3, h7]

theorem rect_angle :
    Mesher.pivotAngle rectEnv ⟨153 / 2, 0, 0⟩ (0, -(13 / 85), 84 / 85) (-1, 0, 0)
      ⟨153 / 2, 52, 336⟩ = Mesher.PI * (169 / 7225) := by
  obtain ⟨-, -, -, -, -, -, h7⟩ := rect_sqrt_values
  simp only [Mesher.pivotAngle, normalizeWith, cross_product, rectEnv]
  norm_num [h7]
  ring

theorem rect_empty2 :
    Mesher.checkEmptyBallConfiguration rectMesher 1 0 2 [0, 1, 2, 3, 4] ⟨153 / 2, 52, 336⟩
      = true := by
  rw [Mesher.checkEmptyBallConfiguration_spec]
  intro v hv n1 n0 n2
  simp only [List.mem_cons, List.mem_singleton, List.not_mem_nil, or_false] at hv
  rcases hv with rfl | rfl | rfl | rfl | rfl
  · exact absurd rfl n0
  · exact absurd rfl n1
  · exact absurd rfl n2
  · norm_num [dist2, rectMesher, rectHeap, rectVertex]
  · norm_num [dist2, rectMesher, rectHeap, rectVertex]

theorem rect_empty3 :
    Mesher.checkEmptyBallConfiguration rectMesher 1 0 3 [0, 1, 2, 3, 4] ⟨153 / 2, 52, 336⟩
      = true := by
  rw [Mesher.checkEmptyBallConfiguration_spec]
  intro v hv n1 n0 n3
  simp only [List.mem_cons, List.mem_singleton, List.not_mem_nil, or_false] at hv
  rcases hv with rfl | rfl | rfl | rfl | rfl
  · exact absurd rfl n0
  · exact absurd rfl n1
  · norm_num [dist2, rectMesher, rectHeap, rectVertex]
  · exact absurd rfl n3
  · norm_num [dist2, rectMesher, rectHeap, rectVertex]

/-- The run of findCandidateVertex on a live edge with a live first facet. -/
theorem Mesher.findCandidateVertex_eq (env : Env K) (s : Mesher K) (edge f : Nat)
    (ed : Edge) (fc : Facet K) (opp : Option Nat)
    (hed : s.heap.edges edge = some ed) (hf1 : ed.m_facet1 = some f)
    (hfc : s.heap.facets f = some fc) (hopp : ed.getOppositeVertex s.heap = some opp) :
    Mesher.findCandidateVertex env s edge
      = some (((Mesher.pivotFrame env s ed fc opp).neighbors.foldl
          (pickStep (Mesher.admissible env s (Mesher.pivotFrame env s ed fc opp)))
          (none, 2 * Mesher.PI)).1) := by
  unfold Mesher.findCandidateVertex
  rw [hed]
  dsimp only
  rw [hf1]
  dsimp only
  rw [hfc, hopp]
  dsimp only
  rw [Mesher.candidate_foldl_eq]

/-- A neighbor that passes the tests of the loop is admissible. -/
theorem Mesher.admissible_of (env : Env K) (s : Mesher K) (src tgt : Nat) (opp : Option Nat)
    (mp : Point K) (a v : K × K × K) (nb : List Nat) (w : Nat) (c : Point K)
    (h1 : w ≠ src) (h2 : w ≠ tgt) (h3 : some w ≠ opp)
    (hc : Mesher.computeBallCenter env s (s.heap.vertices src) (s.heap.vertices tgt)
      (s.heap.vertices w) = some c)
    (he : Mesher.checkEmptyBallConfiguration s src tgt w nb c = true) :
    Mesher.admissible env s ⟨src, tgt, opp, mp, a, v, nb⟩ w
      = some (Mesher.pivotAngle env mp a v c, c) := by
  unfold Mesher.admissible
  dsimp only
  rw [if_neg (by
    rintro (h | h | h)
    · exact h1 h
    · exact h2 h
    · exact h3 h), hc]
  dsimp only
  rw [if_pos he]

/-- The ends of the edge and the opposite vertex are not admissible. -/
theorem Mesher.admissible_excluded (env : Env K) (s : Mesher K) (src tgt : Nat)
    (opp : Option Nat) (mp : Point K) (a v : K × K × K) (nb : List Nat) (w : Nat)
    (h : w = src ∨ w = tgt ∨ some w = opp) :
    Mesher.admissible env s ⟨src, tgt, opp, mp, a, v, nb⟩ w = none := by
  unfold Mesher.admissible
  dsimp only
  rw [if_pos h]

theorem rect_admissible2 :
    Mesher.admissible rectEnv rectMesher
      { src := 1, tgt := 0, opp := some 4, mp := ⟨153 / 2, 0, 0⟩,
        a := (0, -(13 / 85), 84 / 85), v := (-1, 0, 0), neighbors := [0, 1, 2, 3, 4] } 2
      = some (Mesher.PI * (169 / 7225), ⟨153 / 2, 52, 336⟩) := by
  rw [Mesher.admissible_of rectEnv rectMesher 1 0 (some 4) _ _ _ _ 2 ⟨153 / 2, 52, 336⟩
    (by decide) (by decide) (by decide) rect_ball2 rect_empty2, rect_angle]

theorem rect_admissible3 :
    Mesher.admissible rectEnv rectMesher
      { src := 1, tgt := 0, opp := some 4, mp := ⟨153 / 2, 0, 0⟩,
        a := (0, -(13 / 85), 84 / 85), v := (-1, 0, 0), neighbors := [0, 1, 2, 3, 4] } 3
      = some (Mesher.PI * (169 / 7225), ⟨153 / 2, 52, 336⟩) := by
  rw [Mesher.admissible_of rectEnv rectMesher 1 0 (some 4) _ _ _ _ 3 ⟨153 / 2, 52, 336⟩
    (by decide) (by decide) (by decide) rect_ball3 rect_empty3, rect_angle]

theorem rect_edge2 : rectMesher.heap.edges 2 = some ⟨1, 0, some 0, none, 1⟩ := rfl

theorem rect_facet0 : rectMesher.heap.facets 0 = some ⟨0, 4, 1, ⟨153 / 2, -52, 336⟩⟩ := rfl

theorem rect_opposite :
    Edge.getOppositeVertex rectMesher.heap ⟨1, 0, some 0, none, 1⟩ = some (some 4) := by
  simp only [Edge.getOppositeVertex, rect_facet0]
  rfl

theorem pickStep_none {C : Type} (adm : Nat → Option (K × C)) (acc : Option (Nat × C) × K)
    (w : Nat) (h : adm w = none) : pickStep adm acc w = acc := by
  unfold pickStep
  rw [h]

theorem pickStep_take {C : Type} (adm : Nat → Option (K × C)) (cand : Option (Nat × C))
    (m θ : K) (c : C) (w : Nat) (h : adm w = some (θ, c)) (hle : ¬ θ > m) :
    pickStep adm (cand, m) w = (some (w, c), θ) := by
  unfold pickStep
  rw [h]
  dsimp only
  rw [if_neg hle]

/-- In the sample scene findCandidateVertex on the front edge 2 returns the
corner 3 with the ball center (153/2, 52, 336). -/
theorem rect_findCandidateVertex :
    Mesher.findCandidateVertex rectEnv rectMesher 2
      = some (some (3, ⟨153 / 2, 52, 336⟩)) := by
  have hpi : ¬ Mesher.PI * (169 / 7225) > 2 * (Mesher.PI : ℚ) := by
    norm_num [Mesher.PI]
  have hpi2 : ¬ Mesher.PI * (169 / 7225) > (Mesher.PI : ℚ) * (169 / 7225) := lt_irrefl _
  rw [Mesher.findCandidateVertex_eq rectEnv rectMesher 2 0 _ _ _ rect_edge2 rfl rect_facet0
    rect_opposite, rect_frame]
  rw [List.foldl_cons, pickStep_none _ _ 0
      (Mesher.admissible_excluded rectEnv rectMesher 1 0 (some 4) _ _ _ _ 0 (Or.inr (Or.inl rfl))),
    List.foldl_cons, pickStep_none _ _ 1
      (Mesher.admissible_excluded rectEnv rectMesher 1 0 (some 4) _ _ _ _ 1 (Or.inl rfl)),
    List.foldl_cons, pickStep_take _ _ _ _ _ 2 rect_admissible2 hpi,
    List.foldl_cons, pickStep_take _ _ _ _ _ 3 rect_admissible3 hpi2,
    List.foldl_cons, pickStep_none _ _ 4
      (Mesher.admissible_excluded rectEnv rectMesher 1 0 (some 4) _ _ _ _ 4 (Or.inr (Or.inr rfl))),
    List.foldl_nil]

end MesherGeometry

/-! ## The steps of the mesher on the heap -/

section MesherSteps

variable {K : Type}

/-! ## Facets are only written by the constructors -/

theorem Mesh.edgeAddAdjacentFacet_facets [LinearOrderedCommRing K] (normalize : K × K × K → K × K × K) (m m1 : Mesh K)
    (e f : Nat) (h : m.edgeAddAdjacentFacet normalize e f = some m1) :
    m1.facets = m.facets := by
  unfold Mesh.edgeAddAdjacentFacet at h
  cases he : m.edges e with
  | none => rw [he] at h; cases h
  | some ed =>
    rw [he] at h
    dsimp only at h
    cases hr : ed.addAdjacentFacet normalize m f with
    | none => rw [hr] at h; cases h
    | some r =>
      rw [hr] at h
      cases h
      rfl

theorem Facet.attachEdge_facets [LinearOrderedCommRing K] (normalize : K × K × K → K × K × K) (m m1 : Mesh K)
    (self a b : Nat) (h : Facet.attachEdge normalize m self a b = some m1) :
    m1.facets = m.facets := by
  unfold Facet.attachEdge at h
  cases hl : (m.vertices a).getLinkingEdge (m.vertices b) with
  | some e =>
    rw [hl] at h
    dsimp only at h
    exact Mesh.edgeAddAdjacentFacet_facets normalize m m1 e self h
  | none =>
    rw [hl] at h
    dsimp only at h
    exact (Mesh.edgeAddAdjacentFacet_facets normalize (m.newEdge a b).1 m1 _ self h).trans rfl

theorem Facet.registerVertex_facets (m m1 : Mesh K) (self v : Nat)
    (h : Facet.registerVertex m self v = some m1) : m1.facets = m.facets := by
  unfold Facet.registerVertex at h
  dsimp only at h
  cases hu : Vertex.updateType (m.setVertex v ((m.vertices v).addAdjacentFacet self).1)
      ((m.setVertex v ((m.vertices v).addAdjacentFacet self).1).vertices v) with
  | none => rw [hu] at h; cases h
  | some vx =>
    rw [hu] at h
    cases h
    rfl

/-- The facet constructor on an edge writes the facet at its own address and
no other. -/
theorem Facet.ctorOnEdge_facets [LinearOrderedCommRing K] (normalize : K × K × K → K × K × K) (m m1 : Mesh K)
    (self edge vertex : Nat) (c : Point K)
    (h : Facet.ctorOnEdge normalize m self edge vertex c = some m1) :
    ∃ ed, m.edges edge = some ed ∧
      m1.facets = (m.setFacet self (some ⟨ed.m_src, vertex, ed.m_tgt, c⟩)).facets := by
  unfold Facet.ctorOnEdge at h
  cases hed : m.edges edge with
  | none => rw [hed] at h; cases h
  | some ed =>
    rw [hed] at h
    dsimp only at h
    refine ⟨ed, rfl, ?_⟩
    obtain ⟨a1, h1, h⟩ := Option.bind_eq_some.mp h
    obtain ⟨a2, h2, h⟩ := Option.bind_eq_some.mp h
    obtain ⟨a3, h3, h⟩ := Option.bind_eq_some.mp h
    obtain ⟨a4, h4, h⟩ := Option.bind_eq_some.mp h
    obtain ⟨a5, h5, h⟩ := Option.bind_eq_some.mp h
    rw [Facet.registerVertex_facets _ _ _ _ h, Facet.registerVertex_facets _ _ _ _ h5,
      Facet.registerVertex_facets _ _ _ _ h4, Facet.attachEdge_facets _ _ _ _ _ _ h3,
      Facet.attachEdge_facets _ _ _ _ _ _ h2, Mesh.edgeAddAdjacentFacet_facets _ _ _ _ _ h1]

/-- The facet constructor on three vertices writes the facet at its own address
and no other. -/
theorem Facet.ctor_facets [LinearOrderedCommRing K] (normalize : K × K × K → K × K × K) (m m1 : Mesh K)
    (self v0 v1 v2 : Nat) (c : Point K)
    (h : Facet.ctor normalize m self v0 v1 v2 c = some m1) :
    m1.facets = (m.setFacet self (some ⟨v0, v1, v2, c⟩)).facets := by
  unfold Facet.ctor at h
  dsimp only at h
  obtain ⟨a1, h1, h⟩ := Option.bind_eq_some.mp h
  obtain ⟨a2, h2, h⟩ := Option.bind_eq_some.mp h
  obtain ⟨a3, h3, h⟩ := Option.bind_eq_some.mp h
  obtain ⟨a4, h4, h⟩ := Option.bind_eq_some.mp h
  obtain ⟨a5, h5, h⟩ := Option.bind_eq_some.mp h
  rw [Facet.registerVertex_facets _ _ _ _ h, Facet.registerVertex_facets _ _ _ _ h5,
    Facet.registerVertex_facets _ _ _ _ h4, Facet.attachEdge_facets _ _ _ _ _ _ h3,
    Facet.attachEdge_facets _ _ _ _ _ _ h2, Facet.attachEdge_facets _ _ _ _ _ _ h1]

/-- Mesher::addVertex rewrites the index of one vertex and nothing else in the
heap. -/
theorem Mesher.addVertex_heap (s : Mesher K) (v : Nat) :
    s.heap.SameEdges (s.addVertex v).heap ∧
    (s.addVertex v).m_facets = s.m_facets ∧ (s.addVertex v).m_nfacets = s.m_nfacets ∧
    (s.addVertex v).m_edge_front = s.m_edge_front ∧
    (s.addVertex v).m_border_edges = s.m_border_edges ∧
    (s.addVertex v).nextFacet = s.nextFacet := by
  unfold Mesher.addVertex
  by_cases h : (s.heap.vertices v).m_index ≠ -1
  · rw [if_pos h]
    exact ⟨⟨rfl, rfl, rfl, fun _ => rfl⟩, rfl, rfl, rfl, rfl, rfl⟩
  · rw [if_neg h]
    refine ⟨⟨rfl, rfl, rfl, ?_⟩, rfl, rfl, rfl, rfl, rfl⟩
    intro u
    by_cases hu : u = v
    · subst hu
      simp [Mesh.setVertex]
    · simp [Mesh.setVertex, hu]

/-- Mesher::addFacet appends the facet to the facet list, counts it, and leaves
the edges, the facets and the adjacent-edge sets of the heap alone. -/
theorem Mesher.addFacet_spec (s s1 : Mesher K) (f : Nat) (h : s.addFacet f = some s1) :
    s.heap.SameEdges s1.heap ∧ s1.m_facets = s.m_facets ++ [f] ∧
    s1.m_nfacets = (s.m_nfacets + 1) % 2 ^ 32 ∧ s1.m_edge_front = s.m_edge_front ∧
    s1.m_border_edges = s.m_border_edges ∧ s1.nextFacet = s.nextFacet := by
  unfold Mesher.addFacet at h
  cases hf : s.heap.facets f with
  | none => rw [hf] at h; cases h
  | some fc =>
    rw [hf] at h
    dsimp only at h
    cases h
    obtain ⟨e1, f1, n1, t1, b1, x1⟩ := Mesher.addVertex_heap s (fc.vertex 0)
    obtain ⟨e2, f2, n2, t2, b2, x2⟩ := Mesher.addVertex_heap (s.addVertex (fc.vertex 0))
      (fc.vertex 1)
    obtain ⟨e3, f3, n3, t3, b3, x3⟩ := Mesher.addVertex_heap
      ((s.addVertex (fc.vertex 0)).addVertex (fc.vertex 1)) (fc.vertex 2)
    refine ⟨(e1.trans e2).trans e3, ?_, ?_, ?_, ?_, ?_⟩
    · dsimp only
      rw [f3, f2, f1]
    · dsimp only
      rw [n3, n2, n1]
    · dsimp only
      rw [t3, t2, t1]
    · dsimp only
      rw [b3, b2, b1]
    · dsimp only
      rw [x3, x2, x1]

/-- The push of a linking edge on the front changes the front only. -/
theorem Mesher.pushIfFront_spec (s s1 : Mesher K) (a b : Nat)
    (h : s.pushIfFront a b = some s1) :
    s1.heap = s.heap ∧ s1.m_facets = s.m_facets ∧ s1.m_nfacets = s.m_nfacets ∧
    s1.m_border_edges = s.m_border_edges ∧ s1.nextFacet = s.nextFacet ∧
    ∃ e ed, (s.heap.vertices a).getLinkingEdge (s.heap.vertices b) = some e ∧
      s.heap.edges e = some ed ∧
      s1.m_edge_front = if ed.m_type = 1 then e :: s.m_edge_front else s.m_edge_front := by
  unfold Mesher.pushIfFront at h
  cases hl : (s.heap.vertices a).getLinkingEdge (s.heap.vertices b) with
  | none => rw [hl] at h; cases h
  | some e =>
    rw [hl] at h
    dsimp only at h
    cases he : s.heap.edges e with
    | none => rw [he] at h; cases h
    | some ed =>
      rw [he] at h
      dsimp only at h
      by_cases ht : ed.m_type = 1
      · rw [if_pos ht] at h
        cases h
        exact ⟨rfl, rfl, rfl, rfl, rfl, e, ed, rfl, he, by rw [if_pos ht]⟩
      · rw [if_neg ht] at h
        cases h
        exact ⟨rfl, rfl, rfl, rfl, rfl, e, ed, rfl, he, by rw [if_neg ht]⟩

/-- A run of findCandidateVertex that returns has found the edge, its first
facet and its opposite vertex. -/
theorem Mesher.findCandidateVertex_inv [LinearOrderedField K] (env : Env K) (s : Mesher K)
    (edge : Nat) (r : Option (Nat × Point K))
    (h : Mesher.findCandidateVertex env s edge = some r) :
    ∃ ed f fc opp, s.heap.edges edge = some ed ∧ ed.m_facet1 = some f ∧
      s.heap.facets f = some fc ∧ ed.getOppositeVertex s.heap = some opp := by
  unfold Mesher.findCandidateVertex at h
  cases hed : s.heap.edges edge with
  | none => rw [hed] at h; cases h
  | some ed =>
    rw [hed] at h
    dsimp only at h
    cases hf1 : ed.m_facet1 with
    | none => rw [hf1] at h; cases h
    | some f =>
      rw [hf1] at h
      dsimp only at h
      cases hfc : s.heap.facets f with
      | none => rw [hfc] at h; cases h
      | some fc =>
        cases hopp : ed.getOppositeVertex s.heap with
        | none => rw [hfc, hopp] at h; cases h
        | some opp => exact ⟨ed, f, fc, opp, rfl, hf1, hfc, hopp⟩

/-- The candidate returned by findCandidateVertex is an admissible neighbor,
returned with its ball center; no admissible neighbor before it in the list
has a smaller angle and every admissible neighbor after it has a greater
one. -/
theorem Mesher.findCandidateVertex_some [LinearOrderedField K] (env : Env K) (s : Mesher K)
    (edge f : Nat) (ed : Edge) (fc : Facet K) (opp : Option Nat)
    (hed : s.heap.edges edge = some ed) (hf1 : ed.m_facet1 = some f)
    (hfc : s.heap.facets f = some fc) (hopp : ed.getOppositeVertex s.heap = some opp)
    (w : Nat) (c : Point K)
    (h : Mesher.findCandidateVertex env s edge = some (some (w, c))) :
    ∃ θ, Mesher.admissible env s (Mesher.pivotFrame env s ed fc opp) w = some (θ, c) ∧
      ∃ p q, (Mesher.pivotFrame env s ed fc opp).neighbors = p ++ w :: q ∧
        (∀ x ∈ p, ∀ r1, Mesher.admissible env s (Mesher.pivotFrame env s ed fc opp) x
          = some r1 → θ ≤ r1.1) ∧
        (∀ x ∈ q, ∀ r1, Mesher.admissible env s (Mesher.pivotFrame env s ed fc opp) x
          = some r1 → θ < r1.1) := by
  rw [Mesher.findCandidateVertex_eq env s edge f ed fc opp hed hf1 hfc hopp] at h
  have hinv := pick_foldl_inv (Mesher.admissible env s (Mesher.pivotFrame env s ed fc opp))
    (2 * Mesher.PI) (Mesher.pivotFrame env s ed fc opp).neighbors [] _
    (pick_init _ _)
  rw [List.nil_append] at hinv
  obtain ⟨-, -, hsome⟩ := hinv
  obtain ⟨ha, p, q, hpq, hp, hq⟩ := hsome w c (Option.some.inj h)
  exact ⟨_, ha, p, q, hpq, hp, hq⟩

theorem Mesher.pivotFrame_fields [LinearOrderedField K] (env : Env K) (s : Mesher K)
    (ed : Edge) (fc : Facet K) (opp : Option Nat) :
    (Mesher.pivotFrame env s ed fc opp).src = ed.m_src ∧
    (Mesher.pivotFrame env s ed fc opp).tgt = ed.m_tgt ∧
    (Mesher.pivotFrame env s ed fc opp).opp = opp := ⟨rfl, rfl, rfl⟩

/-- The candidate of findCandidateVertex, the source and the target of the
edge are three different vertices; the center is the one computeBallCenter
gives for them, and the ball is empty among the neighbors. -/
theorem Mesher.findCandidateVertex_distinct [LinearOrderedField K] (env : Env K)
    (s : Mesher K) (edge f : Nat) (ed : Edge) (fc : Facet K) (opp : Option Nat)
    (hed : s.heap.edges edge = some ed) (hf1 : ed.m_facet1 = some f)
    (hfc : s.heap.facets f = some fc) (hopp : ed.getOppositeVertex s.heap = some opp)
    (w : Nat) (c : Point K)
    (h : Mesher.findCandidateVertex env s edge = some (some (w, c))) :
    w ≠ ed.m_src ∧ w ≠ ed.m_tgt ∧ some w ≠ opp ∧ ed.m_src ≠ ed.m_tgt ∧
    Mesher.computeBallCenter env s (s.heap.vertices ed.m_src) (s.heap.vertices ed.m_tgt)
      (s.heap.vertices w) = some c ∧
    Mesher.checkEmptyBallConfiguration s ed.m_src ed.m_tgt w
      (Mesher.pivotFrame env s ed fc opp).neighbors c = true := by
  obtain ⟨θ, ha, -⟩ := Mesher.findCandidateVertex_some env s edge f ed fc opp hed hf1 hfc hopp
    w c h
  obtain ⟨h1, h2, h3, hc, he, -⟩ := Mesher.admissible_some env s _ w _ ha
  refine ⟨h1, h2, h3, ?_, hc, he⟩
  intro hst
  have hc1 : Mesher.computeBallCenter env s (s.heap.vertices ed.m_src)
      (s.heap.vertices ed.m_tgt) (s.heap.vertices w) = some c := hc
  rw [hst, Mesher.computeBallCenter_of_tau_zero env s _ _ _
    (Mesher.tau_coincident _ _ _ (Or.inl rfl))] at hc1
  cases hc1

/-! ## The heap only grows under the facet constructors -/

theorem Mesh.Grows.refl (m : Mesh K) : m.Grows m :=
  ⟨rfl, le_rfl, fun _ _ h => h, fun _ ed _ h _ => ⟨ed, h, rfl, rfl, rfl⟩⟩

theorem Mesh.Grows.andThen {m m1 m2 : Mesh K} (h1 : m.Grows m1) (h2 : m1.Grows m2) :
    m.Grows m2 := by
  obtain ⟨f1, n1, a1, e1⟩ := h1
  obtain ⟨f2, n2, a2, e2⟩ := h2
  refine ⟨f2.trans f1, n1.trans n2, fun v e h => a2 v e (a1 v e h), ?_⟩
  intro e ed hlt hed hf
  obtain ⟨ed1, hed1, s1, t1, g1⟩ := e1 e ed hlt hed hf
  obtain ⟨ed2, hed2, s2, t2, g2⟩ := e2 e ed1 (lt_of_lt_of_le hlt n1) hed1
    (by rw [g1]; exact hf)
  exact ⟨ed2, hed2, s2.trans s1, t2.trans t1, g2.trans g1⟩

theorem Mesh.SameEdges.grows {m m1 : Mesh K} (h : m.SameEdges m1) : m.Grows m1 := by
  obtain ⟨he, hf, hn, ha⟩ := h
  refine ⟨hf, le_of_eq hn.symm, ?_, ?_⟩
  · intro v e hv
    rw [ha v]
    exact hv
  · intro e ed _ hed _
    exact ⟨ed, by rw [he]; exact hed, rfl, rfl, rfl⟩

/-- Edge::addAdjacentFacet on an edge that has a first facet keeps it, with the
source and the target. -/
theorem Edge.addAdjacentFacet_ends [LinearOrderedCommRing K]
    (normalize : K × K × K → K × K × K) (m : Mesh K) (ed : Edge) (f : Nat) (r : Edge × Bool)
    (h : ed.addAdjacentFacet normalize m f = some r) (hf : ed.m_facet1 ≠ none) :
    r.1.m_src = ed.m_src ∧ r.1.m_tgt = ed.m_tgt ∧ r.1.m_facet1 = ed.m_facet1 := by
  unfold Edge.addAdjacentFacet at h
  by_cases hh : ed.m_facet1 = some f ∨ ed.m_facet2 = some f
  · rw [if_pos hh] at h
    cases h
    exact ⟨rfl, rfl, rfl⟩
  · rw [if_neg hh, if_neg hf] at h
    by_cases h2 : ed.m_facet2 = none
    · rw [if_pos h2] at h
      cases h
      exact ⟨rfl, rfl, rfl⟩
    · rw [if_neg h2] at h
      cases h
      exact ⟨rfl, rfl, rfl⟩

theorem Mesh.edgeAddAdjacentFacet_grows [LinearOrderedCommRing K]
    (normalize : K × K × K → K × K × K) (m m1 : Mesh K) (e f : Nat)
    (h : m.edgeAddAdjacentFacet normalize e f = some m1) : m.Grows m1 := by
  unfold Mesh.edgeAddAdjacentFacet at h
  cases he : m.edges e with
  | none => rw [he] at h; cases h
  | some ed =>
    rw [he] at h
    dsimp only at h
    cases hr : ed.addAdjacentFacet normalize m f with
    | none => rw [hr] at h; cases h
    | some r =>
      rw [hr] at h
      cases h
      refine ⟨rfl, le_rfl, fun _ _ hv => hv, ?_⟩
      intro e1 ed1 _ hed1 hf1
      by_cases h1 : e1 = e
      · subst h1
        rw [he] at hed1
        cases hed1
        obtain ⟨s1, t1, g1⟩ := Edge.addAdjacentFacet_ends normalize m ed f r hr hf1
        exact ⟨r.1, by simp [Mesh.setEdge], s1, t1, g1⟩
      · exact ⟨ed1, by simp [Mesh.setEdge, h1, hed1], rfl, rfl, rfl⟩

theorem Mesh.newEdge_grows (m : Mesh K) (a b : Nat) (hab : a ≠ b) :
    m.Grows (m.newEdge a b).1 := by
  refine ⟨rfl, Nat.le_succ _, ?_, ?_⟩
  · intro v e hv
    rw [Mesh.newEdge_vertices m a b hab v]
    split_ifs
    · exact (mem_setInsert _ _ _).mpr (Or.inr hv)
    · exact hv
  · intro e ed hlt hed _
    refine ⟨ed, ?_, rfl, rfl, rfl⟩
    have hne : e ≠ m.nextEdge := Nat.ne_of_lt hlt
    simp [Mesh.newEdge, Edge.ctor, Mesh.setEdge, Mesh.setVertex, hne, hed]

/-- The attachment of a facet to a pair of distinct vertices lets the heap
grow, and leaves the pair with a common adjacent edge. -/
theorem Facet.attachEdge_grows [LinearOrderedCommRing K]
    (normalize : K × K × K → K × K × K) (m m1 : Mesh K) (self a b : Nat) (hab : a ≠ b)
    (h : Facet.attachEdge normalize m self a b = some m1) :
    m.Grows m1 ∧ ∃ e, e ∈ (m1.vertices a).m_adjacentEdges ∧
      e ∈ (m1.vertices b).m_adjacentEdges := by
  unfold Facet.attachEdge at h
  cases hl : (m.vertices a).getLinkingEdge (m.vertices b) with
  | some e =>
    rw [hl] at h
    dsimp only at h
    have hg := Mesh.edgeAddAdjacentFacet_grows normalize m m1 e self h
    obtain ⟨ha, hb⟩ := getCommonElement_mem _ _ e hl
    exact ⟨hg, e, hg.2.2.1 a e ha, hg.2.2.1 b e hb⟩
  | none =>
    rw [hl] at h
    dsimp only at h
    have hg := Mesh.edgeAddAdjacentFacet_grows normalize _ m1 _ self h
    refine ⟨(Mesh.newEdge_grows m a b hab).andThen hg, m.nextEdge, ?_, ?_⟩
    · apply hg.2.2.1
      rw [Mesh.newEdge_vertices m a b hab a, if_pos (Or.inl rfl)]
      exact (mem_setInsert _ _ _).mpr (Or.inl rfl)
    · apply hg.2.2.1
      rw [Mesh.newEdge_vertices m a b hab b, if_pos (Or.inr rfl)]
      exact (mem_setInsert _ _ _).mpr (Or.inl rfl)

theorem Facet.registerVertex_grows (m m1 : Mesh K) (self v : Nat)
    (h : Facet.registerVertex m self v = some m1) : m.Grows m1 := by
  unfold Facet.registerVertex at h
  dsimp only at h
  cases hu : Vertex.updateType (m.setVertex v ((m.vertices v).addAdjacentFacet self).1)
      ((m.setVertex v ((m.vertices v).addAdjacentFacet self).1).vertices v) with
  | none => rw [hu] at h; cases h
  | some vx =>
    rw [hu] at h
    cases h
    have hvx : vx.m_adjacentEdges = (m.vertices v).m_adjacentEdges := by
      unfold Vertex.updateType at hu
      split_ifs at hu
      · cases hu
        simp [Mesh.setVertex, Vertex.addAdjacentFacet]
      · obtain ⟨t, -, ht⟩ := Option.map_eq_some'.mp hu
        rw [← ht]
        simp [Mesh.setVertex, Vertex.addAdjacentFacet]
    refine ⟨rfl, le_rfl, ?_, fun e ed _ hed _ => ⟨ed, hed, rfl, rfl, rfl⟩⟩
    intro u e hv
    by_cases huv : u = v
    · subst huv
      simp only [Mesh.setVertex, if_true]
      rw [hvx]
      exact hv
    · simp only [Mesh.setVertex, if_neg huv]
      exact hv

/-- The facet constructor on an edge lets the heap grow from the heap in which
the facet has been written, and leaves the new vertex with an adjacent edge in
common with each end of the edge. -/
theorem Facet.ctorOnEdge_grows [LinearOrderedCommRing K]
    (normalize : K × K × K → K × K × K) (m m1 : Mesh K) (self edge vertex : Nat)
    (c : Point K) (ed : Edge) (hed : m.edges edge = some ed) (hsv : ed.m_src ≠ vertex)
    (hvt : vertex ≠ ed.m_tgt)
    (h : Facet.ctorOnEdge normalize m self edge vertex c = some m1) :
    (m.setFacet self (some ⟨ed.m_src, vertex, ed.m_tgt, c⟩)).Grows m1 ∧
    (∃ e, e ∈ (m1.vertices vertex).m_adjacentEdges ∧
      e ∈ (m1.vertices ed.m_src).m_adjacentEdges) ∧
    (∃ e, e ∈ (m1.vertices vertex).m_adjacentEdges ∧
      e ∈ (m1.vertices ed.m_tgt).m_adjacentEdges) := by
  unfold Facet.ctorOnEdge at h
  rw [hed] at h
  dsimp only at h
  obtain ⟨a1, h1, h⟩ := Option.bind_eq_some.mp h
  obtain ⟨a2, h2, h⟩ := Option.bind_eq_some.mp h
  obtain ⟨a3, h3, h⟩ := Option.bind_eq_some.mp h
  obtain ⟨a4, h4, h⟩ := Option.bind_eq_some.mp h
  obtain ⟨a5, h5, h⟩ := Option.bind_eq_some.mp h
  have g1 := Mesh.edgeAddAdjacentFacet_grows normalize _ _ _ _ h1
  obtain ⟨g2, e2, e2a, e2b⟩ := Facet.attachEdge_grows normalize _ _ _ _ _ hsv h2
  obtain ⟨g3, e3, e3a, e3b⟩ := Facet.attachEdge_grows normalize _ _ _ _ _ hvt h3
  have g4 := Facet.registerVertex_grows _ _ _ _ h4
  have g5 := Facet.registerVertex_grows _ _ _ _ h5
  have g6 := Facet.registerVertex_grows _ _ _ _ h
  have g36 : a3.Grows m1 := (g4.andThen g5).andThen g6
  refine ⟨((g1.andThen g2).andThen g3).andThen g36, ⟨e2, ?_, ?_⟩, ⟨e3, ?_, ?_⟩⟩
  · exact g36.2.2.1 _ _ (g3.2.2.1 _ _ e2b)
  · exact g36.2.2.1 _ _ (g3.2.2.1 _ _ e2a)
  · exact g36.2.2.1 _ _ e3a
  · exact g36.2.2.1 _ _ e3b

theorem getCommonElement_of_mem (s1 s2 : List Nat) (x : Nat) (h1 : x ∈ s1) (h2 : x ∈ s2) :
    ∃ e, getCommonElement s1 s2 = some e := by
  cases h : getCommonElement s1 s2 with
  | none => exact absurd (getCommonElement_none s1 s2 h x h1 h2) id
  | some e => exact ⟨e, rfl⟩

/-- On a heap whose adjacent edges are live the test on the type of a linking
edge is defined: it holds exactly when the linking edge exists with a type that
passes. -/
theorem Mesh.linkTypeIs_live (m : Mesh K) (a b : Nat) (P : Int → Bool)
    (hlive : m.AdjacencyLive) :
    (m.linkTypeIs a b P = some true ∨ m.linkTypeIs a b P = some false) ∧
    (m.linkTypeIs a b P = some true ↔
      ∃ e ed, (m.vertices a).getLinkingEdge (m.vertices b) = some e ∧ m.edges e = some ed ∧
        P ed.m_type = true) := by
  unfold Mesh.linkTypeIs
  cases hl : (m.vertices a).getLinkingEdge (m.vertices b) with
  | none =>
    dsimp only
    refine ⟨Or.inr rfl, ?_⟩
    constructor
    · intro h
      cases h
    · rintro ⟨e, ed, h, -⟩
      cases h
  | some e =>
    dsimp only
    obtain ⟨-, ed, hed⟩ := hlive a e (getCommonElement_mem _ _ e hl).1
    rw [hed]
    dsimp only [Option.map]
    constructor
    · cases P ed.m_type
      · exact Or.inr rfl
      · exact Or.inl rfl
    · constructor
      · intro h
        exact ⟨e, ed, rfl, hed, Option.some.inj h⟩
      · rintro ⟨e1, ed1, h1, h2, h3⟩
        cases h1
        rw [hed] at h2
        cases h2
        rw [h3]

/-- The creation of a facet on a front edge by Mesher::expandTriangulation, on
a heap whose adjacent edges are live: the constructor and addFacet return; the
facet is written at the next facet address and no other, listed and counted;
the edge keeps its ends, and the candidate has a live linking edge with each
of them. -/
theorem Mesher.newFacetOnEdge_spec [LinearOrderedField K] (env : Env K) (s : Mesher K)
    (edge candidate : Nat) (center : Point K) (ed : Edge) (hlive : s.heap.AdjacencyLive)
    (hed : s.heap.edges edge = some ed)
    (hlink : (s.heap.vertices ed.m_tgt).getLinkingEdge (s.heap.vertices ed.m_src) = some edge)
    (hf1 : ed.m_facet1 ≠ none)
    (hsv : ed.m_src ≠ candidate) (hvt : candidate ≠ ed.m_tgt) (hts : ed.m_tgt ≠ ed.m_src) :
    ∃ s1, Mesher.newFacetOnEdge env s edge candidate center = some s1 ∧
      s1.heap.facets = (s.heap.setFacet s.nextFacet
        (some ⟨ed.m_src, candidate, ed.m_tgt, center⟩)).facets ∧
      s1.m_facets = s.m_facets ++ [s.nextFacet] ∧
      s1.m_nfacets = (s.m_nfacets + 1) % 2 ^ 32 ∧
      s1.m_edge_front = s.m_edge_front ∧ s1.m_border_edges = s.m_border_edges ∧
      s1.nextFacet = s.nextFacet + 1 ∧ s1.heap.AdjacencyLive ∧
      (∃ ed1, s1.heap.edges edge = some ed1 ∧ ed1.m_src = ed.m_src ∧ ed1.m_tgt = ed.m_tgt) ∧
      (∃ e, e ∈ (s1.heap.vertices candidate).m_adjacentEdges ∧
        e ∈ (s1.heap.vertices ed.m_src).m_adjacentEdges) ∧
      (∃ e, e ∈ (s1.heap.vertices candidate).m_adjacentEdges ∧
        e ∈ (s1.heap.vertices ed.m_tgt).m_adjacentEdges) := by
  obtain ⟨m1, hm1, hfm1, hl1, -⟩ := Facet.ctorOnEdge_spec (normalizeWith env.sqrt) s.heap
    s.nextFacet edge candidate center ed hlive hed hlink hsv hvt hts
  obtain ⟨hg, c1, c2⟩ := Facet.ctorOnEdge_grows (normalizeWith env.sqrt) s.heap m1
    s.nextFacet edge candidate center ed hed hsv hvt hm1
  have hadd : ∃ s1, Mesher.addFacet { s with heap := m1, nextFacet := s.nextFacet + 1 }
      s.nextFacet = some s1 := by
    unfold Mesher.addFacet
    rw [show ({ s with heap := m1, nextFacet := s.nextFacet + 1 } : Mesher K).heap.facets
      s.nextFacet = some ⟨ed.m_src, candidate, ed.m_tgt, center⟩ from hfm1]
    exact ⟨_, rfl⟩
  obtain ⟨s1, hs1⟩ := hadd
  obtain ⟨hse, hfl, hnf, hfr, hbo, hnx⟩ := Mesher.addFacet_spec _ s1 _ hs1
  have hse1 : m1.SameEdges s1.heap := hse
  have hlt : edge < s.heap.nextEdge := (hlive _ _ (getCommonElement_mem _ _ edge hlink).1).1
  obtain ⟨ed1, hed1, hsrc, htgt, -⟩ := hg.2.2.2 edge ed hlt
    (by simp [Mesh.setFacet, hed]) hf1
  refine ⟨s1, ?_, ?_, hfl, hnf, hfr, hbo, hnx, hse1.live hl1, ⟨ed1, ?_, hsrc, htgt⟩, ?_, ?_⟩
  · unfold Mesher.newFacetOnEdge
    rw [hm1]
    exact hs1
  · rw [hse1.2.1, hg.1]
  · rw [hse1.1]
    exact hed1
  · obtain ⟨e, h1, h2⟩ := c1
    exact ⟨e, by rw [hse1.2.2.2]; exact h1, by rw [hse1.2.2.2]; exact h2⟩
  · obtain ⟨e, h1, h2⟩ := c2
    exact ⟨e, by rw [hse1.2.2.2]; exact h1, by rw [hse1.2.2.2]; exact h2⟩

/-! ## One turn of Mesher::expandTriangulation -/

/-- A popped edge that is not a front edge is dropped. -/
theorem Mesher.expandStep_pop [LinearOrderedField K] (env : Env K) (s : Mesher K)
    (edge : Nat) (rest : List Nat) (ed : Edge) (hfront : s.m_edge_front = edge :: rest)
    (hed : s.heap.edges edge = some ed) (ht : ed.m_type ≠ 1) :
    Mesher.expandStep env s = some { s with m_edge_front := rest } := by
  unfold Mesher.expandStep
  rw [hfront]
  dsimp only
  rw [hed]
  dsimp only
  rw [if_pos ht]

/-- The run of a turn on a front edge, once findCandidateVertex has returned a
candidate that passes the tests on its type and on its normal. -/
theorem Mesher.expandStep_tested [LinearOrderedField K] (env : Env K) (s : Mesher K)
    (edge : Nat) (rest : List Nat) (ed : Edge) (candidate : Nat) (center : Point K)
    (hfront : s.m_edge_front = edge :: rest) (hed : s.heap.edges edge = some ed)
    (ht : ed.m_type = 1)
    (hfind : Mesher.findCandidateVertex env { s with m_edge_front := rest } edge
      = some (some (candidate, center)))
    (hty : (s.heap.vertices candidate).m_type ≠ 2)
    (hco : Vertex.isCompatibleWith (normalizeWith env.sqrt) (s.heap.vertices candidate)
      (s.heap.vertices ed.m_src) (s.heap.vertices ed.m_tgt) = true) :
    Mesher.expandStep env s =
      match s.heap.linkTypeIs candidate ed.m_src (fun t => t != 1) with
      | none => none
      | some true => some (Mesher.retireEdge { s with m_edge_front := rest } edge ed)
      | some false =>
        match s.heap.linkTypeIs candidate ed.m_tgt (fun t => t != 1) with
        | none => none
        | some true => some (Mesher.retireEdge { s with m_edge_front := rest } edge ed)
        | some false =>
          (Mesher.newFacetOnEdge env { s with m_edge_front := rest } edge candidate
            center).bind fun s1 =>
          match s1.heap.edges edge with
          | none => none
          | some ed1 =>
            (s1.pushIfFront candidate ed1.m_src).bind fun s2 =>
            match s2.heap.edges edge with
            | none => none
            | some ed2 => s2.pushIfFront candidate ed2.m_tgt := by
  unfold Mesher.expandStep
  rw [hfront]
  dsimp only
  rw [hed]
  dsimp only
  have hguard : ¬ ((s.heap.vertices candidate).m_type = 2
      ∨ Vertex.isCompatibleWith (normalizeWith env.sqrt) (s.heap.vertices candidate)
          (s.heap.vertices ed.m_src) (s.heap.vertices ed.m_tgt) = false) := by
    rintro (h | h)
    · exact hty h
    · rw [hco] at h
      cases h
  rw [if_neg (not_not.mpr ht), hfind]
  dsimp only
  exact (if_neg hguard).trans rfl

/-- A turn on a front edge whose candidate is turned down retires the edge to
the border list. -/
theorem Mesher.expandStep_retire [LinearOrderedField K] (env : Env K) (s : Mesher K)
    (edge : Nat) (rest : List Nat) (ed : Edge) (r : Option (Nat × Point K))
    (hlive : s.heap.AdjacencyLive)
    (hfront : s.m_edge_front = edge :: rest) (hed : s.heap.edges edge = some ed)
    (ht : ed.m_type = 1)
    (hfind : Mesher.findCandidateVertex env { s with m_edge_front := rest } edge = some r)
    (hrej : Mesher.Rejects env s ed r) :
    Mesher.expandStep env s
      = some (Mesher.retireEdge { s with m_edge_front := rest } edge ed) := by
  have hP : ∀ t : Int, ((fun t => t != 1) t = true) ↔ t ≠ 1 := by
    intro t
    simp
  rcases hrej with rfl | ⟨candidate, center, rfl, hcase⟩
  · unfold Mesher.expandStep
    rw [hfront]
    dsimp only
    rw [hed]
    dsimp only
    rw [if_neg (not_not.mpr ht), hfind]
  · by_cases hguard : (s.heap.vertices candidate).m_type = 2
        ∨ Vertex.isCompatibleWith (normalizeWith env.sqrt) (s.heap.vertices candidate)
            (s.heap.vertices ed.m_src) (s.heap.vertices ed.m_tgt) = false
    · unfold Mesher.expandStep
      rw [hfront]
      dsimp only
      rw [hed]
      dsimp only
      rw [if_neg (not_not.mpr ht), hfind]
      dsimp only
      rw [if_pos hguard]
    · have hty : (s.heap.vertices candidate).m_type ≠ 2 := fun h => hguard (Or.inl h)
      have hco : Vertex.isCompatibleWith (normalizeWith env.sqrt) (s.heap.vertices candidate)
          (s.heap.vertices ed.m_src) (s.heap.vertices ed.m_tgt) = true := by
        cases h : Vertex.isCompatibleWith (normalizeWith env.sqrt) (s.heap.vertices candidate)
          (s.heap.vertices ed.m_src) (s.heap.vertices ed.m_tgt)
        · exact absurd (Or.inr h) hguard
        · rfl
      rw [Mesher.expandStep_tested env s edge rest ed candidate center hfront hed ht hfind
        hty hco]
      obtain ⟨hd1, hi1⟩ := Mesh.linkTypeIs_live s.heap candidate ed.m_src (fun t => t != 1) hlive
      obtain ⟨hd2, hi2⟩ := Mesh.linkTypeIs_live s.heap candidate ed.m_tgt (fun t => t != 1) hlive
      rcases hd1 with h1 | h1
      · rw [h1]
      · rw [h1]
        dsimp only
        rcases hd2 with h2 | h2
        · rw [h2]
        · exfalso
          rcases hcase with h | h | ⟨e, ed1, hl, he, hne⟩ | ⟨e, ed1, hl, he, hne⟩
          · exact hty h
          · rw [hco] at h
            cases h
          · have := hi1.mpr ⟨e, ed1, hl, he, (hP _).mpr hne⟩
            rw [h1] at this
            cases this
          · have := hi2.mpr ⟨e, ed1, hl, he, (hP _).mpr hne⟩
            rw [h2] at this
            cases this

/-- With a common adjacent edge on a heap whose adjacent edges are live, the
push of the linking edge returns. -/
theorem Mesher.pushIfFront_live (s : Mesher K) (a b x : Nat) (hlive : s.heap.AdjacencyLive)
    (hxa : x ∈ (s.heap.vertices a).m_adjacentEdges)
    (hxb : x ∈ (s.heap.vertices b).m_adjacentEdges) :
    ∃ e ed, (s.heap.vertices a).getLinkingEdge (s.heap.vertices b) = some e ∧
      s.heap.edges e = some ed ∧
      s.pushIfFront a b
        = some (if ed.m_type = 1 then { s with m_edge_front := e :: s.m_edge_front } else s) := by
  obtain ⟨e, he⟩ := getCommonElement_of_mem _ _ x hxa hxb
  have he1 : (s.heap.vertices a).getLinkingEdge (s.heap.vertices b) = some e := he
  obtain ⟨-, ed, hed⟩ := hlive a e (getCommonElement_mem _ _ e he).1
  refine ⟨e, ed, he1, hed, ?_⟩
  unfold Mesher.pushIfFront
  rw [he1]
  dsimp only
  rw [hed]

/-- A turn on a front edge whose candidate is not turned down, on a heap whose
adjacent edges are live and in which the edge is the linking edge of its
ends: the turn returns; one facet, on the source, the candidate and the
target with the center of the candidate, is written at the next facet address,
listed and counted, and no other; the linking edges of the candidate with the
target and with the source are put ahead of the rest of the front when their
type is 1. -/
theorem Mesher.expandStep_create [LinearOrderedField K] (env : Env K) (s : Mesher K)
    (edge : Nat) (rest : List Nat) (ed : Edge) (candidate : Nat) (center : Point K)
    (hlive : s.heap.AdjacencyLive)
    (hfront : s.m_edge_front = edge :: rest) (hed : s.heap.edges edge = some ed)
    (ht : ed.m_type = 1)
    (hlink : (s.heap.vertices ed.m_tgt).getLinkingEdge (s.heap.vertices ed.m_src) = some edge)
    (hfind : Mesher.findCandidateVertex env { s with m_edge_front := rest } edge
      = some (some (candidate, center)))
    (hnrej : ¬ Mesher.Rejects env s ed (some (candidate, center))) :
    ∃ s1, Mesher.expandStep env s = some s1 ∧
      s1.heap.facets = (s.heap.setFacet s.nextFacet
        (some ⟨ed.m_src, candidate, ed.m_tgt, center⟩)).facets ∧
      s1.m_facets = s.m_facets ++ [s.nextFacet] ∧
      s1.m_nfacets = (s.m_nfacets + 1) % 2 ^ 32 ∧
      s1.m_border_edges = s.m_border_edges ∧ s1.nextFacet = s.nextFacet + 1 ∧
      ∃ e1 ed1 e2 ed2,
        (s1.heap.vertices candidate).getLinkingEdge (s1.heap.vertices ed.m_src) = some e1 ∧
        s1.heap.edges e1 = some ed1 ∧
        (s1.heap.vertices candidate).getLinkingEdge (s1.heap.vertices ed.m_tgt) = some e2 ∧
        s1.heap.edges e2 = some ed2 ∧
        s1.m_edge_front = (if ed2.m_type = 1 then [e2] else [])
          ++ ((if ed1.m_type = 1 then [e1] else []) ++ rest) := by
  obtain ⟨ed0, f, fc, opp, hed0, hf1, hfc, hopp⟩ :=
    Mesher.findCandidateVertex_inv env _ edge _ hfind
  have hed00 : s.heap.edges edge = some ed0 := hed0
  rw [hed] at hed00
  cases hed00
  obtain ⟨hws, hwt, -, hst, -, -⟩ := Mesher.findCandidateVertex_distinct env _ edge f ed fc opp
    hed0 hf1 hfc hopp candidate center hfind
  have hty : (s.heap.vertices candidate).m_type ≠ 2 :=
    fun h => hnrej (Or.inr ⟨candidate, center, rfl, Or.inl h⟩)
  have hco : Vertex.isCompatibleWith (normalizeWith env.sqrt) (s.heap.vertices candidate)
      (s.heap.vertices ed.m_src) (s.heap.vertices ed.m_tgt) = true := by
    cases h : Vertex.isCompatibleWith (normalizeWith env.sqrt) (s.heap.vertices candidate)
      (s.heap.vertices ed.m_src) (s.heap.vertices ed.m_tgt)
    · exact absurd (Or.inr ⟨candidate, center, rfl, Or.inr (Or.inl h)⟩) hnrej
    · rfl
  have hP : ∀ t : Int, ((fun t => t != 1) t = true) → t ≠ 1 := by
    intro t h
    simpa using h
  obtain ⟨hd1, hi1⟩ := Mesh.linkTypeIs_live s.heap candidate ed.m_src (fun t => t != 1) hlive
  obtain ⟨hd2, hi2⟩ := Mesh.linkTypeIs_live s.heap candidate ed.m_tgt (fun t => t != 1) hlive
  have h1 : s.heap.linkTypeIs candidate ed.m_src (fun t => t != 1) = some false := by
    rcases hd1 with h | h
    · obtain ⟨e, ed1, hl, he, hp⟩ := hi1.mp h
      exact absurd (Or.inr ⟨candidate, center, rfl,
        Or.inr (Or.inr (Or.inl ⟨e, ed1, hl, he, hP _ hp⟩))⟩) hnrej
    · exact h
  have h2 : s.heap.linkTypeIs candidate ed.m_tgt (fun t => t != 1) = some false := by
    rcases hd2 with h | h
    · obtain ⟨e, ed1, hl, he, hp⟩ := hi2.mp h
      exact absurd (Or.inr ⟨candidate, center, rfl,
        Or.inr (Or.inr (Or.inr ⟨e, ed1, hl, he, hP _ hp⟩))⟩) hnrej
    · exact h
  obtain ⟨s1, hs1, hfac, hfl, hnf, hfr, hbo, hnx, hl1, ⟨ed1, hed1, hsrc, htgt⟩, ⟨x1, x1a, x1b⟩,
    ⟨x2, x2a, x2b⟩⟩ := Mesher.newFacetOnEdge_spec env { s with m_edge_front := rest } edge
      candidate center ed hlive hed hlink (by rw [hf1]; exact Option.some_ne_none f)
      (Ne.symm hws) hwt (Ne.symm hst)
  obtain ⟨s2, hp1⟩ : ∃ s2, s1.pushIfFront candidate ed.m_src = some s2 := by
    obtain ⟨_, _, _, _, h⟩ := Mesher.pushIfFront_live s1 candidate ed.m_src x1 hl1 x1a x1b
    exact ⟨_, h⟩
  obtain ⟨hh2, hf2, hn2, hb2, hx2, e1, d1, hl1e, he1, hfr2⟩ :=
    Mesher.pushIfFront_spec s1 s2 _ _ hp1
  obtain ⟨s3, hp2⟩ : ∃ s3, s2.pushIfFront candidate ed.m_tgt = some s3 := by
    obtain ⟨_, _, _, _, h⟩ := Mesher.pushIfFront_live s2 candidate ed.m_tgt x2
      (by rw [hh2]; exact hl1) (by rw [hh2]; exact x2a) (by rw [hh2]; exact x2b)
    exact ⟨_, h⟩
  obtain ⟨hh3, hf3, hn3, hb3, hx3, e2, d2, hl2e, he2, hfr3⟩ :=
    Mesher.pushIfFront_spec s2 s3 _ _ hp2
  rw [hh2] at hl2e he2
  have hfr0 : s1.m_edge_front = rest := hfr
  refine ⟨s3, ?_, ?_, ?_, ?_, ?_, ?_, e1, d1, e2, d2, ?_, ?_, ?_, ?_, ?_⟩
  · rw [Mesher.expandStep_tested env s edge rest ed candidate center hfront hed ht hfind
      hty hco, h1]
    dsimp only
    rw [h2]
    dsimp only
    rw [hs1, Option.some_bind, hed1]
    dsimp only
    rw [hsrc, hp1, Option.some_bind, hh2, hed1]
    dsimp only
    rw [htgt, hp2]
  · rw [hh3, hh2]
    exact hfac
  · rw [hf3, hf2]
    exact hfl
  · rw [hn3, hn2]
    exact hnf
  · rw [hb3, hb2]
    exact hbo
  · rw [hx3, hx2]
    exact hnx
  · rw [hh3, hh2]
    exact hl1e
  · rw [hh3, hh2]
    exact he1
  · rw [hh3, hh2]
    exact hl2e
  · rw [hh3, hh2]
    exact he2
  · rw [hfr3, hfr2, hfr0]
    split_ifs <;> simp

/-! ## findCandidateVertex reads the heap and the radius only -/

theorem Mesher.computeBallCenter_congr [LinearOrderedField K] (env : Env K) (s s1 : Mesher K)
    (hq : s1.m_sq_ball_radius = s.m_sq_ball_radius) (v1 v2 v3 : Vertex K) :
    Mesher.computeBallCenter env s1 v1 v2 v3 = Mesher.computeBallCenter env s v1 v2 v3 := by
  rw [Mesher.computeBallCenter_eq, Mesher.computeBallCenter_eq, hq]

theorem Mesher.checkEmptyBallConfiguration_congr [LinearOrderedField K] (s s1 : Mesher K)
    (hh : s1.heap = s.heap) (hq : s1.m_sq_ball_radius = s.m_sq_ball_radius) (v1 v2 v3 : Nat)
    (neighbors : List Nat) (center : Point K) :
    Mesher.checkEmptyBallConfiguration s1 v1 v2 v3 neighbors center
      = Mesher.checkEmptyBallConfiguration s v1 v2 v3 neighbors center := by
  induction neighbors with
  | nil => rfl
  | cons w rest ih =>
    unfold Mesher.checkEmptyBallConfiguration
    rw [ih, hh, hq]

theorem Mesher.findCandidateVertex_congr [LinearOrderedField K] (env : Env K)
    (s s1 : Mesher K) (hh : s1.heap = s.heap) (hr : s1.m_ball_radius = s.m_ball_radius)
    (hq : s1.m_sq_ball_radius = s.m_sq_ball_radius) (edge : Nat) :
    Mesher.findCandidateVertex env s1 edge = Mesher.findCandidateVertex env s edge := by
  have hframe : ∀ ed fc opp, Mesher.pivotFrame env s1 ed fc opp
      = Mesher.pivotFrame env s ed fc opp := by
    intro ed fc opp
    unfold Mesher.pivotFrame
    rw [hh, hr, hq]
  have hstep : ∀ fr, Mesher.candidateStep env s1 fr = Mesher.candidateStep env s fr := by
    intro fr
    funext acc w
    unfold Mesher.candidateStep
    rw [hh]
    simp only [Mesher.computeBallCenter_congr env s s1 hq,
      Mesher.checkEmptyBallConfiguration_congr s s1 hh hq]
  unfold Mesher.findCandidateVertex
  simp only [hh, hframe, hstep]

/-- The front list plays no part in findCandidateVertex. -/
theorem Mesher.findCandidateVertex_front [LinearOrderedField K] (env : Env K) (s : Mesher K)
    (front : List Nat) (edge : Nat) :
    Mesher.findCandidateVertex env { s with m_edge_front := front } edge
      = Mesher.findCandidateVertex env s edge :=
  Mesher.findCandidateVertex_congr env s { s with m_edge_front := front } rfl rfl rfl edge

/-! ## The sample scene as a mesher state -/

theorem rect_live : rectMesher.heap.AdjacencyLive := by
  intro v e he
  have hmem : e = 0 ∨ e = 1 ∨ e = 2 := by
    rcases v with _ | _ | _ | _ | n <;>
      simp [rectMesher, rectHeap, rectVertex] at he <;> omega
  rcases hmem with rfl | rfl | rfl
  · exact ⟨by decide, _, rfl⟩
  · exact ⟨by decide, _, rfl⟩
  · exact ⟨by decide, _, rfl⟩

theorem rect_acos (x : ℚ) (h1 : -1 ≤ x) (h2 : x ≤ 1) :
    0 ≤ rectEnv.acos x ∧ rectEnv.acos x ≤ 2 * Mesher.PI := by
  have hpi : (0 : ℚ) < Mesher.PI := by norm_num [Mesher.PI]
  simp only [rectEnv]
  constructor
  · apply mul_nonneg
    · linarith
    · linarith
  · nlinarith

theorem rect_link :
    (rectMesher.heap.vertices 0).getLinkingEdge (rectMesher.heap.vertices 1) = some 2 := by
  decide

theorem rect_compatible3 :
    Vertex.isCompatibleWith (normalizeWith rectEnv.sqrt) (rectMesher.heap.vertices 3)
      (rectMesher.heap.vertices 1) (rectMesher.heap.vertices 0) = true := by
  obtain ⟨-, -, -, h4, -⟩ := rect_sqrt_values
  have hn : normalizeWith rectEnv.sqrt
      (cross_product ((rectMesher.heap.vertices 3).pos.x - (rectMesher.heap.vertices 1).pos.x)
        ((rectMesher.heap.vertices 3).pos.y - (rectMesher.heap.vertices 1).pos.y)
        ((rectMesher.heap.vertices 3).pos.z - (rectMesher.heap.vertices 1).pos.z)
        ((rectMesher.heap.vertices 0).pos.x - (rectMesher.heap.vertices 1).pos.x)
        ((rectMesher.heap.vertices 0).pos.y - (rectMesher.heap.vertices 1).pos.y)
        ((rectMesher.heap.vertices 0).pos.z - (rectMesher.heap.vertices 1).pos.z))
      = (0, 0, 1) := by
    simp only [normalizeWith, cross_product, rectEnv, rectMesher, rectHeap, rectVertex]
    norm_num [h4]
  rw [Vertex.isCompatibleWith_spec, hn]
  norm_num [rectMesher, rectHeap, rectVertex]

theorem rect_not_rejected :
    ¬ Mesher.Rejects rectEnv rectMesher ⟨1, 0, some 0, none, 1⟩
      (some (3, ⟨153 / 2, 52, 336⟩)) := by
  rintro (h | ⟨candidate, center, h, hcase⟩)
  · cases h
  · cases h
    rcases hcase with h | h | ⟨e, ed1, hl, -⟩ | ⟨e, ed1, hl, -⟩
    · revert h
      decide
    · rw [show Vertex.isCompatibleWith (normalizeWith rectEnv.sqrt) (rectMesher.heap.vertices 3)
        (rectMesher.heap.vertices 1) (rectMesher.heap.vertices 0) = true
        from rect_compatible3] at h
      cases h
    · have h0 : (rectMesher.heap.vertices 3).getLinkingEdge (rectMesher.heap.vertices 1)
          = none := by decide
      have hl1 : (rectMesher.heap.vertices 3).getLinkingEdge (rectMesher.heap.vertices 1)
          = some e := hl
      rw [h0] at hl1
      cases hl1
    · have h0 : (rectMesher.heap.vertices 3).getLinkingEdge (rectMesher.heap.vertices 0)
          = none := by decide
      have hl1 : (rectMesher.heap.vertices 3).getLinkingEdge (rectMesher.heap.vertices 0)
          = some e := hl
      rw [h0] at hl1
      cases hl1

/-! ## The claims on findCandidateVertex and on a turn of the expansion -/

/-- C18 (as the code has it): on a live edge with a live first facet, and with
an arc cosine that takes its values between 0 and `2 PI` on [-1, 1],
Mesher::findCandidateVertex returns; it returns NULL exactly when no neighbor
is admissible (not source, target or opposite vertex, ball center exists, ball
empty); otherwise it returns an admissible neighbor with its ball center, whose
pivot angle is minimal among the admissible neighbors, and when several share
the minimal angle it is the one encountered last in the neighbor list: every
admissible neighbor after it has a strictly greater angle. -/
theorem Mesher.findCandidateVertex_minimal_last [LinearOrderedField K] (env : Env K)
    (s : Mesher K) (edge f : Nat) (ed : Edge) (fc : Facet K) (opp : Option Nat)
    (hed : s.heap.edges edge = some ed) (hf1 : ed.m_facet1 = some f)
    (hfc : s.heap.facets f = some fc) (hopp : ed.getOppositeVertex s.heap = some opp)
    (hacos : ∀ x : K, -1 ≤ x → x ≤ 1 → 0 ≤ env.acos x ∧ env.acos x ≤ 2 * Mesher.PI) :
    ∃ r, Mesher.findCandidateVertex env s edge = some r ∧
      (r = none ↔ ∀ x ∈ (Mesher.pivotFrame env s ed fc opp).neighbors,
        Mesher.admissible env s (Mesher.pivotFrame env s ed fc opp) x = none) ∧
      (∀ w c, r = some (w, c) → ∃ θ,
        Mesher.admissible env s (Mesher.pivotFrame env s ed fc opp) w = some (θ, c) ∧
        w ∈ (Mesher.pivotFrame env s ed fc opp).neighbors ∧
        (∀ x ∈ (Mesher.pivotFrame env s ed fc opp).neighbors, ∀ r1,
          Mesher.admissible env s (Mesher.pivotFrame env s ed fc opp) x = some r1 →
            θ ≤ r1.1) ∧
        ∃ p q, (Mesher.pivotFrame env s ed fc opp).neighbors = p ++ w :: q ∧
          (∀ x ∈ q, ∀ r1, Mesher.admissible env s (Mesher.pivotFrame env s ed fc opp) x
            = some r1 → θ < r1.1)) := by
  obtain ⟨r, hr, hnone, hsome⟩ :=
    Mesher.findCandidateVertex_spec env s edge f ed fc opp hed hf1 hfc hopp hacos
  have hsome1 : ∀ w c, r = some (w, c) → ∃ θ,
      Mesher.admissible env s (Mesher.pivotFrame env s ed fc opp) w = some (θ, c) ∧
      w ∈ (Mesher.pivotFrame env s ed fc opp).neighbors ∧
      (∀ x ∈ (Mesher.pivotFrame env s ed fc opp).neighbors, ∀ r1,
        Mesher.admissible env s (Mesher.pivotFrame env s ed fc opp) x = some r1 →
          θ ≤ r1.1) ∧
      ∃ p q, (Mesher.pivotFrame env s ed fc opp).neighbors = p ++ w :: q ∧
        (∀ x ∈ q, ∀ r1, Mesher.admissible env s (Mesher.pivotFrame env s ed fc opp) x
          = some r1 → θ < r1.1) := by
    intro w c hw
    obtain ⟨θ, ha, p, q, hpq, hp, hq⟩ := hsome w c hw
    refine ⟨θ, ha, by rw [hpq]; simp, ?_, p, q, hpq, hq⟩
    intro x hx r1 hr1
    rw [hpq] at hx
    rcases List.mem_append.mp hx with hx | hx
    · exact hp x hx r1 hr1
    · rcases List.mem_cons.mp hx with hx | hx
      · rw [hx, ha] at hr1
        cases hr1
        exact le_rfl
      · exact (hq x hx r1 hr1).le
  refine ⟨r, hr, ⟨hnone, ?_⟩, hsome1⟩
  intro hall
  cases hr0 : r with
  | none => rfl
  | some wc =>
    obtain ⟨θ, ha, hmem, -⟩ := hsome1 wc.1 wc.2 hr0
    rw [hall wc.1 hmem] at ha
    cases ha

/-- C18, on the front edge 2 of the sample scene: the call returns, and its
result is as described. -/
theorem Mesher.findCandidateVertex_minimal_last_witness :
    ∃ r, Mesher.findCandidateVertex rectEnv rectMesher 2 = some r ∧
      (r = none ↔ ∀ x ∈ (Mesher.pivotFrame rectEnv rectMesher ⟨1, 0, some 0, none, 1⟩
          ⟨0, 4, 1, ⟨153 / 2, -52, 336⟩⟩ (some 4)).neighbors,
        Mesher.admissible rectEnv rectMesher (Mesher.pivotFrame rectEnv rectMesher
          ⟨1, 0, some 0, none, 1⟩ ⟨0, 4, 1, ⟨153 / 2, -52, 336⟩⟩ (some 4)) x = none) ∧
      (∀ w c, r = some (w, c) → ∃ θ,
        Mesher.admissible rectEnv rectMesher (Mesher.pivotFrame rectEnv rectMesher
          ⟨1, 0, some 0, none, 1⟩ ⟨0, 4, 1, ⟨153 / 2, -52, 336⟩⟩ (some 4)) w = some (θ, c) ∧
        w ∈ (Mesher.pivotFrame rectEnv rectMesher ⟨1, 0, some 0, none, 1⟩
          ⟨0, 4, 1, ⟨153 / 2, -52, 336⟩⟩ (some 4)).neighbors ∧
        (∀ x ∈ (Mesher.pivotFrame rectEnv rectMesher ⟨1, 0, some 0, none, 1⟩
            ⟨0, 4, 1, ⟨153 / 2, -52, 336⟩⟩ (some 4)).neighbors, ∀ r1,
          Mesher.admissible rectEnv rectMesher (Mesher.pivotFrame rectEnv rectMesher
            ⟨1, 0, some 0, none, 1⟩ ⟨0, 4, 1, ⟨153 / 2, -52, 336⟩⟩ (some 4)) x = some r1 →
            θ ≤ r1.1) ∧
        ∃ p q, (Mesher.pivotFrame rectEnv rectMesher ⟨1, 0, some 0, none, 1⟩
            ⟨0, 4, 1, ⟨153 / 2, -52, 336⟩⟩ (some 4)).neighbors = p ++ w :: q ∧
          (∀ x ∈ q, ∀ r1, Mesher.admissible rectEnv rectMesher
            (Mesher.pivotFrame rectEnv rectMesher ⟨1, 0, some 0, none, 1⟩
              ⟨0, 4, 1, ⟨153 / 2, -52, 336⟩⟩ (some 4)) x = some r1 → θ < r1.1)) :=
  Mesher.findCandidateVertex_minimal_last rectEnv rectMesher 2 0 ⟨1, 0, some 0, none, 1⟩
    ⟨0, 4, 1, ⟨153 / 2, -52, 336⟩⟩ (some 4) rect_edge2 rfl rect_facet0 rect_opposite rect_acos

/-- C18, against "ties broken by first encountered": around the front edge 2
of the sample scene the neighbors are 0, 1, 2, 3, 4; the corners 2 and 3 are
both admissible, with the same ball center and the same pivot angle; corner 2
comes first in the list, and findCandidateVertex returns corner 3. -/
theorem Mesher.findCandidateVertex_tie_returns_last :
    Mesher.findCandidateVertex rectEnv rectMesher 2
      = some (some (3, ⟨153 / 2, 52, 336⟩)) ∧
    (Mesher.pivotFrame rectEnv rectMesher ⟨1, 0, some 0, none, 1⟩
      ⟨0, 4, 1, ⟨153 / 2, -52, 336⟩⟩ (some 4)).neighbors = [0, 1, 2, 3, 4] ∧
    Mesher.admissible rectEnv rectMesher (Mesher.pivotFrame rectEnv rectMesher
      ⟨1, 0, some 0, none, 1⟩ ⟨0, 4, 1, ⟨153 / 2, -52, 336⟩⟩ (some 4)) 2
      = some (Mesher.PI * (169 / 7225), ⟨153 / 2, 52, 336⟩) ∧
    Mesher.admissible rectEnv rectMesher (Mesher.pivotFrame rectEnv rectMesher
      ⟨1, 0, some 0, none, 1⟩ ⟨0, 4, 1, ⟨153 / 2, -52, 336⟩⟩ (some 4)) 3
      = some (Mesher.PI * (169 / 7225), ⟨153 / 2, 52, 336⟩) := by
  refine ⟨rect_findCandidateVertex, ?_, ?_, ?_⟩
  · rw [rect_frame]
  · rw [rect_frame]
    exact rect_admissible2
  · rw [rect_frame]
    exact rect_admissible3

/-- The facets after a turn of the expansion on a front edge with a candidate,
on a well-formed heap: the turn returns, and a facet that was not there before
is on the source, the candidate and the target, with the center of the
candidate. -/
theorem Mesher.expandStep_new_facet [LinearOrderedField K] (env : Env K) (s : Mesher K)
    (edge : Nat) (rest : List Nat) (ed : Edge) (w : Nat) (c : Point K)
    (hlive : s.heap.AdjacencyLive) (hfront : s.m_edge_front = edge :: rest)
    (hed : s.heap.edges edge = some ed) (ht : ed.m_type = 1)
    (hlink : (s.heap.vertices ed.m_tgt).getLinkingEdge (s.heap.vertices ed.m_src) = some edge)
    (hfind : Mesher.findCandidateVertex env s edge = some (some (w, c))) :
    ∃ s1, Mesher.expandStep env s = some s1 ∧
      ∀ g fc, s1.heap.facets g = some fc → s.heap.facets g = none →
        fc = ⟨ed.m_src, w, ed.m_tgt, c⟩ := by
  have hfind0 : Mesher.findCandidateVertex env { s with m_edge_front := rest } edge
      = some (some (w, c)) := by
    rw [Mesher.findCandidateVertex_front]
    exact hfind
  by_cases hrej : Mesher.Rejects env s ed (some (w, c))
  · refine ⟨_, Mesher.expandStep_retire env s edge rest ed _ hlive hfront hed ht hfind0 hrej,
      ?_⟩
    intro g fc h1 h0
    have h2 : s.heap.facets g = some fc := h1
    rw [h0] at h2
    cases h2
  · obtain ⟨s1, hs1, hfac, -⟩ := Mesher.expandStep_create env s edge rest ed w c hlive hfront
      hed ht hlink hfind0 hrej
    refine ⟨s1, hs1, ?_⟩
    intro g fc h1 h0
    rw [hfac] at h1
    by_cases hg : g = s.nextFacet
    · subst hg
      simp only [Mesh.setFacet, if_true, Option.some.injEq] at h1
      exact h1.symm
    · simp only [Mesh.setFacet, if_neg hg] at h1
      rw [h0] at h1
      cases h1

/-- C19: for every front edge `e` that is the linking edge of its ends on a
heap whose adjacent edges are live, the vertex returned by findCandidateVertex,
when not NULL, is different from the source of `e`, from its target and from
the opposite vertex of its first facet; the center written to the output
parameter is the result of computeBallCenter(src, tgt, candidate), and it
passed checkEmptyBallConfiguration over the queried neighbor list; source and
target are different too, so that the turn of expandTriangulation on `e`
returns and a facet it creates has three pairwise distinct vertices. -/
theorem Mesher.findCandidateVertex_candidate [LinearOrderedField K] (env : Env K)
    (s : Mesher K) (edge : Nat) (rest : List Nat) (ed : Edge) (w : Nat) (c : Point K)
    (hlive : s.heap.AdjacencyLive) (hfront : s.m_edge_front = edge :: rest)
    (hed : s.heap.edges edge = some ed) (ht : ed.m_type = 1)
    (hlink : (s.heap.vertices ed.m_tgt).getLinkingEdge (s.heap.vertices ed.m_src) = some edge)
    (hfind : Mesher.findCandidateVertex env s edge = some (some (w, c))) :
    w ≠ ed.m_src ∧ w ≠ ed.m_tgt ∧ ed.getOppositeVertex s.heap ≠ some (some w) ∧
    Mesher.computeBallCenter env s (s.heap.vertices ed.m_src) (s.heap.vertices ed.m_tgt)
      (s.heap.vertices w) = some c ∧
    (∃ f fc opp, ed.m_facet1 = some f ∧ s.heap.facets f = some fc ∧
      ed.getOppositeVertex s.heap = some opp ∧
      Mesher.checkEmptyBallConfiguration s ed.m_src ed.m_tgt w
        (Mesher.pivotFrame env s ed fc opp).neighbors c = true) ∧
    ∃ s1, Mesher.expandStep env s = some s1 ∧
      ∀ g fc, s1.heap.facets g = some fc → s.heap.facets g = none →
        fc = ⟨ed.m_src, w, ed.m_tgt, c⟩ ∧ fc.m_vertex0 ≠ fc.m_vertex1 ∧
          fc.m_vertex1 ≠ fc.m_vertex2 ∧ fc.m_vertex2 ≠ fc.m_vertex0 := by
  obtain ⟨ed0, f, fc, opp, hed0, hf1, hfc, hopp⟩ :=
    Mesher.findCandidateVertex_inv env s edge _ hfind
  rw [hed] at hed0
  cases hed0
  obtain ⟨hws, hwt, hwo, hst, hc, he⟩ := Mesher.findCandidateVertex_distinct env s edge f ed
    fc opp hed hf1 hfc hopp w c hfind
  obtain ⟨s1, hs1, hnew⟩ := Mesher.expandStep_new_facet env s edge rest ed w c hlive hfront
    hed ht hlink hfind
  refine ⟨hws, hwt, ?_, hc, ⟨f, fc, opp, hf1, hfc, hopp, he⟩, s1, hs1, ?_⟩
  · rw [hopp]
    intro h
    exact hwo (Option.some.inj h).symm
  · intro g fc1 h1 h0
    have hfc1 := hnew g fc1 h1 h0
    subst hfc1
    exact ⟨rfl, Ne.symm hws, hwt, Ne.symm hst⟩

/-- C19, on the front edge 2 (1→0) of the sample scene, whose candidate is the
corner 3. -/
theorem Mesher.findCandidateVertex_candidate_witness :
    (3 : Nat) ≠ 1 ∧ (3 : Nat) ≠ 0 ∧
    Edge.getOppositeVertex rectMesher.heap ⟨1, 0, some 0, none, 1⟩ ≠ some (some 3) ∧
    Mesher.computeBallCenter rectEnv rectMesher (rectMesher.heap.vertices 1)
      (rectMesher.heap.vertices 0) (rectMesher.heap.vertices 3) = some ⟨153 / 2, 52, 336⟩ ∧
    (∃ f fc opp, (⟨1, 0, some 0, none, 1⟩ : Edge).m_facet1 = some f ∧
      rectMesher.heap.facets f = some fc ∧
      Edge.getOppositeVertex rectMesher.heap ⟨1, 0, some 0, none, 1⟩ = some opp ∧
      Mesher.checkEmptyBallConfiguration rectMesher 1 0 3
        (Mesher.pivotFrame rectEnv rectMesher ⟨1, 0, some 0, none, 1⟩ fc opp).neighbors
        ⟨153 / 2, 52, 336⟩ = true) ∧
    ∃ s1, Mesher.expandStep rectEnv rectMesher = some s1 ∧
      ∀ g fc, s1.heap.facets g = some fc → rectMesher.heap.facets g = none →
        fc = ⟨1, 3, 0, ⟨153 / 2, 52, 336⟩⟩ ∧ fc.m_vertex0 ≠ fc.m_vertex1 ∧
          fc.m_vertex1 ≠ fc.m_vertex2 ∧ fc.m_vertex2 ≠ fc.m_vertex0 :=
  Mesher.findCandidateVertex_candidate rectEnv rectMesher 2 [] ⟨1, 0, some 0, none, 1⟩ 3
    ⟨153 / 2, 52, 336⟩ rect_live rfl rect_edge2 rfl rect_link rect_findCandidateVertex

/-- C20: one turn of Mesher::expandTriangulation on the popped head edge `e`,
on a heap whose adjacent edges are live.  If the type of `e` is not 1 the turn
changes nothing but the front.  If `e` is a front edge and findCandidateVertex
returns `r`: when the candidate is turned down (it is NULL, or an inner vertex,
or fails isCompatibleWith(e), or has a linking edge with the source or the
target of a type other than 1) `e` gets type 0 and is appended to the border
list, and no facet is created; otherwise, `e` being the linking edge of its
ends, the turn returns and exactly one facet is created, at the next facet
address, on (source, candidate, target) with the ball center of the
candidate: it is appended to the facet list and counted, and every other
facet is as before. -/
theorem Mesher.expandStep_cases [LinearOrderedField K] (env : Env K) (s : Mesher K)
    (edge : Nat) (rest : List Nat) (ed : Edge) (hlive : s.heap.AdjacencyLive)
    (hfront : s.m_edge_front = edge :: rest) (hed : s.heap.edges edge = some ed) :
    (ed.m_type ≠ 1 → Mesher.expandStep env s = some { s with m_edge_front := rest }) ∧
    (ed.m_type = 1 → ∀ r, Mesher.findCandidateVertex env s edge = some r →
      (Mesher.Rejects env s ed r →
        ∃ s1, Mesher.expandStep env s = some s1 ∧
          s1.heap.edges edge = some { ed with m_type := 0 } ∧
          (∀ e, e ≠ edge → s1.heap.edges e = s.heap.edges e) ∧
          s1.m_border_edges = s.m_border_edges ++ [edge] ∧ s1.m_edge_front = rest ∧
          s1.heap.facets = s.heap.facets ∧ s1.heap.vertices = s.heap.vertices ∧
          s1.m_facets = s.m_facets ∧ s1.m_nfacets = s.m_nfacets) ∧
      (¬ Mesher.Rejects env s ed r →
        (s.heap.vertices ed.m_tgt).getLinkingEdge (s.heap.vertices ed.m_src) = some edge →
        ∃ candidate center s1, r = some (candidate, center) ∧
          Mesher.expandStep env s = some s1 ∧
          s1.heap.facets s.nextFacet = some ⟨ed.m_src, candidate, ed.m_tgt, center⟩ ∧
          (∀ g, g ≠ s.nextFacet → s1.heap.facets g = s.heap.facets g) ∧
          s1.m_facets = s.m_facets ++ [s.nextFacet] ∧
          s1.m_nfacets = (s.m_nfacets + 1) % 2 ^ 32 ∧
          s1.m_border_edges = s.m_border_edges)) := by
  refine ⟨fun ht => Mesher.expandStep_pop env s edge rest ed hfront hed ht, ?_⟩
  intro ht r hfind
  have hfind0 : Mesher.findCandidateVertex env { s with m_edge_front := rest } edge
      = some r := by
    rw [Mesher.findCandidateVertex_front]
    exact hfind
  constructor
  · intro hrej
    refine ⟨_, Mesher.expandStep_retire env s edge rest ed r hlive hfront hed ht hfind0 hrej,
      ?_, ?_, rfl, rfl, rfl, rfl, rfl, rfl⟩
    · simp [Mesher.retireEdge, Mesh.setEdge]
    · intro e he
      simp [Mesher.retireEdge, Mesh.setEdge, he]
  · intro hnrej hlink
    cases r with
    | none => exact absurd (Or.inl rfl) hnrej
    | some wc =>
      obtain ⟨s1, hs1, hfac, hfl, hnf, hbo, -⟩ := Mesher.expandStep_create env s edge rest ed
        wc.1 wc.2 hlive hfront hed ht hlink hfind0 hnrej
      refine ⟨wc.1, wc.2, s1, rfl, hs1, ?_, ?_, hfl, hnf, hbo⟩
      · rw [hfac]
        simp [Mesh.setFacet]
      · intro g hg
        rw [hfac]
        simp [Mesh.setFacet, hg]

/-- C20, on the sample scene, whose front holds the edge 2 (1→0) of type 1:
the candidate, corner 3, is not turned down, and the turn creates the facet 1
on the vertices 1, 3, 0 with the center (153/2, 52, 336). -/
theorem Mesher.expandStep_cases_witness :
    ∃ candidate center s1, some ((3 : Nat), (⟨153 / 2, 52, 336⟩ : Point ℚ))
        = some (candidate, center) ∧
      Mesher.expandStep rectEnv rectMesher = some s1 ∧
      s1.heap.facets rectMesher.nextFacet
        = some ⟨(⟨1, 0, some 0, none, 1⟩ : Edge).m_src, candidate,
            (⟨1, 0, some 0, none, 1⟩ : Edge).m_tgt, center⟩ ∧
      (∀ g, g ≠ rectMesher.nextFacet → s1.heap.facets g = rectMesher.heap.facets g) ∧
      s1.m_facets = rectMesher.m_facets ++ [rectMesher.nextFacet] ∧
      s1.m_nfacets = (rectMesher.m_nfacets + 1) % 2 ^ 32 ∧
      s1.m_border_edges = rectMesher.m_border_edges :=
  ((Mesher.expandStep_cases rectEnv rectMesher 2 [] ⟨1, 0, some 0, none, 1⟩ rect_live rfl
    rect_edge2).2 rfl _ rect_findCandidateVertex).2 rect_not_rejected rect_link

/-! ## Collinear samples -/

/-- Three collinear positions have no ball center, whatever the radius. -/
theorem Mesher.computeBallCenter_collinear [LinearOrderedField K] (env : Env K)
    (s : Mesher K) (v1 v2 v3 : Vertex K) (h : Collinear v1.pos v2.pos v3.pos) :
    Mesher.computeBallCenter env s v1 v2 v3 = none :=
  Mesher.computeBallCenter_of_tau_zero env s v1 v2 v3 (Mesher.tau_collinear v1 v2 v3 h)

/-- On a heap whose adjacent edges are live, tryTriangleSeed on three collinear
vertices returns false. -/
theorem Mesher.tryTriangleSeed_collinear [LinearOrderedField K] (env : Env K) (s : Mesher K)
    (v1 v2 v3 : Nat) (neighbors : List (K × Nat)) (hlive : s.heap.AdjacencyLive)
    (h : Collinear (s.heap.vertices v1).pos (s.heap.vertices v2).pos (s.heap.vertices v3).pos) :
    Mesher.tryTriangleSeed env s v1 v2 v3 neighbors = some none := by
  unfold Mesher.tryTriangleSeed
  split_ifs with hg
  · rfl
  · rcases (Mesh.linkTypeIs_live s.heap v1 v3 (fun t => t == 2) hlive).1 with h1 | h1
    · rw [h1]
    · rw [h1]
      dsimp only
      rcases (Mesh.linkTypeIs_live s.heap v2 v3 (fun t => t == 2) hlive).1 with h2 | h2
      · rw [h2]
      · rw [h2]
        dsimp only
        rw [Mesher.computeBallCenter_collinear env s _ _ _ h]

/-- No call of tryTriangleSeed accepts three collinear vertices. -/
theorem Mesher.tryTriangleSeed_not_collinear [LinearOrderedField K] (env : Env K)
    (s : Mesher K) (v1 v2 v3 : Nat) (neighbors : List (K × Nat)) (c : Point K)
    (h : Mesher.tryTriangleSeed env s v1 v2 v3 neighbors = some (some c)) :
    ¬ Collinear (s.heap.vertices v1).pos (s.heap.vertices v2).pos (s.heap.vertices v3).pos := by
  intro hcol
  obtain ⟨-, -, -, -, hc, -⟩ := (Mesher.tryTriangleSeed_some env s v1 v2 v3 neighbors c).mp h
  rw [Mesher.computeBallCenter_collinear env s _ _ _ hcol] at hc
  cases hc

theorem Mesher.trySeedInner_collinear [LinearOrderedField K] (env : Env K) (s : Mesher K)
    (v vtest : Nat) (neighbors rest : List (K × Nat)) (hlive : s.heap.AdjacencyLive)
    (h : ∀ a b c, Collinear (s.heap.vertices a).pos (s.heap.vertices b).pos
      (s.heap.vertices c).pos) :
    Mesher.trySeedInner env s v vtest neighbors rest = some none := by
  induction rest with
  | nil => rfl
  | cons nj rest ih =>
    unfold Mesher.trySeedInner
    rw [Mesher.tryTriangleSeed_collinear env s v vtest nj.2 neighbors hlive (h _ _ _)]
    exact ih

theorem Mesher.trySeedLoop_collinear [LinearOrderedField K] (env : Env K) (s : Mesher K)
    (v : Nat) (neighbors rest : List (K × Nat)) (hlive : s.heap.AdjacencyLive)
    (h : ∀ a b c, Collinear (s.heap.vertices a).pos (s.heap.vertices b).pos
      (s.heap.vertices c).pos) :
    Mesher.trySeedLoop env v neighbors rest s = some (s, false) := by
  induction rest with
  | nil => rfl
  | cons ni rest ih =>
    unfold Mesher.trySeedLoop
    split_ifs
    · exact ih
    · rw [Mesher.trySeedInner_collinear env s v ni.2 neighbors rest hlive h]
      exact ih

/-- On a cloud of collinear samples Mesher::trySeed returns false and leaves
the mesher as it is. -/
theorem Mesher.trySeed_collinear [LinearOrderedField K] (env : Env K) (s : Mesher K)
    (v : Nat) (hlive : s.heap.AdjacencyLive)
    (h : ∀ a b c, Collinear (s.heap.vertices a).pos (s.heap.vertices b).pos
      (s.heap.vertices c).pos) :
    Mesher.trySeed env s v = some (s, false) := by
  unfold Mesher.trySeed
  split_ifs
  · rfl
  · exact Mesher.trySeedLoop_collinear env s v _ _ hlive h

theorem Mesher.seedPoints_collinear [LinearOrderedField K] (env : Env K) (fuel : Nat)
    (s : Mesher K) (found : Bool) (points : List Nat) (hlive : s.heap.AdjacencyLive)
    (h : ∀ a b c, Collinear (s.heap.vertices a).pos (s.heap.vertices b).pos
      (s.heap.vertices c).pos) :
    Mesher.seedPoints env fuel points (s, found) = some (s, found) := by
  induction points with
  | nil => rfl
  | cons p rest ih =>
    unfold Mesher.seedPoints
    dsimp only
    split_ifs
    · rw [Mesher.trySeed_collinear env s p hlive h]
      exact ih
    · exact ih

theorem Mesher.findSeedTriangleNode_collinear [LinearOrderedField K] (env : Env K)
    (fuel : Nat) (s : Mesher K) (found : Bool) (node : OctreeNode)
    (hlive : s.heap.AdjacencyLive)
    (h : ∀ a b c, Collinear (s.heap.vertices a).pos (s.heap.vertices b).pos
      (s.heap.vertices c).pos) :
    Mesher.findSeedTriangleNode env fuel node (s, found) = some (s, found) := by
  induction node with
  | null => rfl
  | leaf points =>
    unfold Mesher.findSeedTriangleNode
    exact Mesher.seedPoints_collinear env fuel s found points hlive h
  | inner c0 c1 c2 c3 c4 c5 c6 c7 i0 i1 i2 i3 i4 i5 i6 i7 =>
    unfold Mesher.findSeedTriangleNode
    rw [i0, Option.some_bind, i1, Option.some_bind, i2, Option.some_bind, i3,
      Option.some_bind, i4, Option.some_bind, i5, Option.some_bind, i6, Option.some_bind, i7]

/-- On a cloud of collinear samples the seed search of Mesher::reconstruct
returns with the mesher as it was. -/
theorem Mesher.reconstruct_collinear [LinearOrderedField K] (env : Env K) (fuel : Nat)
    (root : OctreeNode) (s : Mesher K) (hroot : root ≠ OctreeNode.null)
    (hfront : s.m_edge_front = []) (hlive : s.heap.AdjacencyLive)
    (h : ∀ a b c, Collinear (s.heap.vertices a).pos (s.heap.vertices b).pos
      (s.heap.vertices c).pos) :
    Mesher.reconstruct env fuel root s = some s := by
  unfold Mesher.reconstruct
  rw [if_pos hfront]
  unfold Mesher.findSeedTriangle
  cases root with
  | null => exact absurd rfl hroot
  | leaf points =>
    dsimp only
    rw [Mesher.findSeedTriangleNode_collinear env fuel s false _ hlive h]
    rfl
  | inner c0 c1 c2 c3 c4 c5 c6 c7 =>
    dsimp only
    rw [Mesher.findSeedTriangleNode_collinear env fuel s false _ hlive h]
    rfl

theorem line_live : lineMesher.heap.AdjacencyLive := by
  intro v e he
  simp [lineMesher, lineHeap] at he

theorem line_collinear (a b c : Nat) :
    Collinear (lineMesher.heap.vertices a).pos (lineMesher.heap.vertices b).pos
      (lineMesher.heap.vertices c).pos := by
  simp [Collinear, cross_product, lineMesher, lineHeap]

/-- On a cloud of collinear samples, with no border edge and an empty front,
the sequential driver returns for every list of radii, and the heap, the facet
list and the facet counter are as before. -/
theorem Mesher.reconstructAll_collinear [LinearOrderedField K] (env : Env K) (fuel : Nat)
    (root : OctreeNode) (radii : List K) (s : Mesher K) (hroot : root ≠ OctreeNode.null)
    (hfront : s.m_edge_front = []) (hborder : s.m_border_edges = [])
    (hlive : s.heap.AdjacencyLive)
    (h : ∀ a b c, Collinear (s.heap.vertices a).pos (s.heap.vertices b).pos
      (s.heap.vertices c).pos) :
    ∃ s1, Mesher.reconstructAll env fuel root radii s = some s1 ∧ s1.heap = s.heap ∧
      s1.m_facets = s.m_facets ∧ s1.m_nfacets = s.m_nfacets := by
  induction radii generalizing s with
  | nil => exact ⟨s, rfl, rfl, rfl, rfl⟩
  | cons radius rest ih =>
    have hchange : ∃ s0, Mesher.changeRadius env s radius = some s0 ∧ s0.heap = s.heap ∧
        s0.m_edge_front = [] ∧ s0.m_border_edges = [] ∧ s0.m_facets = s.m_facets ∧
        s0.m_nfacets = s.m_nfacets := by
      refine ⟨{ s.setBallRadius radius with m_border_edges := [] }, ?_, rfl, hfront, rfl, rfl,
        rfl⟩
      unfold Mesher.changeRadius
      rw [hborder]
      rfl
    obtain ⟨s0, hc, hh0, hf0, hb0, hfa0, hn0⟩ := hchange
    have hlive0 : s0.heap.AdjacencyLive := by
      rw [hh0]
      exact hlive
    have hcol0 : ∀ a b c, Collinear (s0.heap.vertices a).pos (s0.heap.vertices b).pos
        (s0.heap.vertices c).pos := by
      rw [hh0]
      exact h
    obtain ⟨s1, hs1, hh, hf, hn⟩ := ih s0 hf0 hb0 hlive0 hcol0
    refine ⟨s1, ?_, hh.trans hh0, hf.trans hfa0, hn.trans hn0⟩
    unfold Mesher.reconstructAll
    rw [hc, Option.some_bind,
      Mesher.reconstruct_collinear env fuel root s0 hroot hf0 hlive0 hcol0, Option.some_bind]
    exact hs1

/-- The aligned case over an exact ordered field, that is, with the arithmetic
of `double` read without rounding: for every triple of collinear vertex
positions `alpha + beta + gamma` (four times the squared norm of the cross
product of two sides, that is sixteen times the squared area) is zero and
computeBallCenter returns false for every radius; so tryTriangleSeed never
accepts a collinear triple, the candidate of findCandidateVertex is never
collinear with the ends of the edge, and on a cloud whose samples are all
collinear (with an empty front and a heap whose adjacent edges are live)
Mesher::reconstruct returns without a new facet, as does the sequential driver
Mesher::reconstruct(radii) for every list of radii when the border list is
empty too.  The test `temp < 1e-30` compares with an absolute bound: a sum
`alpha + beta + gamma` computed with rounding can be above it on a collinear
triple, and this statement does not cover such a run of the program. -/
theorem Mesher.collinear_yields_no_facet [LinearOrderedField K] (env : Env K) :
    (∀ (s : Mesher K) (v1 v2 v3 : Vertex K), Collinear v1.pos v2.pos v3.pos →
      Mesher.tau v1 v2 v3 = 4 * Mesher.crossNorm2 v1 v2 v3 ∧ Mesher.tau v1 v2 v3 = 0 ∧
      ∀ r : K, Mesher.computeBallCenter env (s.setBallRadius r) v1 v2 v3 = none) ∧
    (∀ (s : Mesher K) (v1 v2 v3 : Nat) (neighbors : List (K × Nat)),
      Collinear (s.heap.vertices v1).pos (s.heap.vertices v2).pos (s.heap.vertices v3).pos →
      ∀ c, Mesher.tryTriangleSeed env s v1 v2 v3 neighbors ≠ some (some c)) ∧
    (∀ (s : Mesher K) (edge : Nat) (ed : Edge) (w : Nat) (c : Point K),
      s.heap.edges edge = some ed →
      Mesher.findCandidateVertex env s edge = some (some (w, c)) →
      ¬ Collinear (s.heap.vertices ed.m_src).pos (s.heap.vertices ed.m_tgt).pos
        (s.heap.vertices w).pos) ∧
    (∀ (fuel : Nat) (root : OctreeNode) (s : Mesher K), root ≠ OctreeNode.null →
      s.m_edge_front = [] → s.heap.AdjacencyLive →
      (∀ a b c, Collinear (s.heap.vertices a).pos (s.heap.vertices b).pos
        (s.heap.vertices c).pos) →
      (∃ s1, Mesher.reconstruct env fuel root s = some s1 ∧ s1.heap.facets = s.heap.facets ∧
        s1.m_facets = s.m_facets ∧ s1.m_nfacets = s.m_nfacets) ∧
      (s.m_border_edges = [] → ∀ radii : List K,
        ∃ s1, Mesher.reconstructAll env fuel root radii s = some s1 ∧
          s1.heap.facets = s.heap.facets ∧ s1.m_facets = s.m_facets ∧
          s1.m_nfacets = s.m_nfacets)) := by
  refine ⟨?_, ?_, ?_, ?_⟩
  · intro s v1 v2 v3 h
    exact ⟨Mesher.tau_eq_crossNorm2 v1 v2 v3, Mesher.tau_collinear v1 v2 v3 h,
      fun r => Mesher.computeBallCenter_collinear env _ v1 v2 v3 h⟩
  · intro s v1 v2 v3 neighbors h c hc
    exact Mesher.tryTriangleSeed_not_collinear env s v1 v2 v3 neighbors c hc h
  · intro s edge ed w c hed hfind hcol
    obtain ⟨ed0, f, fc, opp, hed0, hf1, hfc, hopp⟩ :=
      Mesher.findCandidateVertex_inv env s edge _ hfind
    rw [hed] at hed0
    cases hed0
    obtain ⟨-, -, -, -, hc, -⟩ := Mesher.findCandidateVertex_distinct env s edge f ed fc opp
      hed hf1 hfc hopp w c hfind
    rw [Mesher.computeBallCenter_collinear env s _ _ _ hcol] at hc
    cases hc
  · intro fuel root s hroot hfront hlive h
    refine ⟨⟨s, Mesher.reconstruct_collinear env fuel root s hroot hfront hlive h, rfl, rfl,
      rfl⟩, ?_⟩
    intro hborder radii
    obtain ⟨s1, hs1, hh, hf, hn⟩ := Mesher.reconstructAll_collinear env fuel root radii s
      hroot hfront hborder hlive h
    exact ⟨s1, hs1, by rw [hh], hf, hn⟩

/-- The aligned case on the samples (i, 0, 0) of a line, whose coordinates and
squared distances are small integers, so that no rounding takes place: the
samples 0, 1, 2 have no ball center for the radius 2, and the sequential driver
with the radii 2 and 3, from a new mesher on the octree made of one cell
holding four of the samples, creates no facet. -/
theorem Mesher.collinear_yields_no_facet_witness :
    Mesher.computeBallCenter lineEnv (lineMesher.setBallRadius 2) (lineMesher.heap.vertices 0)
      (lineMesher.heap.vertices 1) (lineMesher.heap.vertices 2) = none ∧
    ∃ s1, Mesher.reconstructAll lineEnv 0 (OctreeNode.leaf [0, 1, 2, 3]) [2, 3] lineMesher
        = some s1 ∧
      s1.heap.facets = lineMesher.heap.facets ∧ s1.m_facets = lineMesher.m_facets ∧
      s1.m_nfacets = lineMesher.m_nfacets :=
  ⟨((Mesher.collinear_yields_no_facet lineEnv).1 lineMesher _ _ _ (line_collinear 0 1 2)).2.2 2,
    ((Mesher.collinear_yields_no_facet lineEnv).2.2.2 0 (OctreeNode.leaf [0, 1, 2, 3])
      lineMesher (fun h => OctreeNode.noConfusion h) rfl line_live line_collinear).2 rfl
      [2, 3]⟩

/-! ## The claims on the geometry at concrete inputs -/

theorem rect_tau2 :
    Mesher.tau (rectHeap.vertices 1) (rectHeap.vertices 0) (rectHeap.vertices 2)
      = 1012766976 := by
  obtain ⟨d1, d2, d3⟩ := rect_dist2_values
  unfold Mesher.tau
  rw [d1, d2, d3]
  norm_num

/-- C12, on the corners 1, 0 and 2 of the sample rectangle, whose squared
circumradius is (185/2)^2: with the ball radius 185/2 the call succeeds. -/
theorem Mesher.computeBallCenter_fails_iff_witness :
    ∃ ctr, Mesher.computeBallCenter rectEnv (rectMesher.setBallRadius (185 / 2))
      (rectHeap.vertices 1) (rectHeap.vertices 0) (rectHeap.vertices 2) = some ctr :=
  (Mesher.computeBallCenter_fails_iff rectEnv (rectMesher.setBallRadius (185 / 2))
    (rectHeap.vertices 1) (rectHeap.vertices 0) (rectHeap.vertices 2)).2.2
    (by rw [rect_tau2]; norm_num)
    (by
      rw [show rectEnv.sqrt = ratSqrt from rfl, rect_sqCircumradius2]
      simp only [Mesher.setBallRadius]
      norm_num)

/-- C16, on the sample vertex whose normal is against the normal of the
triangle by exactly the tolerance: the three strict inequalities do not all
hold, and the call returns false. -/
theorem Vertex.isCompatibleWith_iff_strict_witness :
    Vertex.isCompatibleWith (normalizeWith ratSqrt) grazingVertex (rectHeap.vertices 0)
      (rectHeap.vertices 3) ≠ true := by
  rw [Ne, Vertex.isCompatibleWith_iff_strict, grazing_normal]
  intro h
  have h1 := h.1
  simp only [grazingVertex] at h1
  norm_num at h1

/-- C17, on the ball through the corners 1, 0 and 2 of the sample rectangle,
which has the corner 3 on its boundary: the test returns true. -/
theorem Mesher.checkEmptyBallConfiguration_iff_witness :
    Mesher.checkEmptyBallConfiguration rectMesher 1 0 2 [0, 1, 2, 3, 4] ⟨153 / 2, 52, 336⟩
      = true := by
  rw [(Mesher.checkEmptyBallConfiguration_iff rectEnv rectMesher 1 0 2 [0, 1, 2, 3, 4] []
    ⟨153 / 2, 52, 336⟩).1]
  intro v hv n1 n0 n2
  simp only [List.mem_cons, List.mem_singleton, List.not_mem_nil, or_false] at hv
  rcases hv with rfl | rfl | rfl | rfl | rfl
  · exact absurd rfl n0
  · exact absurd rfl n1
  · exact absurd rfl n2
  · norm_num [dist2, rectMesher, rectHeap, rectVertex]
  · norm_num [dist2, rectMesher, rectHeap, rectVertex]

end MesherSteps

/-! ## The lists of the mesher: front, border, vertices and facets -/

section MesherLists

variable {K : Type}

/-! ## The order of the front -/

theorem Mesher.newFacetOnEdge_front [LinearOrderedField K] (env : Env K) (s s1 : Mesher K)
    (edge candidate : Nat) (center : Point K)
    (h : Mesher.newFacetOnEdge env s edge candidate center = some s1) :
    s1.m_edge_front = s.m_edge_front := by
  unfold Mesher.newFacetOnEdge at h
  obtain ⟨h1, -, h2⟩ := Option.bind_eq_some.mp h
  exact (Mesher.addFacet_spec _ s1 _ h2).2.2.2.1

/-- A turn of the expansion takes the head of the front: behind at most two
edges put in front, the front after the turn is the front before it without
its head. -/
theorem Mesher.expandStep_tail [LinearOrderedField K] (env : Env K) (s s2 : Mesher K)
    (head : Nat) (tail : List Nat) (hfront : s.m_edge_front = head :: tail)
    (h : Mesher.expandStep env s = some s2) :
    ∃ pushed, s2.m_edge_front = pushed ++ tail ∧ pushed.length ≤ 2 := by
  unfold Mesher.expandStep at h
  rw [hfront] at h
  dsimp only at h
  cases hed : s.heap.edges head with
  | none => rw [hed] at h; cases h
  | some ed =>
    rw [hed] at h
    dsimp only at h
    by_cases ht : ed.m_type ≠ 1
    · rw [if_pos ht] at h
      cases h
      exact ⟨[], rfl, by simp⟩
    · rw [if_neg ht] at h
      cases hfind : Mesher.findCandidateVertex env { s with m_edge_front := tail } head with
      | none => rw [hfind] at h; cases h
      | some r =>
        rw [hfind] at h
        cases r with
        | none =>
          dsimp only at h
          cases h
          exact ⟨[], rfl, by simp⟩
        | some wc =>
          obtain ⟨candidate, center⟩ := wc
          dsimp only at h
          split_ifs at h with hg
          · cases h
            exact ⟨[], rfl, by simp⟩
          · cases h1 : s.heap.linkTypeIs candidate ed.m_src (fun t => t != 1) with
            | none => rw [h1] at h; cases h
            | some b1 =>
              rw [h1] at h
              cases b1 with
              | true =>
                dsimp only at h
                cases h
                exact ⟨[], rfl, by simp⟩
              | false =>
                dsimp only at h
                cases h2 : s.heap.linkTypeIs candidate ed.m_tgt (fun t => t != 1) with
                | none => rw [h2] at h; cases h
                | some b2 =>
                  rw [h2] at h
                  cases b2 with
                  | true =>
                    dsimp only at h
                    cases h
                    exact ⟨[], rfl, by simp⟩
                  | false =>
                    dsimp only at h
                    obtain ⟨s1, hs1, h⟩ := Option.bind_eq_some.mp h
                    have hf1 := Mesher.newFacetOnEdge_front env _ s1 _ _ _ hs1
                    cases he1 : s1.heap.edges head with
                    | none => rw [he1] at h; cases h
                    | some ed1 =>
                      rw [he1] at h
                      dsimp only at h
                      obtain ⟨s3, hs3, h⟩ := Option.bind_eq_some.mp h
                      obtain ⟨-, -, -, -, -, e1, d1, -, -, hfr3⟩ :=
                        Mesher.pushIfFront_spec s1 s3 _ _ hs3
                      cases he2 : s3.heap.edges head with
                      | none => rw [he2] at h; cases h
                      | some ed2 =>
                        rw [he2] at h
                        dsimp only at h
                        obtain ⟨-, -, -, -, -, e2, d2, -, -, hfr4⟩ :=
                          Mesher.pushIfFront_spec s3 s2 _ _ h
                        have hf1t : s1.m_edge_front = tail := hf1
                        refine ⟨(if d2.m_type = 1 then [e2] else [])
                          ++ (if d1.m_type = 1 then [e1] else []), ?_, ?_⟩
                        · rw [hfr4, hfr3, hf1t]
                          split_ifs <;> simp
                        · split_ifs <;> simp

/-- C21: in a facet-creating turn of Mesher::expandTriangulation (front edge
`e`, candidate not turned down, on a heap whose adjacent edges are live and in
which `e` is the linking edge of its ends) the turn returns, and the front
after it is: the linking edge of the candidate and the target if its type is
1 after the facet is attached, then the linking edge of the candidate and the
source if its type is 1, then the rest of the front in its order.  The next
turn takes the head of that list: whatever it does, the front after it is the
tail of the list behind the edges it puts in front. -/
theorem Mesher.expandStep_pushes_front [LinearOrderedField K] (env : Env K) (s : Mesher K)
    (edge : Nat) (rest : List Nat) (ed : Edge) (candidate : Nat) (center : Point K)
    (hlive : s.heap.AdjacencyLive)
    (hfront : s.m_edge_front = edge :: rest) (hed : s.heap.edges edge = some ed)
    (ht : ed.m_type = 1)
    (hlink : (s.heap.vertices ed.m_tgt).getLinkingEdge (s.heap.vertices ed.m_src) = some edge)
    (hfind : Mesher.findCandidateVertex env s edge = some (some (candidate, center)))
    (hnrej : ¬ Mesher.Rejects env s ed (some (candidate, center))) :
    ∃ s1 e1 ed1 e2 ed2, Mesher.expandStep env s = some s1 ∧
      (s1.heap.vertices candidate).getLinkingEdge (s1.heap.vertices ed.m_src) = some e1 ∧
      s1.heap.edges e1 = some ed1 ∧
      (s1.heap.vertices candidate).getLinkingEdge (s1.heap.vertices ed.m_tgt) = some e2 ∧
      s1.heap.edges e2 = some ed2 ∧
      s1.m_edge_front = (if ed2.m_type = 1 then [e2] else [])
        ++ ((if ed1.m_type = 1 then [e1] else []) ++ rest) ∧
      ∀ s2 head tail, Mesher.expandStep env s1 = some s2 → s1.m_edge_front = head :: tail →
        ∃ pushed, s2.m_edge_front = pushed ++ tail ∧ pushed.length ≤ 2 := by
  have hfind0 : Mesher.findCandidateVertex env { s with m_edge_front := rest } edge
      = some (some (candidate, center)) := by
    rw [Mesher.findCandidateVertex_front]
    exact hfind
  obtain ⟨s1, hs1, -, -, -, -, -, e1, ed1, e2, ed2, hl1, he1, hl2, he2, hfr⟩ :=
    Mesher.expandStep_create env s edge rest ed candidate center hlive hfront hed ht hlink
      hfind0 hnrej
  refine ⟨s1, e1, ed1, e2, ed2, hs1, hl1, he1, hl2, he2, hfr, ?_⟩
  intro s2 head tail h2 hf
  exact Mesher.expandStep_tail env s1 s2 head tail hf h2

/-- C21, on the sample scene: the turn on the front edge 2 (1→0), whose
candidate is the corner 3. -/
theorem Mesher.expandStep_pushes_front_witness :
    ∃ s1 e1 ed1 e2 ed2, Mesher.expandStep rectEnv rectMesher = some s1 ∧
      (s1.heap.vertices 3).getLinkingEdge
        (s1.heap.vertices (⟨1, 0, some 0, none, 1⟩ : Edge).m_src) = some e1 ∧
      s1.heap.edges e1 = some ed1 ∧
      (s1.heap.vertices 3).getLinkingEdge
        (s1.heap.vertices (⟨1, 0, some 0, none, 1⟩ : Edge).m_tgt) = some e2 ∧
      s1.heap.edges e2 = some ed2 ∧
      s1.m_edge_front = (if ed2.m_type = 1 then [e2] else [])
        ++ ((if ed1.m_type = 1 then [e1] else []) ++ []) ∧
      ∀ s2 head tail, Mesher.expandStep rectEnv s1 = some s2 →
        s1.m_edge_front = head :: tail →
        ∃ pushed, s2.m_edge_front = pushed ++ tail ∧ pushed.length ≤ 2 :=
  Mesher.expandStep_pushes_front rectEnv rectMesher 2 [] ⟨1, 0, some 0, none, 1⟩ 3
    ⟨153 / 2, 52, 336⟩ rect_live rfl rect_edge2 rfl rect_link rect_findCandidateVertex
    rect_not_rejected

/-! ## The front after Mesher::reconstruct -/

/-- The loop of expandTriangulation ends on an empty front. -/
theorem Mesher.expandTriangulation_front [LinearOrderedField K] (env : Env K) (fuel : Nat)
    (s s1 : Mesher K) (h : Mesher.expandTriangulation env fuel s = some s1) :
    s1.m_edge_front = [] := by
  induction fuel generalizing s with
  | zero =>
    unfold Mesher.expandTriangulation at h
    split_ifs at h with h0
    cases h
    exact h0
  | succ n ih =>
    unfold Mesher.expandTriangulation at h
    split_ifs at h with h0
    · cases h
      exact h0
    · obtain ⟨s2, -, h2⟩ := Option.bind_eq_some.mp h
      exact ih s2 h2

/-- A call of trySeed that returns false on an empty front leaves the front
empty. -/
theorem Mesher.trySeedLoop_front [LinearOrderedField K] (env : Env K) (v : Nat)
    (neighbors rest : List (K × Nat)) (s s1 : Mesher K) (hfront : s.m_edge_front = [])
    (h : Mesher.trySeedLoop env v neighbors rest s = some (s1, false)) :
    s1.m_edge_front = [] := by
  induction rest generalizing s with
  | nil =>
    unfold Mesher.trySeedLoop at h
    cases h
    exact hfront
  | cons ni rest ih =>
    unfold Mesher.trySeedLoop at h
    split_ifs at h with hg
    · exact ih s hfront h
    · cases hin : Mesher.trySeedInner env s v ni.2 neighbors rest with
      | none => rw [hin] at h; cases h
      | some r =>
        rw [hin] at h
        cases r with
        | none => exact ih s hfront h
        | some wc =>
          obtain ⟨candidate, center⟩ := wc
          dsimp only at h
          cases h1 : s.heap.linkTypeIs v candidate (fun t => t != 1) with
          | none => rw [h1] at h; cases h
          | some b1 =>
            rw [h1] at h
            cases b1 with
            | true => exact ih s hfront h
            | false =>
              dsimp only at h
              cases h2 : s.heap.linkTypeIs ni.2 candidate (fun t => t != 1) with
              | none => rw [h2] at h; cases h
              | some b2 =>
                rw [h2] at h
                cases b2 with
                | true => exact ih s hfront h
                | false =>
                  dsimp only at h
                  cases h3 : s.heap.linkTypeIs v ni.2 (fun t => t != 1) with
                  | none => rw [h3] at h; cases h
                  | some b3 =>
                    rw [h3] at h
                    cases b3 with
                    | true => exact ih s hfront h
                    | false =>
                      dsimp only at h
                      cases h4 : (Mesher.newFacet env s v ni.2 candidate center).bind fun s1 =>
                          (s1.pushIfFront v candidate).bind fun s2 =>
                          (s2.pushIfFront ni.2 candidate).bind fun s3 =>
                          s3.pushIfFront v ni.2 with
                      | none => rw [h4] at h; cases h
                      | some s4 =>
                        rw [h4] at h
                        dsimp only at h
                        split_ifs at h with hlen
                        · cases h
                        · exact ih s4 (List.length_eq_zero.mp (by omega)) h

theorem Mesher.trySeed_front [LinearOrderedField K] (env : Env K) (v : Nat)
    (s s1 : Mesher K) (hfront : s.m_edge_front = [])
    (h : Mesher.trySeed env s v = some (s1, false)) : s1.m_edge_front = [] := by
  unfold Mesher.trySeed at h
  split_ifs at h
  · cases h
    exact hfront
  · exact Mesher.trySeedLoop_front env v _ _ s s1 hfront h

theorem Mesher.seedPoints_front [LinearOrderedField K] (env : Env K) (fuel : Nat)
    (points : List Nat) (acc r : Mesher K × Bool) (hfront : acc.1.m_edge_front = [])
    (h : Mesher.seedPoints env fuel points acc = some r) : r.1.m_edge_front = [] := by
  induction points generalizing acc with
  | nil =>
    unfold Mesher.seedPoints at h
    cases h
    exact hfront
  | cons p rest ih =>
    unfold Mesher.seedPoints at h
    split_ifs at h with h0
    · cases ht : Mesher.trySeed env acc.1 p with
      | none => rw [ht] at h; cases h
      | some sb =>
        obtain ⟨s1, b⟩ := sb
        rw [ht] at h
        cases b with
        | true =>
          dsimp only at h
          cases he : Mesher.expandTriangulation env fuel s1 with
          | none => rw [he] at h; cases h
          | some s2 =>
            rw [he] at h
            exact ih (s2, true) (Mesher.expandTriangulation_front env fuel s1 s2 he) h
        | false =>
          dsimp only at h
          exact ih (s1, acc.2) (Mesher.trySeed_front env p acc.1 s1 hfront ht) h
    · exact ih acc hfront h

theorem Mesher.findSeedTriangleNode_front [LinearOrderedField K] (env : Env K) (fuel : Nat)
    (node : OctreeNode) (acc r : Mesher K × Bool) (hfront : acc.1.m_edge_front = [])
    (h : Mesher.findSeedTriangleNode env fuel node acc = some r) :
    r.1.m_edge_front = [] := by
  induction node generalizing acc r with
  | null =>
    unfold Mesher.findSeedTriangleNode at h
    cases h
    exact hfront
  | leaf points =>
    unfold Mesher.findSeedTriangleNode at h
    exact Mesher.seedPoints_front env fuel points acc r hfront h
  | inner c0 c1 c2 c3 c4 c5 c6 c7 i0 i1 i2 i3 i4 i5 i6 i7 =>
    unfold Mesher.findSeedTriangleNode at h
    obtain ⟨a0, h0, h⟩ := Option.bind_eq_some.mp h
    obtain ⟨a1, h1, h⟩ := Option.bind_eq_some.mp h
    obtain ⟨a2, h2, h⟩ := Option.bind_eq_some.mp h
    obtain ⟨a3, h3, h⟩ := Option.bind_eq_some.mp h
    obtain ⟨a4, h4, h⟩ := Option.bind_eq_some.mp h
    obtain ⟨a5, h5, h⟩ := Option.bind_eq_some.mp h
    obtain ⟨a6, h6, h⟩ := Option.bind_eq_some.mp h
    exact i7 a6 r (i6 a5 a6 (i5 a4 a5 (i4 a3 a4 (i3 a2 a3 (i2 a1 a2 (i1 a0 a1
      (i0 acc a0 hfront h0) h1) h2) h3) h4) h5) h6) h

/-- Whenever Mesher::reconstruct returns, the front is empty. -/
theorem Mesher.reconstruct_front [LinearOrderedField K] (env : Env K) (fuel : Nat)
    (root : OctreeNode) (s s1 : Mesher K) (h : Mesher.reconstruct env fuel root s = some s1) :
    s1.m_edge_front = [] := by
  unfold Mesher.reconstruct at h
  split_ifs at h with h0
  · obtain ⟨r, hr, hr1⟩ := Option.map_eq_some'.mp h
    rw [← hr1]
    unfold Mesher.findSeedTriangle at hr
    cases root with
    | null => cases hr
    | leaf points =>
      exact Mesher.findSeedTriangleNode_front env fuel _ (s, false) r h0 hr
    | inner c0 c1 c2 c3 c4 c5 c6 c7 =>
      exact Mesher.findSeedTriangleNode_front env fuel _ (s, false) r h0 hr
  · exact Mesher.expandTriangulation_front env fuel s s1 h

/-- Mesher::reconstruct on a front of one edge that is not of type 1: the
edge is taken off the front and the call returns. -/
theorem Mesher.reconstruct_pop [LinearOrderedField K] (env : Env K) (fuel : Nat)
    (root : OctreeNode) (s : Mesher K) (edge : Nat) (ed : Edge)
    (hfront : s.m_edge_front = [edge]) (hed : s.heap.edges edge = some ed)
    (ht : ed.m_type ≠ 1) :
    Mesher.reconstruct env (fuel + 1) root s = some { s with m_edge_front := [] } := by
  have hne : ¬ s.m_edge_front = [] := by
    rw [hfront]
    exact List.cons_ne_nil _ _
  unfold Mesher.reconstruct
  rw [if_neg hne]
  unfold Mesher.expandTriangulation
  rw [if_neg hne, Mesher.expandStep_pop env s edge [] ed hfront hed ht]
  cases fuel with
  | zero => rfl
  | succ n =>
    unfold Mesher.expandTriangulation
    rfl

/-- C22: on either branch of Mesher::reconstruct() (the seed search on an empty front, the expansion of the front otherwise), whenever the call returns, m_edge_front is empty in the state it returns. -/
theorem Mesher.reconstruct_front_empty [LinearOrderedField K] (env : Env K) (fuel : Nat)
    (root : OctreeNode) (s s1 : Mesher K)
    (h : Mesher.reconstruct env fuel root s = some s1) :
    s1.m_edge_front = [] ∧
    (s.m_edge_front = [] →
      ∃ b, Mesher.findSeedTriangle env fuel root s = some (s1, b)) ∧
    (s.m_edge_front ≠ [] → Mesher.expandTriangulation env fuel s = some s1) := by
  refine ⟨Mesher.reconstruct_front env fuel root s s1 h, ?_, ?_⟩
  · intro h0
    unfold Mesher.reconstruct at h
    rw [if_pos h0] at h
    obtain ⟨r, hr, hr1⟩ := Option.map_eq_some'.mp h
    exact ⟨r.2, by rw [hr, ← hr1]⟩
  · intro h0
    unfold Mesher.reconstruct at h
    rw [if_neg h0] at h
    exact h

/-- C22 on the sample scenes: the seed branch on the collinear cloud, and the expansion branch on the rectangle with the border edge 0 as the only front edge. -/
theorem Mesher.reconstruct_front_empty_witness :
    (lineMesher.m_edge_front = [] ∧
      ∃ b, Mesher.findSeedTriangle lineEnv 0 (OctreeNode.leaf [0, 1, 2, 3]) lineMesher
        = some (lineMesher, b)) ∧
    ({ rectMesher with m_edge_front := [0] }.m_edge_front ≠ [] ∧
      ({ rectMesher with m_edge_front := [] } : Mesher ℚ).m_edge_front = [] ∧
      Mesher.expandTriangulation rectEnv 1 { rectMesher with m_edge_front := [0] }
        = some { rectMesher with m_edge_front := [] }) :=
  ⟨⟨rfl, (Mesher.reconstruct_front_empty lineEnv 0 (OctreeNode.leaf [0, 1, 2, 3]) lineMesher
      lineMesher (Mesher.reconstruct_collinear lineEnv 0 _ lineMesher
        (fun h => OctreeNode.noConfusion h) rfl line_live line_collinear)).2.1 rfl⟩,
    ⟨List.cons_ne_nil _ _,
      (Mesher.reconstruct_front_empty rectEnv 1 OctreeNode.null
        { rectMesher with m_edge_front := [0] } { rectMesher with m_edge_front := [] }
        (Mesher.reconstruct_pop rectEnv 0 OctreeNode.null
          { rectMesher with m_edge_front := [0] } 0 ⟨0, 4, some 0, none, 0⟩ rfl rfl
          (by decide))).1,
      (Mesher.reconstruct_front_empty rectEnv 1 OctreeNode.null
        { rectMesher with m_edge_front := [0] } { rectMesher with m_edge_front := [] }
        (Mesher.reconstruct_pop rectEnv 0 OctreeNode.null
          { rectMesher with m_edge_front := [0] } 0 ⟨0, 4, some 0, none, 0⟩ rfl rfl
          (by decide))).2.2 (List.cons_ne_nil _ _)⟩⟩

/-! ## Mesher::changeRadius -/

theorem Mesher.emptyBallConfiguration_congr [LinearOrderedField K] (env : Env K)
    (s s1 : Mesher K) (hv : s1.heap.vertices = s.heap.vertices)
    (hr : s1.m_ball_radius = s.m_ball_radius)
    (hq : s1.m_sq_ball_radius = s.m_sq_ball_radius) (v1 v2 v3 : Nat) :
    Mesher.emptyBallConfiguration env s1 v1 v2 v3
      = Mesher.emptyBallConfiguration env s v1 v2 v3 := by
  unfold Mesher.emptyBallConfiguration
  rw [hv, hr, Mesher.computeBallCenter_congr env s s1 hq]

theorem Mesher.promotes_congr [LinearOrderedField K] (env : Env K)
    (s s1 : Mesher K) (hv : s1.heap.vertices = s.heap.vertices)
    (hf : s1.heap.facets = s.heap.facets)
    (hr : s1.m_ball_radius = s.m_ball_radius)
    (hq : s1.m_sq_ball_radius = s.m_sq_ball_radius) (e : Nat)
    (he : (s1.heap.edges e).map Edge.m_facet1 = (s.heap.edges e).map Edge.m_facet1) :
    Mesher.promotes env s1 e = Mesher.promotes env s e := by
  unfold Mesher.promotes
  rw [hf]
  cases h1 : s1.heap.edges e with
  | none =>
    rw [h1] at he
    cases h : s.heap.edges e with
    | none => rfl
    | some ed => rw [h] at he; cases he
  | some ed1 =>
    rw [h1] at he
    cases h : s.heap.edges e with
    | none => rw [h] at he; cases he
    | some ed =>
      rw [h] at he
      have he1 : ed1.m_facet1 = ed.m_facet1 := Option.some.inj he
      dsimp only
      rw [he1]
      cases ed.m_facet1 with
      | none => rfl
      | some f =>
        dsimp only
        cases s.heap.facets f with
        | none => rfl
        | some fc => exact Mesher.emptyBallConfiguration_congr env s s1 hv hr hq _ _ _

/-- What the test of changeRadius on a border edge comes to when the edge and
its first facet are live. -/
theorem Mesher.promotes_eq [LinearOrderedField K] (env : Env K) (s : Mesher K) (e : Nat)
    (ed : Edge) (f : Nat) (fc : Facet K) (hed : s.heap.edges e = some ed)
    (hf1 : ed.m_facet1 = some f) (hfc : s.heap.facets f = some fc) :
    Mesher.promotes env s e
      = Mesher.emptyBallConfiguration env s (fc.vertex 0) (fc.vertex 1) (fc.vertex 2) := by
  unfold Mesher.promotes
  rw [hed]
  dsimp only
  rw [hf1]
  dsimp only
  rw [hfc]

/-- The loop of changeRadius, on edges that are live with a live first facet:
it returns; the edges that pass the test leave for the back of the front with
type 1, in their order, the others join the border list in their order. -/
theorem Mesher.changeRadiusLoop_spec [LinearOrderedField K] (env : Env K) (l : List Nat)
    (s : Mesher K) (hl : Mesher.BorderLive s l) :
    ∃ s1, Mesher.changeRadiusLoop env l s = some s1 ∧
      s1.m_border_edges = s.m_border_edges ++ l.filter (fun e => !Mesher.promotes env s e) ∧
      s1.m_edge_front = s.m_edge_front ++ l.filter (Mesher.promotes env s) ∧
      (∀ e, s1.heap.edges e = (s.heap.edges e).map fun ed =>
        if e ∈ l ∧ Mesher.promotes env s e = true then { ed with m_type := 1 } else ed) ∧
      s1.heap.vertices = s.heap.vertices ∧ s1.heap.facets = s.heap.facets ∧
      s1.heap.nextEdge = s.heap.nextEdge ∧ s1.nextFacet = s.nextFacet ∧
      s1.m_ball_radius = s.m_ball_radius ∧ s1.m_sq_ball_radius = s.m_sq_ball_radius ∧
      s1.m_facets = s.m_facets ∧ s1.m_vertices = s.m_vertices ∧
      s1.m_node_border_edges = s.m_node_border_edges ∧
      s1.m_nvertices = s.m_nvertices ∧ s1.m_nfacets = s.m_nfacets := by
  induction l generalizing s with
  | nil =>
    refine ⟨s, rfl, by simp, by simp, ?_, rfl, rfl, rfl, rfl, rfl, rfl, rfl, rfl, rfl, rfl, rfl⟩
    intro e
    cases s.heap.edges e <;> simp
  | cons e rest ih =>
    obtain ⟨ed, f, fc, hed, hf1, hfc⟩ := hl e (List.mem_cons_self _ _)
    have hP := Mesher.promotes_eq env s e ed f fc hed hf1 hfc
    obtain ⟨src, tgt, f1, f2, t⟩ := ed
    dsimp only at hf1
    subst hf1
    unfold Mesher.changeRadiusLoop
    rw [hed]
    dsimp only
    rw [hfc]
    dsimp only
    rw [← hP]
    by_cases hp : Mesher.promotes env s e = true
    · rw [if_pos hp]
      have hcongr : ∀ e1, Mesher.promotes env
          { s with
            heap := s.heap.setEdge e (some ⟨src, tgt, some f, f2, 1⟩)
            m_edge_front := s.m_edge_front ++ [e] } e1 = Mesher.promotes env s e1 := by
        intro e1
        refine Mesher.promotes_congr env s
          { s with
            heap := s.heap.setEdge e (some ⟨src, tgt, some f, f2, 1⟩)
            m_edge_front := s.m_edge_front ++ [e] } rfl rfl rfl rfl e1 ?_
        show Option.map Edge.m_facet1 (if e1 = e then _ else _) = _
        by_cases h1 : e1 = e
        · rw [if_pos h1, h1, hed]
          rfl
        · rw [if_neg h1]
      have hl1 : Mesher.BorderLive
          { s with
            heap := s.heap.setEdge e (some ⟨src, tgt, some f, f2, 1⟩)
            m_edge_front := s.m_edge_front ++ [e] } rest := by
        intro e1 he1
        obtain ⟨ed1, f1, fc1, h1, h2, h3⟩ := hl e1 (List.mem_cons_of_mem _ he1)
        by_cases h : e1 = e
        · subst h
          rw [hed] at h1
          cases h1
          exact ⟨⟨src, tgt, some f, f2, 1⟩, f1, fc1, if_pos rfl, h2, h3⟩
        · exact ⟨ed1, f1, fc1, (if_neg h).trans h1, h2, h3⟩
      obtain ⟨s1, hrun, hb, hfr, hedges, hrest⟩ := ih _ hl1
      refine ⟨s1, hrun, ?_, ?_, ?_, hrest⟩
      · rw [hb, List.filter_cons_of_neg (by simp [hp])]
        congr 1
        exact List.filter_congr (fun x _ => by rw [hcongr x])
      · rw [hfr, List.filter_cons_of_pos hp]
        show (s.m_edge_front ++ [e]) ++ _ = _
        rw [List.append_assoc, List.singleton_append]
        congr 2
        exact List.filter_congr (fun x _ => by rw [hcongr x])
      · intro e1
        rw [hedges e1, hcongr e1]
        show Option.map _ (if e1 = e then _ else _) = _
        by_cases h1 : e1 = e
        · subst h1
          rw [if_pos rfl, hed]
          simp [hp]
        · rw [if_neg h1]
          cases s.heap.edges e1 with
          | none => rfl
          | some ed1 => simp [h1]
    · rw [if_neg hp]
      have hcongr : ∀ e1, Mesher.promotes env
          { s with m_border_edges := s.m_border_edges ++ [e] } e1
            = Mesher.promotes env s e1 := fun e1 =>
        Mesher.promotes_congr env s { s with m_border_edges := s.m_border_edges ++ [e] }
          rfl rfl rfl rfl e1 rfl
      have hl1 : Mesher.BorderLive { s with m_border_edges := s.m_border_edges ++ [e] }
          rest := fun e1 he1 => hl e1 (List.mem_cons_of_mem _ he1)
      obtain ⟨s1, hrun, hb, hfr, hedges, hrest⟩ := ih _ hl1
      refine ⟨s1, hrun, ?_, ?_, ?_, hrest⟩
      · rw [hb, List.filter_cons_of_pos (by simp [hp])]
        show (s.m_border_edges ++ [e]) ++ _ = _
        rw [List.append_assoc, List.singleton_append]
        rfl
      · rw [hfr, List.filter_cons_of_neg hp]
        rfl
      · intro e1
        rw [hedges e1, hcongr e1]
        show Option.map _ (s.heap.edges e1) = _
        cases h : s.heap.edges e1 with
        | none => rfl
        | some ed1 =>
          by_cases h1 : e1 = e
          · subst h1
            simp [hp]
          · simp [h1]

theorem rect_border_live : Mesher.BorderLive rectMesher rectMesher.m_border_edges := by
  intro e he
  have h : e = 0 ∨ e = 1 := by
    have hb : rectMesher.m_border_edges = [0, 1] := rfl
    rw [hb] at he
    simpa using he
  rcases h with rfl | rfl
  · exact ⟨⟨0, 4, some 0, none, 0⟩, 0, ⟨0, 4, 1, ⟨153 / 2, -52, 336⟩⟩, rfl, rfl, rfl⟩
  · exact ⟨⟨4, 1, some 0, none, 0⟩, 0, ⟨0, 4, 1, ⟨153 / 2, -52, 336⟩⟩, rfl, rfl, rfl⟩

/-- C24: Mesher::changeRadius(r), on a border list whose edges are live with a live first facet, returns; the ball radius is r and the squared radius r*r; the border list afterwards is the old one filtered, in its order, by the edges that fail the test, and the front is the old front followed by the edges that pass it, in their order; the test on an edge is emptyBallConfiguration on the three vertices of its first facet at the new radius; an edge that passes has type 1 afterwards, an edge that fails is as before, and so is every edge outside the border list. -/
theorem Mesher.changeRadius_promotes [LinearOrderedField K] (env : Env K) (s : Mesher K)
    (r : K) (hb : Mesher.BorderLive s s.m_border_edges) :
    ∃ s1, Mesher.changeRadius env s r = some s1 ∧
      s1.m_ball_radius = r ∧ s1.m_sq_ball_radius = r * r ∧
      s1.m_border_edges
        = s.m_border_edges.filter (fun e => !Mesher.promotes env (s.setBallRadius r) e) ∧
      s1.m_edge_front
        = s.m_edge_front ++ s.m_border_edges.filter (Mesher.promotes env (s.setBallRadius r)) ∧
      (∀ e ∈ s.m_border_edges, ∃ ed f fc, s.heap.edges e = some ed ∧ ed.m_facet1 = some f ∧
        s.heap.facets f = some fc ∧
        Mesher.promotes env (s.setBallRadius r) e
          = Mesher.emptyBallConfiguration env (s.setBallRadius r) (fc.vertex 0) (fc.vertex 1)
              (fc.vertex 2) ∧
        s1.heap.edges e = some (if Mesher.promotes env (s.setBallRadius r) e = true
          then { ed with m_type := 1 } else ed)) ∧
      (∀ e, e ∉ s.m_border_edges → s1.heap.edges e = s.heap.edges e) := by
  have hcongr : ∀ e, Mesher.promotes env { s.setBallRadius r with m_border_edges := [] } e
      = Mesher.promotes env (s.setBallRadius r) e := fun e =>
    Mesher.promotes_congr env (s.setBallRadius r)
      { s.setBallRadius r with m_border_edges := [] } rfl rfl rfl rfl e rfl
  have hfun : Mesher.promotes env { s.setBallRadius r with m_border_edges := [] }
      = Mesher.promotes env (s.setBallRadius r) := funext hcongr
  obtain ⟨s1, hrun, hbo, hfr, hedges, -, -, -, -, hr, hq, -⟩ :=
    Mesher.changeRadiusLoop_spec env s.m_border_edges
      { s.setBallRadius r with m_border_edges := [] } hb
  rw [hfun] at hbo hfr
  refine ⟨s1, hrun, hr, hq, ?_, hfr, ?_, ?_⟩
  · rw [hbo]
    exact List.nil_append _
  · intro e he
    obtain ⟨ed, f, fc, h1, h2, h3⟩ := hb e he
    refine ⟨ed, f, fc, h1, h2, h3,
      Mesher.promotes_eq env (s.setBallRadius r) e ed f fc h1 h2 h3, ?_⟩
    rw [hedges e, hcongr e]
    show Option.map _ (s.heap.edges e) = _
    rw [h1]
    by_cases hp : Mesher.promotes env (s.setBallRadius r) e = true
    · simp [hp, he]
    · simp [hp]
  · intro e he
    rw [hedges e]
    show Option.map _ (s.heap.edges e) = _
    cases s.heap.edges e with
    | none => rfl
    | some ed => simp [he]

/-- C24 on the sample rectangle, whose border list holds the edges 0 and 1 of the facet 0. -/
theorem Mesher.changeRadius_promotes_witness :
    Mesher.BorderLive rectMesher rectMesher.m_border_edges ∧
    ∃ s1, Mesher.changeRadius rectEnv rectMesher 400 = some s1 ∧
      s1.m_ball_radius = 400 ∧ s1.m_sq_ball_radius = 400 * 400 ∧
      s1.m_border_edges = rectMesher.m_border_edges.filter
        (fun e => !Mesher.promotes rectEnv (rectMesher.setBallRadius 400) e) ∧
      s1.m_edge_front = rectMesher.m_edge_front ++ rectMesher.m_border_edges.filter
        (Mesher.promotes rectEnv (rectMesher.setBallRadius 400)) ∧
      (∀ e ∈ rectMesher.m_border_edges, ∃ ed f fc, rectMesher.heap.edges e = some ed ∧
        ed.m_facet1 = some f ∧ rectMesher.heap.facets f = some fc ∧
        Mesher.promotes rectEnv (rectMesher.setBallRadius 400) e
          = Mesher.emptyBallConfiguration rectEnv (rectMesher.setBallRadius 400) (fc.vertex 0)
              (fc.vertex 1) (fc.vertex 2) ∧
        s1.heap.edges e = some (if Mesher.promotes rectEnv (rectMesher.setBallRadius 400) e = true
          then { ed with m_type := 1 } else ed)) ∧
      (∀ e, e ∉ rectMesher.m_border_edges → s1.heap.edges e = rectMesher.heap.edges e) :=
  ⟨rect_border_live, Mesher.changeRadius_promotes rectEnv rectMesher 400 rect_border_live⟩

/-! ## Vertex indices and the counters of Mesher::addFacet -/

theorem toInt32_small (n : Nat) (h : n < 2 ^ 31) : toInt32 n = (n : Int) := by
  unfold toInt32
  have h1 : n % 2 ^ 32 = n := Nat.mod_eq_of_lt (by omega)
  rw [h1, if_pos h]

/-- In an indexed state a listed vertex has its position as index, hence an
index that is not -1. -/
theorem Mesher.Indexed.index_of_mem (s : Mesher K) (hs : s.Indexed) (v : Nat)
    (hv : v ∈ s.m_vertices) :
    ∃ i : Nat, i < s.m_vertices.length ∧ s.m_vertices[i]? = some v ∧
      (s.heap.vertices v).m_index = (i : Int) := by
  obtain ⟨i, hi, hget⟩ := List.getElem_of_mem hv
  have h1 : s.m_vertices[i]? = some v := by
    rw [List.getElem?_eq_getElem hi, hget]
  exact ⟨i, hi, h1, hs.2.1 i v h1⟩

/-- Mesher::addVertex keeps the vertex list indexed, as long as the `int`
index can hold the counter. -/
theorem Mesher.addVertex_indexed (s : Mesher K) (v : Nat) (hs : s.Indexed)
    (hsz : s.m_vertices.length < 2 ^ 31) :
    (s.addVertex v).Indexed ∧ v ∈ (s.addVertex v).m_vertices ∧
    (∀ w ∈ s.m_vertices, w ∈ (s.addVertex v).m_vertices) ∧
    (s.addVertex v).m_vertices.length ≤ s.m_vertices.length + 1 := by
  obtain ⟨hn, hi, ho⟩ := hs
  unfold Mesher.addVertex
  by_cases h : (s.heap.vertices v).m_index ≠ -1
  · rw [if_pos h]
    refine ⟨⟨hn, hi, ho⟩, ?_, fun w hw => hw, Nat.le_succ _⟩
    by_contra hv
    exact h (ho v hv)
  · rw [if_neg h]
    have hidx : (s.heap.vertices v).m_index = -1 := not_not.mp h
    have hv : v ∉ s.m_vertices := by
      intro hv
      obtain ⟨i, -, -, h2⟩ := Mesher.Indexed.index_of_mem s ⟨hn, hi, ho⟩ v hv
      rw [hidx] at h2
      omega
    refine ⟨⟨?_, ?_, ?_⟩, ?_, ?_, ?_⟩
    · show (s.m_nvertices + 1) % 2 ^ 32 = (s.m_vertices ++ [v]).length
      rw [List.length_append, List.length_singleton, hn]
      exact Nat.mod_eq_of_lt (by omega)
    · intro i w hw
      change (s.m_vertices ++ [v])[i]? = some w at hw
      show ((s.heap.setVertex v _).vertices w).m_index = (i : Int)
      unfold Mesh.setVertex
      dsimp only
      by_cases hlt : i < s.m_vertices.length
      · rw [List.getElem?_append_left hlt] at hw
        have hwv : w ≠ v := by
          rintro rfl
          exact hv (List.getElem?_mem hw)
        rw [if_neg hwv]
        exact hi i w hw
      · rw [List.getElem?_append_right (by omega)] at hw
        have hi0 : i - s.m_vertices.length = 0 := by
          by_contra hne
          rw [List.getElem?_eq_none (by simp; omega)] at hw
          cases hw
        rw [hi0] at hw
        have hwv : v = w := by simpa using hw
        subst hwv
        rw [if_pos rfl]
        show toInt32 s.m_nvertices = (i : Int)
        rw [hn, toInt32_small _ hsz]
        congr 1
        omega
    · intro w hw
      change w ∉ s.m_vertices ++ [v] at hw
      have hw1 : w ∉ s.m_vertices := fun h1 => hw (List.mem_append_left _ h1)
      have hwv : w ≠ v := by
        rintro rfl
        exact hw (List.mem_append_right _ (List.mem_singleton_self _))
      show ((s.heap.setVertex v _).vertices w).m_index = -1
      unfold Mesh.setVertex
      dsimp only
      rw [if_neg hwv]
      exact ho w hw1
    · exact List.mem_append_right _ (List.mem_singleton_self _)
    · intro w hw
      exact List.mem_append_left _ hw
    · show (s.m_vertices ++ [v]).length ≤ _
      rw [List.length_append, List.length_singleton]

/-- Mesher::addFacet on a live facet keeps the vertex list indexed and lists
the three vertices of the facet. -/
theorem Mesher.addFacet_indexed (s : Mesher K) (f : Nat) (fc : Facet K)
    (hf : s.heap.facets f = some fc) (hs : s.Indexed)
    (hsz : s.m_vertices.length + 3 ≤ 2 ^ 31) :
    ∃ s1, s.addFacet f = some s1 ∧ s1.Indexed ∧
      (∀ k, fc.vertex k ∈ s1.m_vertices) ∧
      (∀ w ∈ s.m_vertices, w ∈ s1.m_vertices) ∧
      s1.m_vertices.length ≤ s.m_vertices.length + 3 ∧
      s1.heap.facets = s.heap.facets ∧ s1.m_facets = s.m_facets ++ [f] ∧
      s1.m_nfacets = (s.m_nfacets + 1) % 2 ^ 32 := by
  obtain ⟨a1, b1, c1, d1⟩ := Mesher.addVertex_indexed s (fc.vertex 0) hs (by omega)
  obtain ⟨a2, b2, c2, d2⟩ := Mesher.addVertex_indexed (s.addVertex (fc.vertex 0))
    (fc.vertex 1) a1 (by omega)
  obtain ⟨a3, b3, c3, d3⟩ := Mesher.addVertex_indexed
    ((s.addVertex (fc.vertex 0)).addVertex (fc.vertex 1)) (fc.vertex 2) a2 (by omega)
  have hrun : s.addFacet f = some
      { ((s.addVertex (fc.vertex 0)).addVertex (fc.vertex 1)).addVertex (fc.vertex 2) with
        m_facets := (((s.addVertex (fc.vertex 0)).addVertex (fc.vertex 1)).addVertex
          (fc.vertex 2)).m_facets ++ [f]
        m_nfacets := ((((s.addVertex (fc.vertex 0)).addVertex (fc.vertex 1)).addVertex
          (fc.vertex 2)).m_nfacets + 1) % 2 ^ 32 } := by
    unfold Mesher.addFacet
    rw [hf]
  obtain ⟨hsame, hfl, hnf, -⟩ := Mesher.addFacet_spec s _ f hrun
  refine ⟨_, hrun, a3, ?_, ?_, by dsimp only; omega, hsame.2.1, hfl, hnf⟩
  · intro k
    have hk := Facet.vertex_mem fc k
    simp only [List.mem_cons, List.mem_singleton, List.not_mem_nil, or_false] at hk
    rcases hk with hk | hk | hk
    · rw [hk]
      exact c3 _ (c2 _ b1)
    · rw [hk]
      exact c3 _ b2
    · rw [hk]
      exact b3
  · intro w hw
    exact c3 _ (c2 _ (c1 _ hw))

/-- A sequence of addFacet calls on live facets, from an indexed state whose
listed facets have their vertices listed: it returns, the state is indexed, the
facets of the sequence joined the facet list in their order and were counted,
and the vertices of every listed facet are listed. -/
theorem Mesher.addFacets_spec (fs : List Nat) (s : Mesher K) (hs : s.Indexed)
    (hlive : ∀ f ∈ fs, ∃ fc, s.heap.facets f = some fc)
    (hold : ∀ f ∈ s.m_facets, ∀ fc, s.heap.facets f = some fc →
      ∀ k, fc.vertex k ∈ s.m_vertices)
    (hnf : s.m_nfacets < 2 ^ 32)
    (hsz : s.m_vertices.length + 3 * fs.length < 2 ^ 31) :
    ∃ s1, Mesher.addFacets fs s = some s1 ∧ s1.Indexed ∧
      s1.heap.facets = s.heap.facets ∧ s1.m_facets = s.m_facets ++ fs ∧
      s1.m_nfacets = (s.m_nfacets + fs.length) % 2 ^ 32 ∧
      (∀ f ∈ s1.m_facets, ∀ fc, s.heap.facets f = some fc →
        ∀ k, fc.vertex k ∈ s1.m_vertices) := by
  induction fs generalizing s with
  | nil =>
    refine ⟨s, rfl, hs, rfl, (List.append_nil _).symm, ?_, hold⟩
    exact (Nat.mod_eq_of_lt hnf).symm
  | cons f rest ih =>
    obtain ⟨fc, hfc⟩ := hlive f (List.mem_cons_self _ _)
    rw [List.length_cons] at hsz
    obtain ⟨s1, hrun, hs1, hk, hmono, hlen, hfacets, hfl, hn1⟩ :=
      Mesher.addFacet_indexed s f fc hfc hs (by omega)
    have hlive1 : ∀ g ∈ rest, ∃ gc, s1.heap.facets g = some gc := by
      intro g hg
      rw [hfacets]
      exact hlive g (List.mem_cons_of_mem _ hg)
    have hold1 : ∀ g ∈ s1.m_facets, ∀ gc, s1.heap.facets g = some gc →
        ∀ k, gc.vertex k ∈ s1.m_vertices := by
      intro g hg gc hgc k
      rw [hfacets] at hgc
      rw [hfl] at hg
      rcases List.mem_append.mp hg with h | h
      · exact hmono _ (hold g h gc hgc k)
      · rw [List.mem_singleton] at h
        subst h
        rw [hfc] at hgc
        cases hgc
        exact hk k
    have hnf1 : s1.m_nfacets < 2 ^ 32 := by
      rw [hn1]
      exact Nat.mod_lt _ (by norm_num)
    obtain ⟨s2, hrun2, hs2, hfacets2, hfl2, hn2, hall⟩ := ih s1 hs1 hlive1 hold1 hnf1 (by omega)
    refine ⟨s2, ?_, hs2, hfacets2.trans hfacets, ?_, ?_, ?_⟩
    · unfold Mesher.addFacets
      rw [hrun]
      exact hrun2
    · rw [hfl2, hfl, List.append_assoc]
      rfl
    · rw [hn2, hn1, List.length_cons, Nat.mod_add_mod]
      congr 1
      omega
    · intro g hg gc hgc k
      rw [← hfacets] at hgc
      exact hall g hg gc hgc k

/-- C25: from a newly constructed Mesher and vertices that all have index -1, a sequence of addFacet calls on live facets, short enough for the `int` index to hold every position (three times the number of calls below 2^31), returns, and afterwards: the i-th vertex of the vertex list has index i; nVertices() is the length of the vertex list; every vertex of every added facet has an index in [0, nVertices()); distinct listed vertices have distinct indices; nFacets() is the number of calls, and the facet list is the list of the facets added. -/
theorem Mesher.addFacets_indices [Mul K] (heap : Mesh K) (nextFacet : Nat) (r : K)
    (fs : List Nat) (hidx : ∀ v, (heap.vertices v).m_index = -1)
    (hlive : ∀ f ∈ fs, ∃ fc, heap.facets f = some fc)
    (hsize : 3 * fs.length < 2 ^ 31) :
    ∃ s1, Mesher.addFacets fs (Mesher.ctor heap nextFacet r) = some s1 ∧
      (∀ (i v : Nat), s1.m_vertices[i]? = some v → (s1.heap.vertices v).m_index = (i : Int)) ∧
      s1.m_nvertices = s1.m_vertices.length ∧
      (∀ f ∈ fs, ∀ fc, heap.facets f = some fc → ∀ k,
        0 ≤ (s1.heap.vertices (fc.vertex k)).m_index ∧
        (s1.heap.vertices (fc.vertex k)).m_index < (s1.m_nvertices : Int)) ∧
      (∀ u ∈ s1.m_vertices, ∀ v ∈ s1.m_vertices, u ≠ v →
        (s1.heap.vertices u).m_index ≠ (s1.heap.vertices v).m_index) ∧
      s1.m_nfacets = fs.length ∧ s1.m_facets = fs := by
  have h0 : (Mesher.ctor heap nextFacet r).Indexed := by
    refine ⟨rfl, ?_, fun v _ => hidx v⟩
    intro i v hv
    change ([] : List Nat)[i]? = some v at hv
    simp at hv
  obtain ⟨s1, hrun, hs1, -, hfl, hn, hall⟩ :=
    Mesher.addFacets_spec fs (Mesher.ctor heap nextFacet r) h0 hlive
      (fun f hf => absurd hf (List.not_mem_nil f)) (by show 0 < 2 ^ 32; norm_num)
      (by show 0 + 3 * fs.length < 2 ^ 31; omega)
  have hfl1 : s1.m_facets = fs := by
    rw [hfl]
    exact List.nil_append _
  refine ⟨s1, hrun, hs1.2.1, hs1.1, ?_, ?_, ?_, hfl1⟩
  · intro f hf fc hfc k
    have hmem := hall f (by rw [hfl1]; exact hf) fc hfc k
    obtain ⟨i, hi, -, h2⟩ := Mesher.Indexed.index_of_mem s1 hs1 _ hmem
    rw [h2, hs1.1]
    omega
  · intro u hu v hv huv heq
    obtain ⟨i, -, hi, h1⟩ := Mesher.Indexed.index_of_mem s1 hs1 u hu
    obtain ⟨j, -, hj, h2⟩ := Mesher.Indexed.index_of_mem s1 hs1 v hv
    rw [h1, h2] at heq
    have hij : i = j := by omega
    subst hij
    rw [hi] at hj
    exact huv (Option.some.inj hj)
  · rw [hn]
    show (0 + fs.length) % 2 ^ 32 = fs.length
    rw [Nat.zero_add]
    exact Nat.mod_eq_of_lt (by omega)

theorem sampleFacets_index (v : Nat) : (sampleFacets.vertices v).m_index = -1 := by
  rcases v with _ | _ | _ | v <;> rfl

theorem sampleFacets_live : ∀ f ∈ [0, 1], ∃ fc, sampleFacets.facets f = some fc := by
  intro f hf
  have h : f = 0 ∨ f = 1 := by simpa using hf
  rcases h with rfl | rfl
  · exact ⟨⟨0, 1, 2, ⟨0, 0, 0⟩⟩, rfl⟩
  · exact ⟨⟨0, 1, 3, ⟨0, 0, 0⟩⟩, rfl⟩

/-- C25 on the sample cloud with the facets 0 on (0,1,2) and 1 on (0,1,3), added in that order to a new mesher. -/
theorem Mesher.addFacets_indices_witness :
    (∀ v, (sampleFacets.vertices v).m_index = -1) ∧
    (∀ f ∈ [0, 1], ∃ fc, sampleFacets.facets f = some fc) ∧ 3 * [0, 1].length < 2 ^ 31 ∧
    ∃ s1, Mesher.addFacets [0, 1] (Mesher.ctor sampleFacets 2 1) = some s1 ∧
      (∀ (i v : Nat), s1.m_vertices[i]? = some v → (s1.heap.vertices v).m_index = (i : Int)) ∧
      s1.m_nvertices = s1.m_vertices.length ∧
      (∀ f ∈ [0, 1], ∀ fc, sampleFacets.facets f = some fc → ∀ k,
        0 ≤ (s1.heap.vertices (fc.vertex k)).m_index ∧
        (s1.heap.vertices (fc.vertex k)).m_index < (s1.m_nvertices : Int)) ∧
      (∀ u ∈ s1.m_vertices, ∀ v ∈ s1.m_vertices, u ≠ v →
        (s1.heap.vertices u).m_index ≠ (s1.heap.vertices v).m_index) ∧
      s1.m_nfacets = [0, 1].length ∧ s1.m_facets = [0, 1] :=
  ⟨sampleFacets_index, sampleFacets_live, by decide,
    Mesher.addFacets_indices sampleFacets 2 1 [0, 1] sampleFacets_index sampleFacets_live
      (by decide)⟩

/-- The run of the two addFacet calls of the sample: the vertex list is
0, 1, 2, 3 and both counters are right. -/
theorem sampleFacets_run :
    (Mesher.addFacets [0, 1] (Mesher.ctor sampleFacets 2 1)).map
      (fun s => (s.m_vertices, s.m_nvertices, s.m_nfacets, s.m_facets,
        (s.heap.vertices 3).m_index))
      = some ([0, 1, 2, 3], 4, 2, [0, 1], 3) := by
  decide

/-! ## Mesher::merge -/

theorem toUInt32_nat (n : Nat) (h : n < 2 ^ 32) : toUInt32 (n : Int) = n := by
  unfold toUInt32
  have h1 : ((n : Int) % 2 ^ 32) = (n : Int) := Int.emod_eq_of_lt (by omega) (by omega)
  rw [h1]
  exact Int.toNat_ofNat n

/-- The first loop of merge on a front of live edges of type 0, 1 or 2: it
ends, and keeps the edges of type 1 in their order. -/
theorem Mesher.mergeFront_spec (m : Mesh K) (front : List Nat)
    (h : Mesher.FrontTyped m front) :
    Mesher.mergeFront m front = some (front.filter (m.edgeTypeIs 1)) := by
  induction front with
  | nil => rfl
  | cons e rest ih =>
    obtain ⟨ed, hed, ht⟩ := h e (List.mem_cons_self _ _)
    have ih1 := ih (fun x hx => h x (List.mem_cons_of_mem _ hx))
    have hty : m.edgeTypeIs 1 e = decide (ed.m_type = 1) := by
      unfold Mesh.edgeTypeIs
      rw [hed]
    unfold Mesher.mergeFront
    rw [hed]
    dsimp only
    rw [ih1]
    rcases ht with ht | ht | ht
    · rw [if_neg (by omega), if_neg (by omega), if_pos ht,
        List.filter_cons_of_neg (by rw [hty]; simp; omega)]
    · rw [if_neg (by omega), if_pos ht, List.filter_cons_of_pos (by rw [hty]; simp [ht])]
      rfl
    · rw [if_pos ht, List.filter_cons_of_neg (by rw [hty]; simp; omega)]

/-- The last loop of merge on live border edges: the edges whose second facet
is null, in their order. -/
theorem Mesher.mergeBorder_spec (m : Mesh K) (l : List Nat) (h : Mesher.EdgesLive m l) :
    Mesher.mergeBorder m l = some (l.filter m.edgeFacet2Null) := by
  induction l with
  | nil => rfl
  | cons e rest ih =>
    obtain ⟨ed, hed⟩ := h e (List.mem_cons_self _ _)
    have ih1 := ih (fun x hx => h x (List.mem_cons_of_mem _ hx))
    have hty : m.edgeFacet2Null e = decide (ed.m_facet2 = none) := by
      unfold Mesh.edgeFacet2Null
      rw [hed]
    unfold Mesher.mergeBorder
    rw [hed]
    dsimp only
    rw [ih1]
    by_cases h2 : ed.m_facet2 = none
    · rw [if_neg (not_not.mpr h2), List.filter_cons_of_pos (by rw [hty]; simp [h2])]
      rfl
    · rw [if_pos h2, List.filter_cons_of_neg (by rw [hty]; simp [h2])]

/-- The renumbering loop leaves the edges, the facets and the allocator
alone, and of a vertex it changes the index only. -/
theorem Mesher.mergeVertices_heap (n : Nat) (vs : List Nat) (m : Mesh K) :
    (Mesher.mergeVertices n vs m).edges = m.edges ∧
    (Mesher.mergeVertices n vs m).facets = m.facets ∧
    (Mesher.mergeVertices n vs m).nextEdge = m.nextEdge ∧
    ∀ v, { (Mesher.mergeVertices n vs m).vertices v with m_index := 0 }
      = { m.vertices v with m_index := 0 } := by
  induction vs generalizing m with
  | nil => exact ⟨rfl, rfl, rfl, fun _ => rfl⟩
  | cons w rest ih =>
    obtain ⟨h1, h2, h3, h4⟩ := ih (Mesher.mergeVertex n m w)
    refine ⟨h1, h2, h3, ?_⟩
    intro v
    show { (Mesher.mergeVertices n rest (Mesher.mergeVertex n m w)).vertices v with
      m_index := 0 } = _
    rw [h4 v]
    unfold Mesher.mergeVertex Mesh.setVertex
    dsimp only
    by_cases hv : v = w
    · rw [if_pos hv, hv]
    · rw [if_neg hv]

/-- The index of a vertex after the renumbering loop over a list without
repetition: the old index plus the counter, in `unsigned int` arithmetic, for
a vertex of the list, and the old index for any other. -/
theorem Mesher.mergeVertices_index (n : Nat) (vs : List Nat) (m : Mesh K)
    (hnd : vs.Nodup) (v : Nat) :
    ((Mesher.mergeVertices n vs m).vertices v).m_index =
      if v ∈ vs then toInt32 ((toUInt32 (m.vertices v).m_index + n) % 2 ^ 32)
      else (m.vertices v).m_index := by
  induction vs generalizing m with
  | nil => rfl
  | cons w rest ih =>
    obtain ⟨hw, hrest⟩ := List.nodup_cons.mp hnd
    show ((Mesher.mergeVertices n rest (Mesher.mergeVertex n m w)).vertices v).m_index = _
    rw [ih (Mesher.mergeVertex n m w) hrest]
    unfold Mesher.mergeVertex Mesh.setVertex
    dsimp only
    by_cases hv : v = w
    · subst hv
      rw [if_neg hw, if_pos rfl, if_pos (List.mem_cons_self _ _)]
    · rw [if_neg hv]
      by_cases hr : v ∈ rest
      · rw [if_pos hr, if_pos (List.mem_cons_of_mem _ hr)]
      · rw [if_neg hr, if_neg (fun h => (List.mem_cons.mp h).elim hv hr)]

/-- Mesher::merge on a global front of live edges of type 0, 1 or 2 and a
local border list of live edges: it returns, and each member of the two meshers
afterwards is given. -/
theorem Mesher.merge_spec (g l : Mesher K) (hfront : Mesher.FrontTyped g.heap g.m_edge_front)
    (hborder : Mesher.EdgesLive g.heap l.m_border_edges) :
    g.merge l = some
      ({ g with
          heap := Mesher.mergeVertices g.m_nvertices l.m_vertices g.heap
          m_facets := g.m_facets ++ l.m_facets
          m_edge_front := g.m_edge_front.filter (g.heap.edgeTypeIs 1) ++ l.m_node_border_edges
          m_vertices := g.m_vertices ++ l.m_vertices
          m_border_edges := g.m_border_edges ++ l.m_border_edges.filter g.heap.edgeFacet2Null
          m_nfacets := (g.m_facets ++ l.m_facets).length % 2 ^ 32
          m_nvertices := (g.m_vertices ++ l.m_vertices).length % 2 ^ 32 },
        { l with
          heap := Mesher.mergeVertices g.m_nvertices l.m_vertices g.heap
          m_facets := []
          m_node_border_edges := []
          m_border_edges := [] }) := by
  unfold Mesher.merge
  rw [Mesher.mergeFront_spec g.heap _ hfront, Mesher.mergeBorder_spec g.heap _ hborder]
  rfl

/-- A vertex list whose i-th vertex has index i has no repetition. -/
theorem Mesher.VerticesIndexed.nodup (s : Mesher K) (h : s.VerticesIndexed) :
    s.m_vertices.Nodup := by
  rw [List.nodup_iff_getElem?_ne_getElem?]
  intro i j hij hj heq
  have hi : i < s.m_vertices.length := by omega
  have h1 : s.m_vertices[i]? = some (s.m_vertices[i]) := List.getElem?_eq_getElem hi
  have h2 := h i _ h1
  rw [heq] at h1
  have h3 := h j _ h1
  rw [h2] at h3
  omega

/-- The renumbering loop of merge, for a global list `gl` and a local list
`ll` that are each indexed by position in the store `m` and have no vertex in
common, with the counter equal to the length of `gl`: a vertex of `ll` gets its
old index plus the counter, any other vertex keeps its index, and the joined
list is indexed by position. -/
theorem Mesher.mergeVertices_indexed (m : Mesh K) (gl ll : List Nat)
    (hg : ∀ (i v : Nat), gl[i]? = some v → (m.vertices v).m_index = (i : Int))
    (hl : ∀ (i v : Nat), ll[i]? = some v → (m.vertices v).m_index = (i : Int))
    (hdisj : ∀ v ∈ ll, v ∉ gl) (hsz : gl.length + ll.length < 2 ^ 31) :
    (∀ v ∈ ll, ((Mesher.mergeVertices gl.length ll m).vertices v).m_index
      = (m.vertices v).m_index + (gl.length : Int)) ∧
    (∀ v, v ∉ ll → ((Mesher.mergeVertices gl.length ll m).vertices v).m_index
      = (m.vertices v).m_index) ∧
    (∀ (i v : Nat), (gl ++ ll)[i]? = some v →
      ((Mesher.mergeVertices gl.length ll m).vertices v).m_index = (i : Int)) := by
  have hnd : ll.Nodup := by
    rw [List.nodup_iff_getElem?_ne_getElem?]
    intro i j hij hj heq
    have hi : i < ll.length := by omega
    have h1 : ll[i]? = some (ll[i]) := List.getElem?_eq_getElem hi
    have h2 := hl i _ h1
    rw [heq] at h1
    have h3 := hl j _ h1
    rw [h2] at h3
    omega
  have hin : ∀ v ∈ ll, ((Mesher.mergeVertices gl.length ll m).vertices v).m_index
      = (m.vertices v).m_index + (gl.length : Int) := by
    intro v hv
    rw [Mesher.mergeVertices_index gl.length ll m hnd v, if_pos hv]
    obtain ⟨i, hi, hget⟩ := List.getElem_of_mem hv
    have h1 : ll[i]? = some v := by
      rw [List.getElem?_eq_getElem hi, hget]
    rw [hl i v h1, toUInt32_nat i (by omega), Nat.mod_eq_of_lt (by omega),
      toInt32_small _ (by omega)]
    push_cast
    rfl
  have hout : ∀ v, v ∉ ll → ((Mesher.mergeVertices gl.length ll m).vertices v).m_index
      = (m.vertices v).m_index := by
    intro v hv
    rw [Mesher.mergeVertices_index gl.length ll m hnd v, if_neg hv]
  refine ⟨hin, hout, ?_⟩
  intro i v hv
  by_cases hlt : i < gl.length
  · rw [List.getElem?_append_left hlt] at hv
    have hvg : v ∈ gl := List.getElem?_mem hv
    rw [hout v (fun h => hdisj v h hvg)]
    exact hg i v hv
  · rw [List.getElem?_append_right (by omega)] at hv
    rw [hin v (List.getElem?_mem hv), hl _ v hv]
    omega

/-- C26: Mesher::merge(L) called on G, the two sharing the object store, with G's front edges live of type 0, 1 or 2 and L's border edges live (so that the call returns), each vertex list indexed by position, G's counter equal to the length of its vertex list, the two vertex lists disjoint and short enough for an `int` index and the `unsigned int` counters: every vertex of L gets its old index plus G's count before the merge; G's vertex list is the old list followed by L's list; G's facet list is the old list followed by L's facets, and L's facet list is empty; afterwards nFacets() and nVertices() of G are the lengths of its facet and vertex lists, and the i-th vertex of G's list has index i. -/
theorem Mesher.merge_vertices_facets (g l : Mesher K) (hshare : l.heap = g.heap)
    (hfront : Mesher.FrontTyped g.heap g.m_edge_front)
    (hborder : Mesher.EdgesLive g.heap l.m_border_edges)
    (hg : g.VerticesIndexed) (hl : l.VerticesIndexed)
    (hn : g.m_nvertices = g.m_vertices.length)
    (hdisj : ∀ v ∈ l.m_vertices, v ∉ g.m_vertices)
    (hsv : g.m_vertices.length + l.m_vertices.length < 2 ^ 31)
    (hsf : g.m_facets.length + l.m_facets.length < 2 ^ 32) :
    ∃ g1 l1, g.merge l = some (g1, l1) ∧
      (∀ v ∈ l.m_vertices, (g1.heap.vertices v).m_index
        = (g.heap.vertices v).m_index + (g.m_nvertices : Int)) ∧
      g1.m_vertices = g.m_vertices ++ l.m_vertices ∧
      g1.m_facets = g.m_facets ++ l.m_facets ∧ l1.m_facets = [] ∧
      g1.m_nfacets = g1.m_facets.length ∧ g1.m_nvertices = g1.m_vertices.length ∧
      g1.VerticesIndexed := by
  have hl1 : ∀ (i v : Nat), l.m_vertices[i]? = some v →
      (g.heap.vertices v).m_index = (i : Int) := by
    intro i v hv
    rw [← hshare]
    exact hl i v hv
  obtain ⟨hin, -, hall⟩ := Mesher.mergeVertices_indexed g.heap g.m_vertices l.m_vertices
    hg hl1 hdisj hsv
  rw [← hn] at hin hall
  refine ⟨_, _, Mesher.merge_spec g l hfront hborder, hin, rfl, rfl, rfl, ?_, ?_, hall⟩
  · show (g.m_facets ++ l.m_facets).length % 2 ^ 32 = (g.m_facets ++ l.m_facets).length
    rw [List.length_append]
    exact Nat.mod_eq_of_lt hsf
  · show (g.m_vertices ++ l.m_vertices).length % 2 ^ 32 = (g.m_vertices ++ l.m_vertices).length
    rw [List.length_append]
    exact Nat.mod_eq_of_lt (by omega)

/-- C27: Mesher::merge(L) called on G, every edge of G's front being live with a type among 0, 1, 2 and L's border edges being live: the call returns; G's front is the old front filtered to the edges of type 1, in order, followed by L's node-border edges; G's border list is the old list followed by those of L's border edges whose second facet is null; L's node-border and border lists are empty. -/
theorem Mesher.merge_front_border (g l : Mesher K)
    (hfront : Mesher.FrontTyped g.heap g.m_edge_front)
    (hborder : Mesher.EdgesLive g.heap l.m_border_edges) :
    ∃ g1 l1, g.merge l = some (g1, l1) ∧
      g1.m_edge_front = g.m_edge_front.filter (g.heap.edgeTypeIs 1) ++ l.m_node_border_edges ∧
      g1.m_border_edges
        = g.m_border_edges ++ l.m_border_edges.filter g.heap.edgeFacet2Null ∧
      l1.m_node_border_edges = [] ∧ l1.m_border_edges = [] ∧
      (∀ e ∈ g.m_edge_front, ∃ ed, g.heap.edges e = some ed ∧
        (g.heap.edgeTypeIs 1 e = true ↔ ed.m_type = 1)) ∧
      (∀ e ∈ l.m_border_edges, ∃ ed, g.heap.edges e = some ed ∧
        (g.heap.edgeFacet2Null e = true ↔ ed.m_facet2 = none)) := by
  refine ⟨_, _, Mesher.merge_spec g l hfront hborder, rfl, rfl, rfl, rfl, ?_, ?_⟩
  · intro e he
    obtain ⟨ed, hed, -⟩ := hfront e he
    refine ⟨ed, hed, ?_⟩
    unfold Mesh.edgeTypeIs
    rw [hed]
    exact decide_eq_true_iff
  · intro e he
    obtain ⟨ed, hed⟩ := hborder e he
    refine ⟨ed, hed, ?_⟩
    unfold Mesh.edgeFacet2Null
    rw [hed]
    exact decide_eq_true_iff

theorem merge_front_typed : Mesher.FrontTyped mergeGlobal.heap mergeGlobal.m_edge_front := by
  intro e he
  have h : e = 0 ∨ e = 1 ∨ e = 2 := by
    have hb : mergeGlobal.m_edge_front = [0, 1, 2] := rfl
    rw [hb] at he
    simpa using he
  rcases h with rfl | rfl | rfl
  · exact ⟨⟨0, 1, some 0, none, 1⟩, rfl, Or.inr (Or.inl rfl)⟩
  · exact ⟨⟨1, 2, some 0, some 3, 2⟩, rfl, Or.inr (Or.inr rfl)⟩
  · exact ⟨⟨2, 0, some 0, none, 0⟩, rfl, Or.inl rfl⟩

theorem merge_border_live1 : Mesher.EdgesLive mergeGlobal.heap mergeLocal1.m_border_edges := by
  intro e he
  have h : e = 4 ∨ e = 5 := by
    have hb : mergeLocal1.m_border_edges = [4, 5] := rfl
    rw [hb] at he
    simpa using he
  rcases h with rfl | rfl
  · exact ⟨⟨4, 5, some 1, some 3, 2⟩, rfl⟩
  · exact ⟨⟨5, 3, some 1, none, 0⟩, rfl⟩

theorem merge_indexed_global : mergeGlobal.VerticesIndexed := by
  intro i v h
  have hb : mergeGlobal.m_vertices = [0, 1, 2] := rfl
  rw [hb] at h
  rcases i with _ | _ | _ | i
  · cases h
    rfl
  · cases h
    rfl
  · cases h
    rfl
  · simp at h

theorem merge_indexed_local1 : mergeLocal1.VerticesIndexed := by
  intro i v h
  have hb : mergeLocal1.m_vertices = [3, 4, 5] := rfl
  rw [hb] at h
  rcases i with _ | _ | _ | i
  · cases h
    rfl
  · cases h
    rfl
  · cases h
    rfl
  · simp at h

theorem merge_disjoint1 : ∀ v ∈ mergeLocal1.m_vertices, v ∉ mergeGlobal.m_vertices := by
  decide

/-- C26 on the merge samples: the local mesher with the vertices 3, 4, 5 merged into the global one with the vertices 0, 1, 2. -/
theorem Mesher.merge_vertices_facets_witness :
    ∃ g1 l1, mergeGlobal.merge mergeLocal1 = some (g1, l1) ∧
      (∀ v ∈ mergeLocal1.m_vertices, (g1.heap.vertices v).m_index
        = (mergeGlobal.heap.vertices v).m_index + (mergeGlobal.m_nvertices : Int)) ∧
      g1.m_vertices = mergeGlobal.m_vertices ++ mergeLocal1.m_vertices ∧
      g1.m_facets = mergeGlobal.m_facets ++ mergeLocal1.m_facets ∧ l1.m_facets = [] ∧
      g1.m_nfacets = g1.m_facets.length ∧ g1.m_nvertices = g1.m_vertices.length ∧
      g1.VerticesIndexed :=
  Mesher.merge_vertices_facets mergeGlobal mergeLocal1 rfl merge_front_typed merge_border_live1
    merge_indexed_global merge_indexed_local1 rfl merge_disjoint1 (by decide) (by decide)

/-- C27 on the merge samples: of the front 0, 1, 2 of the global mesher the edge 0 stays, followed by the node-border edge 3; of the border edges 4 and 5 of the local mesher the edge 5 joins the border list. -/
theorem Mesher.merge_front_border_witness :
    ∃ g1 l1, mergeGlobal.merge mergeLocal1 = some (g1, l1) ∧
      g1.m_edge_front = mergeGlobal.m_edge_front.filter (mergeGlobal.heap.edgeTypeIs 1)
        ++ mergeLocal1.m_node_border_edges ∧
      g1.m_border_edges = mergeGlobal.m_border_edges
        ++ mergeLocal1.m_border_edges.filter mergeGlobal.heap.edgeFacet2Null ∧
      l1.m_node_border_edges = [] ∧ l1.m_border_edges = [] ∧
      (∀ e ∈ mergeGlobal.m_edge_front, ∃ ed, mergeGlobal.heap.edges e = some ed ∧
        (mergeGlobal.heap.edgeTypeIs 1 e = true ↔ ed.m_type = 1)) ∧
      (∀ e ∈ mergeLocal1.m_border_edges, ∃ ed, mergeGlobal.heap.edges e = some ed ∧
        (mergeGlobal.heap.edgeFacet2Null e = true ↔ ed.m_facet2 = none)) :=
  Mesher.merge_front_border mergeGlobal mergeLocal1 merge_front_typed merge_border_live1

/-- The merge of the first sample, evaluated. -/
theorem merge_sample_run :
    (mergeGlobal.merge mergeLocal1).map (fun r =>
      (r.1.m_facets, r.1.m_vertices, r.1.m_edge_front, r.1.m_border_edges, r.1.m_nfacets,
        r.1.m_nvertices, (r.1.heap.vertices 4).m_index, r.2.m_facets, r.2.m_border_edges))
      = some ([0, 1], [0, 1, 2, 3, 4, 5], [0, 3], [2, 5], 2, 6, 4, [], []) :=
  rfl

theorem Mesh.edgeTypeIs_congr (m m1 : Mesh K) (h : m1.edges = m.edges) (t : Int) :
    m1.edgeTypeIs t = m.edgeTypeIs t := by
  funext e
  unfold Mesh.edgeTypeIs
  rw [h]

theorem Mesh.edgeFacet2Null_congr (m m1 : Mesh K) (h : m1.edges = m.edges) :
    m1.edgeFacet2Null = m.edgeFacet2Null := by
  funext e
  unfold Mesh.edgeFacet2Null
  rw [h]

/-- The members of the global mesher after Mesher::merge, one equation
each. -/
theorem Mesher.merge_fields (g l : Mesher K)
    (hfront : Mesher.FrontTyped g.heap g.m_edge_front)
    (hborder : Mesher.EdgesLive g.heap l.m_border_edges) :
    ∃ g1 l1, g.merge l = some (g1, l1) ∧
      g1.heap = Mesher.mergeVertices g.m_nvertices l.m_vertices g.heap ∧
      g1.m_facets = g.m_facets ++ l.m_facets ∧
      g1.m_vertices = g.m_vertices ++ l.m_vertices ∧
      g1.m_edge_front
        = g.m_edge_front.filter (g.heap.edgeTypeIs 1) ++ l.m_node_border_edges ∧
      g1.m_border_edges
        = g.m_border_edges ++ l.m_border_edges.filter g.heap.edgeFacet2Null ∧
      g1.m_nfacets = (g.m_facets ++ l.m_facets).length % 2 ^ 32 ∧
      g1.m_nvertices = (g.m_vertices ++ l.m_vertices).length % 2 ^ 32 :=
  ⟨_, _, Mesher.merge_spec g l hfront hborder, rfl, rfl, rfl, rfl, rfl, rfl, rfl⟩

/-- Two calls of Mesher::merge in a row on the global mesher `g`, with the
local meshers `l1` then `l2`: the lists and the counters of the global mesher
afterwards. -/
theorem Mesher.merge_twice (g l1 l2 : Mesher K)
    (hfront : Mesher.FrontTyped g.heap g.m_edge_front)
    (hnb1 : Mesher.FrontTyped g.heap l1.m_node_border_edges)
    (hb1 : Mesher.EdgesLive g.heap l1.m_border_edges)
    (hb2 : Mesher.EdgesLive g.heap l2.m_border_edges)
    (hg : g.VerticesIndexed)
    (hl1 : ∀ (i v : Nat), l1.m_vertices[i]? = some v → (g.heap.vertices v).m_index = (i : Int))
    (hl2 : ∀ (i v : Nat), l2.m_vertices[i]? = some v → (g.heap.vertices v).m_index = (i : Int))
    (hn : g.m_nvertices = g.m_vertices.length)
    (hd1 : ∀ v ∈ l1.m_vertices, v ∉ g.m_vertices)
    (hd2 : ∀ v ∈ l2.m_vertices, v ∉ g.m_vertices)
    (hd12 : ∀ v ∈ l2.m_vertices, v ∉ l1.m_vertices)
    (hsv : g.m_vertices.length + l1.m_vertices.length + l2.m_vertices.length < 2 ^ 31)
    (hsf : g.m_facets.length + l1.m_facets.length + l2.m_facets.length < 2 ^ 32) :
    ∃ a la, (g.merge l1).bind (fun r => r.1.merge l2) = some (a, la) ∧
      a.m_facets = g.m_facets ++ l1.m_facets ++ l2.m_facets ∧
      a.m_vertices = g.m_vertices ++ l1.m_vertices ++ l2.m_vertices ∧
      a.VerticesIndexed ∧
      a.m_edge_front = g.m_edge_front.filter (g.heap.edgeTypeIs 1)
        ++ l1.m_node_border_edges.filter (g.heap.edgeTypeIs 1) ++ l2.m_node_border_edges ∧
      a.m_border_edges = g.m_border_edges ++ l1.m_border_edges.filter g.heap.edgeFacet2Null
        ++ l2.m_border_edges.filter g.heap.edgeFacet2Null ∧
      a.m_nfacets = g.m_facets.length + l1.m_facets.length + l2.m_facets.length ∧
      a.m_nvertices = g.m_vertices.length + l1.m_vertices.length + l2.m_vertices.length ∧
      (∀ v ∈ l1.m_vertices, (a.heap.vertices v).m_index
        = (g.heap.vertices v).m_index + (g.m_vertices.length : Int)) ∧
      (∀ v ∈ l2.m_vertices, (a.heap.vertices v).m_index
        = (g.heap.vertices v).m_index + (g.m_vertices.length : Int)
          + (l1.m_vertices.length : Int)) := by
  obtain ⟨g1, k1, hm1, hheap1, hf1, hv1, hfr1, hbo1, -, hnv1⟩ :=
    Mesher.merge_fields g l1 hfront hb1
  have hedges1 : g1.heap.edges = g.heap.edges := by
    rw [hheap1]
    exact (Mesher.mergeVertices_heap _ _ _).1
  obtain ⟨hin1, hout1, hall1⟩ := Mesher.mergeVertices_indexed g.heap g.m_vertices
    l1.m_vertices hg hl1 hd1 (by omega)
  rw [← hn, ← hheap1] at hin1 hout1 hall1
  have hnv1a : g1.m_nvertices = g1.m_vertices.length := by
    rw [hnv1, hv1]
    exact Nat.mod_eq_of_lt (by rw [List.length_append]; omega)
  have hlen1 : g1.m_vertices.length = g.m_vertices.length + l1.m_vertices.length := by
    rw [hv1, List.length_append]
  have hfront1 : Mesher.FrontTyped g1.heap g1.m_edge_front := by
    intro e he
    rw [hfr1] at he
    rw [hedges1]
    rcases List.mem_append.mp he with h | h
    · exact hfront e (List.mem_filter.mp h).1
    · exact hnb1 e h
  have hb2a : Mesher.EdgesLive g1.heap l2.m_border_edges := by
    intro e he
    rw [hedges1]
    exact hb2 e he
  have hg1 : ∀ (i v : Nat), g1.m_vertices[i]? = some v →
      (g1.heap.vertices v).m_index = (i : Int) := by
    intro i v hv
    rw [hv1] at hv
    exact hall1 i v hv
  have hl2a : ∀ (i v : Nat), l2.m_vertices[i]? = some v →
      (g1.heap.vertices v).m_index = (i : Int) := by
    intro i v hv
    rw [hout1 v (hd12 v (List.getElem?_mem hv))]
    exact hl2 i v hv
  have hd2a : ∀ v ∈ l2.m_vertices, v ∉ g1.m_vertices := by
    intro v hv hmem
    rw [hv1] at hmem
    rcases List.mem_append.mp hmem with h | h
    · exact hd2 v hv h
    · exact hd12 v hv h
  obtain ⟨hin2, hout2, hall2⟩ := Mesher.mergeVertices_indexed g1.heap g1.m_vertices
    l2.m_vertices hg1 hl2a hd2a (by omega)
  rw [← hnv1a] at hin2 hout2 hall2
  obtain ⟨a, la, hm2, hheap2, hf2, hv2, hfr2, hbo2, hnf2, hnv2⟩ :=
    Mesher.merge_fields g1 l2 hfront1 hb2a
  rw [← hheap2] at hin2 hout2 hall2
  refine ⟨a, la, ?_, ?_, ?_, ?_, ?_, ?_, ?_, ?_, ?_, ?_⟩
  · rw [hm1]
    exact hm2
  · rw [hf2, hf1]
  · rw [hv2, hv1]
  · intro i v hv
    rw [hv2] at hv
    exact hall2 i v hv
  · rw [hfr2, Mesh.edgeTypeIs_congr g.heap g1.heap hedges1, hfr1, List.filter_append,
      List.filter_filter]
    simp
  · rw [hbo2, Mesh.edgeFacet2Null_congr g.heap g1.heap hedges1, hbo1]
  · rw [hnf2, hf1, List.length_append, List.length_append]
    exact Nat.mod_eq_of_lt hsf
  · rw [hnv2, hv1, List.length_append, List.length_append]
    exact Nat.mod_eq_of_lt (by omega)
  · intro v hv
    have hv2 : v ∉ l2.m_vertices := fun h => hd12 v h hv
    rw [hout2 v hv2, hin1 v hv, hn]
  · intro v hv
    rw [hin2 v hv, hout1 v (hd12 v hv), hnv1a, hlen1]
    push_cast
    ring

theorem perm_swap_tail (l a b : List Nat) : (l ++ a ++ b).Perm (l ++ b ++ a) := by
  rw [List.append_assoc, List.append_assoc]
  exact List.Perm.append_left l List.perm_append_comm

/-- C28, counterexample: on the merge samples (three vertex lists indexed by position and pairwise disjoint) the two orders of merging give different facet lists, vertex lists, indices (vertex 3 gets 3 in one order and 6 in the other), fronts (the inner node-border edge 6 survives only when its mesher is merged last) and border lists; the counters agree. -/
theorem Mesher.merge_order_matters :
    ((mergeGlobal.merge mergeLocal1).bind fun r => r.1.merge mergeLocal2).map (fun r =>
      (r.1.m_facets, r.1.m_vertices, (r.1.heap.vertices 3).m_index, r.1.m_edge_front,
        r.1.m_border_edges, r.1.m_nfacets, r.1.m_nvertices))
      = some ([0, 1, 2], [0, 1, 2, 3, 4, 5, 6, 7, 8], 3, [0, 3, 6], [2, 5, 7], 3, 9) ∧
    ((mergeGlobal.merge mergeLocal2).bind fun r => r.1.merge mergeLocal1).map (fun r =>
      (r.1.m_facets, r.1.m_vertices, (r.1.heap.vertices 3).m_index, r.1.m_edge_front,
        r.1.m_border_edges, r.1.m_nfacets, r.1.m_nvertices))
      = some ([0, 2, 1], [0, 1, 2, 6, 7, 8, 3, 4, 5], 6, [0, 3], [2, 7, 5], 3, 9) :=
  ⟨rfl, rfl⟩

/-- C28, amended: merging L1 then L2 into G and merging L2 then L1 (one shared store, the front of G and the node-border lists live of type 0, 1 or 2, the border lists live, the three vertex lists indexed by position and pairwise disjoint, sizes within the 32-bit counters) both return, and give the same nFacets() and nVertices(); the facet, vertex and border lists are G's old list followed by the contributions of the two local meshers in the order of the merges, hence permutations of each other; in both results the i-th vertex of the list has index i; the front is the type-1 edges of G's old front, then the type-1 edges of the node-border list merged first, then the node-border list merged second. -/
theorem Mesher.merge_orders (g l1 l2 : Mesher K)
    (hs1 : l1.heap = g.heap) (hs2 : l2.heap = g.heap)
    (hfront : Mesher.FrontTyped g.heap g.m_edge_front)
    (hnb1 : Mesher.FrontTyped g.heap l1.m_node_border_edges)
    (hnb2 : Mesher.FrontTyped g.heap l2.m_node_border_edges)
    (hb1 : Mesher.EdgesLive g.heap l1.m_border_edges)
    (hb2 : Mesher.EdgesLive g.heap l2.m_border_edges)
    (hg : g.VerticesIndexed) (hl1 : l1.VerticesIndexed) (hl2 : l2.VerticesIndexed)
    (hn : g.m_nvertices = g.m_vertices.length)
    (hd1 : ∀ v ∈ l1.m_vertices, v ∉ g.m_vertices)
    (hd2 : ∀ v ∈ l2.m_vertices, v ∉ g.m_vertices)
    (hd12 : ∀ v ∈ l2.m_vertices, v ∉ l1.m_vertices)
    (hsv : g.m_vertices.length + l1.m_vertices.length + l2.m_vertices.length < 2 ^ 31)
    (hsf : g.m_facets.length + l1.m_facets.length + l2.m_facets.length < 2 ^ 32) :
    ∃ a la b lb, (g.merge l1).bind (fun r => r.1.merge l2) = some (a, la) ∧
      (g.merge l2).bind (fun r => r.1.merge l1) = some (b, lb) ∧
      a.m_nfacets = b.m_nfacets ∧ a.m_nvertices = b.m_nvertices ∧
      a.m_facets = g.m_facets ++ l1.m_facets ++ l2.m_facets ∧
      b.m_facets = g.m_facets ++ l2.m_facets ++ l1.m_facets ∧
      a.m_vertices = g.m_vertices ++ l1.m_vertices ++ l2.m_vertices ∧
      b.m_vertices = g.m_vertices ++ l2.m_vertices ++ l1.m_vertices ∧
      a.VerticesIndexed ∧ b.VerticesIndexed ∧
      a.m_edge_front = g.m_edge_front.filter (g.heap.edgeTypeIs 1)
        ++ l1.m_node_border_edges.filter (g.heap.edgeTypeIs 1) ++ l2.m_node_border_edges ∧
      b.m_edge_front = g.m_edge_front.filter (g.heap.edgeTypeIs 1)
        ++ l2.m_node_border_edges.filter (g.heap.edgeTypeIs 1) ++ l1.m_node_border_edges ∧
      a.m_border_edges = g.m_border_edges ++ l1.m_border_edges.filter g.heap.edgeFacet2Null
        ++ l2.m_border_edges.filter g.heap.edgeFacet2Null ∧
      b.m_border_edges = g.m_border_edges ++ l2.m_border_edges.filter g.heap.edgeFacet2Null
        ++ l1.m_border_edges.filter g.heap.edgeFacet2Null ∧
      a.m_facets.Perm b.m_facets ∧ a.m_vertices.Perm b.m_vertices ∧
      a.m_border_edges.Perm b.m_border_edges := by
  have hl1a : ∀ (i v : Nat), l1.m_vertices[i]? = some v →
      (g.heap.vertices v).m_index = (i : Int) := by
    intro i v hv
    rw [← hs1]
    exact hl1 i v hv
  have hl2a : ∀ (i v : Nat), l2.m_vertices[i]? = some v →
      (g.heap.vertices v).m_index = (i : Int) := by
    intro i v hv
    rw [← hs2]
    exact hl2 i v hv
  obtain ⟨a, la, hma, hfa, hva, hia, hfra, hboa, hnfa, hnva, -⟩ :=
    Mesher.merge_twice g l1 l2 hfront hnb1 hb1 hb2 hg hl1a hl2a hn hd1 hd2 hd12 hsv hsf
  obtain ⟨b, lb, hmb, hfb, hvb, hib, hfrb, hbob, hnfb, hnvb, -⟩ :=
    Mesher.merge_twice g l2 l1 hfront hnb2 hb2 hb1 hg hl2a hl1a hn hd2 hd1
      (fun v hv h => hd12 v h hv) (by omega) (by omega)
  refine ⟨a, la, b, lb, hma, hmb, by omega, by omega, hfa, hfb, hva, hvb, hia, hib, hfra, hfrb,
    hboa, hbob, ?_, ?_, ?_⟩
  · rw [hfa, hfb]
    exact perm_swap_tail _ _ _
  · rw [hva, hvb]
    exact perm_swap_tail _ _ _
  · rw [hboa, hbob]
    exact perm_swap_tail _ _ _

theorem merge_indexed_local2 : mergeLocal2.VerticesIndexed := by
  intro i v h
  have hb : mergeLocal2.m_vertices = [6, 7, 8] := rfl
  rw [hb] at h
  rcases i with _ | _ | _ | i
  · cases h
    rfl
  · cases h
    rfl
  · cases h
    rfl
  · simp at h

theorem merge_node_border1 :
    Mesher.FrontTyped mergeGlobal.heap mergeLocal1.m_node_border_edges := by
  intro e he
  have h : e = 3 := by
    have hb : mergeLocal1.m_node_border_edges = [3] := rfl
    rw [hb] at he
    simpa using he
  subst h
  exact ⟨⟨3, 4, some 1, none, 1⟩, rfl, Or.inr (Or.inl rfl)⟩

theorem merge_node_border2 :
    Mesher.FrontTyped mergeGlobal.heap mergeLocal2.m_node_border_edges := by
  intro e he
  have h : e = 6 := by
    have hb : mergeLocal2.m_node_border_edges = [6] := rfl
    rw [hb] at he
    simpa using he
  subst h
  exact ⟨⟨6, 7, some 2, some 3, 2⟩, rfl, Or.inr (Or.inr rfl)⟩

theorem merge_border_live2 : Mesher.EdgesLive mergeGlobal.heap mergeLocal2.m_border_edges := by
  intro e he
  have h : e = 7 := by
    have hb : mergeLocal2.m_border_edges = [7] := rfl
    rw [hb] at he
    simpa using he
  subst h
  exact ⟨⟨7, 8, some 2, none, 0⟩, rfl⟩

/-- C28, amended, on the merge samples. -/
theorem Mesher.merge_orders_witness :
    ∃ a la b lb,
      (mergeGlobal.merge mergeLocal1).bind (fun r => r.1.merge mergeLocal2) = some (a, la) ∧
      (mergeGlobal.merge mergeLocal2).bind (fun r => r.1.merge mergeLocal1) = some (b, lb) ∧
      a.m_nfacets = b.m_nfacets ∧ a.m_nvertices = b.m_nvertices ∧
      a.m_facets = mergeGlobal.m_facets ++ mergeLocal1.m_facets ++ mergeLocal2.m_facets ∧
      b.m_facets = mergeGlobal.m_facets ++ mergeLocal2.m_facets ++ mergeLocal1.m_facets ∧
      a.m_vertices = mergeGlobal.m_vertices ++ mergeLocal1.m_vertices ++ mergeLocal2.m_vertices ∧
      b.m_vertices = mergeGlobal.m_vertices ++ mergeLocal2.m_vertices ++ mergeLocal1.m_vertices ∧
      a.VerticesIndexed ∧ b.VerticesIndexed ∧
      a.m_edge_front = mergeGlobal.m_edge_front.filter (mergeGlobal.heap.edgeTypeIs 1)
        ++ mergeLocal1.m_node_border_edges.filter (mergeGlobal.heap.edgeTypeIs 1)
        ++ mergeLocal2.m_node_border_edges ∧
      b.m_edge_front = mergeGlobal.m_edge_front.filter (mergeGlobal.heap.edgeTypeIs 1)
        ++ mergeLocal2.m_node_border_edges.filter (mergeGlobal.heap.edgeTypeIs 1)
        ++ mergeLocal1.m_node_border_edges ∧
      a.m_border_edges = mergeGlobal.m_border_edges
        ++ mergeLocal1.m_border_edges.filter mergeGlobal.heap.edgeFacet2Null
        ++ mergeLocal2.m_border_edges.filter mergeGlobal.heap.edgeFacet2Null ∧
      b.m_border_edges = mergeGlobal.m_border_edges
        ++ mergeLocal2.m_border_edges.filter mergeGlobal.heap.edgeFacet2Null
        ++ mergeLocal1.m_border_edges.filter mergeGlobal.heap.edgeFacet2Null ∧
      a.m_facets.Perm b.m_facets ∧ a.m_vertices.Perm b.m_vertices ∧
      a.m_border_edges.Perm b.m_border_edges :=
  Mesher.merge_orders mergeGlobal mergeLocal1 mergeLocal2 rfl rfl merge_front_typed
    merge_node_border1 merge_node_border2 merge_border_live1 merge_border_live2
    merge_indexed_global merge_indexed_local1 merge_indexed_local2 rfl merge_disjoint1
    (by decide) (by decide) (by decide) (by decide)

/-! ## Vertex::findBorder -/

/-- One turn of the loop of findBorder on an adjacent edge that passes the
test: the source of the edge is returned. -/
theorem Vertex.findBorderLoop_good (m : Mesh K) (self test f : Nat) (fc : Facet K)
    (ei : Nat) (rest : List Nat) (ed : Edge) (hf : m.facets f = some fc)
    (hed : m.edges ei = some ed) (hg : m.BorderGood self test fc ei) :
    Vertex.findBorderLoop m self test (some f) (ei :: rest) = some (some ed.m_src) := by
  obtain ⟨ed0, e, ed1, h0, ht, hs, hv, hl, he, ht1, hs1⟩ := hg
  rw [hed] at h0
  cases h0
  unfold Vertex.findBorderLoop
  rw [hed]
  dsimp only
  rw [if_neg (not_not.mpr ht), if_neg hs]
  have hb : (some f).bind m.facets = some fc := hf
  rw [hb]
  dsimp only
  rw [if_neg (by rw [hv]; exact Bool.false_ne_true), hl]
  dsimp only
  rw [he]
  dsimp only
  rw [if_neg (by rw [ht1, hs1]; simp)]

/-- One turn of the loop of findBorder on a live adjacent edge that fails the
test, the linking edges towards `test` being live: the loop goes on. -/
theorem Vertex.findBorderLoop_skip (m : Mesh K) (self test f : Nat) (fc : Facet K)
    (ei : Nat) (rest : List Nat) (ed : Edge) (hf : m.facets f = some fc)
    (hed : m.edges ei = some ed)
    (hlink : ∀ u e, (m.vertices u).getLinkingEdge (m.vertices test) = some e →
      ∃ ed1, m.edges e = some ed1)
    (hg : ¬ m.BorderGood self test fc ei) :
    Vertex.findBorderLoop m self test (some f) (ei :: rest)
      = Vertex.findBorderLoop m self test (some f) rest := by
  conv_lhs => unfold Vertex.findBorderLoop
  rw [hed]
  dsimp only
  by_cases ht : ed.m_type ≠ 0
  · rw [if_pos ht]
  · rw [if_neg ht]
    by_cases hs : ed.m_src = self
    · rw [if_pos hs]
    · rw [if_neg hs]
      have hb : (some f).bind m.facets = some fc := hf
      rw [hb]
      dsimp only
      by_cases hv : fc.hasVertex ed.m_src = true
      · rw [if_pos hv]
      · rw [if_neg hv]
        cases hl : (m.vertices ed.m_src).getLinkingEdge (m.vertices test) with
        | none => rfl
        | some e =>
          obtain ⟨ed1, he⟩ := hlink _ e hl
          dsimp only
          rw [he]
          dsimp only
          by_cases hc : ed1.m_type ≠ 0 ∨ ed1.m_src ≠ test
          · rw [if_pos hc]
          · exfalso
            rw [not_or, not_not, not_not] at hc
            exact hg ⟨ed, e, ed1, hed, not_not.mp ht, hs, by simpa using hv, hl, he, hc.1,
              hc.2⟩

/-- The loop of findBorder over live adjacent edges, the facet and the linking
edges towards `test` being live: it returns NULL when no edge of the list
passes the test, and the source of an edge that passes it otherwise. -/
theorem Vertex.findBorderLoop_spec (m : Mesh K) (self test f : Nat) (fc : Facet K)
    (l : List Nat) (hf : m.facets f = some fc)
    (hlive : ∀ ei ∈ l, ∃ ed, m.edges ei = some ed)
    (hlink : ∀ u e, (m.vertices u).getLinkingEdge (m.vertices test) = some e →
      ∃ ed1, m.edges e = some ed1) :
    (Vertex.findBorderLoop m self test (some f) l = some none ∧
      ∀ ei ∈ l, ¬ m.BorderGood self test fc ei) ∨
    (∃ ei ∈ l, m.BorderGood self test fc ei ∧ ∃ ed, m.edges ei = some ed ∧
      Vertex.findBorderLoop m self test (some f) l = some (some ed.m_src)) := by
  induction l with
  | nil => exact Or.inl ⟨rfl, fun ei he => absurd he (List.not_mem_nil ei)⟩
  | cons ei rest ih =>
    obtain ⟨ed, hed⟩ := hlive ei (List.mem_cons_self _ _)
    by_cases hg : m.BorderGood self test fc ei
    · exact Or.inr ⟨ei, List.mem_cons_self _ _, hg, ed, hed,
        Vertex.findBorderLoop_good m self test f fc ei rest ed hf hed hg⟩
    · rw [Vertex.findBorderLoop_skip m self test f fc ei rest ed hf hed hlink hg]
      rcases ih (fun x hx => hlive x (List.mem_cons_of_mem _ hx)) with ⟨h1, h2⟩ | ⟨x, hx, h1, h2⟩
      · refine Or.inl ⟨h1, ?_⟩
        intro x hx
        rcases List.mem_cons.mp hx with rfl | hx
        · exact hg
        · exact h2 x hx
      · exact Or.inr ⟨x, List.mem_cons_of_mem _ hx, h1, h2⟩

/-- Vertex::findBorder on a heap whose adjacent edges are live, for a pair
whose linking edge has a live first facet `fc`: it returns NULL when no
adjacent edge of `self` passes the test, and the source of one that passes it
otherwise. -/
theorem Vertex.findBorder_spec (m : Mesh K) (self test e0 f : Nat) (ed0 : Edge)
    (fc : Facet K) (hlive : m.AdjacencyLive)
    (hl : (m.vertices self).getLinkingEdge (m.vertices test) = some e0)
    (hed0 : m.edges e0 = some ed0) (hf1 : ed0.m_facet1 = some f)
    (hfc : m.facets f = some fc) :
    (Vertex.findBorder m self test = some none ∧
      ∀ ei ∈ (m.vertices self).m_adjacentEdges, ¬ m.BorderGood self test fc ei) ∨
    (∃ ei ∈ (m.vertices self).m_adjacentEdges, m.BorderGood self test fc ei ∧
      ∃ ed, m.edges ei = some ed ∧ Vertex.findBorder m self test = some (some ed.m_src)) := by
  have hrun : Vertex.findBorder m self test
      = Vertex.findBorderLoop m self test (some f) (m.vertices self).m_adjacentEdges := by
    unfold Vertex.findBorder
    rw [hl]
    dsimp only
    rw [hed0]
    dsimp only
    rw [hf1]
  rw [hrun]
  apply Vertex.findBorderLoop_spec m self test f fc _ hfc
  · intro ei he
    exact (hlive self ei he).2
  · intro u e he
    exact (hlive u e (getCommonElement_mem _ _ e he).1).2

/-- On a heap with at most one edge per pair of vertices, the linking edge of
two distinct vertices is any edge adjacent to both. -/
theorem Mesh.link_of_mem (m : Mesh K) (hu : m.UniqueEdges) (a b e : Nat) (hab : a ≠ b)
    (ha : e ∈ (m.vertices a).m_adjacentEdges) (hb : e ∈ (m.vertices b).m_adjacentEdges) :
    (m.vertices a).getLinkingEdge (m.vertices b) = some e := by
  obtain ⟨x, hx⟩ := getCommonElement_of_mem _ _ e ha hb
  obtain ⟨hxa, hxb⟩ := getCommonElement_mem _ _ x hx
  have hxe : x = e := hu a b hab x e hxa hxb ha hb
  rw [← hxe]
  exact hx

/-! ## Mesher::fillHoles on a triangular hole -/

/-- The attachment of a facet to a pair whose linking edge holds one other
facet, in its first slot: the facet takes the second slot and the edge becomes
inner. -/
theorem Facet.attachEdge_existing [LinearOrderedCommRing K]
    (normalize : K × K × K → K × K × K) (m : Mesh K) (self a b e : Nat) (ed : Edge) (f0 : Nat)
    (hl : (m.vertices a).getLinkingEdge (m.vertices b) = some e)
    (hed : m.edges e = some ed) (hf1 : ed.m_facet1 = some f0) (hne : f0 ≠ self)
    (hf2 : ed.m_facet2 = none) :
    Facet.attachEdge normalize m self a b
      = some (m.setEdge e (some { ed with m_facet2 := some self, m_type := 2 })) := by
  have h1 : ¬ (ed.m_facet1 = some self ∨ ed.m_facet2 = some self) := by
    rw [hf1, hf2]
    rintro (h | h)
    · exact hne (Option.some.inj h)
    · cases h
  have h2 : ¬ ed.m_facet1 = none := by
    rw [hf1]
    exact Option.some_ne_none _
  unfold Facet.attachEdge
  rw [hl]
  dsimp only
  unfold Mesh.edgeAddAdjacentFacet
  rw [hed]
  dsimp only
  unfold Edge.addAdjacentFacet
  rw [if_neg h1, if_neg h2, if_pos hf2]
  rfl

/-- A facet constructor on three vertices whose three pairs are each linked
by an edge holding one other facet, in its first slot: the constructor returns,
each of the three edges takes the facet in its second slot and becomes inner,
and nothing else changes among the edges and the adjacent-edge sets. -/
theorem Facet.ctor_on_loop [LinearOrderedCommRing K]
    (normalize : K × K × K → K × K × K) (m : Mesh K) (self a b c : Nat) (ctr : Point K)
    (e1 e2 e3 : Nat) (ed1 ed2 ed3 : Edge) (f1 f2 f3 : Nat) (hlive : m.AdjacencyLive)
    (hl1 : (m.vertices a).getLinkingEdge (m.vertices b) = some e1)
    (hl2 : (m.vertices b).getLinkingEdge (m.vertices c) = some e2)
    (hl3 : (m.vertices c).getLinkingEdge (m.vertices a) = some e3)
    (h1 : m.edges e1 = some ed1) (h2 : m.edges e2 = some ed2) (h3 : m.edges e3 = some ed3)
    (h12 : e1 ≠ e2) (h23 : e2 ≠ e3) (h31 : e3 ≠ e1)
    (hf1 : ed1.m_facet1 = some f1) (hf2 : ed2.m_facet1 = some f2)
    (hf3 : ed3.m_facet1 = some f3) (hn1 : f1 ≠ self) (hn2 : f2 ≠ self) (hn3 : f3 ≠ self)
    (hs1 : ed1.m_facet2 = none) (hs2 : ed2.m_facet2 = none) (hs3 : ed3.m_facet2 = none) :
    ∃ m6, Facet.ctor normalize m self a b c ctr = some m6 ∧
      ((((m.setFacet self (some ⟨a, b, c, ctr⟩)).setEdge e1
        (some { ed1 with m_facet2 := some self, m_type := 2 })).setEdge e2
        (some { ed2 with m_facet2 := some self, m_type := 2 })).setEdge e3
        (some { ed3 with m_facet2 := some self, m_type := 2 })).SameEdges m6 := by
  have a1 := Facet.attachEdge_existing normalize (m.setFacet self (some ⟨a, b, c, ctr⟩))
    self a b e1 ed1 f1 hl1 h1 hf1 hn1 hs1
  have a2 := Facet.attachEdge_existing normalize
    ((m.setFacet self (some ⟨a, b, c, ctr⟩)).setEdge e1
      (some { ed1 with m_facet2 := some self, m_type := 2 }))
    self b c e2 ed2 f2 hl2 ((if_neg h12.symm).trans h2) hf2 hn2 hs2
  have a3 := Facet.attachEdge_existing normalize
    (((m.setFacet self (some ⟨a, b, c, ctr⟩)).setEdge e1
      (some { ed1 with m_facet2 := some self, m_type := 2 })).setEdge e2
      (some { ed2 with m_facet2 := some self, m_type := 2 }))
    self c a e3 ed3 f3 hl3 ((if_neg h23.symm).trans ((if_neg h31).trans h3)) hf3 hn3 hs3
  have hlive3 : ((((m.setFacet self (some ⟨a, b, c, ctr⟩)).setEdge e1
      (some { ed1 with m_facet2 := some self, m_type := 2 })).setEdge e2
      (some { ed2 with m_facet2 := some self, m_type := 2 })).setEdge e3
      (some { ed3 with m_facet2 := some self, m_type := 2 })).AdjacencyLive := by
    intro v e he
    obtain ⟨hlt, ed, hed⟩ := hlive v e he
    refine ⟨hlt, ?_⟩
    show ∃ ed, (if e = e3 then _ else if e = e2 then _ else if e = e1 then _ else m.edges e)
      = some ed
    split_ifs
    · exact ⟨_, rfl⟩
    · exact ⟨_, rfl⟩
    · exact ⟨_, rfl⟩
    · exact ⟨ed, hed⟩
  obtain ⟨m6, hm6, hs, -⟩ := Facet.register_three_spec _ self a b c hlive3
  refine ⟨m6, ?_, hs⟩
  unfold Facet.ctor
  dsimp only
  rw [a1, Option.some_bind, a2, Option.some_bind, a3, Option.some_bind]
  exact hm6

/-- Mesher::addFacet on a live facet returns. -/
theorem Mesher.addFacet_live (s : Mesher K) (f : Nat) (fc : Facet K)
    (hf : s.heap.facets f = some fc) : ∃ s1, s.addFacet f = some s1 := by
  unfold Mesher.addFacet
  rw [hf]
  exact ⟨_, rfl⟩

/-- The loop of fillHoles over live edges none of which is a border edge any
more: every edge is erased and nothing else changes. -/
theorem Mesher.fillHolesLoop_erase [LinearOrderedField K] (env : Env K) (l : List Nat)
    (s : Mesher K) (h : ∀ e ∈ l, ∃ ed, s.heap.edges e = some ed ∧ ed.m_type ≠ 0) :
    Mesher.fillHolesLoop env l s = some s := by
  induction l with
  | nil => rfl
  | cons e rest ih =>
    obtain ⟨ed, hed, ht⟩ := h e (List.mem_cons_self _ _)
    conv_lhs => unfold Mesher.fillHolesLoop
    rw [hed]
    dsimp only
    rw [if_pos ht]
    exact ih (fun x hx => h x (List.mem_cons_of_mem _ hx))

/-- The expression `new Facet(a, b, c)` followed by addFacet, on a loop of
three edges a→b, b→c, c→a that each hold one other facet in the first slot:
the call returns, the facet is written at the next facet address and listed,
the three edges take it in their second slot and become inner, and no other
edge changes. -/
theorem Mesher.newFacetNoCenter_on_loop [LinearOrderedField K] (env : Env K) (s : Mesher K)
    (a b c e1 e2 e3 : Nat) (ed1 ed2 ed3 : Edge) (f1 f2 f3 : Nat)
    (hlive : s.heap.AdjacencyLive)
    (hl1 : (s.heap.vertices a).getLinkingEdge (s.heap.vertices b) = some e1)
    (hl2 : (s.heap.vertices b).getLinkingEdge (s.heap.vertices c) = some e2)
    (hl3 : (s.heap.vertices c).getLinkingEdge (s.heap.vertices a) = some e3)
    (h1 : s.heap.edges e1 = some ed1) (h2 : s.heap.edges e2 = some ed2)
    (h3 : s.heap.edges e3 = some ed3)
    (h12 : e1 ≠ e2) (h23 : e2 ≠ e3) (h31 : e3 ≠ e1)
    (hf1 : ed1.m_facet1 = some f1) (hf2 : ed2.m_facet1 = some f2)
    (hf3 : ed3.m_facet1 = some f3) (hn1 : f1 ≠ s.nextFacet) (hn2 : f2 ≠ s.nextFacet)
    (hn3 : f3 ≠ s.nextFacet)
    (hs1 : ed1.m_facet2 = none) (hs2 : ed2.m_facet2 = none) (hs3 : ed3.m_facet2 = none) :
    ∃ s1, Mesher.newFacetNoCenter env s a b c = some s1 ∧
      s1.m_border_edges = s.m_border_edges ∧ s1.m_edge_front = s.m_edge_front ∧
      s1.m_facets = s.m_facets ++ [s.nextFacet] ∧
      s1.m_nfacets = (s.m_nfacets + 1) % 2 ^ 32 ∧ s1.nextFacet = s.nextFacet + 1 ∧
      s1.heap.facets = (s.heap.setFacet s.nextFacet (some ⟨a, b, c, Point.default⟩)).facets ∧
      s1.heap.nextEdge = s.heap.nextEdge ∧
      (∀ u, (s1.heap.vertices u).m_adjacentEdges = (s.heap.vertices u).m_adjacentEdges) ∧
      s1.heap.edges e1 = some { ed1 with m_facet2 := some s.nextFacet, m_type := 2 } ∧
      s1.heap.edges e2 = some { ed2 with m_facet2 := some s.nextFacet, m_type := 2 } ∧
      s1.heap.edges e3 = some { ed3 with m_facet2 := some s.nextFacet, m_type := 2 } ∧
      (∀ e, e ≠ e1 → e ≠ e2 → e ≠ e3 → s1.heap.edges e = s.heap.edges e) := by
  obtain ⟨m6, hm6, hs⟩ := Facet.ctor_on_loop (normalizeWith env.sqrt) s.heap s.nextFacet a b c
    Point.default e1 e2 e3 ed1 ed2 ed3 f1 f2 f3 hlive hl1 hl2 hl3 h1 h2 h3 h12 h23 h31
    hf1 hf2 hf3 hn1 hn2 hn3 hs1 hs2 hs3
  have hfc : m6.facets s.nextFacet = some ⟨a, b, c, Point.default⟩ := by
    rw [hs.2.1]
    show (if s.nextFacet = s.nextFacet then _ else _) = _
    rw [if_pos rfl]
  obtain ⟨s1, hadd⟩ := Mesher.addFacet_live
    { s with heap := m6, nextFacet := s.nextFacet + 1 } s.nextFacet _ hfc
  obtain ⟨hsame, hfl, hnf, hfr, hbo, hnx⟩ := Mesher.addFacet_spec _ s1 s.nextFacet hadd
  have hedges : s1.heap.edges = fun e =>
      if e = e3 then some { ed3 with m_facet2 := some s.nextFacet, m_type := 2 }
      else if e = e2 then some { ed2 with m_facet2 := some s.nextFacet, m_type := 2 }
      else if e = e1 then some { ed1 with m_facet2 := some s.nextFacet, m_type := 2 }
      else s.heap.edges e := by
    rw [hsame.1]
    show m6.edges = _
    rw [hs.1]
    rfl
  refine ⟨s1, ?_, hbo, hfr, hfl, hnf, hnx, ?_, ?_, ?_, ?_, ?_, ?_, ?_⟩
  · unfold Mesher.newFacetNoCenter Facet.ctorNoCenter
    rw [hm6]
    exact hadd
  · rw [hsame.2.1]
    show m6.facets = _
    rw [hs.2.1]
    rfl
  · rw [hsame.2.2.1]
    show m6.nextEdge = _
    rw [hs.2.2.1]
    rfl
  · intro u
    rw [hsame.2.2.2 u]
    show (m6.vertices u).m_adjacentEdges = _
    rw [hs.2.2.2 u]
    rfl
  · rw [hedges]
    dsimp only
    rw [if_neg h31.symm, if_neg h12, if_pos rfl]
  · rw [hedges]
    dsimp only
    rw [if_neg h23, if_pos rfl]
  · rw [hedges]
    dsimp only
    rw [if_pos rfl]
  · intro e n1 n2 n3
    rw [hedges]
    dsimp only
    rw [if_neg n3, if_neg n2, if_neg n1]

/-- C30: on a state whose border list starts with the edge a→b of a loop a→b, b→c, c→a and otherwise holds edges of that loop only, the three edges being the only edges of type 0, each registered with its ends and holding one live facet in its first slot, the facet of a→b holding b and not c (adjacent edges live, one edge per pair of vertices, the next facet address free): fillHoles returns, creates exactly one facet, on (a, b, c) without ball center, and lists it; the three edges take it in their second slot and have type 2; no other edge changes; the border list is empty. -/
theorem Mesher.fillHoles_triangle [LinearOrderedField K] (env : Env K) (s : Mesher K)
    (a b c e1 e2 e3 f1 f2 f3 : Nat) (fc1 fc2 fc3 : Facet K) (rest : List Nat)
    (hlive : s.heap.AdjacencyLive) (hu : s.heap.UniqueEdges)
    (hab : a ≠ b) (hbc : b ≠ c) (hca : c ≠ a)
    (h1 : s.heap.edges e1 = some ⟨a, b, some f1, none, 0⟩)
    (h2 : s.heap.edges e2 = some ⟨b, c, some f2, none, 0⟩)
    (h3 : s.heap.edges e3 = some ⟨c, a, some f3, none, 0⟩)
    (hfc1 : s.heap.facets f1 = some fc1) (hfc2 : s.heap.facets f2 = some fc2)
    (hfc3 : s.heap.facets f3 = some fc3)
    (hb1 : fc1.hasVertex b = true) (hc1 : fc1.hasVertex c = false)
    (hr1a : e1 ∈ (s.heap.vertices a).m_adjacentEdges)
    (hr1b : e1 ∈ (s.heap.vertices b).m_adjacentEdges)
    (hr2b : e2 ∈ (s.heap.vertices b).m_adjacentEdges)
    (hr2c : e2 ∈ (s.heap.vertices c).m_adjacentEdges)
    (hr3c : e3 ∈ (s.heap.vertices c).m_adjacentEdges)
    (hr3a : e3 ∈ (s.heap.vertices a).m_adjacentEdges)
    (honly : ∀ e ed, s.heap.edges e = some ed → ed.m_type = 0 → e = e1 ∨ e = e2 ∨ e = e3)
    (hfresh : s.heap.facets s.nextFacet = none)
    (hborder : s.m_border_edges = e1 :: rest) (hrest : ∀ e ∈ rest, e = e2 ∨ e = e3) :
    ∃ s1, Mesher.fillHoles env s = some s1 ∧ s1.m_border_edges = [] ∧
      s1.m_facets = s.m_facets ++ [s.nextFacet] ∧
      s1.m_nfacets = (s.m_nfacets + 1) % 2 ^ 32 ∧ s1.nextFacet = s.nextFacet + 1 ∧
      s1.heap.facets = (s.heap.setFacet s.nextFacet (some ⟨a, b, c, Point.default⟩)).facets ∧
      s1.heap.edges e1 = some ⟨a, b, some f1, some s.nextFacet, 2⟩ ∧
      s1.heap.edges e2 = some ⟨b, c, some f2, some s.nextFacet, 2⟩ ∧
      s1.heap.edges e3 = some ⟨c, a, some f3, some s.nextFacet, 2⟩ ∧
      (∀ e, e ≠ e1 → e ≠ e2 → e ≠ e3 → s1.heap.edges e = s.heap.edges e) := by
  have h12 : e1 ≠ e2 := by
    rintro rfl
    rw [h1] at h2
    exact hab (congrArg Edge.m_src (Option.some.inj h2))
  have h23 : e2 ≠ e3 := by
    rintro rfl
    rw [h2] at h3
    exact hbc (congrArg Edge.m_src (Option.some.inj h3))
  have h31 : e3 ≠ e1 := by
    rintro rfl
    rw [h3] at h1
    exact hca (congrArg Edge.m_src (Option.some.inj h1))
  have hl1 := Mesh.link_of_mem s.heap hu a b e1 hab hr1a hr1b
  have hl2 := Mesh.link_of_mem s.heap hu b c e2 hbc hr2b hr2c
  have hl3 := Mesh.link_of_mem s.heap hu c a e3 hca hr3c hr3a
  have hl2r := Mesh.link_of_mem s.heap hu c b e2 hbc.symm hr2c hr2b
  have hn : ∀ f fc, s.heap.facets f = some fc → f ≠ s.nextFacet := by
    rintro f fc hf rfl
    rw [hfresh] at hf
    cases hf
  -- the vertex found from the edge a→b is c
  have hfind : Vertex.findBorder s.heap a b = some (some c) := by
    rcases Vertex.findBorder_spec s.heap a b e1 f1 ⟨a, b, some f1, none, 0⟩ fc1 hlive hl1 h1
      rfl hfc1 with ⟨-, hnone⟩ | ⟨ei, -, hg, ed, hed, hres⟩
    · exact absurd ⟨⟨c, a, some f3, none, 0⟩, e2, ⟨b, c, some f2, none, 0⟩, h3, rfl, hca, hc1,
        hl2r, h2, rfl, rfl⟩ (hnone e3 hr3a)
    · obtain ⟨ed0, e, ed1, hed0, ht, hsrc, hv, -⟩ := hg
      rw [hed] at hed0
      cases hed0
      rcases honly ei ed hed ht with rfl | rfl | rfl
      · rw [h1] at hed
        cases hed
        exact absurd rfl hsrc
      · rw [h2] at hed
        cases hed
        rw [hb1] at hv
        cases hv
      · rw [h3] at hed
        cases hed
        exact hres
  obtain ⟨s1, hnew, hbo, -, hfl, hnf, hnx, hfacets, -, -, g1, g2, g3, hother⟩ :=
    Mesher.newFacetNoCenter_on_loop env { s with m_border_edges := [] } a b c e1 e2 e3
      ⟨a, b, some f1, none, 0⟩ ⟨b, c, some f2, none, 0⟩ ⟨c, a, some f3, none, 0⟩ f1 f2 f3
      hlive hl1 hl2 hl3 h1 h2 h3 h12 h23 h31 rfl rfl rfl (hn f1 fc1 hfc1) (hn f2 fc2 hfc2)
      (hn f3 fc3 hfc3) rfl rfl rfl
  have herase : Mesher.fillHolesLoop env rest s1 = some s1 := by
    apply Mesher.fillHolesLoop_erase
    intro e he
    rcases hrest e he with rfl | rfl
    · exact ⟨_, g2, fun h => absurd h (by decide : ¬ (2 : Int) = 0)⟩
    · exact ⟨_, g3, fun h => absurd h (by decide : ¬ (2 : Int) = 0)⟩
  refine ⟨s1, ?_, hbo, hfl, hnf, hnx, hfacets, g1, g2, g3, hother⟩
  unfold Mesher.fillHoles
  rw [hborder]
  unfold Mesher.fillHolesLoop
  have h1a : ({ s with m_border_edges := [] } : Mesher K).heap.edges e1
      = some ⟨a, b, some f1, none, 0⟩ := h1
  rw [h1a]
  dsimp only
  have hfind1 : Vertex.findBorder ({ s with m_border_edges := [] } : Mesher K).heap a b
      = some (some c) := hfind
  rw [if_neg (by decide), hfind1]
  dsimp only
  rw [hnew]
  exact herase

theorem hole_adjacent (u e : Nat) (h : e ∈ (holeMesher.heap.vertices u).m_adjacentEdges) :
    (u = 0 ∧ (e = 0 ∨ e = 2)) ∨ (u = 1 ∧ (e = 0 ∨ e = 1)) ∨ (u = 2 ∧ (e = 1 ∨ e = 2)) := by
  rcases u with _ | _ | _ | _ | _ | n <;>
    simp [holeMesher, holeHeap, rectVertex] at h <;> omega

theorem hole_live : holeMesher.heap.AdjacencyLive := by
  intro v e he
  have hmem : e = 0 ∨ e = 1 ∨ e = 2 := by
    have := hole_adjacent v e he
    omega
  rcases hmem with rfl | rfl | rfl
  · exact ⟨by decide, _, rfl⟩
  · exact ⟨by decide, _, rfl⟩
  · exact ⟨by decide, _, rfl⟩

theorem hole_unique : holeMesher.heap.UniqueEdges := by
  intro u v huv e1 e2 h1u h1v h2u h2v
  have a1 := hole_adjacent u e1 h1u
  have a2 := hole_adjacent v e1 h1v
  have a3 := hole_adjacent u e2 h2u
  have a4 := hole_adjacent v e2 h2v
  omega

theorem hole_only (e : Nat) (ed : Edge) (h : holeMesher.heap.edges e = some ed)
    (_ht : ed.m_type = 0) : e = 0 ∨ e = 1 ∨ e = 2 := by
  rcases e with _ | _ | _ | n
  · exact Or.inl rfl
  · exact Or.inr (Or.inl rfl)
  · exact Or.inr (Or.inr rfl)
  · cases h

/-- C30 on the store with the triangular hole 0→1, 1→2, 2→0: fillHoles builds the facet 3 on (0, 1, 2), the three edges become inner and the border list is empty. -/
theorem Mesher.fillHoles_triangle_witness :
    ∃ s1, Mesher.fillHoles rectEnv holeMesher = some s1 ∧ s1.m_border_edges = [] ∧
      s1.m_facets = holeMesher.m_facets ++ [holeMesher.nextFacet] ∧
      s1.m_nfacets = (holeMesher.m_nfacets + 1) % 2 ^ 32 ∧
      s1.nextFacet = holeMesher.nextFacet + 1 ∧
      s1.heap.facets = (holeMesher.heap.setFacet holeMesher.nextFacet
        (some ⟨0, 1, 2, Point.default⟩)).facets ∧
      s1.heap.edges 0 = some ⟨0, 1, some 0, some holeMesher.nextFacet, 2⟩ ∧
      s1.heap.edges 1 = some ⟨1, 2, some 1, some holeMesher.nextFacet, 2⟩ ∧
      s1.heap.edges 2 = some ⟨2, 0, some 2, some holeMesher.nextFacet, 2⟩ ∧
      (∀ e, e ≠ 0 → e ≠ 1 → e ≠ 2 → s1.heap.edges e = holeMesher.heap.edges e) :=
  Mesher.fillHoles_triangle rectEnv holeMesher 0 1 2 0 1 2 0 1 2 ⟨0, 1, 3, ⟨0, 0, 0⟩⟩
    ⟨1, 2, 4, ⟨0, 0, 0⟩⟩ ⟨2, 0, 5, ⟨0, 0, 0⟩⟩ [1, 2] hole_live hole_unique (by decide)
    (by decide) (by decide) rfl rfl rfl rfl rfl rfl rfl rfl (by decide) (by decide) (by decide)
    (by decide) (by decide) (by decide) hole_only rfl rfl (by decide)

/-! ## Mesher::fillHoles, run twice -/

theorem Mesh.FillStep.same (m : Mesh K) : m.FillStep m :=
  ⟨fun _ _ h => h, le_rfl, fun _ _ h => h, fun _ _ h => Or.inl h, fun _ ed h => ⟨ed, h⟩,
    fun _ _ h _ => h⟩

theorem Mesh.FillStep.followedBy {m m1 m2 : Mesh K} (h1 : m.FillStep m1) (h2 : m1.FillStep m2) :
    m.FillStep m2 := by
  obtain ⟨f1, n1, a1, b1, l1, t1⟩ := h1
  obtain ⟨f2, n2, a2, b2, l2, t2⟩ := h2
  refine ⟨fun f fc h => f2 f fc (f1 f fc h), n1.trans n2, fun u e h => a2 u e (a1 u e h), ?_, ?_,
    ?_⟩
  · intro u e h
    rcases b2 u e h with h | h
    · exact b1 u e h
    · exact Or.inr (n1.trans h)
  · intro e ed h
    obtain ⟨ed1, h1⟩ := l1 e ed h
    exact l2 e ed1 h1
  · intro e ed2 h ht
    exact t1 e ed2 (t2 e ed2 h ht) ht

theorem Mesh.SameEdges.fillStep {m m1 : Mesh K} (h : m.SameEdges m1) : m.FillStep m1 := by
  obtain ⟨he, hf, hn, ha⟩ := h
  refine ⟨?_, le_of_eq hn.symm, ?_, ?_, ?_, ?_⟩
  · intro f fc hfc
    rw [hf]
    exact hfc
  · intro u e hu
    rw [ha u]
    exact hu
  · intro u e hu
    rw [ha u] at hu
    exact Or.inl hu
  · intro e ed hed
    exact ⟨ed, by rw [he]; exact hed⟩
  · intro e ed hed _
    rw [he] at hed
    exact hed

/-- Edge::addAdjacentFacet leaves the edge as it is or gives it type 1 or 2. -/
theorem Edge.addAdjacentFacet_type [LinearOrderedCommRing K]
    (normalize : K × K × K → K × K × K) (m : Mesh K) (ed : Edge) (f : Nat) (r : Edge × Bool)
    (h : ed.addAdjacentFacet normalize m f = some r) :
    r.1 = ed ∨ r.1.m_type = 1 ∨ r.1.m_type = 2 := by
  unfold Edge.addAdjacentFacet at h
  by_cases hh : ed.m_facet1 = some f ∨ ed.m_facet2 = some f
  · rw [if_pos hh] at h
    cases h
    exact Or.inl rfl
  · rw [if_neg hh] at h
    by_cases h1 : ed.m_facet1 = none
    · rw [if_pos h1] at h
      obtain ⟨e1, -, he1⟩ := Option.map_eq_some'.mp h
      rw [← he1]
      exact Or.inr (Or.inl rfl)
    · rw [if_neg h1] at h
      by_cases h2 : ed.m_facet2 = none
      · rw [if_pos h2] at h
        cases h
        exact Or.inr (Or.inr rfl)
      · rw [if_neg h2] at h
        cases h
        exact Or.inl rfl

/-- The call `e->addAdjacentFacet(f)` through a pointer, as a step of
fillHoles: only the edge `e` is written. -/
theorem Mesh.edgeAddAdjacentFacet_fillStep [LinearOrderedCommRing K]
    (normalize : K × K × K → K × K × K) (m m1 : Mesh K) (e f : Nat)
    (h : m.edgeAddAdjacentFacet normalize e f = some m1) :
    m.FillStep m1 ∧ m1.nextEdge = m.nextEdge ∧ (∃ ed, m.edges e = some ed) ∧
      ∀ x, x ≠ e → m1.edges x = m.edges x := by
  unfold Mesh.edgeAddAdjacentFacet at h
  cases he : m.edges e with
  | none => rw [he] at h; cases h
  | some ed =>
    rw [he] at h
    dsimp only at h
    cases hr : ed.addAdjacentFacet normalize m f with
    | none => rw [hr] at h; cases h
    | some r =>
      rw [hr] at h
      cases h
      have hty := Edge.addAdjacentFacet_type normalize m ed f r hr
      refine ⟨⟨fun _ _ h => h, le_rfl, fun _ _ h => h, fun _ _ h => Or.inl h, ?_, ?_⟩, rfl,
        ⟨ed, rfl⟩, ?_⟩
      · intro x edx hx
        show ∃ ed1, (if x = e then some r.1 else m.edges x) = some ed1
        by_cases hxe : x = e
        · rw [if_pos hxe]
          exact ⟨_, rfl⟩
        · rw [if_neg hxe]
          exact ⟨edx, hx⟩
      · intro x ed1 hx ht
        change (if x = e then some r.1 else m.edges x) = some ed1 at hx
        by_cases hxe : x = e
        · rw [if_pos hxe] at hx
          cases hx
          rcases hty with h0 | h1 | h2
          · rw [hxe, h0, he]
          · rw [h1] at ht
            cases ht
          · rw [h2] at ht
            cases ht
        · rw [if_neg hxe] at hx
          exact hx
      · intro x hxe
        show (if x = e then some r.1 else m.edges x) = m.edges x
        rw [if_neg hxe]

/-- The expression `new Edge(a, b)` as a step of fillHoles: the new edge has
type 1 and the address `nextEdge`, which joins the two adjacent-edge sets. -/
theorem Mesh.newEdge_fillStep (m : Mesh K) (a b : Nat) (hab : a ≠ b) :
    m.FillStep (m.newEdge a b).1 ∧ (m.newEdge a b).1.nextEdge = m.nextEdge + 1 ∧
      (m.newEdge a b).1.edges m.nextEdge = some (Edge.init a b) ∧
      ∀ x, x ≠ m.nextEdge → (m.newEdge a b).1.edges x = m.edges x := by
  have hedges : ∀ x, (m.newEdge a b).1.edges x
      = if x = m.nextEdge then some (Edge.init a b) else m.edges x := fun x => rfl
  refine ⟨⟨fun _ _ h => h, Nat.le_succ _, ?_, ?_, ?_, ?_⟩, rfl, ?_, ?_⟩
  · intro u e hu
    rw [Mesh.newEdge_vertices m a b hab u]
    split_ifs
    · exact (mem_setInsert _ _ _).mpr (Or.inr hu)
    · exact hu
  · intro u e hu
    rw [Mesh.newEdge_vertices m a b hab u] at hu
    split_ifs at hu
    · rcases (mem_setInsert _ _ _).mp hu with h | h
      · exact Or.inr (le_of_eq h.symm)
      · exact Or.inl h
    · exact Or.inl hu
  · intro x edx hx
    rw [hedges]
    by_cases hxe : x = m.nextEdge
    · rw [if_pos hxe]
      exact ⟨_, rfl⟩
    · rw [if_neg hxe]
      exact ⟨edx, hx⟩
  · intro x ed1 hx ht
    rw [hedges] at hx
    by_cases hxe : x = m.nextEdge
    · rw [if_pos hxe] at hx
      cases hx
      cases ht
    · rw [if_neg hxe] at hx
      exact hx
  · rw [hedges, if_pos rfl]
  · intro x hxe
    rw [hedges, if_neg hxe]

/-- The statements repeated by the facet constructors for a pair of distinct
vertices, as a step of fillHoles: they run to their end and keep the heap
invariants. -/
theorem Facet.attachEdge_step [LinearOrderedCommRing K]
    (normalize : K × K × K → K × K × K) (m : Mesh K) (self a b : Nat) (fc : Facet K)
    (hlive : m.AdjacencyLive) (hab : a ≠ b) (hfc : m.facets self = some fc)
    (hd : fc.m_vertex0 ≠ fc.m_vertex1 ∧ fc.m_vertex1 ≠ fc.m_vertex2 ∧
      fc.m_vertex2 ≠ fc.m_vertex0)
    (hfr : m.EdgesFresh) :
    ∃ m1, Facet.attachEdge normalize m self a b = some m1 ∧ m1.AdjacencyLive ∧
      (m.UniqueEdges → m1.UniqueEdges) ∧ m1.EdgesFresh ∧ m.FillStep m1 ∧
      m1.facets = m.facets := by
  obtain ⟨m1, h1, hs⟩ := Facet.attachEdge_spec normalize m self a b fc hlive hab hfc hd
  refine ⟨m1, h1, hs.live, fun hu => hs.keeps_unique hlive hu, ?_, ?_, hs.facets_eq⟩
  · unfold Facet.attachEdge at h1
    cases hl : (m.vertices a).getLinkingEdge (m.vertices b) with
    | some e =>
      rw [hl] at h1
      dsimp only at h1
      obtain ⟨-, hn, -, hx⟩ := Mesh.edgeAddAdjacentFacet_fillStep normalize m m1 e self h1
      have helt : e < m.nextEdge := (hlive a e (getCommonElement_mem _ _ e hl).1).1
      intro x hxn
      rw [hn] at hxn
      rw [hx x (by omega)]
      exact hfr x hxn
    | none =>
      rw [hl] at h1
      dsimp only at h1
      obtain ⟨-, hn, -, hx⟩ := Mesh.edgeAddAdjacentFacet_fillStep normalize _ m1 _ self h1
      obtain ⟨-, hn0, -, hx0⟩ := Mesh.newEdge_fillStep m a b hab
      intro x hxn
      rw [hn, hn0] at hxn
      have hne : x ≠ m.nextEdge := by omega
      rw [hx x hne, hx0 x hne]
      exact hfr x (by omega)
  · unfold Facet.attachEdge at h1
    cases hl : (m.vertices a).getLinkingEdge (m.vertices b) with
    | some e =>
      rw [hl] at h1
      dsimp only at h1
      exact (Mesh.edgeAddAdjacentFacet_fillStep normalize m m1 e self h1).1
    | none =>
      rw [hl] at h1
      dsimp only at h1
      exact (Mesh.newEdge_fillStep m a b hab).1.followedBy
        (Mesh.edgeAddAdjacentFacet_fillStep normalize _ m1 _ self h1).1

/-- A vertex-based facet constructor run at a free facet address on three
pairwise distinct vertices, as a step of fillHoles: it returns and keeps the
heap invariants. -/
theorem Facet.ctor_step [LinearOrderedCommRing K]
    (normalize : K × K × K → K × K × K) (m : Mesh K) (self v0 v1 v2 : Nat) (c : Point K)
    (hlive : m.AdjacencyLive) (hu : m.UniqueEdges) (hfr : m.EdgesFresh)
    (hfree : m.facets self = none)
    (h01 : v0 ≠ v1) (h12 : v1 ≠ v2) (h20 : v2 ≠ v0) :
    ∃ m6, Facet.ctor normalize m self v0 v1 v2 c = some m6 ∧ m6.AdjacencyLive ∧
      m6.UniqueEdges ∧ m6.EdgesFresh ∧ m.FillStep m6 ∧
      m6.facets = (m.setFacet self (some ⟨v0, v1, v2, c⟩)).facets := by
  have hfc : (m.setFacet self (some ⟨v0, v1, v2, c⟩)).facets self = some ⟨v0, v1, v2, c⟩ := by
    show (if self = self then _ else _) = _
    rw [if_pos rfl]
  have hstep0 : m.FillStep (m.setFacet self (some ⟨v0, v1, v2, c⟩)) := by
    refine ⟨?_, le_rfl, fun _ _ h => h, fun _ _ h => Or.inl h, fun _ ed h => ⟨ed, h⟩,
      fun _ _ h _ => h⟩
    intro f fc hf
    show (if f = self then _ else m.facets f) = some fc
    have hne : f ≠ self := by
      rintro rfl
      rw [hfree] at hf
      cases hf
    rw [if_neg hne]
    exact hf
  obtain ⟨m1, a1, l1, u1, r1, s1, f1⟩ := Facet.attachEdge_step normalize
    (m.setFacet self (some ⟨v0, v1, v2, c⟩)) self v0 v1 ⟨v0, v1, v2, c⟩ hlive h01 hfc
    ⟨h01, h12, h20⟩ hfr
  have hfc1 : m1.facets self = some ⟨v0, v1, v2, c⟩ := by
    rw [f1]
    exact hfc
  obtain ⟨m2, a2, l2, u2, r2, s2, f2⟩ := Facet.attachEdge_step normalize m1 self v1 v2
    ⟨v0, v1, v2, c⟩ l1 h12 hfc1 ⟨h01, h12, h20⟩ r1
  have hfc2 : m2.facets self = some ⟨v0, v1, v2, c⟩ := by
    rw [f2]
    exact hfc1
  obtain ⟨m3, a3, l3, u3, r3, s3, f3⟩ := Facet.attachEdge_step normalize m2 self v2 v0
    ⟨v0, v1, v2, c⟩ l2 h20 hfc2 ⟨h01, h12, h20⟩ r2
  obtain ⟨m6, hm6, hs, -⟩ := Facet.register_three_spec m3 self v0 v1 v2 l3
  refine ⟨m6, ?_, hs.live l3, hs.unique_transfer (u3 (u2 (u1 hu))), ?_,
    ((hstep0.followedBy s1).followedBy s2).followedBy (s3.followedBy hs.fillStep), ?_⟩
  · unfold Facet.ctor
    dsimp only
    rw [a1, Option.some_bind, a2, Option.some_bind, a3, Option.some_bind]
    exact hm6
  · intro e he
    rw [hs.2.2.1] at he
    rw [hs.1]
    exact r3 e he
  · rw [hs.2.1, f3, f2, f1]

/-- The expression `new Facet(v0, v1, v2)` followed by addFacet, on three
pairwise distinct vertices of a sound state: the call returns a sound state,
with the border list as before. -/
theorem Mesher.newFacetNoCenter_sound [LinearOrderedField K] (env : Env K) (s : Mesher K)
    (v0 v1 v2 : Nat) (hs : s.Sound) (h01 : v0 ≠ v1) (h12 : v1 ≠ v2) (h20 : v2 ≠ v0) :
    ∃ s1, Mesher.newFacetNoCenter env s v0 v1 v2 = some s1 ∧ s1.Sound ∧
      s.heap.FillStep s1.heap ∧ s1.m_border_edges = s.m_border_edges := by
  obtain ⟨hlive, hu, hfe, hff⟩ := hs
  obtain ⟨m6, hm6, l6, u6, r6, s6, f6⟩ := Facet.ctor_step (normalizeWith env.sqrt) s.heap
    s.nextFacet v0 v1 v2 Point.default hlive hu hfe (hff _ le_rfl) h01 h12 h20
  have hfc : m6.facets s.nextFacet = some ⟨v0, v1, v2, Point.default⟩ := by
    rw [f6]
    show (if s.nextFacet = s.nextFacet then _ else _) = _
    rw [if_pos rfl]
  obtain ⟨s1, hadd⟩ := Mesher.addFacet_live
    { s with heap := m6, nextFacet := s.nextFacet + 1 } s.nextFacet _ hfc
  obtain ⟨hsame, -, -, -, hbo, hnx⟩ := Mesher.addFacet_spec _ s1 s.nextFacet hadd
  refine ⟨s1, ?_, ⟨hsame.live l6, hsame.unique_transfer u6, ?_, ?_⟩,
    s6.followedBy hsame.fillStep, hbo⟩
  · unfold Mesher.newFacetNoCenter Facet.ctorNoCenter
    rw [hm6]
    exact hadd
  · intro e he
    rw [hsame.2.2.1] at he
    rw [hsame.1]
    exact r6 e he
  · intro f hf
    rw [hnx] at hf
    rw [hsame.2.1]
    show m6.facets f = none
    rw [f6]
    show (if f = s.nextFacet then _ else s.heap.facets f) = none
    have hne : f ≠ s.nextFacet := fun h => by
      rw [h] at hf
      exact absurd hf (Nat.not_succ_le_self _)
    rw [if_neg hne]
    exact hff f (by
      have : s.nextFacet + 1 ≤ f := hf
      omega)

/-- A border edge that still has type 0 after a step of fillHoles is a border
edge of the later heap. -/
theorem Mesh.BorderEdge.after_step {m m1 : Mesh K} (hstep : m.FillStep m1) (e : Nat) (ed : Edge)
    (hb : m.BorderEdge e) (hed1 : m1.edges e = some ed) (ht : ed.m_type = 0) :
    m1.BorderEdge e := by
  obtain ⟨hf, -, ha, -, -, hty⟩ := hstep
  obtain ⟨ed0, f, fc, h0, hf1, hfc, hv, hne, hs, htg⟩ := hb
  have hEq : ed0 = ed := Option.some.inj (h0.symm.trans (hty e ed hed1 ht))
  rw [hEq] at hf1 hv hne hs htg
  exact ⟨ed, f, fc, hed1, hf1, hf f fc hfc, hv, hne, ha _ _ hs, ha _ _ htg⟩

theorem Mesh.BorderListed.after_fill {m m1 : Mesh K} (hstep : m.FillStep m1) (e : Nat)
    (hb : m.BorderListed e) : m1.BorderListed e := by
  obtain ⟨ed, hed, hbe⟩ := hb
  obtain ⟨ed1, hed1⟩ := hstep.2.2.2.2.1 e ed hed
  refine ⟨ed1, hed1, ?_⟩
  intro ht
  have hEq : ed = ed1 := Option.some.inj (hed.symm.trans (hstep.2.2.2.2.2 e ed1 hed1 ht))
  rw [hEq] at hbe
  exact Mesh.BorderEdge.after_step hstep e ed1 (hbe ht) hed1 ht

/-- The call of findBorder on a border edge, on a heap whose adjacent edges
are live and that has one edge per pair: it is made on the facet of the edge
and returns NULL exactly when no adjacent edge of the source passes the
test. -/
theorem Vertex.findBorder_border (m : Mesh K) (e : Nat) (ed : Edge) (f : Nat) (fc : Facet K)
    (hlive : m.AdjacencyLive) (hu : m.UniqueEdges) (hed : m.edges e = some ed)
    (hf1 : ed.m_facet1 = some f) (hfc : m.facets f = some fc) (hne : ed.m_src ≠ ed.m_tgt)
    (hs : e ∈ (m.vertices ed.m_src).m_adjacentEdges)
    (ht : e ∈ (m.vertices ed.m_tgt).m_adjacentEdges) :
    (Vertex.findBorder m ed.m_src ed.m_tgt = some none ∧
      ∀ ei ∈ (m.vertices ed.m_src).m_adjacentEdges,
        ¬ m.BorderGood ed.m_src ed.m_tgt fc ei) ∨
    (∃ ei ∈ (m.vertices ed.m_src).m_adjacentEdges, m.BorderGood ed.m_src ed.m_tgt fc ei ∧
      ∃ edi, m.edges ei = some edi ∧
        Vertex.findBorder m ed.m_src ed.m_tgt = some (some edi.m_src)) :=
  Vertex.findBorder_spec m ed.m_src ed.m_tgt e f ed fc hlive
    (Mesh.link_of_mem m hu _ _ e hne hs ht) hed hf1 hfc

/-- The heart of the idempotence of fillHoles: a border edge for which
findBorder returns NULL, and that still has type 0 after facets were built,
is still an edge for which findBorder returns NULL. -/
theorem Vertex.findBorder_stable {m m1 : Mesh K} (hstep : m.FillStep m1)
    (hlive : m.AdjacencyLive) (hu : m.UniqueEdges) (hfr : m.EdgesFresh)
    (hlive1 : m1.AdjacencyLive) (hu1 : m1.UniqueEdges) (e : Nat) (ed : Edge)
    (hb : m.BorderEdge e) (hed1 : m1.edges e = some ed) (ht : ed.m_type = 0)
    (hnone : Vertex.findBorder m ed.m_src ed.m_tgt = some none) :
    Vertex.findBorder m1 ed.m_src ed.m_tgt = some none := by
  have hb1 := Mesh.BorderEdge.after_step hstep e ed hb hed1 ht
  obtain ⟨hf, -, ha, hold, -, hty⟩ := hstep
  have hed : m.edges e = some ed := hty e ed hed1 ht
  obtain ⟨ed0, f, fc, h0, hf1, hfc, hv, hne, hs, htg⟩ := hb
  have hEq : ed0 = ed := Option.some.inj (h0.symm.trans hed)
  rw [hEq] at hf1 hv hne hs htg
  have hlt : ∀ x edx, m.edges x = some edx → x < m.nextEdge := by
    intro x edx hx
    by_contra hge
    rw [hfr x (by omega)] at hx
    cases hx
  rcases Vertex.findBorder_border m1 e ed f fc hlive1 hu1 hed1 hf1 (hf f fc hfc) hne
    (ha _ _ hs) (ha _ _ htg) with ⟨h, -⟩ | ⟨ei, hei, hg, -⟩
  · exact h
  · exfalso
    obtain ⟨edi, e', ed', hedi, hti, hsi, hvi, hli, hed', ht', hs'⟩ := hg
    have hedi0 := hty ei edi hedi hti
    have hed'0 := hty e' ed' hed' ht'
    have hei0 : ei ∈ (m.vertices ed.m_src).m_adjacentEdges := by
      rcases hold _ _ hei with h | h
      · exact h
      · exact absurd (hlt ei edi hedi0) (by omega)
    obtain ⟨hm1, hm2⟩ := getCommonElement_mem _ _ e' hli
    have he'1 : e' ∈ (m.vertices edi.m_src).m_adjacentEdges := by
      rcases hold _ _ hm1 with h | h
      · exact h
      · exact absurd (hlt e' ed' hed'0) (by omega)
    have he'2 : e' ∈ (m.vertices ed.m_tgt).m_adjacentEdges := by
      rcases hold _ _ hm2 with h | h
      · exact h
      · exact absurd (hlt e' ed' hed'0) (by omega)
    have hvt : edi.m_src ≠ ed.m_tgt := by
      intro h
      rw [h, hv] at hvi
      cases hvi
    have hgood : m.BorderGood ed.m_src ed.m_tgt fc ei :=
      ⟨edi, e', ed', hedi0, hti, hsi, hvi, Mesh.link_of_mem m hu _ _ e' hvt he'1 he'2, hed'0,
        ht', hs'⟩
    rcases Vertex.findBorder_border m e ed f fc hlive hu hed hf1 hfc hne hs htg with
      ⟨-, hno⟩ | ⟨x, -, -, edx, -, hres⟩
    · exact hno ei hei0 hgood
    · rw [hnone] at hres
      cases hres

theorem Mesh.Stable.stays {m m1 : Mesh K} (hstep : m.FillStep m1)
    (hlive : m.AdjacencyLive) (hu : m.UniqueEdges) (hfr : m.EdgesFresh)
    (hlive1 : m1.AdjacencyLive) (hu1 : m1.UniqueEdges) (e : Nat) (hst : m.Stable e) :
    m1.Stable e := by
  obtain ⟨ed, hed, hse⟩ := hst
  obtain ⟨ed1, hed1⟩ := hstep.2.2.2.2.1 e ed hed
  refine ⟨ed1, hed1, ?_⟩
  intro ht
  have hEq : ed = ed1 := Option.some.inj (hed.symm.trans (hstep.2.2.2.2.2 e ed1 hed1 ht))
  rw [hEq] at hse
  obtain ⟨hb, hnone⟩ := hse ht
  exact ⟨Mesh.BorderEdge.after_step hstep e ed1 hb hed1 ht,
    Vertex.findBorder_stable hstep hlive hu hfr hlive1 hu1 e ed1 hb hed1 ht hnone⟩

/-- The loop of fillHoles over entries that a run leaves alone: it returns,
keeps those that still have type 0, in their order, and changes nothing
else. -/
theorem Mesher.fillHolesLoop_stable [LinearOrderedField K] (env : Env K) (l : List Nat)
    (s : Mesher K) (h : ∀ e ∈ l, s.heap.Stable e) :
    ∃ s1, Mesher.fillHolesLoop env l s = some s1 ∧ s1.heap = s.heap ∧
      s1.m_facets = s.m_facets ∧ s1.m_nfacets = s.m_nfacets ∧ s1.nextFacet = s.nextFacet ∧
      s1.m_vertices = s.m_vertices ∧ s1.m_nvertices = s.m_nvertices ∧
      s1.m_edge_front = s.m_edge_front ∧
      s1.m_border_edges = s.m_border_edges ++ l.filter (s.heap.edgeTypeIs 0) := by
  induction l generalizing s with
  | nil => exact ⟨s, rfl, rfl, rfl, rfl, rfl, rfl, rfl, rfl, (List.append_nil _).symm⟩
  | cons e rest ih =>
    obtain ⟨ed, hed, hse⟩ := h e (List.mem_cons_self _ _)
    have hrest : ∀ x ∈ rest, s.heap.Stable x := fun x hx => h x (List.mem_cons_of_mem _ hx)
    have hty : s.heap.edgeTypeIs 0 e = decide (ed.m_type = 0) := by
      unfold Mesh.edgeTypeIs
      rw [hed]
    conv in Mesher.fillHolesLoop env (e :: rest) s => unfold Mesher.fillHolesLoop
    rw [hed]
    dsimp only
    by_cases ht : ed.m_type = 0
    · rw [if_neg (not_not.mpr ht), (hse ht).2]
      dsimp only
      obtain ⟨s1, hrun, hh, a1, a2, a3, a4, a5, a6, hb⟩ :=
        ih { s with m_border_edges := s.m_border_edges ++ [e] } hrest
      refine ⟨s1, hrun, hh, a1, a2, a3, a4, a5, a6, ?_⟩
      rw [hb, List.filter_cons_of_pos (by rw [hty]; simp [ht])]
      show (s.m_border_edges ++ [e]) ++ _ = _
      rw [List.append_assoc]
      rfl
    · rw [if_pos ht]
      obtain ⟨s1, hrun, hh, a1, a2, a3, a4, a5, a6, hb⟩ := ih s hrest
      refine ⟨s1, hrun, hh, a1, a2, a3, a4, a5, a6, ?_⟩
      rw [hb, List.filter_cons_of_neg (by rw [hty]; simp [ht])]

/-- The loop of fillHoles from a sound state, over entries that are live and
are border edges when of type 0, the entries kept so far being stable: it
returns a sound state all of whose border-list entries are stable. -/
theorem Mesher.fillHolesLoop_sound [LinearOrderedField K] (env : Env K) (l : List Nat)
    (s : Mesher K) (hs : s.Sound) (hl : ∀ e ∈ l, s.heap.BorderListed e)
    (hkept : ∀ e ∈ s.m_border_edges, s.heap.Stable e) :
    ∃ s1, Mesher.fillHolesLoop env l s = some s1 ∧ s1.Sound ∧
      ∀ e ∈ s1.m_border_edges, s1.heap.Stable e := by
  induction l generalizing s with
  | nil => exact ⟨s, rfl, hs, hkept⟩
  | cons e rest ih =>
    obtain ⟨ed, hed, hbe⟩ := hl e (List.mem_cons_self _ _)
    have hrest : ∀ x ∈ rest, s.heap.BorderListed x :=
      fun x hx => hl x (List.mem_cons_of_mem _ hx)
    conv in Mesher.fillHolesLoop env (e :: rest) s => unfold Mesher.fillHolesLoop
    rw [hed]
    dsimp only
    by_cases ht : ed.m_type = 0
    · rw [if_neg (not_not.mpr ht)]
      obtain ⟨ed0, f, fc, h0, hf1, hfc, hv, hne, hsrc, htg⟩ := hbe ht
      have hEq : ed0 = ed := Option.some.inj (h0.symm.trans hed)
      rw [hEq] at hf1 hv hne hsrc htg
      rcases Vertex.findBorder_border s.heap e ed f fc hs.1 hs.2.1 hed hf1 hfc hne hsrc htg
        with ⟨hnone, -⟩ | ⟨ei, -, hg, edi, hedi, hres⟩
      · rw [hnone]
        dsimp only
        apply ih { s with m_border_edges := s.m_border_edges ++ [e] } hs hrest
        intro x hx
        rcases List.mem_append.mp hx with h | h
        · exact hkept x h
        · rw [List.mem_singleton] at h
          subst h
          exact ⟨ed, hed, fun _ => ⟨hbe ht, hnone⟩⟩
      · rw [hres]
        dsimp only
        obtain ⟨edi0, e', ed', hedi0, -, hsi, hvi, -⟩ := hg
        have hEqi : edi0 = edi := Option.some.inj (hedi0.symm.trans hedi)
        rw [hEqi] at hsi hvi
        have hvt : edi.m_src ≠ ed.m_tgt := by
          intro h
          rw [h, hv] at hvi
          cases hvi
        obtain ⟨s1, hnew, hs1, hstep, hbo⟩ := Mesher.newFacetNoCenter_sound env s ed.m_src
          ed.m_tgt edi.m_src hs hne hvt.symm hsi
        rw [hnew]
        dsimp only
        apply ih s1 hs1
        · intro x hx
          exact Mesh.BorderListed.after_fill hstep x (hrest x hx)
        · intro x hx
          rw [hbo] at hx
          exact Mesh.Stable.stays hstep hs.1 hs.2.1 hs.2.2.1 hs1.1 hs1.2.1 x (hkept x hx)
    · rw [if_pos ht]
      exact ih s hs hrest hkept

/-- C29: from a state whose heap is sound (adjacent edges live, one edge per pair of vertices, allocators ahead of the live objects) and whose border-list edges each hold a live facet in the first slot, containing the target, and are registered with both their distinct ends, a first run of fillHoles returns, and a second run right after it returns too, with the same heap (no facet created, no edge and no vertex changed, types included), the same facet list and counters, the same vertex list and front; of the border list it only drops the entries that are no longer of type 0. -/
theorem Mesher.fillHoles_idempotent [LinearOrderedField K] (env : Env K) (s : Mesher K)
    (hs : s.Sound) (hb : ∀ e ∈ s.m_border_edges, s.heap.BorderEdge e) :
    ∃ s1 s2, Mesher.fillHoles env s = some s1 ∧ Mesher.fillHoles env s1 = some s2 ∧
      s2.heap = s1.heap ∧ s2.m_facets = s1.m_facets ∧ s2.m_nfacets = s1.m_nfacets ∧
      s2.nextFacet = s1.nextFacet ∧ s2.m_vertices = s1.m_vertices ∧
      s2.m_nvertices = s1.m_nvertices ∧ s2.m_edge_front = s1.m_edge_front ∧
      s2.m_border_edges = s1.m_border_edges.filter (s1.heap.edgeTypeIs 0) := by
  have hl : ∀ e ∈ s.m_border_edges,
      ({ s with m_border_edges := [] } : Mesher K).heap.BorderListed e := by
    intro e he
    obtain ⟨ed, f, fc, hed, hrest⟩ := hb e he
    exact ⟨ed, hed, fun _ => ⟨ed, f, fc, hed, hrest⟩⟩
  obtain ⟨s1, hrun1, hs1, hst1⟩ := Mesher.fillHolesLoop_sound env s.m_border_edges
    { s with m_border_edges := [] } hs hl (fun e he => absurd he (List.not_mem_nil e))
  obtain ⟨s2, hrun2, hh, a1, a2, a3, a4, a5, a6, hbo⟩ :=
    Mesher.fillHolesLoop_stable env s1.m_border_edges { s1 with m_border_edges := [] } hst1
  exact ⟨s1, s2, hrun1, hrun2, hh, a1, a2, a3, a4, a5, a6, by rw [hbo]; exact List.nil_append _⟩

theorem hole_sound : holeMesher.Sound := by
  refine ⟨hole_live, hole_unique, ?_, ?_⟩
  · intro e he
    have h3 : 3 ≤ e := he
    obtain ⟨n, rfl⟩ : ∃ n, e = n + 3 := ⟨e - 3, by omega⟩
    rfl
  · intro f hf
    have h3 : 3 ≤ f := hf
    obtain ⟨n, rfl⟩ : ∃ n, f = n + 3 := ⟨f - 3, by omega⟩
    rfl

theorem hole_border : ∀ e ∈ holeMesher.m_border_edges, holeMesher.heap.BorderEdge e := by
  intro e he
  have h : e = 0 ∨ e = 1 ∨ e = 2 := by
    have hb : holeMesher.m_border_edges = [0, 1, 2] := rfl
    rw [hb] at he
    simpa using he
  rcases h with rfl | rfl | rfl
  · exact ⟨⟨0, 1, some 0, none, 0⟩, 0, ⟨0, 1, 3, ⟨0, 0, 0⟩⟩, rfl, rfl, rfl, rfl, by decide,
      by decide, by decide⟩
  · exact ⟨⟨1, 2, some 1, none, 0⟩, 1, ⟨1, 2, 4, ⟨0, 0, 0⟩⟩, rfl, rfl, rfl, rfl, by decide,
      by decide, by decide⟩
  · exact ⟨⟨2, 0, some 2, none, 0⟩, 2, ⟨2, 0, 5, ⟨0, 0, 0⟩⟩, rfl, rfl, rfl, rfl, by decide,
      by decide, by decide⟩

/-- C29 on the store with the triangular hole: the first run fills the hole, the second leaves the heap and the lists as the first left them. -/
theorem Mesher.fillHoles_idempotent_witness :
    ∃ s1 s2, Mesher.fillHoles rectEnv holeMesher = some s1 ∧
      Mesher.fillHoles rectEnv s1 = some s2 ∧
      s2.heap = s1.heap ∧ s2.m_facets = s1.m_facets ∧ s2.m_nfacets = s1.m_nfacets ∧
      s2.nextFacet = s1.nextFacet ∧ s2.m_vertices = s1.m_vertices ∧
      s2.m_nvertices = s1.m_nvertices ∧ s2.m_edge_front = s1.m_edge_front ∧
      s2.m_border_edges = s1.m_border_edges.filter (s1.heap.edgeTypeIs 0) :=
  Mesher.fillHoles_idempotent rectEnv holeMesher hole_sound hole_border

/-! ## Mesher::trySeed on orphan vertices -/

/-- The attachment of a facet to a pair of distinct vertices that have no
linking edge: a new edge is built at the next edge address and registered with
both vertices; it takes the facet in its first slot, has type 1 and joins the
two vertices, in one orientation or the other. -/
theorem Facet.attachEdge_fresh [LinearOrderedCommRing K]
    (normalize : K × K × K → K × K × K) (m : Mesh K) (self a b : Nat) (fc : Facet K)
    (hlive : m.AdjacencyLive) (hab : a ≠ b) (hfc : m.facets self = some fc)
    (hd : fc.m_vertex0 ≠ fc.m_vertex1 ∧ fc.m_vertex1 ≠ fc.m_vertex2 ∧
      fc.m_vertex2 ≠ fc.m_vertex0)
    (hl : (m.vertices a).getLinkingEdge (m.vertices b) = none) :
    ∃ m1 ed1, Facet.attachEdge normalize m self a b = some m1 ∧ m1.AdjacencyLive ∧
      m1.facets = m.facets ∧ m1.nextEdge = m.nextEdge + 1 ∧
      m1.edges m.nextEdge = some ed1 ∧ (∀ x, x ≠ m.nextEdge → m1.edges x = m.edges x) ∧
      (∀ u, m1.vertices u = if u = a ∨ u = b then
          { m.vertices u with
            m_adjacentEdges := (setInsert m.nextEdge (m.vertices u).m_adjacentEdges).1 }
        else m.vertices u) ∧
      ed1.m_type = 1 ∧ ed1.m_facet1 = some self ∧ ed1.m_facet2 = none ∧
      ((ed1.m_src = a ∧ ed1.m_tgt = b) ∨ (ed1.m_src = b ∧ ed1.m_tgt = a)) := by
  obtain ⟨m1, h1, hs⟩ := Facet.attachEdge_spec normalize m self a b fc hlive hab hfc hd
  have hv : ∀ u, m1.vertices u = if u = a ∨ u = b then
      { m.vertices u with
        m_adjacentEdges := (setInsert m.nextEdge (m.vertices u).m_adjacentEdges).1 }
      else m.vertices u := by
    intro u
    rw [hs.vertices_eq u]
    by_cases hu : u = a ∨ u = b
    · rw [if_pos ⟨hl, hu⟩, if_pos hu]
    · rw [if_neg (fun h => hu h.2), if_neg hu]
  have hn : m1.nextEdge = m.nextEdge + 1 := by
    rw [hs.nextEdge_eq, if_pos hl]
  have h2 := h1
  unfold Facet.attachEdge at h2
  rw [hl] at h2
  dsimp only at h2
  obtain ⟨-, -, -, hx⟩ := Mesh.edgeAddAdjacentFacet_fillStep normalize _ m1 _ self h2
  obtain ⟨-, -, hnew, hx0⟩ := Mesh.newEdge_fillStep m a b hab
  unfold Mesh.edgeAddAdjacentFacet at h2
  have hnew1 : (m.newEdge a b).1.edges (m.newEdge a b).2 = some (Edge.init a b) := hnew
  rw [hnew1] at h2
  dsimp only at h2
  obtain ⟨r, hr, hm1⟩ := Option.map_eq_some'.mp h2
  have hedge : m1.edges m.nextEdge = some r.1 := by
    rw [← hm1]
    show (if m.nextEdge = (m.newEdge a b).2 then some r.1 else _) = _
    exact if_pos rfl
  unfold Edge.addAdjacentFacet at hr
  have hno : ¬ ((Edge.init a b).m_facet1 = some self ∨ (Edge.init a b).m_facet2 = some self) := by
    rintro (h | h) <;> cases h
  have hyes : (Edge.init a b).m_facet1 = none := rfl
  rw [if_neg hno, if_pos hyes] at hr
  obtain ⟨e1, he1, hr1⟩ := Option.map_eq_some'.mp hr
  have hfc0 : (m.newEdge a b).1.facets self = some fc := hfc
  obtain ⟨o, ho, -, -⟩ := Edge.getOppositeVertex_of_third (m.newEdge a b).1
    { Edge.init a b with m_facet1 := some self } self fc rfl hfc0
    (Facet.third_vertex fc hd _ _)
  refine ⟨m1, r.1, h1, hs.live, hs.facets_eq, hn, hedge, ?_, hv, ?_⟩
  · intro x hxe
    rw [hx x hxe, hx0 x hxe]
  · rw [← hr1]
    rcases Edge.updateOrientation_eq normalize (m.newEdge a b).1
      { Edge.init a b with m_facet1 := some self } o ho with h | h
    · rw [h] at he1
      cases he1
      exact ⟨rfl, rfl, rfl, Or.inl ⟨rfl, rfl⟩⟩
    · rw [h] at he1
      cases he1
      exact ⟨rfl, rfl, rfl, Or.inr ⟨rfl, rfl⟩⟩

/-- The last loop body of the facet constructors on a vertex that has an
adjacent edge of a type other than 2: the vertex gets type 1, and no other
vertex changes. -/
theorem Facet.registerVertex_front (m : Mesh K) (self v e : Nat) (ed : Edge)
    (hlive : m.AdjacencyLive) (he : e ∈ (m.vertices v).m_adjacentEdges)
    (hed : m.edges e = some ed) (ht : ed.m_type ≠ 2) :
    ∃ m1, Facet.registerVertex m self v = some m1 ∧ m.SameEdges m1 ∧
      (m1.vertices v).m_type = 1 ∧ ∀ u, u ≠ v → m1.vertices u = m.vertices u := by
  have hadj : ((m.setVertex v ((m.vertices v).addAdjacentFacet self).1).vertices
      v).m_adjacentEdges = (m.vertices v).m_adjacentEdges := by
    simp [Mesh.setVertex, Vertex.addAdjacentFacet]
  have hl : ∀ x ∈ ((m.setVertex v ((m.vertices v).addAdjacentFacet self).1).vertices
      v).m_adjacentEdges,
      ∃ edx, (m.setVertex v ((m.vertices v).addAdjacentFacet self).1).edges x = some edx := by
    intro x hx
    rw [hadj] at hx
    exact (hlive v x hx).2
  obtain ⟨t, htype, hcase⟩ := Vertex.updateType_spec _ _ hl
  have ht1 : t = 1 := by
    rcases hcase with ⟨-, h0⟩ | ⟨-, -, hall⟩ | ⟨h1, -⟩
    · rw [hadj] at h0
      rw [h0] at he
      cases he
    · exact absurd (hall e (by rw [hadj]; exact he) ed hed) ht
    · exact h1
  obtain ⟨m1, hreg, hs, -, -⟩ := Facet.registerVertex_spec m self v hlive
  have hreg2 := hreg
  unfold Facet.registerVertex at hreg2
  dsimp only at hreg2
  rw [htype] at hreg2
  have hm1 : m1 = (m.setVertex v ((m.vertices v).addAdjacentFacet self).1).setVertex v
      { (m.setVertex v ((m.vertices v).addAdjacentFacet self).1).vertices v with
        m_type := t } := (Option.some.inj hreg2).symm
  refine ⟨m1, hreg, hs, ?_, ?_⟩
  · rw [hm1, ht1]
    simp [Mesh.setVertex]
  · intro u hu
    rw [hm1]
    simp [Mesh.setVertex, hu]

theorem setInsert_nil (a : Nat) : (setInsert a []).1 = [a] := rfl

theorem setInsert_after (a b : Nat) (h : a < b) : (setInsert b [a]).1 = [a, b] := by
  unfold setInsert
  rw [if_neg (by omega), if_neg (by omega)]
  rfl

theorem getCommonElement_nil_left (l : List Nat) : getCommonElement [] l = none := rfl

theorem getCommonElement_nil_right (l : List Nat) : getCommonElement l [] = none := by
  unfold getCommonElement
  rw [List.find?_eq_none]
  intro x _
  simp

theorem getCommonElement_singletons (a b : Nat) (h : a ≠ b) :
    getCommonElement [a] [b] = none := by
  unfold getCommonElement
  rw [List.find?_eq_none]
  intro x hx
  rw [List.mem_singleton] at hx
  subst hx
  simpa using h

/-- A vertex-based facet constructor on three pairwise distinct vertices whose
adjacent-edge sets are empty: the constructor returns; three edges are built,
at the next three edge addresses, for the pairs (v0,v1), (v1,v2), (v2,v0), each
a front edge of the facet; the three vertices get type 1; no other edge
changes. -/
theorem Facet.ctor_orphans [LinearOrderedCommRing K]
    (normalize : K × K × K → K × K × K) (m : Mesh K) (self v0 v1 v2 : Nat) (c : Point K)
    (hlive : m.AdjacencyLive) (h01 : v0 ≠ v1) (h12 : v1 ≠ v2) (h20 : v2 ≠ v0)
    (ha0 : (m.vertices v0).m_adjacentEdges = []) (ha1 : (m.vertices v1).m_adjacentEdges = [])
    (ha2 : (m.vertices v2).m_adjacentEdges = []) :
    ∃ m6 ed0 ed1 ed2, Facet.ctor normalize m self v0 v1 v2 c = some m6 ∧
      m6.facets = (m.setFacet self (some ⟨v0, v1, v2, c⟩)).facets ∧ m6.AdjacencyLive ∧
      (m6.vertices v0).m_adjacentEdges = [m.nextEdge, m.nextEdge + 2] ∧
      (m6.vertices v1).m_adjacentEdges = [m.nextEdge, m.nextEdge + 1] ∧
      (m6.vertices v2).m_adjacentEdges = [m.nextEdge + 1, m.nextEdge + 2] ∧
      (m6.vertices v0).m_type = 1 ∧ (m6.vertices v1).m_type = 1 ∧
      (m6.vertices v2).m_type = 1 ∧
      m6.edges m.nextEdge = some ed0 ∧ m6.edges (m.nextEdge + 1) = some ed1 ∧
      m6.edges (m.nextEdge + 2) = some ed2 ∧
      (∀ x, x ≠ m.nextEdge → x ≠ m.nextEdge + 1 → x ≠ m.nextEdge + 2 →
        m6.edges x = m.edges x) ∧
      ed0.FrontOf self v0 v1 ∧ ed1.FrontOf self v1 v2 ∧ ed2.FrontOf self v2 v0 := by
  have hfc : (m.setFacet self (some ⟨v0, v1, v2, c⟩)).facets self = some ⟨v0, v1, v2, c⟩ := by
    show (if self = self then _ else _) = _
    rw [if_pos rfl]
  have hd : v0 ≠ v1 ∧ v1 ≠ v2 ∧ v2 ≠ v0 := ⟨h01, h12, h20⟩
  -- the pair (v0, v1)
  have hl1 : ((m.setFacet self (some ⟨v0, v1, v2, c⟩)).vertices v0).getLinkingEdge
      ((m.setFacet self (some ⟨v0, v1, v2, c⟩)).vertices v1) = none := by
    show getCommonElement (m.vertices v0).m_adjacentEdges _ = none
    rw [ha0]
    rfl
  obtain ⟨m1, ed0, a1, l1, f1, n1, e1, x1, w1, p0⟩ := Facet.attachEdge_fresh normalize
    (m.setFacet self (some ⟨v0, v1, v2, c⟩)) self v0 v1 ⟨v0, v1, v2, c⟩ hlive h01 hfc hd hl1
  have n1a : m1.nextEdge = m.nextEdge + 1 := n1
  have e1a : m1.edges m.nextEdge = some ed0 := e1
  have b10 : (m1.vertices v0).m_adjacentEdges = [m.nextEdge] := by
    rw [w1 v0, if_pos (Or.inl rfl)]
    show (setInsert m.nextEdge (m.vertices v0).m_adjacentEdges).1 = _
    rw [ha0]
    rfl
  have b11 : (m1.vertices v1).m_adjacentEdges = [m.nextEdge] := by
    rw [w1 v1, if_pos (Or.inr rfl)]
    show (setInsert m.nextEdge (m.vertices v1).m_adjacentEdges).1 = _
    rw [ha1]
    rfl
  have b12 : (m1.vertices v2).m_adjacentEdges = [] := by
    rw [w1 v2, if_neg (by
      rintro (h | h)
      · exact h20 h
      · exact h12 h.symm)]
    exact ha2
  -- the pair (v1, v2)
  have hfc1 : m1.facets self = some ⟨v0, v1, v2, c⟩ := by
    rw [f1]
    exact hfc
  have hl2 : (m1.vertices v1).getLinkingEdge (m1.vertices v2) = none := by
    show getCommonElement (m1.vertices v1).m_adjacentEdges (m1.vertices v2).m_adjacentEdges = none
    rw [b12]
    exact getCommonElement_nil_right _
  obtain ⟨m2, ed1, a2, l2, f2, n2, e2, x2, w2, p1⟩ := Facet.attachEdge_fresh normalize
    m1 self v1 v2 ⟨v0, v1, v2, c⟩ l1 h12 hfc1 hd hl2
  rw [n1a] at n2 e2 x2 w2
  have b20 : (m2.vertices v0).m_adjacentEdges = [m.nextEdge] := by
    rw [w2 v0, if_neg (by
      rintro (h | h)
      · exact h01 h
      · exact h20 h.symm)]
    exact b10
  have b21 : (m2.vertices v1).m_adjacentEdges = [m.nextEdge, m.nextEdge + 1] := by
    rw [w2 v1, if_pos (Or.inl rfl)]
    show (setInsert (m.nextEdge + 1) (m1.vertices v1).m_adjacentEdges).1 = _
    rw [b11]
    exact setInsert_after _ _ (by omega)
  have b22 : (m2.vertices v2).m_adjacentEdges = [m.nextEdge + 1] := by
    rw [w2 v2, if_pos (Or.inr rfl)]
    show (setInsert (m.nextEdge + 1) (m1.vertices v2).m_adjacentEdges).1 = _
    rw [b12]
    rfl
  -- the pair (v2, v0)
  have hfc2 : m2.facets self = some ⟨v0, v1, v2, c⟩ := by
    rw [f2]
    exact hfc1
  have hl3 : (m2.vertices v2).getLinkingEdge (m2.vertices v0) = none := by
    show getCommonElement (m2.vertices v2).m_adjacentEdges (m2.vertices v0).m_adjacentEdges = none
    rw [b22, b20]
    exact getCommonElement_singletons _ _ (by omega)
  obtain ⟨m3, ed2, a3, l3, f3, n3, e3, x3, w3, p2⟩ := Facet.attachEdge_fresh normalize
    m2 self v2 v0 ⟨v0, v1, v2, c⟩ l2 h20 hfc2 hd hl3
  rw [n2] at n3 e3 x3 w3
  have b30 : (m3.vertices v0).m_adjacentEdges = [m.nextEdge, m.nextEdge + 2] := by
    rw [w3 v0, if_pos (Or.inr rfl)]
    show (setInsert (m.nextEdge + 1 + 1) (m2.vertices v0).m_adjacentEdges).1 = _
    rw [b20]
    exact setInsert_after _ _ (by omega)
  have b31 : (m3.vertices v1).m_adjacentEdges = [m.nextEdge, m.nextEdge + 1] := by
    rw [w3 v1, if_neg (by
      rintro (h | h)
      · exact h12 h
      · exact h01 h.symm)]
    exact b21
  have b32 : (m3.vertices v2).m_adjacentEdges = [m.nextEdge + 1, m.nextEdge + 2] := by
    rw [w3 v2, if_pos (Or.inl rfl)]
    show (setInsert (m.nextEdge + 1 + 1) (m2.vertices v2).m_adjacentEdges).1 = _
    rw [b22]
    exact setInsert_after _ _ (by omega)
  have g0 : m3.edges m.nextEdge = some ed0 := by
    rw [x3 _ (by omega), x2 _ (by omega)]
    exact e1a
  have g1 : m3.edges (m.nextEdge + 1) = some ed1 := by
    rw [x3 _ (by omega)]
    exact e2
  have g2 : m3.edges (m.nextEdge + 2) = some ed2 := e3
  -- the three vertices
  obtain ⟨m4, r4, s4, t4, o4⟩ := Facet.registerVertex_front m3 self v0 m.nextEdge ed0 l3
    (by rw [b30]; exact List.mem_cons_self _ _) g0 (by rw [p0.1]; decide)
  obtain ⟨m5, r5, s5, t5, o5⟩ := Facet.registerVertex_front m4 self v1 m.nextEdge ed0
    (s4.live l3) (by rw [s4.2.2.2 v1, b31]; exact List.mem_cons_self _ _)
    (by rw [s4.1]; exact g0) (by rw [p0.1]; decide)
  obtain ⟨m6, r6, s6, t6, o6⟩ := Facet.registerVertex_front m5 self v2 (m.nextEdge + 1) ed1
    (s5.live (s4.live l3))
    (by rw [s5.2.2.2 v2, s4.2.2.2 v2, b32]; exact List.mem_cons_self _ _)
    (by rw [s5.1, s4.1]; exact g1) (by rw [p1.1]; decide)
  have hs := (s4.trans s5).trans s6
  refine ⟨m6, ed0, ed1, ed2, ?_, ?_, hs.live l3, ?_, ?_, ?_, ?_, ?_, t6, ?_, ?_, ?_, ?_,
    p0, p1, p2⟩
  · unfold Facet.ctor
    dsimp only
    rw [a1, Option.some_bind, a2, Option.some_bind, a3, Option.some_bind, r4,
      Option.some_bind, r5, Option.some_bind]
    exact r6
  · rw [hs.2.1, f3, f2, f1]
  · rw [hs.2.2.2 v0]
    exact b30
  · rw [hs.2.2.2 v1]
    exact b31
  · rw [hs.2.2.2 v2]
    exact b32
  · rw [o6 v0 h20.symm, o5 v0 h01]
    exact t4
  · rw [o6 v1 h12]
    exact t5
  · rw [hs.1]
    exact g0
  · rw [hs.1]
    exact g1
  · rw [hs.1]
    exact g2
  · intro x hx0 hx1 hx2
    rw [hs.1, x3 x hx2, x2 x hx1, x1 x hx0]
    rfl

/-- Mesher::addVertex leaves the type of every vertex alone. -/
theorem Mesher.addVertex_type (s : Mesher K) (v u : Nat) :
    ((s.addVertex v).heap.vertices u).m_type = (s.heap.vertices u).m_type := by
  unfold Mesher.addVertex
  by_cases h : (s.heap.vertices v).m_index ≠ -1
  · rw [if_pos h]
  · rw [if_neg h]
    show ((s.heap.setVertex v _).vertices u).m_type = _
    unfold Mesh.setVertex
    dsimp only
    by_cases hu : u = v
    · rw [if_pos hu, hu]
    · rw [if_neg hu]

/-- Mesher::addFacet leaves the type of every vertex alone. -/
theorem Mesher.addFacet_type (s s1 : Mesher K) (f : Nat) (h : s.addFacet f = some s1)
    (u : Nat) : (s1.heap.vertices u).m_type = (s.heap.vertices u).m_type := by
  unfold Mesher.addFacet at h
  cases hf : s.heap.facets f with
  | none => rw [hf] at h; cases h
  | some fc =>
    rw [hf] at h
    dsimp only at h
    cases h
    show ((((s.addVertex (fc.vertex 0)).addVertex (fc.vertex 1)).addVertex
      (fc.vertex 2)).heap.vertices u).m_type = _
    rw [Mesher.addVertex_type, Mesher.addVertex_type, Mesher.addVertex_type]

theorem getCommonElement_seed02 (n : Nat) :
    getCommonElement [n, n + 2] [n + 1, n + 2] = some (n + 2) := by
  simp [getCommonElement, List.find?]

theorem getCommonElement_seed12 (n : Nat) :
    getCommonElement [n, n + 1] [n + 1, n + 2] = some (n + 1) := by
  simp [getCommonElement, List.find?]

theorem getCommonElement_seed01 (n : Nat) :
    getCommonElement [n, n + 2] [n, n + 1] = some n := by
  simp [getCommonElement, List.find?]

/-- The push of a linking edge of type 1. -/
theorem Mesher.pushIfFront_front (s : Mesher K) (a b e : Nat) (ed : Edge)
    (hl : (s.heap.vertices a).getLinkingEdge (s.heap.vertices b) = some e)
    (hed : s.heap.edges e = some ed) (ht : ed.m_type = 1) :
    s.pushIfFront a b = some { s with m_edge_front := e :: s.m_edge_front } := by
  unfold Mesher.pushIfFront
  rw [hl]
  dsimp only
  rw [hed]
  dsimp only
  rw [if_pos ht]

/-- The statements of Mesher::trySeed from `new Facet` to the third push, on
three pairwise distinct vertices whose adjacent-edge sets are empty: they run
to their end, with the effect described by `SeedFacet`. -/
theorem Mesher.seed_facet [LinearOrderedField K] (env : Env K) (s : Mesher K)
    (v va vb : Nat) (center : Point K) (hlive : s.heap.AdjacencyLive)
    (h01 : v ≠ va) (h12 : va ≠ vb) (h20 : vb ≠ v)
    (ha0 : (s.heap.vertices v).m_adjacentEdges = [])
    (ha1 : (s.heap.vertices va).m_adjacentEdges = [])
    (ha2 : (s.heap.vertices vb).m_adjacentEdges = []) :
    ∃ s4, ((Mesher.newFacet env s v va vb center).bind fun s1 =>
        (s1.pushIfFront v vb).bind fun s2 =>
        (s2.pushIfFront va vb).bind fun s3 =>
        s3.pushIfFront v va) = some s4 ∧ Mesher.SeedFacet s v va vb center s4 := by
  obtain ⟨m6, ed0, ed1, ed2, hm6, hf6, -, b0, b1, b2, t0, t1, t2, g0, g1, g2, gx, p0, p1, p2⟩ :=
    Facet.ctor_orphans (normalizeWith env.sqrt) s.heap s.nextFacet v va vb center hlive
      h01 h12 h20 ha0 ha1 ha2
  have hfc : m6.facets s.nextFacet = some ⟨v, va, vb, center⟩ := by
    rw [hf6]
    show (if s.nextFacet = s.nextFacet then _ else _) = _
    rw [if_pos rfl]
  obtain ⟨s1, hadd⟩ := Mesher.addFacet_live
    { s with heap := m6, nextFacet := s.nextFacet + 1 } s.nextFacet _ hfc
  obtain ⟨hsame, hfl, hnf, hfr, hbo, hnx⟩ := Mesher.addFacet_spec _ s1 s.nextFacet hadd
  have hty := Mesher.addFacet_type _ s1 s.nextFacet hadd
  have hnew : Mesher.newFacet env s v va vb center = some s1 := by
    unfold Mesher.newFacet
    rw [hm6]
    exact hadd
  have c0 : (s1.heap.vertices v).m_adjacentEdges = [s.heap.nextEdge, s.heap.nextEdge + 2] :=
    (hsame.2.2.2 v).trans b0
  have c1 : (s1.heap.vertices va).m_adjacentEdges = [s.heap.nextEdge, s.heap.nextEdge + 1] :=
    (hsame.2.2.2 va).trans b1
  have c2 : (s1.heap.vertices vb).m_adjacentEdges
      = [s.heap.nextEdge + 1, s.heap.nextEdge + 2] := (hsame.2.2.2 vb).trans b2
  have k0 : s1.heap.edges s.heap.nextEdge = some ed0 := by
    rw [hsame.1]
    exact g0
  have k1 : s1.heap.edges (s.heap.nextEdge + 1) = some ed1 := by
    rw [hsame.1]
    exact g1
  have k2 : s1.heap.edges (s.heap.nextEdge + 2) = some ed2 := by
    rw [hsame.1]
    exact g2
  have l02 : (s1.heap.vertices v).getLinkingEdge (s1.heap.vertices vb)
      = some (s.heap.nextEdge + 2) := by
    unfold Vertex.getLinkingEdge
    rw [c0, c2]
    exact getCommonElement_seed02 _
  have l12 : (s1.heap.vertices va).getLinkingEdge (s1.heap.vertices vb)
      = some (s.heap.nextEdge + 1) := by
    unfold Vertex.getLinkingEdge
    rw [c1, c2]
    exact getCommonElement_seed12 _
  have l01 : (s1.heap.vertices v).getLinkingEdge (s1.heap.vertices va)
      = some s.heap.nextEdge := by
    unfold Vertex.getLinkingEdge
    rw [c0, c1]
    exact getCommonElement_seed01 _
  have q1 := Mesher.pushIfFront_front s1 v vb _ ed2 l02 k2 p2.1
  have q2 := Mesher.pushIfFront_front
    { s1 with m_edge_front := (s.heap.nextEdge + 2) :: s1.m_edge_front } va vb _ ed1 l12 k1
    p1.1
  have q3 := Mesher.pushIfFront_front
    { s1 with m_edge_front := (s.heap.nextEdge + 1) :: (s.heap.nextEdge + 2)
      :: s1.m_edge_front } v va _ ed0 l01 k0 p0.1
  refine ⟨{ s1 with m_edge_front := s.heap.nextEdge :: (s.heap.nextEdge + 1)
    :: (s.heap.nextEdge + 2) :: s1.m_edge_front }, ?_, ?_⟩
  · rw [hnew, Option.some_bind, q1, Option.some_bind, q2, Option.some_bind]
    exact q3
  · refine ⟨?_, hfl, hnf, hnx, hbo, ?_, ?_, ?_, ?_, l01, l12, l02,
      ⟨ed0, ed1, ed2, k0, k1, k2, p0, p1, p2⟩, ?_⟩
    · show s1.heap.facets = _
      rw [hsame.2.1]
      exact hf6
    · exact (hty v).trans t0
    · exact (hty va).trans t1
    · exact (hty vb).trans t2
    · show s.heap.nextEdge :: (s.heap.nextEdge + 1) :: (s.heap.nextEdge + 2)
        :: s1.m_edge_front = _
      rw [hfr]
    · intro x h0 h1 h2
      show s1.heap.edges x = _
      rw [hsame.1]
      exact gx x h0 h1 h2

/-- Three vertices for which computeBallCenter succeeds are pairwise
distinct. -/
theorem Mesher.computeBallCenter_distinct [LinearOrderedField K] (env : Env K)
    (s : Mesher K) (a b c : Nat) (ctr : Point K)
    (h : Mesher.computeBallCenter env s (s.heap.vertices a) (s.heap.vertices b)
      (s.heap.vertices c) = some ctr) : a ≠ b ∧ b ≠ c ∧ c ≠ a := by
  refine ⟨?_, ?_, ?_⟩
  · intro hab
    rw [Mesher.computeBallCenter_of_tau_zero env s _ _ _
      (Mesher.tau_coincident _ _ _ (Or.inl (by rw [hab])))] at h
    cases h
  · intro hbc
    rw [Mesher.computeBallCenter_of_tau_zero env s _ _ _
      (Mesher.tau_coincident _ _ _ (Or.inr (Or.inl (by rw [hbc]))))] at h
    cases h
  · intro hca
    rw [Mesher.computeBallCenter_of_tau_zero env s _ _ _
      (Mesher.tau_coincident _ _ _ (Or.inr (Or.inr (by rw [hca]))))] at h
    cases h

/-- The test on the type of the linking edge of a pair that has none. -/
theorem Mesh.linkTypeIs_none (m : Mesh K) (a b : Nat) (P : Int → Bool)
    (hl : (m.vertices a).getLinkingEdge (m.vertices b) = none) :
    m.linkTypeIs a b P = some false := by
  unfold Mesh.linkTypeIs
  rw [hl]

/-- On a heap whose adjacent edges are live Mesher::tryTriangleSeed returns. -/
theorem Mesher.tryTriangleSeed_total [LinearOrderedField K] (env : Env K) (s : Mesher K)
    (v1 v2 v3 : Nat) (neighbors : List (K × Nat)) (hlive : s.heap.AdjacencyLive) :
    ∃ r, Mesher.tryTriangleSeed env s v1 v2 v3 neighbors = some r := by
  unfold Mesher.tryTriangleSeed
  split_ifs with hg
  · exact ⟨_, rfl⟩
  · rcases (Mesh.linkTypeIs_live s.heap v1 v3 (fun t => t == 2) hlive).1 with h1 | h1
    · rw [h1]
      exact ⟨_, rfl⟩
    · rw [h1]
      dsimp only
      rcases (Mesh.linkTypeIs_live s.heap v2 v3 (fun t => t == 2) hlive).1 with h2 | h2
      · rw [h2]
        exact ⟨_, rfl⟩
      · rw [h2]
        dsimp only
        cases Mesher.computeBallCenter env s (s.heap.vertices v1) (s.heap.vertices v2)
            (s.heap.vertices v3) with
        | none => exact ⟨_, rfl⟩
        | some center =>
          dsimp only
          split_ifs
          · exact ⟨_, rfl⟩
          · exact ⟨_, rfl⟩

/-- The inner loop of Mesher::trySeed on a heap whose adjacent edges are live:
it returns, and a vertex it returns passed tryTriangleSeed with the center
returned. -/
theorem Mesher.trySeedInner_spec [LinearOrderedField K] (env : Env K) (s : Mesher K)
    (v vtest : Nat) (neighbors rest : List (K × Nat)) (hlive : s.heap.AdjacencyLive) :
    ∃ r, Mesher.trySeedInner env s v vtest neighbors rest = some r ∧
      ∀ cand center, r = some (cand, center) →
        Mesher.tryTriangleSeed env s v vtest cand neighbors = some (some center) := by
  induction rest with
  | nil =>
    refine ⟨none, rfl, ?_⟩
    intro cand center h
    cases h
  | cons nj rest ih =>
    obtain ⟨r, hr⟩ := Mesher.tryTriangleSeed_total env s v vtest nj.2 neighbors hlive
    conv in Mesher.trySeedInner env s v vtest neighbors (nj :: rest) =>
      unfold Mesher.trySeedInner
    rw [hr]
    cases r with
    | none => exact ih
    | some center =>
      refine ⟨some (nj.2, center), rfl, ?_⟩
      intro cand c h
      cases h
      exact hr

/-- The loop of Mesher::trySeed on an orphan vertex `v`, in a state whose
orphan vertices have no adjacent edge: it returns; on false the state is as
before; on true one facet was built, on `v` and two orphan vertices that pass
tryTriangleSeed, with the effect described by `SeedFacet`. -/
theorem Mesher.trySeedLoop_orphans [LinearOrderedField K] (env : Env K) (s : Mesher K)
    (v : Nat) (neighbors rest : List (K × Nat)) (hlive : s.heap.AdjacencyLive)
    (horph : ∀ u, (s.heap.vertices u).m_type = 0 → (s.heap.vertices u).m_adjacentEdges = [])
    (hv : (s.heap.vertices v).m_type = 0) :
    ∃ s1 b, Mesher.trySeedLoop env v neighbors rest s = some (s1, b) ∧
      (b = false → s1 = s) ∧
      (b = true → ∃ va vb center, (s.heap.vertices va).m_type = 0 ∧
        (s.heap.vertices vb).m_type = 0 ∧
        Mesher.tryTriangleSeed env s v va vb neighbors = some (some center) ∧
        Mesher.SeedFacet s v va vb center s1) := by
  induction rest with
  | nil =>
    refine ⟨s, false, rfl, fun _ => rfl, ?_⟩
    intro h
    cases h
  | cons ni rest ih =>
    conv in Mesher.trySeedLoop env v neighbors (ni :: rest) s => unfold Mesher.trySeedLoop
    by_cases hg : (s.heap.vertices ni.2).m_type ≠ 0 ∨ ni.2 = v
    · rw [if_pos hg]
      exact ih
    · rw [if_neg hg]
      rw [not_or, not_not] at hg
      obtain ⟨r, hr, hspec⟩ := Mesher.trySeedInner_spec env s v ni.2 neighbors rest hlive
      rw [hr]
      cases r with
      | none => exact ih
      | some wc =>
        obtain ⟨cand, center⟩ := wc
        dsimp only
        have htri := hspec cand center rfl
        obtain ⟨hct, -, -, -, hball, -⟩ :=
          (Mesher.tryTriangleSeed_some env s v ni.2 cand neighbors center).mp htri
        obtain ⟨d01, d12, d20⟩ := Mesher.computeBallCenter_distinct env s v ni.2 cand center
          hball
        have a0 := horph v hv
        have a1 := horph ni.2 hg.1
        have a2 := horph cand hct
        have k1 : s.heap.linkTypeIs v cand (fun t => t != 1) = some false := by
          apply Mesh.linkTypeIs_none
          unfold Vertex.getLinkingEdge
          rw [a0]
          rfl
        have k2 : s.heap.linkTypeIs ni.2 cand (fun t => t != 1) = some false := by
          apply Mesh.linkTypeIs_none
          unfold Vertex.getLinkingEdge
          rw [a1]
          rfl
        have k3 : s.heap.linkTypeIs v ni.2 (fun t => t != 1) = some false := by
          apply Mesh.linkTypeIs_none
          unfold Vertex.getLinkingEdge
          rw [a0]
          rfl
        rw [k1]
        dsimp only
        rw [k2]
        dsimp only
        rw [k3]
        dsimp only
        obtain ⟨s4, hrun, hseed⟩ := Mesher.seed_facet env s v ni.2 cand center hlive d01 d12
          d20 a0 a1 a2
        rw [hrun]
        dsimp only
        have hlen : s4.m_edge_front.length > 0 := by
          rw [hseed.2.2.2.2.2.2.2.2.1]
          exact Nat.succ_pos _
        rw [if_pos hlen]
        refine ⟨s4, true, rfl, ?_, ?_⟩
        · intro h
          cases h
        · intro _
          exact ⟨ni.2, cand, center, hg.1, hct, htri, hseed⟩

/-- C23: Mesher::trySeed(v), called as findSeedTriangle calls it, on an orphan vertex v, in a state whose orphan vertices have no adjacent edge (the adjacent edges of the heap being live): the call returns.  When it returns true it has built exactly one facet, on v and two vertices va, vb that were orphans and for which tryTriangleSeed(v, va, vb) returned true with the center of the facet; the facet is written at the next facet address, listed and counted; the three vertices have type 1; the three linking edges of the facet are new, each a front edge holding the facet, and they are the three entries pushed at the head of the front; nothing else changes among the edges.  When it returns false the state is as before: no facet, the same front. -/
theorem Mesher.trySeed_seeds [LinearOrderedField K] (env : Env K) (s : Mesher K) (v : Nat)
    (hlive : s.heap.AdjacencyLive)
    (horph : ∀ u, (s.heap.vertices u).m_type = 0 → (s.heap.vertices u).m_adjacentEdges = [])
    (hv : (s.heap.vertices v).m_type = 0) :
    ∃ s1 b, Mesher.trySeed env s v = some (s1, b) ∧
      (b = false → s1 = s) ∧
      (b = true → ∃ va vb center, (s.heap.vertices v).m_type = 0 ∧
        (s.heap.vertices va).m_type = 0 ∧ (s.heap.vertices vb).m_type = 0 ∧
        Mesher.tryTriangleSeed env s v va vb (env.getSortedNeighbors (2 * s.m_ball_radius) v)
          = some (some center) ∧
        Mesher.SeedFacet s v va vb center s1) := by
  unfold Mesher.trySeed
  split_ifs with hlen
  · refine ⟨s, false, rfl, fun _ => rfl, ?_⟩
    intro h
    cases h
  · obtain ⟨s1, b, hrun, hf, ht⟩ := Mesher.trySeedLoop_orphans env s v
      (env.getSortedNeighbors (2 * s.m_ball_radius) v)
      (env.getSortedNeighbors (2 * s.m_ball_radius) v) hlive horph hv
    refine ⟨s1, b, hrun, hf, ?_⟩
    intro hb
    obtain ⟨va, vb, center, h1, h2, h3, h4⟩ := ht hb
    exact ⟨va, vb, center, hv, h1, h2, h3, h4⟩

theorem cloud_live : cloudMesher.heap.AdjacencyLive := by
  intro v e he
  rcases v with _ | _ | _ | _ | n <;> cases he

theorem cloud_orphans (u : Nat) (_h : (cloudMesher.heap.vertices u).m_type = 0) :
    (cloudMesher.heap.vertices u).m_adjacentEdges = [] := by
  rcases u with _ | _ | _ | _ | n <;> rfl

/-! ## A seed on the cloud of the rectangle scene -/

/-- The test of Vertex::isCompatibleWith(v1, v2) read off the normalised cross
product, when no flip takes place. -/
theorem Vertex.isCompatibleWithPair_of [LinearOrderedField K]
    (normalize : K × K × K → K × K × K) (v v1 v2 : Vertex K) (x y z : K)
    (hn : normalize (cross_product (v.pos.x - v1.pos.x) (v.pos.y - v1.pos.y)
      (v.pos.z - v1.pos.z) (v2.pos.x - v1.pos.x) (v2.pos.y - v1.pos.y)
      (v2.pos.z - v1.pos.z)) = (x, y, z))
    (h0 : ¬ x * v.m_nx + y * v.m_ny + z * v.m_nz < -(1 / 10 ^ 16))
    (h1 : -(1 / 10 ^ 16) < x * v1.m_nx + y * v1.m_ny + z * v1.m_nz)
    (h2 : -(1 / 10 ^ 16) < x * v2.m_nx + y * v2.m_ny + z * v2.m_nz) :
    Vertex.isCompatibleWithPair normalize v v1 v2 = true := by
  unfold Vertex.isCompatibleWithPair
  dsimp only
  rw [hn]
  dsimp only
  rw [if_neg h0]
  dsimp only
  rw [Bool.and_eq_true, decide_eq_true_iff, decide_eq_true_iff]
  exact ⟨h1, h2⟩

theorem Mesher.trySeedLoop_skip [LinearOrderedField K] (env : Env K) (s : Mesher K)
    (v : Nat) (neighbors : List (K × Nat)) (ni : K × Nat) (rest : List (K × Nat))
    (hg : (s.heap.vertices ni.2).m_type ≠ 0 ∨ ni.2 = v) :
    Mesher.trySeedLoop env v neighbors (ni :: rest) s
      = Mesher.trySeedLoop env v neighbors rest s := by
  conv_lhs => unfold Mesher.trySeedLoop
  rw [if_pos hg]

/-- The turn of the loop of trySeed on an orphan `ni` other than `v`, when
the next entry `nj` passes tryTriangleSeed: the facet on `v`, `ni`, `nj` is
built and the call returns true. -/
theorem Mesher.trySeedLoop_hit [LinearOrderedField K] (env : Env K) (s : Mesher K)
    (v : Nat) (neighbors : List (K × Nat)) (ni nj : K × Nat) (rest : List (K × Nat))
    (center : Point K) (hlive : s.heap.AdjacencyLive)
    (horph : ∀ u, (s.heap.vertices u).m_type = 0 → (s.heap.vertices u).m_adjacentEdges = [])
    (hv : (s.heap.vertices v).m_type = 0) (h1 : (s.heap.vertices ni.2).m_type = 0)
    (hne : ni.2 ≠ v)
    (htri : Mesher.tryTriangleSeed env s v ni.2 nj.2 neighbors = some (some center)) :
    ∃ s4, Mesher.trySeedLoop env v neighbors (ni :: nj :: rest) s = some (s4, true) ∧
      Mesher.SeedFacet s v ni.2 nj.2 center s4 := by
  have hg : ¬ ((s.heap.vertices ni.2).m_type ≠ 0 ∨ ni.2 = v) := by
    rw [not_or, not_not]
    exact ⟨h1, hne⟩
  have hinner : Mesher.trySeedInner env s v ni.2 neighbors (nj :: rest)
      = some (some (nj.2, center)) := by
    unfold Mesher.trySeedInner
    rw [htri]
  obtain ⟨hct, -, -, -, hball, -⟩ :=
    (Mesher.tryTriangleSeed_some env s v ni.2 nj.2 neighbors center).mp htri
  obtain ⟨d01, d12, d20⟩ := Mesher.computeBallCenter_distinct env s v ni.2 nj.2 center hball
  have a0 := horph v hv
  have a1 := horph ni.2 h1
  have a2 := horph nj.2 hct
  have k1 : s.heap.linkTypeIs v nj.2 (fun t => t != 1) = some false := by
    apply Mesh.linkTypeIs_none
    unfold Vertex.getLinkingEdge
    rw [a0]
    rfl
  have k2 : s.heap.linkTypeIs ni.2 nj.2 (fun t => t != 1) = some false := by
    apply Mesh.linkTypeIs_none
    unfold Vertex.getLinkingEdge
    rw [a1]
    rfl
  have k3 : s.heap.linkTypeIs v ni.2 (fun t => t != 1) = some false := by
    apply Mesh.linkTypeIs_none
    unfold Vertex.getLinkingEdge
    rw [a0]
    rfl
  obtain ⟨s4, hrun, hseed⟩ := Mesher.seed_facet env s v ni.2 nj.2 center hlive d01 d12
    d20 a0 a1 a2
  have hlen : s4.m_edge_front.length > 0 := by
    rw [hseed.2.2.2.2.2.2.2.2.1]
    exact Nat.succ_pos _
  refine ⟨s4, ?_, hseed⟩
  conv_lhs => unfold Mesher.trySeedLoop
  rw [if_neg hg, hinner]
  dsimp only
  rw [k1]
  dsimp only
  rw [k2]
  dsimp only
  rw [k3]
  dsimp only
  rw [hrun]
  dsimp only
  rw [if_pos hlen]

theorem Mesher.trySeed_loop [LinearOrderedField K] (env : Env K) (s : Mesher K) (v : Nat)
    (h : ¬ (env.getSortedNeighbors (2 * s.m_ball_radius) v).length < 3) :
    Mesher.trySeed env s v = Mesher.trySeedLoop env v
      (env.getSortedNeighbors (2 * s.m_ball_radius) v)
      (env.getSortedNeighbors (2 * s.m_ball_radius) v) s := by
  unfold Mesher.trySeed
  rw [if_neg h]

theorem cloud_compatible :
    Vertex.isCompatibleWithPair (normalizeWith cloudEnv.sqrt) (cloudMesher.heap.vertices 1)
      (cloudMesher.heap.vertices 0) (cloudMesher.heap.vertices 3) = true := by
  obtain ⟨-, -, -, h4, -⟩ := rect_sqrt_values
  have hn : normalizeWith cloudEnv.sqrt
      (cross_product ((cloudMesher.heap.vertices 1).pos.x - (cloudMesher.heap.vertices 0).pos.x)
        ((cloudMesher.heap.vertices 1).pos.y - (cloudMesher.heap.vertices 0).pos.y)
        ((cloudMesher.heap.vertices 1).pos.z - (cloudMesher.heap.vertices 0).pos.z)
        ((cloudMesher.heap.vertices 3).pos.x - (cloudMesher.heap.vertices 0).pos.x)
        ((cloudMesher.heap.vertices 3).pos.y - (cloudMesher.heap.vertices 0).pos.y)
        ((cloudMesher.heap.vertices 3).pos.z - (cloudMesher.heap.vertices 0).pos.z))
      = (0, 0, 1) := by
    simp only [normalizeWith, cross_product, cloudEnv, rectEnv, cloudMesher, Mesher.ctor,
      cloudHeap, rectVertex]
    norm_num [h4]
  apply Vertex.isCompatibleWithPair_of _ _ _ _ 0 0 1 hn
  · norm_num [cloudMesher, Mesher.ctor, cloudHeap, rectVertex]
  · norm_num [cloudMesher, Mesher.ctor, cloudHeap, rectVertex]
  · norm_num [cloudMesher, Mesher.ctor, cloudHeap, rectVertex]

theorem cloud_ball :
    Mesher.computeBallCenter cloudEnv cloudMesher (cloudMesher.heap.vertices 0)
      (cloudMesher.heap.vertices 3) (cloudMesher.heap.vertices 1)
      = some ⟨153 / 2, 52, 336⟩ := by
  obtain ⟨h1, h2, h3, h4, h5, h6, -⟩ := rect_sqrt_values
  simp only [Mesher.computeBallCenter, Mesher.computeNormal, normalizeWith, cross_product,
    dist2, cloudHeap, rectVertex, cloudEnv, rectEnv, cloudMesher, Mesher.ctor]
  norm_num [h1, h2, h3, h4, h5, h6]

theorem cloud_empty :
    Mesher.seedBallEmpty cloudMesher 0 3 1 ⟨153 / 2, 52, 336⟩
      [(0, 0), (10816, 3), (23409, 1), (34225, 2)] = true := by
  rw [Mesher.seedBallEmpty_eq, Mesher.checkEmptyBallConfiguration_spec]
  intro v hv n0 n3 n1
  simp only [List.map_cons, List.map_nil, List.mem_cons, List.mem_singleton,
    List.not_mem_nil, or_false] at hv
  rcases hv with rfl | rfl | rfl | rfl
  · exact absurd rfl n0
  · exact absurd rfl n3
  · exact absurd rfl n1
  · norm_num [dist2, cloudMesher, Mesher.ctor, cloudHeap, rectVertex]

theorem cloud_triangle :
    Mesher.tryTriangleSeed cloudEnv cloudMesher 0 3 1
      [(0, 0), (10816, 3), (23409, 1), (34225, 2)] = some (some ⟨153 / 2, 52, 336⟩) :=
  (Mesher.tryTriangleSeed_some cloudEnv cloudMesher 0 3 1 _ _).mpr
    ⟨rfl, cloud_compatible, Mesh.linkTypeIs_none _ _ _ _ rfl, Mesh.linkTypeIs_none _ _ _ _ rfl,
      cloud_ball, cloud_empty⟩

/-- On the cloud Mesher::trySeed on the corner 0 returns true: it builds the
facet 0 on the corners 0, 3 and 1, with the ball center at height 336, and the
front becomes the three new edges 0, 1, 2. -/
theorem cloud_trySeed :
    ∃ s1, Mesher.trySeed cloudEnv cloudMesher 0 = some (s1, true) ∧
      Mesher.SeedFacet cloudMesher 0 3 1 ⟨153 / 2, 52, 336⟩ s1 ∧
      s1.m_edge_front = [0, 1, 2] ∧ s1.m_facets = [0] := by
  have hnb : cloudEnv.getSortedNeighbors (2 * cloudMesher.m_ball_radius) 0
      = [(0, 0), (10816, 3), (23409, 1), (34225, 2)] := rfl
  obtain ⟨s4, hrun, hseed⟩ := Mesher.trySeedLoop_hit cloudEnv cloudMesher 0
    [(0, 0), (10816, 3), (23409, 1), (34225, 2)] (10816, 3) (23409, 1) [(34225, 2)]
    ⟨153 / 2, 52, 336⟩ cloud_live cloud_orphans rfl rfl (by decide) cloud_triangle
  refine ⟨s4, ?_, hseed, hseed.2.2.2.2.2.2.2.2.1, hseed.2.1⟩
  rw [Mesher.trySeed_loop cloudEnv cloudMesher 0 (by rw [hnb]; decide), hnb,
    Mesher.trySeedLoop_skip cloudEnv cloudMesher 0 _ (0, 0) _ (Or.inr rfl)]
  exact hrun

/-- C23 on the cloud of the rectangle scene, for the corner 0, together with the run itself: the call returns true with the facet on the corners 0, 3, 1. -/
theorem Mesher.trySeed_seeds_witness :
    (∃ s1 b, Mesher.trySeed cloudEnv cloudMesher 0 = some (s1, b) ∧
      (b = false → s1 = cloudMesher) ∧
      (b = true → ∃ va vb center, (cloudMesher.heap.vertices 0).m_type = 0 ∧
        (cloudMesher.heap.vertices va).m_type = 0 ∧
        (cloudMesher.heap.vertices vb).m_type = 0 ∧
        Mesher.tryTriangleSeed cloudEnv cloudMesher 0 va vb
          (cloudEnv.getSortedNeighbors (2 * cloudMesher.m_ball_radius) 0)
          = some (some center) ∧
        Mesher.SeedFacet cloudMesher 0 va vb center s1)) ∧
    ∃ s1, Mesher.trySeed cloudEnv cloudMesher 0 = some (s1, true) ∧
      Mesher.SeedFacet cloudMesher 0 3 1 ⟨153 / 2, 52, 336⟩ s1 ∧
      s1.m_edge_front = [0, 1, 2] ∧ s1.m_facets = [0] :=
  ⟨Mesher.trySeed_seeds cloudEnv cloudMesher 0 cloud_live cloud_orphans rfl, cloud_trySeed⟩

/-! ## The contract of Vertex::findBorder -/

/-- The test of the loop of findBorder on an adjacent edge, read on the source
of that edge. -/
theorem Mesh.BorderVia.of_good (m : Mesh K) (self test : Nat) (fc : Facet K) (ei : Nat)
    (ed : Edge) (hmem : ei ∈ (m.vertices self).m_adjacentEdges) (hed : m.edges ei = some ed)
    (hg : m.BorderGood self test fc ei) : m.BorderVia self test fc ed.m_src := by
  obtain ⟨ed0, e, ed1, h0, ht, hs, hv, hl, he, ht1, hs1⟩ := hg
  have hEq : ed0 = ed := Option.some.inj (h0.symm.trans hed)
  rw [hEq] at ht hs hv hl
  exact ⟨ei, hmem, ed, e, ed1, hed, ht, rfl, hs, hv, hl, he, ht1, hs1⟩

/-- C31 (as amended): on a heap whose adjacent edges are live, for a pair
(src, tgt) whose linking edge has a live first facet `fc`, src.findBorder(tgt)
returns a vertex exactly when some vertex `v` qualifies: a border edge adjacent
to src has the source `v`, distinct from src and not a vertex of `fc`, and the
linking edge of `v` and tgt is a border edge whose source is tgt.  A vertex
that is returned qualifies, and NULL is returned when no vertex does. -/
theorem Vertex.findBorder_iff (m : Mesh K) (self test e0 f : Nat) (ed0 : Edge)
    (fc : Facet K) (hlive : m.AdjacencyLive)
    (hl : (m.vertices self).getLinkingEdge (m.vertices test) = some e0)
    (hed0 : m.edges e0 = some ed0) (hf1 : ed0.m_facet1 = some f)
    (hfc : m.facets f = some fc) :
    ((∃ v, Vertex.findBorder m self test = some (some v)) ↔ ∃ v, m.BorderVia self test fc v) ∧
    (∀ v, Vertex.findBorder m self test = some (some v) → m.BorderVia self test fc v) ∧
    ((¬ ∃ v, m.BorderVia self test fc v) → Vertex.findBorder m self test = some none) := by
  have hvia : ∀ v, m.BorderVia self test fc v →
      ∃ ei ∈ (m.vertices self).m_adjacentEdges, m.BorderGood self test fc ei := by
    rintro v ⟨ei, hmem, ed, e, ed1, hed, ht, hs, hne, hv, hlk, he, ht1, hs1⟩
    refine ⟨ei, hmem, ed, e, ed1, hed, ht, ?_, ?_, ?_, he, ht1, hs1⟩
    · rw [hs]; exact hne
    · rw [hs]; exact hv
    · rw [hs]; exact hlk
  rcases Vertex.findBorder_spec m self test e0 f ed0 fc hlive hl hed0 hf1 hfc with
    ⟨hnone, hall⟩ | ⟨ei, hmem, hg, ed, hed, hsome⟩
  · have hno : ¬ ∃ v, m.BorderVia self test fc v := by
      rintro ⟨v, hv⟩
      obtain ⟨ei, hmem, hg⟩ := hvia v hv
      exact hall ei hmem hg
    refine ⟨⟨?_, fun h => absurd h hno⟩, ?_, fun _ => hnone⟩
    · rintro ⟨v, hv⟩
      rw [hnone] at hv
      cases hv
    · intro v hv
      rw [hnone] at hv
      cases hv
  · have hgood := Mesh.BorderVia.of_good m self test fc ei ed hmem hed hg
    refine ⟨⟨fun _ => ⟨_, hgood⟩, fun _ => ⟨_, hsome⟩⟩, ?_, fun h => absurd ⟨_, hgood⟩ h⟩
    intro v hv
    rw [hsome] at hv
    have hEq : ed.m_src = v := Option.some.inj (Option.some.inj hv)
    rw [← hEq]
    exact hgood

/-- C31 as stated fails on the store with the triangular hole: for the border
edge 0 (0→1), whose facet is (0,1,3), findBorder returns the vertex 2 through
the border edges 2 (2→0) and 1 (1→2); the edge 1 between 2 and 1 has the source
1 and the target 2, and no edge at all runs to the target 1 from a source that
is not on the facet. -/
theorem Vertex.findBorder_source_is_test :
    Vertex.findBorder holeHeap 0 1 = some (some 2) ∧
    holeHeap.edges 0 = some ⟨0, 1, some 0, none, 0⟩ ∧
    holeHeap.facets 0 = some ⟨0, 1, 3, ⟨0, 0, 0⟩⟩ ∧
    holeHeap.edges 2 = some ⟨2, 0, some 2, none, 0⟩ ∧
    holeHeap.edges 1 = some ⟨1, 2, some 1, none, 0⟩ ∧
    ¬ ∃ v e ed, holeHeap.edges e = some ed ∧ ed.m_type = 0 ∧ ed.m_src = v ∧ ed.m_tgt = 1 ∧
      (⟨0, 1, 3, ⟨0, 0, 0⟩⟩ : Facet ℚ).hasVertex v = false := by
  refine ⟨rfl, rfl, rfl, rfl, rfl, ?_⟩
  rintro ⟨v, e, ed, hed, _, hs, ht, hv⟩
  rcases e with _ | _ | _ | n
  · cases hed
    subst hs
    revert hv
    decide
  · cases hed
    revert ht
    decide
  · cases hed
    revert ht
    decide
  · cases hed

theorem hole_via : holeHeap.BorderVia 0 1 ⟨0, 1, 3, ⟨0, 0, 0⟩⟩ 2 :=
  ⟨2, by decide, ⟨2, 0, some 2, none, 0⟩, 1, ⟨1, 2, some 1, none, 0⟩, rfl, rfl, rfl, by decide,
    rfl, rfl, rfl, rfl, rfl⟩

/-- C31 on the store with the triangular hole, for the border edge 0 (0→1):
the vertex 2 qualifies and findBorder returns a vertex. -/
theorem Vertex.findBorder_iff_witness :
    ((∃ v, Vertex.findBorder holeHeap 0 1 = some (some v)) ↔
      ∃ v, holeHeap.BorderVia 0 1 ⟨0, 1, 3, ⟨0, 0, 0⟩⟩ v) ∧
    (∀ v, Vertex.findBorder holeHeap 0 1 = some (some v) →
      holeHeap.BorderVia 0 1 ⟨0, 1, 3, ⟨0, 0, 0⟩⟩ v) ∧
    ((¬ ∃ v, holeHeap.BorderVia 0 1 ⟨0, 1, 3, ⟨0, 0, 0⟩⟩ v) →
      Vertex.findBorder holeHeap 0 1 = some none) :=
  Vertex.findBorder_iff holeHeap 0 1 0 0 ⟨0, 1, some 0, none, 0⟩ ⟨0, 1, 3, ⟨0, 0, 0⟩⟩
    hole_live rfl rfl rfl rfl

/-! ## The processing depth of Mesher::parallelReconstruct -/

/-- For an octree of depth at least 3 the processing depth lies between the
octree depth minus 3 and the octree depth. -/
theorem Mesher.processingDepth_clamped [Field K] (floorLog2 : K → Int) (octreeDepth : Nat)
    (size radius : K) (h3 : 3 ≤ octreeDepth) (hu : octreeDepth < 2 ^ 32) :
    octreeDepth - 3 ≤ Mesher.processingDepth floorLog2 octreeDepth size radius ∧
    Mesher.processingDepth floorLog2 octreeDepth size radius ≤ octreeDepth := by
  have hlow : (octreeDepth + (2 ^ 32 - 3)) % 2 ^ 32 = octreeDepth - 3 := by omega
  unfold Mesher.processingDepth
  dsimp only
  rw [hlow]
  split_ifs with h1 h2
  · omega
  · omega
  · omega

/-- For an octree of depth below 3 the difference `getDepth() - 3` wraps
around: every computed depth below it is replaced by it, and the processing
depth is then `2^32 + octreeDepth - 3`, far above the octree depth. -/
theorem Mesher.processingDepth_wraps [Field K] (floorLog2 : K → Int) (octreeDepth : Nat)
    (size radius : K) (h3 : octreeDepth < 3)
    (hd : toUInt32 ((octreeDepth : Int) - floorLog2 (size / (3 / 2 * (21 / 10 * radius))))
      < 2 ^ 32 + octreeDepth - 3) :
    Mesher.processingDepth floorLog2 octreeDepth size radius = 2 ^ 32 + octreeDepth - 3 := by
  have hlow : (octreeDepth + (2 ^ 32 - 3)) % 2 ^ 32 = 2 ^ 32 + octreeDepth - 3 := by omega
  unfold Mesher.processingDepth
  dsimp only
  rw [hlow, if_pos hd]

/-- C34 at an octree of depth 2 and size 63/20 with the largest radius 1: the
band width is 21/10, the ratio `size / (1.5 * d)` is 1, its logarithm 0, the
computed depth 2; `getDepth() - 3` is 4294967295 and the processing depth
becomes 4294967295, not a depth between 0 and 2. -/
theorem Mesher.processingDepth_small_octree :
    (63 / 20 : ℚ) / (3 / 2 * (21 / 10 * 1)) = 1 ∧
    Mesher.processingDepth (fun x : ℚ => Int.log 2 x) 2 (63 / 20) 1 = 4294967295 := by
  have h1 : (63 / 20 : ℚ) / (3 / 2 * (21 / 10 * 1)) = 1 := by norm_num
  refine ⟨h1, ?_⟩
  have h := Mesher.processingDepth_wraps (fun x : ℚ => Int.log 2 x) 2 (63 / 20) 1 (by norm_num)
    (by
      show toUInt32 (((2 : Nat) : Int) - Int.log 2 ((63 / 20 : ℚ) / (3 / 2 * (21 / 10 * 1))))
        < 2 ^ 32 + 2 - 3
      rw [h1, Int.log_one_right]
      decide)
  rw [h]
  norm_num

/-! ## The divisor of the squared circumradius -/

/-- C39: Mesher::changeRadius(r), on a border list whose edges are live with a
live first facet, returns, and neither creates nor loses an edge: the front
followed by the border list is afterwards a permutation of what it was, the
edge allocator has not moved and an address holds an edge afterwards exactly
when it did before; no facet is created or removed (the facet store, the facet
list, its counter and the facet allocator are as before); and an edge keeps all
its fields unless it was on the border list, has left it and is now on the
front, in which case only its type changed, to 1. -/
theorem Mesher.changeRadius_frame [LinearOrderedField K] (env : Env K) (s : Mesher K)
    (r : K) (hb : Mesher.BorderLive s s.m_border_edges) :
    ∃ s1, Mesher.changeRadius env s r = some s1 ∧
      (s1.m_edge_front ++ s1.m_border_edges).Perm (s.m_edge_front ++ s.m_border_edges) ∧
      s1.heap.nextEdge = s.heap.nextEdge ∧
      (∀ e, (s1.heap.edges e).isSome = (s.heap.edges e).isSome) ∧
      s1.heap.facets = s.heap.facets ∧ s1.m_facets = s.m_facets ∧
      s1.m_nfacets = s.m_nfacets ∧ s1.nextFacet = s.nextFacet ∧
      (∀ e ed, s.heap.edges e = some ed →
        s1.heap.edges e = some ed ∨
        (s1.heap.edges e = some { ed with m_type := 1 } ∧ e ∈ s.m_border_edges ∧
          e ∉ s1.m_border_edges ∧ e ∈ s1.m_edge_front)) := by
  obtain ⟨s1, hrun, hbo, hfr, hedges, -, hfa, hne, hnf, -, -, hfl, -, -, -, hcnt⟩ :=
    Mesher.changeRadiusLoop_spec env s.m_border_edges
      { s.setBallRadius r with m_border_edges := [] } hb
  have hbo1 : s1.m_border_edges = s.m_border_edges.filter
      (fun e => !Mesher.promotes env { s.setBallRadius r with m_border_edges := [] } e) := by
    rw [hbo]
    exact List.nil_append _
  have hfr1 : s1.m_edge_front = s.m_edge_front ++ s.m_border_edges.filter
      (Mesher.promotes env { s.setBallRadius r with m_border_edges := [] }) := hfr
  refine ⟨s1, hrun, ?_, hne, ?_, hfa, hfl, hcnt, hnf, ?_⟩
  · rw [hfr1, hbo1, List.append_assoc]
    exact List.Perm.append_left _ (List.filter_append_perm _ _)
  · intro e
    rw [hedges e]
    show (Option.map _ (s.heap.edges e)).isSome = (s.heap.edges e).isSome
    cases s.heap.edges e <;> rfl
  · intro e ed hed
    have h1 := hedges e
    have hed1 : ({ s.setBallRadius r with m_border_edges := [] } : Mesher K).heap.edges e
        = some ed := hed
    rw [hed1] at h1
    by_cases hp : e ∈ s.m_border_edges ∧
        Mesher.promotes env { s.setBallRadius r with m_border_edges := [] } e = true
    · right
      refine ⟨?_, hp.1, ?_, ?_⟩
      · rw [h1, Option.map_some', if_pos hp]
      · rw [hbo1, List.mem_filter]
        rintro ⟨-, h2⟩
        rw [hp.2] at h2
        cases h2
      · rw [hfr1]
        exact List.mem_append_right _ (List.mem_filter.mpr hp)
    · left
      rw [h1, Option.map_some', if_neg hp]

/-- C39 on the sample rectangle, whose border list holds the edges 0 and 1 of
the facet 0, for the new radius 400. -/
theorem Mesher.changeRadius_frame_witness :
    Mesher.BorderLive rectMesher rectMesher.m_border_edges ∧
    ∃ s1, Mesher.changeRadius rectEnv rectMesher 400 = some s1 ∧
      (s1.m_edge_front ++ s1.m_border_edges).Perm
        (rectMesher.m_edge_front ++ rectMesher.m_border_edges) ∧
      s1.heap.nextEdge = rectMesher.heap.nextEdge ∧
      (∀ e, (s1.heap.edges e).isSome = (rectMesher.heap.edges e).isSome) ∧
      s1.heap.facets = rectMesher.heap.facets ∧ s1.m_facets = rectMesher.m_facets ∧
      s1.m_nfacets = rectMesher.m_nfacets ∧ s1.nextFacet = rectMesher.nextFacet ∧
      (∀ e ed, rectMesher.heap.edges e = some ed →
        s1.heap.edges e = some ed ∨
        (s1.heap.edges e = some { ed with m_type := 1 } ∧ e ∈ rectMesher.m_border_edges ∧
          e ∉ s1.m_border_edges ∧ e ∈ s1.m_edge_front)) :=
  ⟨rect_border_live, Mesher.changeRadius_frame rectEnv rectMesher 400 rect_border_live⟩

/-! ## The facet list under the sequential driver -/

theorem Mesher.newFacetOnEdge_facets [LinearOrderedField K] (env : Env K) (s s1 : Mesher K)
    (edge candidate : Nat) (center : Point K)
    (h : Mesher.newFacetOnEdge env s edge candidate center = some s1) :
    s1.m_facets = s.m_facets ++ [s.nextFacet] := by
  unfold Mesher.newFacetOnEdge at h
  obtain ⟨h1, -, h2⟩ := Option.bind_eq_some.mp h
  exact (Mesher.addFacet_spec _ s1 _ h2).2.1

theorem Mesher.newFacet_facets [LinearOrderedField K] (env : Env K) (s s1 : Mesher K)
    (v0 v1 v2 : Nat) (center : Point K)
    (h : Mesher.newFacet env s v0 v1 v2 center = some s1) :
    s1.m_facets = s.m_facets ++ [s.nextFacet] := by
  unfold Mesher.newFacet at h
  obtain ⟨h1, -, h2⟩ := Option.bind_eq_some.mp h
  exact (Mesher.addFacet_spec _ s1 _ h2).2.1

/-- A turn of the expansion keeps the facet list, or appends one facet to
it. -/
theorem Mesher.expandStep_facets [LinearOrderedField K] (env : Env K) (s s2 : Mesher K)
    (h : Mesher.expandStep env s = some s2) : s.m_facets <+: s2.m_facets := by
  unfold Mesher.expandStep at h
  cases hfront : s.m_edge_front with
  | nil =>
    rw [hfront] at h
    cases h
    exact List.prefix_refl _
  | cons head tail =>
    rw [hfront] at h
    dsimp only at h
    cases hed : s.heap.edges head with
    | none => rw [hed] at h; cases h
    | some ed =>
      rw [hed] at h
      dsimp only at h
      by_cases ht : ed.m_type ≠ 1
      · rw [if_pos ht] at h
        cases h
        exact List.prefix_refl _
      · rw [if_neg ht] at h
        cases hfind : Mesher.findCandidateVertex env { s with m_edge_front := tail } head with
        | none => rw [hfind] at h; cases h
        | some r =>
          rw [hfind] at h
          cases r with
          | none =>
            dsimp only at h
            cases h
            exact List.prefix_refl _
          | some wc =>
            obtain ⟨candidate, center⟩ := wc
            dsimp only at h
            split_ifs at h with hg
            · cases h
              exact List.prefix_refl _
            · cases h1 : s.heap.linkTypeIs candidate ed.m_src (fun t => t != 1) with
              | none => rw [h1] at h; cases h
              | some b1 =>
                rw [h1] at h
                cases b1 with
                | true =>
                  dsimp only at h
                  cases h
                  exact List.prefix_refl _
                | false =>
                  dsimp only at h
                  cases h2 : s.heap.linkTypeIs candidate ed.m_tgt (fun t => t != 1) with
                  | none => rw [h2] at h; cases h
                  | some b2 =>
                    rw [h2] at h
                    cases b2 with
                    | true =>
                      dsimp only at h
                      cases h
                      exact List.prefix_refl _
                    | false =>
                      dsimp only at h
                      obtain ⟨s1, hs1, h⟩ := Option.bind_eq_some.mp h
                      have hf1 := Mesher.newFacetOnEdge_facets env _ s1 _ _ _ hs1
                      cases he1 : s1.heap.edges head with
                      | none => rw [he1] at h; cases h
                      | some ed1 =>
                        rw [he1] at h
                        dsimp only at h
                        obtain ⟨s3, hs3, h⟩ := Option.bind_eq_some.mp h
                        obtain ⟨-, hf3, -⟩ := Mesher.pushIfFront_spec s1 s3 _ _ hs3
                        cases he2 : s3.heap.edges head with
                        | none => rw [he2] at h; cases h
                        | some ed2 =>
                          rw [he2] at h
                          dsimp only at h
                          obtain ⟨-, hf4, -⟩ := Mesher.pushIfFront_spec s3 s2 _ _ h
                          rw [hf4, hf3, hf1]
                          exact List.prefix_append _ _

theorem Mesher.expandTriangulation_facets [LinearOrderedField K] (env : Env K) (fuel : Nat)
    (s s1 : Mesher K) (h : Mesher.expandTriangulation env fuel s = some s1) :
    s.m_facets <+: s1.m_facets := by
  induction fuel generalizing s with
  | zero =>
    unfold Mesher.expandTriangulation at h
    split_ifs at h with h0
    cases h
    exact List.prefix_refl _
  | succ n ih =>
    unfold Mesher.expandTriangulation at h
    split_ifs at h with h0
    · cases h
      exact List.prefix_refl _
    · obtain ⟨s2, hs2, h2⟩ := Option.bind_eq_some.mp h
      exact (Mesher.expandStep_facets env s s2 hs2).trans (ih s2 h2)

theorem Mesher.trySeedLoop_facets [LinearOrderedField K] (env : Env K) (v : Nat)
    (neighbors rest : List (K × Nat)) (s : Mesher K) (r : Mesher K × Bool)
    (h : Mesher.trySeedLoop env v neighbors rest s = some r) :
    s.m_facets <+: r.1.m_facets := by
  induction rest generalizing s with
  | nil =>
    unfold Mesher.trySeedLoop at h
    cases h
    exact List.prefix_refl _
  | cons ni rest ih =>
    unfold Mesher.trySeedLoop at h
    split_ifs at h with hg
    · exact ih s h
    · cases hin : Mesher.trySeedInner env s v ni.2 neighbors rest with
      | none => rw [hin] at h; cases h
      | some r0 =>
        rw [hin] at h
        cases r0 with
        | none => exact ih s h
        | some wc =>
          obtain ⟨candidate, center⟩ := wc
          dsimp only at h
          cases h1 : s.heap.linkTypeIs v candidate (fun t => t != 1) with
          | none => rw [h1] at h; cases h
          | some b1 =>
            rw [h1] at h
            cases b1 with
            | true => exact ih s h
            | false =>
              dsimp only at h
              cases h2 : s.heap.linkTypeIs ni.2 candidate (fun t => t != 1) with
              | none => rw [h2] at h; cases h
              | some b2 =>
                rw [h2] at h
                cases b2 with
                | true => exact ih s h
                | false =>
                  dsimp only at h
                  cases h3 : s.heap.linkTypeIs v ni.2 (fun t => t != 1) with
                  | none => rw [h3] at h; cases h
                  | some b3 =>
                    rw [h3] at h
                    cases b3 with
                    | true => exact ih s h
                    | false =>
                      dsimp only at h
                      cases h4 : (Mesher.newFacet env s v ni.2 candidate center).bind fun s1 =>
                          (s1.pushIfFront v candidate).bind fun s2 =>
                          (s2.pushIfFront ni.2 candidate).bind fun s3 =>
                          s3.pushIfFront v ni.2 with
                      | none => rw [h4] at h; cases h
                      | some s4 =>
                        rw [h4] at h
                        dsimp only at h
                        obtain ⟨a1, ha1, h5⟩ := Option.bind_eq_some.mp h4
                        obtain ⟨a2, ha2, h5⟩ := Option.bind_eq_some.mp h5
                        obtain ⟨a3, ha3, h5⟩ := Option.bind_eq_some.mp h5
                        have hf1 := Mesher.newFacet_facets env s a1 _ _ _ _ ha1
                        obtain ⟨-, hf2, -⟩ := Mesher.pushIfFront_spec a1 a2 _ _ ha2
                        obtain ⟨-, hf3, -⟩ := Mesher.pushIfFront_spec a2 a3 _ _ ha3
                        obtain ⟨-, hf4, -⟩ := Mesher.pushIfFront_spec a3 s4 _ _ h5
                        have hpre : s.m_facets <+: s4.m_facets := by
                          rw [hf4, hf3, hf2, hf1]
                          exact List.prefix_append _ _
                        split_ifs at h with hlen
                        · cases h
                          exact hpre
                        · exact hpre.trans (ih s4 h)

theorem Mesher.trySeed_facets [LinearOrderedField K] (env : Env K) (v : Nat)
    (s : Mesher K) (r : Mesher K × Bool) (h : Mesher.trySeed env s v = some r) :
    s.m_facets <+: r.1.m_facets := by
  unfold Mesher.trySeed at h
  split_ifs at h
  · cases h
    exact List.prefix_refl _
  · exact Mesher.trySeedLoop_facets env v _ _ s r h

theorem Mesher.seedPoints_facets [LinearOrderedField K] (env : Env K) (fuel : Nat)
    (points : List Nat) (acc r : Mesher K × Bool)
    (h : Mesher.seedPoints env fuel points acc = some r) :
    acc.1.m_facets <+: r.1.m_facets := by
  induction points generalizing acc with
  | nil =>
    unfold Mesher.seedPoints at h
    cases h
    exact List.prefix_refl _
  | cons p rest ih =>
    unfold Mesher.seedPoints at h
    split_ifs at h with h0
    · cases ht : Mesher.trySeed env acc.1 p with
      | none => rw [ht] at h; cases h
      | some sb =>
        have hpre := Mesher.trySeed_facets env p acc.1 sb ht
        obtain ⟨s1, b⟩ := sb
        rw [ht] at h
        cases b with
        | true =>
          dsimp only at h
          cases he : Mesher.expandTriangulation env fuel s1 with
          | none => rw [he] at h; cases h
          | some s2 =>
            rw [he] at h
            exact (hpre.trans (Mesher.expandTriangulation_facets env fuel s1 s2 he)).trans
              (ih (s2, true) h)
        | false =>
          dsimp only at h
          exact hpre.trans (ih (s1, acc.2) h)
    · exact ih acc h

theorem Mesher.findSeedTriangleNode_facets [LinearOrderedField K] (env : Env K) (fuel : Nat)
    (node : OctreeNode) (acc r : Mesher K × Bool)
    (h : Mesher.findSeedTriangleNode env fuel node acc = some r) :
    acc.1.m_facets <+: r.1.m_facets := by
  induction node generalizing acc r with
  | null =>
    unfold Mesher.findSeedTriangleNode at h
    cases h
    exact List.prefix_refl _
  | leaf points =>
    unfold Mesher.findSeedTriangleNode at h
    exact Mesher.seedPoints_facets env fuel points acc r h
  | inner c0 c1 c2 c3 c4 c5 c6 c7 i0 i1 i2 i3 i4 i5 i6 i7 =>
    unfold Mesher.findSeedTriangleNode at h
    obtain ⟨a0, h0, h⟩ := Option.bind_eq_some.mp h
    obtain ⟨a1, h1, h⟩ := Option.bind_eq_some.mp h
    obtain ⟨a2, h2, h⟩ := Option.bind_eq_some.mp h
    obtain ⟨a3, h3, h⟩ := Option.bind_eq_some.mp h
    obtain ⟨a4, h4, h⟩ := Option.bind_eq_some.mp h
    obtain ⟨a5, h5, h⟩ := Option.bind_eq_some.mp h
    obtain ⟨a6, h6, h⟩ := Option.bind_eq_some.mp h
    exact (((((((i0 acc a0 h0).trans (i1 a0 a1 h1)).trans (i2 a1 a2 h2)).trans
      (i3 a2 a3 h3)).trans (i4 a3 a4 h4)).trans (i5 a4 a5 h5)).trans (i6 a5 a6 h6)).trans
      (i7 a6 r h)

/-- Mesher::reconstruct() only appends to the facet list. -/
theorem Mesher.reconstruct_facets [LinearOrderedField K] (env : Env K) (fuel : Nat)
    (root : OctreeNode) (s s1 : Mesher K) (h : Mesher.reconstruct env fuel root s = some s1) :
    s.m_facets <+: s1.m_facets := by
  unfold Mesher.reconstruct at h
  split_ifs at h with h0
  · obtain ⟨r, hr, hr1⟩ := Option.map_eq_some'.mp h
    rw [← hr1]
    unfold Mesher.findSeedTriangle at hr
    cases root with
    | null => cases hr
    | leaf points => exact Mesher.findSeedTriangleNode_facets env fuel _ (s, false) r hr
    | inner c0 c1 c2 c3 c4 c5 c6 c7 =>
      exact Mesher.findSeedTriangleNode_facets env fuel _ (s, false) r hr
  · exact Mesher.expandTriangulation_facets env fuel s s1 h

/-- The loop of changeRadius leaves the facet list alone. -/
theorem Mesher.changeRadiusLoop_facets [LinearOrderedField K] (env : Env K) (l : List Nat)
    (s s1 : Mesher K) (h : Mesher.changeRadiusLoop env l s = some s1) :
    s1.m_facets = s.m_facets := by
  induction l generalizing s with
  | nil =>
    unfold Mesher.changeRadiusLoop at h
    cases h
    rfl
  | cons e rest ih =>
    unfold Mesher.changeRadiusLoop at h
    cases hed : s.heap.edges e with
    | none => rw [hed] at h; cases h
    | some ed =>
      rw [hed] at h
      dsimp only at h
      cases hf1 : ed.m_facet1 with
      | none => rw [hf1] at h; cases h
      | some f =>
        rw [hf1] at h
        dsimp only at h
        cases hfc : s.heap.facets f with
        | none => rw [hfc] at h; cases h
        | some fc =>
          rw [hfc] at h
          dsimp only at h
          split_ifs at h
          · exact (ih _ h).trans rfl
          · exact (ih _ h).trans rfl

theorem Mesher.changeRadius_facets [LinearOrderedField K] (env : Env K) (s s1 : Mesher K)
    (r : K) (h : Mesher.changeRadius env s r = some s1) : s1.m_facets = s.m_facets := by
  unfold Mesher.changeRadius at h
  exact (Mesher.changeRadiusLoop_facets env _ _ s1 h).trans rfl

/-- The sequential driver only appends to the facet list. -/
theorem Mesher.reconstructAll_facets [LinearOrderedField K] (env : Env K) (fuel : Nat)
    (root : OctreeNode) (radii : List K) (s s1 : Mesher K)
    (h : Mesher.reconstructAll env fuel root radii s = some s1) :
    s.m_facets <+: s1.m_facets := by
  induction radii generalizing s with
  | nil =>
    unfold Mesher.reconstructAll at h
    cases h
    exact List.prefix_refl _
  | cons radius rest ih =>
    unfold Mesher.reconstructAll at h
    obtain ⟨a1, h1, h⟩ := Option.bind_eq_some.mp h
    obtain ⟨a2, h2, h⟩ := Option.bind_eq_some.mp h
    have hc := Mesher.changeRadius_facets env s a1 radius h1
    have hr := Mesher.reconstruct_facets env fuel root a1 a2 h2
    rw [hc] at hr
    exact hr.trans (ih a2 h)

theorem Mesher.reconstructAll_cons [LinearOrderedField K] (env : Env K) (fuel : Nat)
    (root : OctreeNode) (radius : K) (rest : List K) (s : Mesher K) :
    Mesher.reconstructAll env fuel root (radius :: rest) s
      = (Mesher.changeRadius env s radius).bind fun s1 =>
          (Mesher.reconstruct env fuel root s1).bind fun s2 =>
            Mesher.reconstructAll env fuel root rest s2 := rfl

/-- The sequential driver on a list of radii followed by another is the driver
on the first list, then the driver on the second. -/
theorem Mesher.reconstructAll_append [LinearOrderedField K] (env : Env K) (fuel : Nat)
    (root : OctreeNode) (l1 l2 : List K) (s : Mesher K) :
    Mesher.reconstructAll env fuel root (l1 ++ l2) s
      = (Mesher.reconstructAll env fuel root l1 s).bind
          (Mesher.reconstructAll env fuel root l2) := by
  induction l1 generalizing s with
  | nil => rfl
  | cons radius rest ih =>
    rw [List.cons_append, Mesher.reconstructAll_cons, Mesher.reconstructAll_cons]
    cases h1 : Mesher.changeRadius env s radius with
    | none => rfl
    | some a1 =>
      rw [Option.some_bind, Option.some_bind]
      cases h2 : Mesher.reconstruct env fuel root a1 with
      | none => rfl
      | some a2 =>
        rw [Option.some_bind, Option.some_bind]
        exact ih a2

/-- C32: whenever the sequential driver Mesher::reconstruct(radii) returns on
the radii [r1, r2] (in particular for r1 < r2), it returns on [r1] from the same
state, the run on [r1, r2] is that run followed by the run on [r2], and the
facet list after [r1] is a prefix of the facet list after [r1, r2]: no facet
is removed or reordered, so every facet of the first list is in the second. -/
theorem Mesher.reconstructAll_monotone [LinearOrderedField K] (env : Env K) (fuel : Nat)
    (root : OctreeNode) (r1 r2 : K) (s t2 : Mesher K)
    (h : Mesher.reconstructAll env fuel root [r1, r2] s = some t2) :
    ∃ t1, Mesher.reconstructAll env fuel root [r1] s = some t1 ∧
      Mesher.reconstructAll env fuel root [r2] t1 = some t2 ∧
      s.m_facets <+: t1.m_facets ∧ t1.m_facets <+: t2.m_facets ∧
      ∀ f ∈ t1.m_facets, f ∈ t2.m_facets := by
  have happ := Mesher.reconstructAll_append env fuel root [r1] [r2] s
  rw [show [r1] ++ [r2] = [r1, r2] from rfl, h] at happ
  obtain ⟨t1, h1, h2⟩ := Option.bind_eq_some.mp happ.symm
  have hp1 := Mesher.reconstructAll_facets env fuel root [r1] s t1 h1
  have hp2 := Mesher.reconstructAll_facets env fuel root [r2] t1 t2 h2
  exact ⟨t1, h1, h2, hp1, hp2, fun f hf => hp2.subset hf⟩

/-! ## A run of the sequential driver on the cloud -/

/-- Mesher::tryTriangleSeed reads the library through the square root only. -/
theorem Mesher.tryTriangleSeed_env [LinearOrderedField K] (env env2 : Env K)
    (h : env2.sqrt = env.sqrt) (s : Mesher K) (v1 v2 v3 : Nat) (neighbors : List (K × Nat)) :
    Mesher.tryTriangleSeed env2 s v1 v2 v3 neighbors
      = Mesher.tryTriangleSeed env s v1 v2 v3 neighbors := by
  unfold Mesher.tryTriangleSeed
  rw [Mesher.computeBallCenter_eq, Mesher.computeBallCenter_eq]
  unfold Mesher.computeNormal
  rw [h]

/-- Without neighbors findCandidateVertex returns NULL. -/
theorem Mesher.findCandidateVertex_no_neighbors [LinearOrderedField K] (env : Env K)
    (hn : ∀ d p, env.getNeighbors d p = []) (s : Mesher K) (edge : Nat) (ed : Edge) (f : Nat)
    (fc : Facet K) (hed : s.heap.edges edge = some ed) (hf1 : ed.m_facet1 = some f)
    (hfc : s.heap.facets f = some fc) :
    Mesher.findCandidateVertex env s edge = some none := by
  have hopp : ∃ opp, ed.getOppositeVertex s.heap = some opp := by
    unfold Edge.getOppositeVertex
    rw [hf1]
    dsimp only
    rw [hfc]
    exact ⟨_, rfl⟩
  obtain ⟨opp, hopp⟩ := hopp
  unfold Mesher.findCandidateVertex
  rw [hed]
  dsimp only
  rw [hf1]
  dsimp only
  rw [hfc, hopp]
  dsimp only
  have hnb : (Mesher.pivotFrame env s ed fc opp).neighbors = [] := hn _ _
  rw [hnb]
  rfl

theorem Mesher.expandTriangulation_succ [LinearOrderedField K] (env : Env K) (fuel : Nat)
    (s : Mesher K) :
    Mesher.expandTriangulation env (fuel + 1) s
      = if s.m_edge_front = [] then some s
        else (Mesher.expandStep env s).bind (Mesher.expandTriangulation env fuel) := rfl

/-- Without neighbors the expansion retires every front edge: on a front whose
edges are live with a live first facet it returns after as many turns as the
front has entries, with the vertices, the facets and the first facets of the
edges as before, and a border list made of its old entries and of entries of
the front. -/
theorem Mesher.expandTriangulation_no_neighbors [LinearOrderedField K] (env : Env K)
    (hn : ∀ d p, env.getNeighbors d p = []) (l : List Nat) (s : Mesher K)
    (hfront : s.m_edge_front = l) (hl : Mesher.BorderLive s l) :
    ∃ s1, Mesher.expandTriangulation env l.length s = some s1 ∧ s1.m_facets = s.m_facets ∧
      s1.heap.vertices = s.heap.vertices ∧ s1.heap.facets = s.heap.facets ∧
      s1.m_edge_front = [] ∧
      (∀ e, (s1.heap.edges e).map Edge.m_facet1 = (s.heap.edges e).map Edge.m_facet1) ∧
      (∀ e ∈ s1.m_border_edges, e ∈ s.m_border_edges ∨ e ∈ l) := by
  induction l generalizing s with
  | nil =>
    refine ⟨s, ?_, rfl, rfl, rfl, hfront, fun _ => rfl, fun e he => Or.inl he⟩
    show (if s.m_edge_front = [] then some s else none) = some s
    rw [if_pos hfront]
  | cons edge rest ih =>
    obtain ⟨ed, f, fc, hed, hf1, hfc⟩ := hl edge (List.mem_cons_self _ _)
    have hne : ¬ s.m_edge_front = [] := by
      rw [hfront]
      exact List.cons_ne_nil _ _
    have hrun : ∀ s2, Mesher.expandStep env s = some s2 →
        Mesher.expandTriangulation env (edge :: rest).length s
          = Mesher.expandTriangulation env rest.length s2 := by
      intro s2 h2
      rw [List.length_cons, Mesher.expandTriangulation_succ, if_neg hne, h2, Option.some_bind]
    by_cases ht : ed.m_type ≠ 1
    · have hstep := Mesher.expandStep_pop env s edge rest ed hfront hed ht
      obtain ⟨s1, h1, hfa, hv, hfs, hfr, hmap, hbo⟩ := ih { s with m_edge_front := rest } rfl
        (fun e he => hl e (List.mem_cons_of_mem _ he))
      refine ⟨s1, (hrun _ hstep).trans h1, hfa, hv, hfs, hfr, hmap, ?_⟩
      intro e he
      rcases hbo e he with h | h
      · exact Or.inl h
      · exact Or.inr (List.mem_cons_of_mem _ h)
    · have ht1 : ed.m_type = 1 := not_not.mp ht
      have hfind := Mesher.findCandidateVertex_no_neighbors env hn
        { s with m_edge_front := rest } edge ed f fc hed hf1 hfc
      have hstep : Mesher.expandStep env s
          = some (Mesher.retireEdge { s with m_edge_front := rest } edge ed) := by
        unfold Mesher.expandStep
        rw [hfront]
        dsimp only
        rw [hed]
        dsimp only
        rw [if_neg ht, hfind]
      have hmap0 : ∀ e, ((Mesher.retireEdge { s with m_edge_front := rest } edge ed).heap.edges
          e).map Edge.m_facet1 = (s.heap.edges e).map Edge.m_facet1 := by
        intro e
        by_cases he : e = edge
        · subst he
          simp [Mesher.retireEdge, Mesh.setEdge, hed]
        · simp [Mesher.retireEdge, Mesh.setEdge, he]
      have hl1 : Mesher.BorderLive (Mesher.retireEdge { s with m_edge_front := rest } edge ed)
          rest := by
        intro e he
        obtain ⟨ed1, f1, fc1, h1, h2, h3⟩ := hl e (List.mem_cons_of_mem _ he)
        have hm := hmap0 e
        rw [h1] at hm
        cases hx : (Mesher.retireEdge { s with m_edge_front := rest } edge ed).heap.edges e with
        | none => rw [hx] at hm; cases hm
        | some ed2 =>
          rw [hx] at hm
          have h4 : ed2.m_facet1 = ed1.m_facet1 := Option.some.inj hm
          exact ⟨ed2, f1, fc1, rfl, h4.trans h2, h3⟩
      obtain ⟨s1, h1, hfa, hv, hfs, hfr, hmap, hbo⟩ :=
        ih (Mesher.retireEdge { s with m_edge_front := rest } edge ed) rfl hl1
      refine ⟨s1, (hrun _ hstep).trans h1, hfa, hv, hfs, hfr, ?_, ?_⟩
      · intro e
        rw [hmap e, hmap0 e]
      · intro e he
        rcases hbo e he with h | h
        · have h5 : e ∈ s.m_border_edges ++ [edge] := h
          rcases List.mem_append.mp h5 with h6 | h6
          · exact Or.inl h6
          · rw [List.mem_singleton] at h6
            rw [h6]
            exact Or.inr (List.mem_cons_self _ _)
        · exact Or.inr (List.mem_cons_of_mem _ h)

/-- When `containsOnly` always answers false, no border edge passes the test
of changeRadius. -/
theorem Mesher.promotes_never [LinearOrderedField K] (env : Env K)
    (hc : ∀ r c l, env.containsOnly r c l = false) (s : Mesher K) (e : Nat) :
    Mesher.promotes env s e = false := by
  unfold Mesher.promotes
  cases s.heap.edges e with
  | none => rfl
  | some ed =>
    dsimp only
    cases ed.m_facet1 with
    | none => rfl
    | some f =>
      dsimp only
      cases s.heap.facets f with
      | none => rfl
      | some fc =>
        dsimp only
        unfold Mesher.emptyBallConfiguration
        cases Mesher.computeBallCenter env s (s.heap.vertices (fc.vertex 0))
          (s.heap.vertices (fc.vertex 1)) (s.heap.vertices (fc.vertex 2)) with
        | none => rfl
        | some center => exact hc _ _ _

/-- When `containsOnly` always answers false, changeRadius on a border list
whose edges are live with a live first facet changes the two radii only. -/
theorem Mesher.changeRadius_never [LinearOrderedField K] (env : Env K)
    (hc : ∀ r c l, env.containsOnly r c l = false) (s : Mesher K) (r : K)
    (hb : Mesher.BorderLive s s.m_border_edges) :
    ∃ s1, Mesher.changeRadius env s r = some s1 ∧ s1.m_facets = s.m_facets ∧
      s1.m_edge_front = s.m_edge_front ∧ s1.heap.vertices = s.heap.vertices := by
  obtain ⟨s1, hrun, -, hfr, -, hv, -, -, -, -, -, hfl, -⟩ :=
    Mesher.changeRadiusLoop_spec env s.m_border_edges
      { s.setBallRadius r with m_border_edges := [] } hb
  refine ⟨s1, hrun, hfl, ?_, hv⟩
  rw [hfr]
  have hnil : s.m_border_edges.filter
      (Mesher.promotes env { s.setBallRadius r with m_border_edges := [] }) = [] := by
    rw [List.filter_eq_nil_iff]
    intro e _
    rw [Mesher.promotes_never env hc]
    exact Bool.false_ne_true
  rw [hnil]
  exact List.append_nil _

/-- On the cloud, once the corners 0, 3 and 1 are meshed, Mesher::trySeed
returns false on every vertex and leaves the state alone: each of the sorted
neighbors is skipped, or is the last one, with no entry left for the third
vertex. -/
theorem sparse_trySeed_false (s : Mesher ℚ) (p : Nat)
    (h0 : (s.heap.vertices 0).m_type ≠ 0) (h3 : (s.heap.vertices 3).m_type ≠ 0)
    (h1 : (s.heap.vertices 1).m_type ≠ 0) :
    Mesher.trySeed sparseEnv s p = some (s, false) := by
  have hnb : sparseEnv.getSortedNeighbors (2 * s.m_ball_radius) p
      = [(0, 0), (10816, 3), (23409, 1), (34225, 2)] := rfl
  rw [Mesher.trySeed_loop sparseEnv s p (by rw [hnb]; decide), hnb,
    Mesher.trySeedLoop_skip sparseEnv s p _ (0, 0) _ (Or.inl h0),
    Mesher.trySeedLoop_skip sparseEnv s p _ (10816, 3) _ (Or.inl h3),
    Mesher.trySeedLoop_skip sparseEnv s p _ (23409, 1) _ (Or.inl h1)]
  by_cases hg : (s.heap.vertices 2).m_type ≠ 0 ∨ 2 = p
  · rw [Mesher.trySeedLoop_skip sparseEnv s p _ (34225, 2) _ hg]
    rfl
  · unfold Mesher.trySeedLoop
    rw [if_neg hg]
    rfl

/-- On the cloud, once the corners 0, 3 and 1 are meshed, the loop of
findSeedTriangle over the points of a cell finds no seed. -/
theorem sparse_seedPoints (fuel : Nat) (points : List Nat) (s : Mesher ℚ) (b : Bool)
    (h0 : (s.heap.vertices 0).m_type ≠ 0) (h3 : (s.heap.vertices 3).m_type ≠ 0)
    (h1 : (s.heap.vertices 1).m_type ≠ 0) :
    Mesher.seedPoints sparseEnv fuel points (s, b) = some (s, b) := by
  induction points with
  | nil => rfl
  | cons p rest ih =>
    unfold Mesher.seedPoints
    dsimp only
    split_ifs with ht
    · rw [sparse_trySeed_false s p h0 h3 h1]
      exact ih
    · exact ih

theorem Mesher.reconstruct_leaf [LinearOrderedField K] (env : Env K) (fuel : Nat)
    (points : List Nat) (s : Mesher K) (h : s.m_edge_front = []) :
    Mesher.reconstruct env fuel (OctreeNode.leaf points) s
      = (Mesher.seedPoints env fuel points (s, false)).map Prod.fst := by
  unfold Mesher.reconstruct
  rw [if_pos h]
  rfl

theorem Mesher.seedPoints_seed [LinearOrderedField K] (env : Env K) (fuel : Nat) (p : Nat)
    (rest : List Nat) (s s1 s2 : Mesher K) (b : Bool) (ht : (s.heap.vertices p).m_type = 0)
    (htry : Mesher.trySeed env s p = some (s1, true))
    (hexp : Mesher.expandTriangulation env fuel s1 = some s2) :
    Mesher.seedPoints env fuel (p :: rest) (s, b)
      = Mesher.seedPoints env fuel rest (s2, true) := by
  conv_lhs => unfold Mesher.seedPoints
  dsimp only
  rw [if_pos ht, htry]
  dsimp only
  rw [hexp]

theorem Mesher.changeRadius_nil [LinearOrderedField K] (env : Env K) (s : Mesher K) (r : K)
    (h : s.m_border_edges = []) :
    Mesher.changeRadius env s r = some { s.setBallRadius r with m_border_edges := [] } := by
  unfold Mesher.changeRadius
  rw [h]
  rfl

theorem sparse_trySeed :
    ∃ s1, Mesher.trySeed sparseEnv cloudMesher 0 = some (s1, true) ∧
      Mesher.SeedFacet cloudMesher 0 3 1 ⟨153 / 2, 52, 336⟩ s1 := by
  have hnb : sparseEnv.getSortedNeighbors (2 * cloudMesher.m_ball_radius) 0
      = [(0, 0), (10816, 3), (23409, 1), (34225, 2)] := rfl
  have htri : Mesher.tryTriangleSeed sparseEnv cloudMesher 0 3 1
      [(0, 0), (10816, 3), (23409, 1), (34225, 2)] = some (some ⟨153 / 2, 52, 336⟩) :=
    (Mesher.tryTriangleSeed_env cloudEnv sparseEnv rfl cloudMesher 0 3 1 _).trans cloud_triangle
  obtain ⟨s4, hrun, hseed⟩ := Mesher.trySeedLoop_hit sparseEnv cloudMesher 0
    [(0, 0), (10816, 3), (23409, 1), (34225, 2)] (10816, 3) (23409, 1) [(34225, 2)]
    ⟨153 / 2, 52, 336⟩ cloud_live cloud_orphans rfl rfl (by decide) htri
  refine ⟨s4, ?_, hseed⟩
  rw [Mesher.trySeed_loop sparseEnv cloudMesher 0 (by rw [hnb]; decide), hnb,
    Mesher.trySeedLoop_skip sparseEnv cloudMesher 0 _ (0, 0) _ (Or.inr rfl)]
  exact hrun

/-- The first call of Mesher::reconstruct() on the cloud when the iterator
finds no neighbor around an edge: the seed facet 0 on the corners 0, 3 and 1 is
built, its three edges are retired, and no other seed is found. -/
theorem sparse_reconstruct :
    ∃ s2, Mesher.reconstruct sparseEnv 3 (OctreeNode.leaf [0, 1, 2, 3, 4]) cloudMesher
        = some s2 ∧
      s2.m_facets = [0] ∧ s2.m_edge_front = [] ∧ Mesher.BorderLive s2 s2.m_border_edges ∧
      (s2.heap.vertices 0).m_type ≠ 0 ∧ (s2.heap.vertices 3).m_type ≠ 0 ∧
      (s2.heap.vertices 1).m_type ≠ 0 := by
  obtain ⟨s1, htry, hfac, hfl, -, -, hbo, t0, t3, t1, hfr, -, -, -,
    ⟨ed0, ed1, ed2, he0, he1, he2, f0, f1, f2⟩, -⟩ := sparse_trySeed
  have hfc : s1.heap.facets 0 = some ⟨0, 3, 1, ⟨153 / 2, 52, 336⟩⟩ := by
    rw [hfac]
    rfl
  have hlive : Mesher.BorderLive s1 [0, 1, 2] := by
    intro e he
    have h : e = 0 ∨ e = 1 ∨ e = 2 := by simpa using he
    rcases h with rfl | rfl | rfl
    · exact ⟨ed0, 0, _, he0, f0.2.1, hfc⟩
    · exact ⟨ed1, 0, _, he1, f1.2.1, hfc⟩
    · exact ⟨ed2, 0, _, he2, f2.2.1, hfc⟩
  obtain ⟨s2, hexp, hfa2, hv2, hfs2, hfr2, hmap2, hbo2⟩ :=
    Mesher.expandTriangulation_no_neighbors sparseEnv (fun _ _ => rfl) [0, 1, 2] s1 hfr hlive
  have ty0 : (s2.heap.vertices 0).m_type ≠ 0 := by
    rw [hv2, t0]
    decide
  have ty3 : (s2.heap.vertices 3).m_type ≠ 0 := by
    rw [hv2, t3]
    decide
  have ty1 : (s2.heap.vertices 1).m_type ≠ 0 := by
    rw [hv2, t1]
    decide
  refine ⟨s2, ?_, hfa2.trans hfl, hfr2, ?_, ty0, ty3, ty1⟩
  · rw [Mesher.reconstruct_leaf sparseEnv 3 _ cloudMesher rfl,
      Mesher.seedPoints_seed sparseEnv 3 0 [1, 2, 3, 4] cloudMesher s1 s2 false rfl htry hexp,
      sparse_seedPoints 3 [1, 2, 3, 4] s2 true ty0 ty3 ty1]
    rfl
  · intro e he
    have hmem : e ∈ [0, 1, 2] := by
      rcases hbo2 e he with h | h
      · rw [hbo] at h
        cases h
      · exact h
    obtain ⟨ed, f, fc, h1, h2, h3⟩ := hlive e hmem
    have hm := hmap2 e
    rw [h1] at hm
    cases hx : s2.heap.edges e with
    | none => rw [hx] at hm; cases hm
    | some edx =>
      rw [hx] at hm
      have h4 : edx.m_facet1 = ed.m_facet1 := Option.some.inj hm
      exact ⟨edx, f, fc, rfl, h4.trans h2, by rw [hfs2]; exact h3⟩

/-- The sequential driver on the cloud with the radii 697/2 and 400, when the
iterator finds no neighbor around an edge and no empty ball: the first radius
gives the seed facet 0, the second adds nothing. -/
theorem sparse_run :
    ∃ t2, Mesher.reconstructAll sparseEnv 3 (OctreeNode.leaf [0, 1, 2, 3, 4]) [697 / 2, 400]
        cloudMesher = some t2 ∧ t2.m_facets = [0] := by
  obtain ⟨s2, hrec, hfl, hfr, hbl, ty0, ty3, ty1⟩ := sparse_reconstruct
  obtain ⟨s3, hch, hfl3, hfr3, hv3⟩ :=
    Mesher.changeRadius_never sparseEnv (fun _ _ _ => rfl) s2 400 hbl
  have hrec3 : Mesher.reconstruct sparseEnv 3 (OctreeNode.leaf [0, 1, 2, 3, 4]) s3 = some s3 := by
    rw [Mesher.reconstruct_leaf sparseEnv 3 _ s3 (hfr3.trans hfr),
      sparse_seedPoints 3 _ s3 false (by rw [hv3]; exact ty0) (by rw [hv3]; exact ty3)
      (by rw [hv3]; exact ty1)]
    rfl
  have hch1 : Mesher.changeRadius sparseEnv cloudMesher (697 / 2) = some cloudMesher :=
    Mesher.changeRadius_nil sparseEnv cloudMesher (697 / 2) rfl
  refine ⟨s3, ?_, hfl3.trans hfl⟩
  rw [Mesher.reconstructAll_cons, hch1, Option.some_bind, hrec, Option.some_bind,
    Mesher.reconstructAll_cons, hch, Option.some_bind, hrec3, Option.some_bind]
  rfl

/-- C32 on the cloud of the rectangle scene with the radii 697/2 and 400: the
run on both radii returns with the facet list [0], and so does the run on the
first radius alone. -/
theorem Mesher.reconstructAll_monotone_witness :
    ∃ t2, Mesher.reconstructAll sparseEnv 3 (OctreeNode.leaf [0, 1, 2, 3, 4]) [697 / 2, 400]
        cloudMesher = some t2 ∧ t2.m_facets = [0] ∧
      ∃ t1, Mesher.reconstructAll sparseEnv 3 (OctreeNode.leaf [0, 1, 2, 3, 4]) [697 / 2]
          cloudMesher = some t1 ∧
        Mesher.reconstructAll sparseEnv 3 (OctreeNode.leaf [0, 1, 2, 3, 4]) [400] t1 = some t2 ∧
        cloudMesher.m_facets <+: t1.m_facets ∧ t1.m_facets <+: t2.m_facets ∧
        ∀ f ∈ t1.m_facets, f ∈ t2.m_facets := by
  obtain ⟨t2, h, hf⟩ := sparse_run
  exact ⟨t2, h, hf, Mesher.reconstructAll_monotone sparseEnv 3
    (OctreeNode.leaf [0, 1, 2, 3, 4]) (697 / 2) 400 cloudMesher t2 h⟩

/-! ## The edges under a turn of the expansion -/

theorem Edge.Attached.keepsCount {self : Nat} {ed ed1 : Edge} (h : Edge.Attached self ed ed1)
    (hc : ed.Counted) : ed1.Counted := by
  rcases h with rfl | ⟨h1, -, -, rfl⟩
  · exact hc
  · exact Or.inr ⟨rfl, h1, Option.some_ne_none _⟩

theorem Edge.Attached.ends {self : Nat} {ed ed1 : Edge} (h : Edge.Attached self ed ed1) :
    ed1.m_src = ed.m_src ∧ ed1.m_tgt = ed.m_tgt ∧ ed1.m_facet1 = ed.m_facet1 := by
  rcases h with rfl | ⟨-, -, -, rfl⟩
  · exact ⟨rfl, rfl, rfl⟩
  · exact ⟨rfl, rfl, rfl⟩

theorem Edge.Attached.type {self : Nat} {ed ed1 : Edge} (h : Edge.Attached self ed ed1) :
    ed1.m_type = ed.m_type ∨ ed1.m_type = 2 := by
  rcases h with rfl | ⟨-, -, -, rfl⟩
  · exact Or.inl rfl
  · exact Or.inr rfl

/-- An edge whose second slot is occupied is left alone. -/
theorem Edge.Attached.of_full {self : Nat} {ed ed1 : Edge} (h : Edge.Attached self ed ed1)
    (h2 : ed.m_facet2 ≠ none) : ed1 = ed := by
  rcases h with rfl | ⟨-, -, h3, -⟩
  · rfl
  · exact absurd h3 h2

/-- An edge that holds the facet in its first slot is left alone. -/
theorem Edge.Attached.of_first {self : Nat} {ed ed1 : Edge} (h : Edge.Attached self ed ed1)
    (h1 : ed.m_facet1 = some self) : ed1 = ed := by
  rcases h with rfl | ⟨-, h3, -, -⟩
  · rfl
  · exact absurd h1 h3

theorem Edge.Attached.chained {self : Nat} {ed ed1 ed2 : Edge}
    (h1 : Edge.Attached self ed ed1) (h2 : Edge.Attached self ed1 ed2) :
    Edge.Attached self ed ed2 := by
  rcases h1 with rfl | ⟨a1, a2, a3, rfl⟩
  · exact h2
  · rcases h2 with rfl | ⟨-, -, b3, -⟩
    · exact Or.inr ⟨a1, a2, a3, rfl⟩
    · cases b3

theorem Mesh.PivotStep.idle (V : Nat → Prop) (self : Nat) (m : Mesh K) :
    m.PivotStep V self m :=
  ⟨le_rfl, fun _ _ h => h, fun _ ed h => ⟨ed, h, Or.inl rfl⟩, fun e ed1 h1 h0 => by
    rw [h0] at h1
    cases h1⟩

theorem Mesh.PivotStep.composed {V : Nat → Prop} {self : Nat} {m m1 m2 : Mesh K}
    (h1 : m.PivotStep V self m1) (h2 : m1.PivotStep V self m2) : m.PivotStep V self m2 := by
  obtain ⟨n1, a1, e1, w1⟩ := h1
  obtain ⟨n2, a2, e2, w2⟩ := h2
  refine ⟨n1.trans n2, fun u e h => a2 u e (a1 u e h), ?_, ?_⟩
  · intro e ed hed
    obtain ⟨ed1, hed1, t1⟩ := e1 e ed hed
    obtain ⟨ed2, hed2, t2⟩ := e2 e ed1 hed1
    exact ⟨ed2, hed2, t1.chained t2⟩
  · intro e ed2 hed2 h0
    cases hm1 : m1.edges e with
    | none =>
      obtain ⟨b1, b2, b3⟩ := w2 e ed2 hed2 hm1
      exact ⟨n1.trans b1, b2, b3⟩
    | some ed1 =>
      obtain ⟨b1, b2, c1, c2, c3, c4, c5, c6, c7, c8⟩ := w1 e ed1 hm1 h0
      obtain ⟨ed2x, hed2x, t2⟩ := e2 e ed1 hm1
      rw [hed2] at hed2x
      have hEq : ed2 = ed1 := by
        rw [Option.some.inj hed2x]
        exact t2.of_first c2
      rw [hEq]
      exact ⟨b1, lt_of_lt_of_le b2 n2, c1, c2, c3, c4, c5, c6, a2 _ _ c7, a2 _ _ c8⟩

theorem Mesh.PivotStep.fresh {V : Nat → Prop} {self : Nat} {m m1 : Mesh K}
    (h : m.PivotStep V self m1) (hf : m.EdgesFresh) : m1.EdgesFresh := by
  intro e he
  cases h1 : m1.edges e with
  | none => rfl
  | some ed1 =>
    exfalso
    have h0 : m.edges e = none := hf e (h.1.trans he)
    obtain ⟨-, hlt, -⟩ := h.2.2.2 e ed1 h1 h0
    omega

theorem Mesh.PivotStep.facetted {V : Nat → Prop} {self : Nat} {m m1 : Mesh K}
    (h : m.PivotStep V self m1) (hf : m.Facetted) : m1.Facetted := by
  intro e ed1 h1
  cases h0 : m.edges e with
  | none =>
    obtain ⟨-, -, -, c2, -⟩ := h.2.2.2 e ed1 h1 h0
    rw [c2]
    exact Option.some_ne_none _
  | some ed =>
    obtain ⟨ed1x, h1x, t⟩ := h.2.2.1 e ed h0
    rw [h1] at h1x
    rw [Option.some.inj h1x, t.ends.2.2]
    exact hf e ed h0

theorem Mesh.PivotStep.counted {V : Nat → Prop} {self : Nat} {m m1 : Mesh K}
    (h : m.PivotStep V self m1) (hc : m.Counted) : m1.Counted := by
  intro e ed1 h1
  cases h0 : m.edges e with
  | none =>
    obtain ⟨-, -, c1, c2, c3, -⟩ := h.2.2.2 e ed1 h1 h0
    exact Or.inl ⟨Or.inr c1, by rw [c2]; exact Option.some_ne_none _, c3⟩
  | some ed =>
    obtain ⟨ed1x, h1x, t⟩ := h.2.2.1 e ed h0
    rw [h1] at h1x
    rw [Option.some.inj h1x]
    exact t.keepsCount (hc e ed h0)

theorem Mesh.Counted.firstSlot {m : Mesh K} (hc : m.Counted) : m.Facetted := by
  intro e ed h
  rcases hc e ed h with ⟨-, h1, -⟩ | ⟨-, h1, -⟩
  · exact h1
  · exact h1

theorem Mesh.SameEdges.pivotStep (V : Nat → Prop) (self : Nat) {m m1 : Mesh K}
    (h : m.SameEdges m1) : m.PivotStep V self m1 := by
  obtain ⟨he, -, hn, ha⟩ := h
  refine ⟨le_of_eq hn.symm, ?_, ?_, ?_⟩
  · intro u e hu
    rw [ha u]
    exact hu
  · intro e ed hed
    exact ⟨ed, by rw [he]; exact hed, Or.inl rfl⟩
  · intro e ed1 h1 h0
    rw [he, h0] at h1
    cases h1

/-- The last loop body of the facet constructors leaves the edge graph
alone. -/
theorem Facet.registerVertex_same (m m1 : Mesh K) (self v : Nat)
    (h : Facet.registerVertex m self v = some m1) : m.SameEdges m1 := by
  unfold Facet.registerVertex at h
  dsimp only at h
  cases hu : Vertex.updateType (m.setVertex v ((m.vertices v).addAdjacentFacet self).1)
      ((m.setVertex v ((m.vertices v).addAdjacentFacet self).1).vertices v) with
  | none => rw [hu] at h; cases h
  | some vx =>
    rw [hu] at h
    cases h
    have hvx : vx.m_adjacentEdges = (m.vertices v).m_adjacentEdges := by
      unfold Vertex.updateType at hu
      split_ifs at hu
      · cases hu
        simp [Mesh.setVertex, Vertex.addAdjacentFacet]
      · obtain ⟨t, -, ht⟩ := Option.map_eq_some'.mp hu
        rw [← ht]
        simp [Mesh.setVertex, Vertex.addAdjacentFacet]
    refine ⟨rfl, rfl, rfl, ?_⟩
    intro u
    by_cases huv : u = v
    · subst huv
      simp only [Mesh.setVertex, if_true]
      exact hvx
    · simp only [Mesh.setVertex, if_neg huv]

/-- Edge::addAdjacentFacet on an edge that has a first facet leaves it alone or
fills its second slot. -/
theorem Edge.addAdjacentFacet_attached [LinearOrderedCommRing K]
    (normalize : K × K × K → K × K × K) (m : Mesh K) (ed : Edge) (f : Nat) (r : Edge × Bool)
    (h : ed.addAdjacentFacet normalize m f = some r) (hf : ed.m_facet1 ≠ none) :
    Edge.Attached f ed r.1 := by
  unfold Edge.addAdjacentFacet at h
  by_cases hh : ed.m_facet1 = some f ∨ ed.m_facet2 = some f
  · rw [if_pos hh] at h
    cases h
    exact Or.inl rfl
  · rw [if_neg hh, if_neg hf] at h
    by_cases h2 : ed.m_facet2 = none
    · rw [if_pos h2] at h
      cases h
      exact Or.inr ⟨hf, fun h1 => hh (Or.inl h1), h2, rfl⟩
    · rw [if_neg h2] at h
      cases h
      exact Or.inl rfl

/-- What updateOrientation returns is the edge, possibly with its ends
swapped. -/
theorem Edge.updateOrientation_ends [LinearOrderedCommRing K]
    (normalize : K × K × K → K × K × K) (m : Mesh K) (e e1 : Edge)
    (h : e.updateOrientation normalize m = some e1) :
    e1 = e ∨ e1 = { e with m_src := e.m_tgt, m_tgt := e.m_src } := by
  unfold Edge.updateOrientation at h
  cases ho : e.getOppositeVertex m with
  | none => rw [ho] at h; cases h
  | some o =>
    rw [ho] at h
    cases o with
    | none => cases h
    | some opp =>
      dsimp only at h
      split_ifs at h
      · cases h
        exact Or.inr rfl
      · cases h
        exact Or.inl rfl

/-- Edge::addAdjacentFacet on an edge just built by `new Edge(a, b)`: the edge
takes the facet in its first slot, with type 1, between `a` and `b` in one
orientation or the other. -/
theorem Edge.addAdjacentFacet_init [LinearOrderedCommRing K]
    (normalize : K × K × K → K × K × K) (m : Mesh K) (a b f : Nat) (r : Edge × Bool)
    (h : (Edge.init a b).addAdjacentFacet normalize m f = some r) :
    r.1.m_type = 1 ∧ r.1.m_facet1 = some f ∧ r.1.m_facet2 = none ∧
    ((r.1.m_src = a ∧ r.1.m_tgt = b) ∨ (r.1.m_src = b ∧ r.1.m_tgt = a)) := by
  unfold Edge.addAdjacentFacet at h
  have hh : ¬ ((Edge.init a b).m_facet1 = some f ∨ (Edge.init a b).m_facet2 = some f) := by
    rintro (h1 | h1) <;> cases h1
  have h1 : (Edge.init a b).m_facet1 = none := rfl
  rw [if_neg hh, if_pos h1] at h
  obtain ⟨e1, he1, hr⟩ := Option.map_eq_some'.mp h
  rw [← hr]
  rcases Edge.updateOrientation_ends normalize m _ e1 he1 with rfl | rfl
  · exact ⟨rfl, rfl, rfl, Or.inl ⟨rfl, rfl⟩⟩
  · exact ⟨rfl, rfl, rfl, Or.inr ⟨rfl, rfl⟩⟩

/-- The call `e->addAdjacentFacet(f)` through a pointer, on a heap whose edges
all have a first facet. -/
theorem Mesh.edgeAddAdjacentFacet_pivotStep [LinearOrderedCommRing K]
    (normalize : K × K × K → K × K × K) (V : Nat → Prop) (m m1 : Mesh K) (e f : Nat)
    (h : m.edgeAddAdjacentFacet normalize e f = some m1) (hf : m.Facetted) :
    m.PivotStep V f m1 ∧ m1.facets = m.facets ∧
    ∃ ed ed1, m.edges e = some ed ∧ m1.edges e = some ed1 ∧ Edge.Attached f ed ed1 ∧
      (ed.m_facet1 ≠ some f → ed.m_facet2 = none →
        ed1 = { ed with m_facet2 := some f, m_type := 2 }) := by
  unfold Mesh.edgeAddAdjacentFacet at h
  cases he : m.edges e with
  | none => rw [he] at h; cases h
  | some ed =>
    rw [he] at h
    dsimp only at h
    cases hr : ed.addAdjacentFacet normalize m f with
    | none => rw [hr] at h; cases h
    | some r =>
      rw [hr] at h
      cases h
      have hatt := Edge.addAdjacentFacet_attached normalize m ed f r hr (hf e ed he)
      have hedges : ∀ x, (m.setEdge e (some r.1)).edges x
          = if x = e then some r.1 else m.edges x := fun _ => rfl
      refine ⟨⟨le_rfl, fun _ _ hu => hu, ?_, ?_⟩, rfl, ed, r.1, rfl, ?_, hatt, ?_⟩
      · intro x edx hx
        rw [hedges]
        by_cases hxe : x = e
        · subst hxe
          rw [he] at hx
          cases hx
          rw [if_pos rfl]
          exact ⟨_, rfl, hatt⟩
        · rw [if_neg hxe]
          exact ⟨edx, hx, Or.inl rfl⟩
      · intro x ed1 h1 h0
        rw [hedges] at h1
        by_cases hxe : x = e
        · subst hxe
          rw [he] at h0
          cases h0
        · rw [if_neg hxe, h0] at h1
          cases h1
      · rw [hedges, if_pos rfl]
      · intro h1 h2
        unfold Edge.addAdjacentFacet at hr
        have hh : ¬ (ed.m_facet1 = some f ∨ ed.m_facet2 = some f) := by
          rintro (h3 | h3)
          · exact h1 h3
          · rw [h2] at h3
            cases h3
        rw [if_neg hh, if_neg (hf e ed he), if_pos h2] at hr
        cases hr
        rfl

/-- The three statements the facet constructors repeat for a pair of distinct
vertices, on a heap whose edges all have a first facet and whose edge
allocator is ahead of the live edges. -/
theorem Facet.attachEdge_pivotStep [LinearOrderedCommRing K]
    (normalize : K × K × K → K × K × K) (V : Nat → Prop) (m m1 : Mesh K) (self a b : Nat)
    (h : Facet.attachEdge normalize m self a b = some m1) (hf : m.Facetted)
    (hfr : m.EdgesFresh) (hab : a ≠ b) (ha : V a) (hb : V b) :
    m.PivotStep V self m1 ∧ m1.facets = m.facets := by
  unfold Facet.attachEdge at h
  cases hl : (m.vertices a).getLinkingEdge (m.vertices b) with
  | some e =>
    rw [hl] at h
    dsimp only at h
    obtain ⟨hp, hfa, -⟩ := Mesh.edgeAddAdjacentFacet_pivotStep normalize V m m1 e self h hf
    exact ⟨hp, hfa⟩
  | none =>
    rw [hl] at h
    dsimp only at h
    unfold Mesh.edgeAddAdjacentFacet at h
    have hnew : (m.newEdge a b).1.edges (m.newEdge a b).2 = some (Edge.init a b) := by
      simp [Mesh.newEdge, Edge.ctor, Mesh.setEdge]
    rw [hnew] at h
    dsimp only at h
    cases hr : (Edge.init a b).addAdjacentFacet normalize (m.newEdge a b).1 self with
    | none => rw [hr] at h; cases h
    | some r =>
      rw [hr] at h
      cases h
      obtain ⟨r1, r2, r3, r4⟩ := Edge.addAdjacentFacet_init normalize _ a b self r hr
      have hedges : ∀ x, ((m.newEdge a b).1.setEdge (m.newEdge a b).2 (some r.1)).edges x
          = if x = m.nextEdge then some r.1 else m.edges x := by
        intro x
        by_cases hx : x = m.nextEdge
        · simp [Mesh.newEdge, Edge.ctor, Mesh.setEdge, hx]
        · simp [Mesh.newEdge, Edge.ctor, Mesh.setEdge, Mesh.setVertex, hx]
      have hverts : ∀ u, ((m.newEdge a b).1.setEdge (m.newEdge a b).2 (some r.1)).vertices u
          = (m.newEdge a b).1.vertices u := fun _ => rfl
      have hina : m.nextEdge ∈ ((m.newEdge a b).1.vertices a).m_adjacentEdges := by
        rw [Mesh.newEdge_vertices m a b hab a, if_pos (Or.inl rfl)]
        exact (mem_setInsert _ _ _).mpr (Or.inl rfl)
      have hinb : m.nextEdge ∈ ((m.newEdge a b).1.vertices b).m_adjacentEdges := by
        rw [Mesh.newEdge_vertices m a b hab b, if_pos (Or.inr rfl)]
        exact (mem_setInsert _ _ _).mpr (Or.inl rfl)
      refine ⟨⟨Nat.le_succ _, ?_, ?_, ?_⟩, rfl⟩
      · intro u e hu
        rw [hverts, Mesh.newEdge_vertices m a b hab u]
        split_ifs
        · exact (mem_setInsert _ _ _).mpr (Or.inr hu)
        · exact hu
      · intro x edx hx
        have hne : x ≠ m.nextEdge := by
          intro hxe
          rw [hxe, hfr _ le_rfl] at hx
          cases hx
        rw [hedges, if_neg hne]
        exact ⟨edx, hx, Or.inl rfl⟩
      · intro x ed1 h1 h0
        rw [hedges] at h1
        by_cases hx : x = m.nextEdge
        · subst hx
          rw [if_pos rfl] at h1
          cases h1
          refine ⟨le_rfl, Nat.lt_succ_self _, r1, r2, r3, ?_, ?_, ?_, ?_, ?_⟩
          · rcases r4 with ⟨h3, h4⟩ | ⟨h3, h4⟩
            · rw [h3, h4]
              exact hab
            · rw [h3, h4]
              exact hab.symm
          · rcases r4 with ⟨h3, -⟩ | ⟨h3, -⟩
            · rw [h3]
              exact ha
            · rw [h3]
              exact hb
          · rcases r4 with ⟨-, h4⟩ | ⟨-, h4⟩
            · rw [h4]
              exact hb
            · rw [h4]
              exact ha
          · rw [hverts]
            rcases r4 with ⟨h3, -⟩ | ⟨h3, -⟩
            · rw [h3]
              exact hina
            · rw [h3]
              exact hinb
          · rw [hverts]
            rcases r4 with ⟨-, h4⟩ | ⟨-, h4⟩
            · rw [h4]
              exact hinb
            · rw [h4]
              exact hina
        · rw [if_neg hx, h0] at h1
          cases h1

/-- Writing a facet leaves the edges and the vertices alone. -/
theorem Mesh.setFacet_pivotStep (V : Nat → Prop) (self : Nat) (m : Mesh K) (g : Nat)
    (fc : Option (Facet K)) : m.PivotStep V self (m.setFacet g fc) :=
  ⟨le_rfl, fun _ _ h => h, fun _ ed h => ⟨ed, h, Or.inl rfl⟩, fun e ed1 h1 h0 => by
    have h2 : m.edges e = some ed1 := h1
    rw [h0] at h2
    cases h2⟩

/-- Facet::Facet(Edge*, Vertex*, Point&) on a heap whose edges all have a first
facet and whose edge allocator is ahead of the live edges, for a vertex that is
neither end of the edge: what it does to the edges, and to the given edge in
particular. -/
theorem Facet.ctorOnEdge_pivotStep [LinearOrderedCommRing K]
    (normalize : K × K × K → K × K × K) (V : Nat → Prop) (m m1 : Mesh K)
    (self edge vertex : Nat) (c : Point K) (ed : Edge)
    (h : Facet.ctorOnEdge normalize m self edge vertex c = some m1)
    (hed : m.edges edge = some ed) (hf : m.Facetted) (hfr : m.EdgesFresh)
    (hsv : ed.m_src ≠ vertex) (hvt : vertex ≠ ed.m_tgt)
    (hs : V ed.m_src) (hv : V vertex) (ht : V ed.m_tgt) :
    m.PivotStep V self m1 ∧
    m1.facets = (m.setFacet self (some ⟨ed.m_src, vertex, ed.m_tgt, c⟩)).facets ∧
    (ed.m_facet1 ≠ some self → ed.m_facet2 = none →
      m1.edges edge = some { ed with m_facet2 := some self, m_type := 2 }) := by
  unfold Facet.ctorOnEdge at h
  rw [hed] at h
  dsimp only at h
  obtain ⟨a1, h1, h⟩ := Option.bind_eq_some.mp h
  obtain ⟨a2, h2, h⟩ := Option.bind_eq_some.mp h
  obtain ⟨a3, h3, h⟩ := Option.bind_eq_some.mp h
  obtain ⟨a4, h4, h⟩ := Option.bind_eq_some.mp h
  obtain ⟨a5, h5, h⟩ := Option.bind_eq_some.mp h
  have p0 := Mesh.setFacet_pivotStep V self m self (some ⟨ed.m_src, vertex, ed.m_tgt, c⟩)
  have hf0 : (m.setFacet self (some ⟨ed.m_src, vertex, ed.m_tgt, c⟩)).Facetted := hf
  have hfr0 : (m.setFacet self (some ⟨ed.m_src, vertex, ed.m_tgt, c⟩)).EdgesFresh := hfr
  obtain ⟨p1, f1, ed0, ed1, hed0, hed1, -, hfill⟩ :=
    Mesh.edgeAddAdjacentFacet_pivotStep normalize V _ a1 edge self h1 hf0
  have hed00 : m.edges edge = some ed0 := hed0
  rw [hed] at hed00
  cases hed00
  obtain ⟨p2, f2⟩ := Facet.attachEdge_pivotStep normalize V a1 a2 self _ _ h2
    (p1.facetted hf0) (p1.fresh hfr0) hsv hs hv
  obtain ⟨p3, f3⟩ := Facet.attachEdge_pivotStep normalize V a2 a3 self _ _ h3
    (p2.facetted (p1.facetted hf0)) (p2.fresh (p1.fresh hfr0)) hvt hv ht
  have s4 := Facet.registerVertex_same _ _ _ _ h4
  have s5 := Facet.registerVertex_same _ _ _ _ h5
  have s6 := Facet.registerVertex_same _ _ _ _ h
  have s46 : a3.SameEdges m1 := (s4.trans s5).trans s6
  have p13 : a1.PivotStep V self m1 := (p2.composed p3).composed (s46.pivotStep V self)
  refine ⟨(p0.composed p1).composed p13, ?_, ?_⟩
  · rw [s46.2.1, f3, f2, f1]
  · intro hn1 hn2
    have hfilled := hfill hn1 hn2
    rw [hfilled] at hed1
    obtain ⟨edx, hedx, t⟩ := p13.2.2.1 edge _ hed1
    rw [hedx, t.of_full (Option.some_ne_none self)]

/-- The expression `new Facet(edge, candidate, center)` followed by
`addFacet(facet)`, whenever it returns: what it does to the edges, the facets
and the members of the mesher. -/
theorem Mesher.newFacetOnEdge_pivotStep [LinearOrderedField K] (env : Env K)
    (V : Nat → Prop) (s s1 : Mesher K) (edge candidate : Nat) (center : Point K) (ed : Edge)
    (h : Mesher.newFacetOnEdge env s edge candidate center = some s1)
    (hed : s.heap.edges edge = some ed) (hf : s.heap.Facetted) (hfr : s.heap.EdgesFresh)
    (hsv : ed.m_src ≠ candidate) (hvt : candidate ≠ ed.m_tgt)
    (hs : V ed.m_src) (hv : V candidate) (ht : V ed.m_tgt) :
    s.heap.PivotStep V s.nextFacet s1.heap ∧
    s1.heap.facets = (s.heap.setFacet s.nextFacet
      (some ⟨ed.m_src, candidate, ed.m_tgt, center⟩)).facets ∧
    (ed.m_facet1 ≠ some s.nextFacet → ed.m_facet2 = none →
      s1.heap.edges edge = some { ed with m_facet2 := some s.nextFacet, m_type := 2 }) ∧
    s1.m_facets = s.m_facets ++ [s.nextFacet] ∧ s1.m_edge_front = s.m_edge_front ∧
    s1.m_border_edges = s.m_border_edges ∧ s1.nextFacet = s.nextFacet + 1 := by
  unfold Mesher.newFacetOnEdge at h
  obtain ⟨m1, hm1, hadd⟩ := Option.bind_eq_some.mp h
  obtain ⟨p, hfac, hfill⟩ := Facet.ctorOnEdge_pivotStep (normalizeWith env.sqrt) V s.heap m1
    s.nextFacet edge candidate center ed hm1 hed hf hfr hsv hvt hs hv ht
  obtain ⟨hse, hfl, -, hfro, hbo, hnx⟩ := Mesher.addFacet_spec _ s1 _ hadd
  have hse1 : m1.SameEdges s1.heap := hse
  refine ⟨p.composed (hse1.pivotStep V _), by rw [hse1.2.1, hfac], ?_, hfl, hfro, hbo, hnx⟩
  intro h1 h2
  rw [hse1.1]
  exact hfill h1 h2

/-- A turn of Mesher::expandTriangulation that returns, read backwards: the
head edge of the front is live, and either its type is not 1 and it is dropped,
or it is retired to the border list, or a candidate passed every test and the
facet on the edge and the candidate was built and added, after which at most
two live edges of type 1 were put in front of the rest of the front. -/
theorem Mesher.expandStep_inv [LinearOrderedField K] (env : Env K) (s s2 : Mesher K)
    (edge : Nat) (rest : List Nat) (hfront : s.m_edge_front = edge :: rest)
    (h : Mesher.expandStep env s = some s2) :
    ∃ ed, s.heap.edges edge = some ed ∧
      ((ed.m_type ≠ 1 ∧ s2 = { s with m_edge_front := rest }) ∨
       (ed.m_type = 1 ∧ s2 = Mesher.retireEdge { s with m_edge_front := rest } edge ed) ∨
       (ed.m_type = 1 ∧ ∃ candidate center s1 pushed,
          Mesher.findCandidateVertex env { s with m_edge_front := rest } edge
            = some (some (candidate, center)) ∧
          Mesher.newFacetOnEdge env { s with m_edge_front := rest } edge candidate center
            = some s1 ∧
          s2.heap = s1.heap ∧ s2.m_facets = s1.m_facets ∧
          s2.m_border_edges = s1.m_border_edges ∧ s2.nextFacet = s1.nextFacet ∧
          s2.m_edge_front = pushed ++ rest ∧ pushed.length ≤ 2 ∧
          ∀ e ∈ pushed, ∃ ed1, s1.heap.edges e = some ed1 ∧ ed1.m_type = 1)) := by
  unfold Mesher.expandStep at h
  rw [hfront] at h
  dsimp only at h
  cases hed : s.heap.edges edge with
  | none => rw [hed] at h; cases h
  | some ed =>
    rw [hed] at h
    dsimp only at h
    refine ⟨ed, rfl, ?_⟩
    by_cases ht : ed.m_type ≠ 1
    · rw [if_pos ht] at h
      cases h
      exact Or.inl ⟨ht, rfl⟩
    · rw [if_neg ht] at h
      have ht1 : ed.m_type = 1 := not_not.mp ht
      cases hfind : Mesher.findCandidateVertex env { s with m_edge_front := rest } edge with
      | none => rw [hfind] at h; cases h
      | some r =>
        rw [hfind] at h
        cases r with
        | none =>
          dsimp only at h
          cases h
          exact Or.inr (Or.inl ⟨ht1, rfl⟩)
        | some wc =>
          obtain ⟨candidate, center⟩ := wc
          dsimp only at h
          split_ifs at h with hg
          · cases h
            exact Or.inr (Or.inl ⟨ht1, rfl⟩)
          · cases h1 : s.heap.linkTypeIs candidate ed.m_src (fun t => t != 1) with
            | none => rw [h1] at h; cases h
            | some b1 =>
              rw [h1] at h
              cases b1 with
              | true =>
                dsimp only at h
                cases h
                exact Or.inr (Or.inl ⟨ht1, rfl⟩)
              | false =>
                dsimp only at h
                cases h2 : s.heap.linkTypeIs candidate ed.m_tgt (fun t => t != 1) with
                | none => rw [h2] at h; cases h
                | some b2 =>
                  rw [h2] at h
                  cases b2 with
                  | true =>
                    dsimp only at h
                    cases h
                    exact Or.inr (Or.inl ⟨ht1, rfl⟩)
                  | false =>
                    dsimp only at h
                    obtain ⟨s1, hs1, h⟩ := Option.bind_eq_some.mp h
                    have hf1 := Mesher.newFacetOnEdge_front env _ s1 _ _ _ hs1
                    cases he1 : s1.heap.edges edge with
                    | none => rw [he1] at h; cases h
                    | some ed1 =>
                      rw [he1] at h
                      dsimp only at h
                      obtain ⟨s3, hs3, h⟩ := Option.bind_eq_some.mp h
                      obtain ⟨hh3, hfa3, -, hbo3, hnx3, e1, d1, -, hd1, hfr3⟩ :=
                        Mesher.pushIfFront_spec s1 s3 _ _ hs3
                      cases he2 : s3.heap.edges edge with
                      | none => rw [he2] at h; cases h
                      | some ed2 =>
                        rw [he2] at h
                        dsimp only at h
                        obtain ⟨hh4, hfa4, -, hbo4, hnx4, e2, d2, -, hd2, hfr4⟩ :=
                          Mesher.pushIfFront_spec s3 s2 _ _ h
                        have hf1t : s1.m_edge_front = rest := hf1
                        rw [hh3] at hd2
                        refine Or.inr (Or.inr ⟨ht1, candidate, center, s1,
                          (if d2.m_type = 1 then [e2] else [])
                            ++ (if d1.m_type = 1 then [e1] else []), rfl, hs1,
                          hh4.trans hh3, hfa4.trans hfa3, hbo4.trans hbo3, hnx4.trans hnx3,
                          ?_, ?_, ?_⟩)
                        · rw [hfr4, hfr3, hf1t]
                          split_ifs <;> simp
                        · split_ifs <;> simp
                        · intro e he
                          rcases List.mem_append.mp he with h5 | h5
                          · split_ifs at h5 with h6
                            · rw [List.mem_singleton] at h5
                              rw [h5]
                              exact ⟨d2, hd2, h6⟩
                            · cases h5
                          · split_ifs at h5 with h6
                            · rw [List.mem_singleton] at h5
                              rw [h5]
                              exact ⟨d1, hd1, h6⟩
                            · cases h5

/-! ## The type and the facet count of an edge under a turn of the expansion -/

/-- The retiring of a front edge keeps the allocator ahead and the types
matched with the facet counts. -/
theorem Mesher.retireEdge_counted (s : Mesher K) (edge : Nat) (ed : Edge)
    (hed : s.heap.edges edge = some ed) (ht : ed.m_type = 1) (hfr : s.heap.EdgesFresh)
    (hc : s.heap.Counted) :
    (Mesher.retireEdge s edge ed).heap.EdgesFresh ∧ (Mesher.retireEdge s edge ed).heap.Counted ∧
    (Mesher.retireEdge s edge ed).heap.edges edge = some { ed with m_type := 0 } ∧
    ed.m_facet1 ≠ none ∧ ed.m_facet2 = none ∧
    ∀ x, x ≠ edge → (Mesher.retireEdge s edge ed).heap.edges x = s.heap.edges x := by
  have hedges : ∀ x, (Mesher.retireEdge s edge ed).heap.edges x
      = if x = edge then some { ed with m_type := 0 } else s.heap.edges x := fun _ => rfl
  have hone : ed.m_facet1 ≠ none ∧ ed.m_facet2 = none := by
    rcases hc edge ed hed with ⟨-, h1, h2⟩ | ⟨h0, -, -⟩
    · exact ⟨h1, h2⟩
    · rw [ht] at h0
      exact absurd h0 (by decide)
  refine ⟨?_, ?_, ?_, hone.1, hone.2, ?_⟩
  · intro x hx
    rw [hedges]
    have hne : x ≠ edge := by
      intro hxe
      have h0 := hfr x hx
      rw [hxe, hed] at h0
      cases h0
    rw [if_neg hne]
    exact hfr x hx
  · intro x edx hx
    rw [hedges] at hx
    by_cases hxe : x = edge
    · rw [if_pos hxe] at hx
      cases hx
      exact Or.inl ⟨Or.inl rfl, hone.1, hone.2⟩
    · rw [if_neg hxe] at hx
      exact hc x edx hx
  · rw [hedges, if_pos rfl]
  · intro x hx
    rw [hedges, if_neg hx]

/-- C37: a turn of Mesher::expandTriangulation that returns preserves the
invariant on types and facet counts.  If before the turn every live edge has
type 0 or 1 with exactly one facet, in facet1, or type 2 with both slots
occupied, and every entry of the border list is a live edge of type 0 or 2 (the
edge allocator being ahead of the live edges), the same holds after the turn;
and the border list is as before or has one more entry at its end, an edge of
type 0 with exactly one facet, in facet1. -/
theorem Mesher.expandStep_keeps_counts [LinearOrderedField K] (env : Env K) (s s2 : Mesher K)
    (h : Mesher.expandStep env s = some s2) (hfr : s.heap.EdgesFresh) (hc : s.heap.Counted)
    (hb : s.BorderTyped) :
    s2.heap.EdgesFresh ∧ s2.heap.Counted ∧ s2.BorderTyped ∧
    (s2.m_border_edges = s.m_border_edges ∨
      ∃ e ed, s2.m_border_edges = s.m_border_edges ++ [e] ∧ s2.heap.edges e = some ed ∧
        ed.m_type = 0 ∧ ed.m_facet1 ≠ none ∧ ed.m_facet2 = none) := by
  cases hfront : s.m_edge_front with
  | nil =>
    unfold Mesher.expandStep at h
    rw [hfront] at h
    cases h
    exact ⟨hfr, hc, hb, Or.inl rfl⟩
  | cons edge rest =>
    obtain ⟨ed, hed, hcase⟩ := Mesher.expandStep_inv env s s2 edge rest hfront h
    rcases hcase with ⟨-, rfl⟩ | ⟨ht, rfl⟩ | ⟨ht, candidate, center, s1, pushed, hfind, hnew,
      hh, -, hbo, -, -, -, -⟩
    · exact ⟨hfr, hc, hb, Or.inl rfl⟩
    · obtain ⟨r1, r2, r3, r4, r5, r6⟩ := Mesher.retireEdge_counted
        { s with m_edge_front := rest } edge ed hed ht hfr hc
      refine ⟨r1, r2, ?_, Or.inr ⟨edge, _, rfl, r3, rfl, r4, r5⟩⟩
      intro e he
      have he1 : e ∈ s.m_border_edges ++ [edge] := he
      by_cases hee : e = edge
      · rw [hee]
        exact ⟨_, r3, Or.inl rfl⟩
      · rcases List.mem_append.mp he1 with h1 | h1
        · obtain ⟨edx, hx, hty⟩ := hb e h1
          exact ⟨edx, (r6 e hee).trans hx, hty⟩
        · rw [List.mem_singleton] at h1
          exact absurd h1 hee
    · obtain ⟨ed0, f, fc, opp, hed0, hf1, hfc, hopp⟩ :=
        Mesher.findCandidateVertex_inv env _ edge _ hfind
      have hed00 : s.heap.edges edge = some ed0 := hed0
      rw [hed] at hed00
      cases hed00
      obtain ⟨hws, hwt, -, -, -, -⟩ := Mesher.findCandidateVertex_distinct env _ edge f ed fc
        opp hed0 hf1 hfc hopp candidate center hfind
      obtain ⟨p, -, -, -, -, hbo1, -⟩ := Mesher.newFacetOnEdge_pivotStep env (fun _ => True)
        { s with m_edge_front := rest } s1 edge candidate center ed hnew hed hc.firstSlot hfr
        (Ne.symm hws) hwt trivial trivial trivial
      have p1 : s.heap.PivotStep (fun _ => True) s.nextFacet s1.heap := p
      rw [hh]
      refine ⟨p1.fresh hfr, p1.counted hc, ?_, Or.inl (hbo.trans hbo1)⟩
      intro e he
      rw [hbo, hbo1] at he
      obtain ⟨edx, hx, hty⟩ := hb e he
      obtain ⟨ed1, hx1, t⟩ := p1.2.2.1 e edx hx
      refine ⟨ed1, by rw [hh]; exact hx1, ?_⟩
      rcases t.type with h1 | h1
      · rw [h1]
        exact hty
      · exact Or.inr h1

theorem rect_fresh : rectMesher.heap.EdgesFresh := by
  intro e he
  have h3 : 3 ≤ e := he
  obtain ⟨n, rfl⟩ : ∃ n, e = n + 3 := ⟨e - 3, by omega⟩
  rfl

theorem rect_counted : rectMesher.heap.Counted := by
  intro e ed h
  rcases e with _ | _ | _ | n
  · cases h
    exact Or.inl ⟨Or.inl rfl, by decide, rfl⟩
  · cases h
    exact Or.inl ⟨Or.inl rfl, by decide, rfl⟩
  · cases h
    exact Or.inl ⟨Or.inr rfl, by decide, rfl⟩
  · cases h

theorem rect_borderTyped : rectMesher.BorderTyped := by
  intro e he
  have h : e = 0 ∨ e = 1 := by
    have hb : rectMesher.m_border_edges = [0, 1] := rfl
    rw [hb] at he
    simpa using he
  rcases h with rfl | rfl
  · exact ⟨⟨0, 4, some 0, none, 0⟩, rfl, Or.inl rfl⟩
  · exact ⟨⟨4, 1, some 0, none, 0⟩, rfl, Or.inl rfl⟩

/-- The turn on the front edge 2 of the sample scene returns. -/
theorem rect_expandStep : ∃ s1, Mesher.expandStep rectEnv rectMesher = some s1 := by
  obtain ⟨s1, hs1, -⟩ := Mesher.expandStep_create rectEnv rectMesher 2 []
    ⟨1, 0, some 0, none, 1⟩ 3 ⟨153 / 2, 52, 336⟩ rect_live rfl rect_edge2 rfl rect_link
    ((Mesher.findCandidateVertex_front rectEnv rectMesher [] 2).trans rect_findCandidateVertex)
    rect_not_rejected
  exact ⟨s1, hs1⟩

/-- C37 on the sample scene, for the turn on the front edge 2 (1→0), which
builds a facet with the corner 3. -/
theorem Mesher.expandStep_keeps_counts_witness :
    ∃ s1, Mesher.expandStep rectEnv rectMesher = some s1 ∧
      s1.heap.EdgesFresh ∧ s1.heap.Counted ∧ s1.BorderTyped ∧
      (s1.m_border_edges = rectMesher.m_border_edges ∨
        ∃ e ed, s1.m_border_edges = rectMesher.m_border_edges ++ [e] ∧
          s1.heap.edges e = some ed ∧ ed.m_type = 0 ∧ ed.m_facet1 ≠ none ∧
          ed.m_facet2 = none) := by
  obtain ⟨s1, hs1⟩ := rect_expandStep
  exact ⟨s1, hs1, Mesher.expandStep_keeps_counts rectEnv rectMesher s1 hs1 rect_fresh
    rect_counted rect_borderTyped⟩

/-! ## Termination of Mesher::expandTriangulation -/

theorem Mesh.edgeTypeIs_iff (m : Mesh K) (t : Int) (e : Nat) :
    m.edgeTypeIs t e = true ↔ ∃ ed, m.edges e = some ed ∧ ed.m_type = t := by
  unfold Mesh.edgeTypeIs
  cases h : m.edges e with
  | none => simp
  | some ed => simp

/-- Two inner edges cannot link the same pair of points, so there are at most
as many inner edges as pairs of points. -/
theorem Mesh.innerCount_le (N : Nat) (m : Mesh K) (hu : m.UniqueEdges) (hs : m.EdgeSound N) :
    m.innerCount ≤ N.choose 2 := by
  have key : m.innerCount ≤ ((Finset.range N).offDiag.image Sym2.mk).card := by
    unfold Mesh.innerCount
    apply Finset.card_le_card_of_injOn (fun e =>
      match m.edges e with
      | some ed => Sym2.mk (ed.m_src, ed.m_tgt)
      | none => Sym2.mk (0, 0))
    · intro e he
      obtain ⟨-, h2⟩ := Finset.mem_filter.mp (Finset.mem_coe.mp he)
      obtain ⟨ed, hed, -⟩ := (m.edgeTypeIs_iff 2 e).mp h2
      obtain ⟨-, hne, hsN, htN, -⟩ := hs e ed hed
      rw [hed]
      apply Finset.mem_coe.mpr
      apply Finset.mem_image.mpr
      exact ⟨(ed.m_src, ed.m_tgt), Finset.mem_offDiag.mpr
        ⟨Finset.mem_range.mpr hsN, Finset.mem_range.mpr htN, hne⟩, rfl⟩
    · intro e1 he1 e2 he2 heq
      obtain ⟨-, h1⟩ := Finset.mem_filter.mp (Finset.mem_coe.mp he1)
      obtain ⟨-, h2⟩ := Finset.mem_filter.mp (Finset.mem_coe.mp he2)
      obtain ⟨d1, hd1, -⟩ := (m.edgeTypeIs_iff 2 e1).mp h1
      obtain ⟨d2, hd2, -⟩ := (m.edgeTypeIs_iff 2 e2).mp h2
      obtain ⟨-, hne1, -, -, a1, b1, -⟩ := hs e1 d1 hd1
      obtain ⟨-, -, -, -, a2, b2, -⟩ := hs e2 d2 hd2
      beta_reduce at heq
      rw [hd1, hd2] at heq
      have heq1 : Sym2.mk (d1.m_src, d1.m_tgt) = Sym2.mk (d2.m_src, d2.m_tgt) := heq
      rcases Sym2.eq_iff.mp heq1 with ⟨hs1, ht1⟩ | ⟨hs1, ht1⟩
      · rw [← hs1] at a2
        rw [← ht1] at b2
        exact hu _ _ hne1 e1 e2 a1 b1 a2 b2
      · rw [← ht1] at a2
        rw [← hs1] at b2
        exact hu _ _ hne1 e1 e2 a1 b1 b2 a2
  calc m.innerCount ≤ ((Finset.range N).offDiag.image Sym2.mk).card := key
    _ = N.choose 2 := by rw [Sym2.card_image_offDiag, Finset.card_range]

theorem Mesh.innerCount_congr (m m1 : Mesh K) (hn : m1.nextEdge = m.nextEdge)
    (h : ∀ e, m1.edgeTypeIs 2 e = m.edgeTypeIs 2 e) : m1.innerCount = m.innerCount := by
  unfold Mesh.innerCount
  rw [hn]
  congr 1
  apply Finset.filter_congr
  intro e _
  rw [h e]

/-- The number of inner edges grows strictly when no inner edge is lost and
one edge becomes inner. -/
theorem Mesh.innerCount_lt (m m1 : Mesh K) (edge : Nat) (hn : m.nextEdge ≤ m1.nextEdge)
    (hmono : ∀ e, m.edgeTypeIs 2 e = true → m1.edgeTypeIs 2 e = true)
    (hlt : edge < m1.nextEdge) (h0 : m.edgeTypeIs 2 edge = false)
    (h1 : m1.edgeTypeIs 2 edge = true) : m.innerCount < m1.innerCount := by
  unfold Mesh.innerCount
  apply Finset.card_lt_card
  apply (Finset.ssubset_iff_of_subset ?_).mpr
  · refine ⟨edge, Finset.mem_filter.mpr ⟨Finset.mem_range.mpr hlt, h1⟩, ?_⟩
    intro h
    have := (Finset.mem_filter.mp h).2
    rw [h0] at this
    cases this
  · intro e he
    obtain ⟨a, b⟩ := Finset.mem_filter.mp he
    exact Finset.mem_filter.mpr
      ⟨Finset.mem_range.mpr (lt_of_lt_of_le (Finset.mem_range.mp a) hn), hmono e b⟩

/-- The retiring of a front edge keeps the state well formed and the number of
inner edges, and no edge is freed. -/
theorem Mesher.retireEdge_inv (N : Nat) (s : Mesher K) (edge : Nat) (ed : Edge)
    (hed : s.heap.edges edge = some ed) (ht : ed.m_type = 1) (hs : s.Sound)
    (he : s.heap.EdgeSound N) :
    (Mesher.retireEdge s edge ed).Sound ∧ (Mesher.retireEdge s edge ed).heap.EdgeSound N ∧
    (Mesher.retireEdge s edge ed).heap.innerCount = s.heap.innerCount ∧
    ∀ x ed0, s.heap.edges x = some ed0 →
      ∃ ed1, (Mesher.retireEdge s edge ed).heap.edges x = some ed1 := by
  have hedges : ∀ x, (Mesher.retireEdge s edge ed).heap.edges x
      = if x = edge then some { ed with m_type := 0 } else s.heap.edges x := fun _ => rfl
  have hkeep : ∀ x ed0, s.heap.edges x = some ed0 →
      ∃ ed1, (Mesher.retireEdge s edge ed).heap.edges x = some ed1 := by
    intro x ed0 h0
    rw [hedges]
    by_cases hx : x = edge
    · rw [if_pos hx]
      exact ⟨_, rfl⟩
    · rw [if_neg hx]
      exact ⟨ed0, h0⟩
  obtain ⟨hlive, hu, hfe, hff⟩ := hs
  refine ⟨⟨?_, hu, ?_, hff⟩, ?_, ?_, hkeep⟩
  · intro v e hv
    obtain ⟨hlt, ed0, h0⟩ := hlive v e hv
    exact ⟨hlt, hkeep e ed0 h0⟩
  · intro x hx
    rw [hedges]
    have hne : x ≠ edge := by
      intro hxe
      have h0 := hfe x hx
      rw [hxe, hed] at h0
      cases h0
    rw [if_neg hne]
    exact hfe x hx
  · intro x edx hx
    rw [hedges] at hx
    by_cases hxe : x = edge
    · rw [if_pos hxe] at hx
      obtain ⟨hc, hne, hsN, htN, has, hat, hf⟩ := he edge ed hed
      cases hx
      rw [hxe]
      refine ⟨?_, hne, hsN, htN, has, hat, hf⟩
      rcases hc with ⟨-, h1, h2⟩ | ⟨h0, -, -⟩
      · exact Or.inl ⟨Or.inl rfl, h1, h2⟩
      · rw [ht] at h0
        exact absurd h0 (by decide)
    · rw [if_neg hxe] at hx
      exact he x edx hx
  · refine Mesh.innerCount_congr s.heap (Mesher.retireEdge s edge ed).heap rfl ?_
    intro x
    unfold Mesh.edgeTypeIs
    rw [hedges]
    by_cases hxe : x = edge
    · rw [if_pos hxe, hxe, hed]
      dsimp only
      rw [ht]
      rfl
    · rw [if_neg hxe]

/-- A live edge stays well formed under the creation of the facet `self` on
points of the cloud, and the edges made for it are well formed. -/
theorem Mesh.PivotStep.edgeSound {N self : Nat} {m m1 : Mesh K}
    (h : m.PivotStep (fun v => v < N) self m1) (hs : m.EdgeSound N)
    (hfac : ∀ f fc, m.facets f = some fc → ∃ fc1, m1.facets f = some fc1)
    (hself : ∃ fc, m1.facets self = some fc) : m1.EdgeSound N := by
  intro e ed1 h1
  cases h0 : m.edges e with
  | none =>
    obtain ⟨-, -, c1, c2, c3, c4, c5, c6, c7, c8⟩ := h.2.2.2 e ed1 h1 h0
    refine ⟨Or.inl ⟨Or.inr c1, by rw [c2]; exact Option.some_ne_none _, c3⟩, c4, c5, c6, c7, c8,
      ?_⟩
    intro f hf
    rw [c2] at hf
    rw [← Option.some.inj hf]
    exact hself
  | some ed =>
    obtain ⟨ed1x, h1x, t⟩ := h.2.2.1 e ed h0
    rw [h1] at h1x
    rw [← Option.some.inj h1x] at t
    obtain ⟨hc, hne, hsN, htN, has, hat, hf⟩ := hs e ed h0
    obtain ⟨e1, e2, e3⟩ := t.ends
    rw [e1, e2, e3]
    refine ⟨t.keepsCount hc, hne, hsN, htN, h.2.1 _ _ has, h.2.1 _ _ hat, ?_⟩
    intro f hf1
    obtain ⟨fc, hfc⟩ := hf f hf1
    exact hfac f fc hfc

/-- The facet built on an edge keeps the adjacent edges live and at most one
edge per pair of points. -/
theorem Mesher.newFacetOnEdge_unique [LinearOrderedField K] (env : Env K) (s s1 : Mesher K)
    (edge candidate : Nat) (center : Point K) (ed : Edge)
    (h : Mesher.newFacetOnEdge env s edge candidate center = some s1)
    (hlive : s.heap.AdjacencyLive) (hu : s.heap.UniqueEdges)
    (hed : s.heap.edges edge = some ed)
    (hlink : (s.heap.vertices ed.m_tgt).getLinkingEdge (s.heap.vertices ed.m_src) = some edge)
    (hsv : ed.m_src ≠ candidate) (hvt : candidate ≠ ed.m_tgt) (hts : ed.m_tgt ≠ ed.m_src) :
    s1.heap.AdjacencyLive ∧ s1.heap.UniqueEdges := by
  obtain ⟨m1, hm1, -, hl1, -, -, -, hu1, -⟩ := Facet.ctorOnEdge_spec (normalizeWith env.sqrt)
    s.heap s.nextFacet edge candidate center ed hlive hed hlink hsv hvt hts
  unfold Mesher.newFacetOnEdge at h
  rw [hm1, Option.some_bind] at h
  obtain ⟨hse, -⟩ := Mesher.addFacet_spec _ s1 _ h
  have hse1 : m1.SameEdges s1.heap := hse
  exact ⟨hse1.live hl1, hse1.unique_transfer (hu1 hu)⟩

/-- On a live edge with a live first facet findCandidateVertex returns. -/
theorem Mesher.findCandidateVertex_defined [LinearOrderedField K] (env : Env K) (s : Mesher K)
    (edge f : Nat) (ed : Edge) (fc : Facet K) (hed : s.heap.edges edge = some ed)
    (hf1 : ed.m_facet1 = some f) (hfc : s.heap.facets f = some fc) :
    ∃ opp r, ed.getOppositeVertex s.heap = some opp ∧
      Mesher.findCandidateVertex env s edge = some r := by
  have hopp : ed.getOppositeVertex s.heap = some ([fc.vertex 0, fc.vertex 1, fc.vertex 2].find?
      (fun opp => opp != ed.m_src && opp != ed.m_tgt)) := by
    unfold Edge.getOppositeVertex
    rw [hf1]
    dsimp only
    rw [hfc]
  exact ⟨_, _, hopp, Mesher.findCandidateVertex_eq env s edge f ed fc _ hed hf1 hfc hopp⟩

/-- One turn of Mesher::expandTriangulation on a well-formed state over a cloud
of `N` points whose front starts with `edge`: the turn returns a well-formed
state; either no facet is made, the number of inner edges is as before and the
front has lost its head, or one facet is made on the head edge, a front edge
that becomes inner with the new facet in its second slot, the number of inner
edges grows and at most two edges are put ahead of the rest of the front. -/
theorem Mesher.expandStep_progress [LinearOrderedField K] (env : Env K) (N : Nat)
    (s : Mesher K) (edge : Nat) (rest : List Nat)
    (henv : ∀ d p, ∀ w ∈ env.getNeighbors d p, w < N) (hinv : s.PivotInv N)
    (hfront : s.m_edge_front = edge :: rest) :
    ∃ s2 ed, Mesher.expandStep env s = some s2 ∧ s2.PivotInv N ∧
      s.heap.edges edge = some ed ∧
      ((s2.m_facets = s.m_facets ∧ s2.heap.innerCount = s.heap.innerCount ∧
          s2.m_edge_front = rest) ∨
       (ed.m_type = 1 ∧ s2.m_facets = s.m_facets ++ [s.nextFacet] ∧
          s.heap.innerCount < s2.heap.innerCount ∧
          s2.m_edge_front.length ≤ rest.length + 2 ∧
          s2.heap.edges edge
            = some { ed with m_facet2 := some s.nextFacet, m_type := 2 })) := by
  obtain ⟨⟨hlive, hu, hfe, hff⟩, hes, hfl⟩ := hinv
  obtain ⟨ed, hed⟩ := hfl edge (by rw [hfront]; exact List.mem_cons_self _ _)
  obtain ⟨hcnt, hne, hsN, htN, has, hat, hfac1⟩ := hes edge ed hed
  have hrest : ∀ e ∈ rest, ∃ ed, s.heap.edges e = some ed :=
    fun e he => hfl e (by rw [hfront]; exact List.mem_cons_of_mem _ he)
  by_cases ht : ed.m_type = 1
  swap
  · exact ⟨_, ed, Mesher.expandStep_pop env s edge rest ed hfront hed ht,
      ⟨⟨hlive, hu, hfe, hff⟩, hes, hrest⟩, hed, Or.inl ⟨rfl, rfl, rfl⟩⟩
  have hone : ed.m_facet1 ≠ none ∧ ed.m_facet2 = none := by
    rcases hcnt with ⟨-, h1, h2⟩ | ⟨h0, -, -⟩
    · exact ⟨h1, h2⟩
    · rw [ht] at h0
      exact absurd h0 (by decide)
  obtain ⟨f, hf1⟩ := Option.ne_none_iff_exists'.mp hone.1
  obtain ⟨fc, hfc⟩ := hfac1 f hf1
  obtain ⟨opp, r, hopp, hfind⟩ := Mesher.findCandidateVertex_defined env
    { s with m_edge_front := rest } edge f ed fc hed hf1 hfc
  by_cases hrej : Mesher.Rejects env s ed r
  · have hstep := Mesher.expandStep_retire env s edge rest ed r hlive hfront hed ht hfind hrej
    obtain ⟨r1, r2, r3, r4⟩ := Mesher.retireEdge_inv N { s with m_edge_front := rest } edge ed
      hed ht ⟨hlive, hu, hfe, hff⟩ hes
    refine ⟨_, ed, hstep, ⟨r1, r2, ?_⟩, hed, Or.inl ⟨rfl, r3, rfl⟩⟩
    intro e he
    obtain ⟨ed0, h0⟩ := hrest e he
    exact r4 e ed0 h0
  · cases r with
    | none => exact absurd (Or.inl rfl) hrej
    | some wc =>
      obtain ⟨candidate, center⟩ := wc
      have hlink := Mesh.link_of_mem s.heap hu ed.m_tgt ed.m_src edge (Ne.symm hne) hat has
      obtain ⟨s2, hs2, -, hmf, -, -, hnx2, -⟩ := Mesher.expandStep_create env s edge rest ed
        candidate center hlive hfront hed ht hlink hfind hrej
      obtain ⟨ed0, hed0, hcase⟩ := Mesher.expandStep_inv env s s2 edge rest hfront hs2
      rw [hed] at hed0
      cases hed0
      rcases hcase with ⟨hn1, -⟩ | ⟨-, hret⟩ | ⟨-, cand1, center1, s1, pushed, hfind1, hnew, hh,
        -, -, hnx, hfr2, hlen, hpushed⟩
      · exact absurd ht hn1
      · exfalso
        rw [hret] at hmf
        have hmf1 : s.m_facets = s.m_facets ++ [s.nextFacet] := hmf
        have := congrArg List.length hmf1
        simp at this
      · rw [hfind] at hfind1
        cases hfind1
        obtain ⟨hws, hwt, -, -, -, -⟩ := Mesher.findCandidateVertex_distinct env
          { s with m_edge_front := rest } edge f ed fc opp hed hf1 hfc hopp candidate center hfind
        obtain ⟨θ, -, p, q, hpq, -, -⟩ := Mesher.findCandidateVertex_some env
          { s with m_edge_front := rest } edge f ed fc opp hed hf1 hfc hopp candidate center hfind
        have hcN : candidate < N := by
          apply henv _ _ candidate
          have hmem : candidate ∈ (Mesher.pivotFrame env { s with m_edge_front := rest } ed fc
              opp).neighbors := by
            rw [hpq]
            exact List.mem_append_right _ (List.mem_cons_self _ _)
          exact hmem
        have hfacetted : s.heap.Facetted := fun e ed1 h1 => by
          rcases (hes e ed1 h1).1 with ⟨-, h, -⟩ | ⟨-, h, -⟩
          · exact h
          · exact h
        obtain ⟨p0, hfacets, hfill, -, -, -, hnx1⟩ := Mesher.newFacetOnEdge_pivotStep env
          (fun v => v < N) { s with m_edge_front := rest } s1 edge candidate center ed hnew hed
          hfacetted hfe (Ne.symm hws) hwt hsN hcN htN
        have p1 : s.heap.PivotStep (fun v => v < N) s.nextFacet s1.heap := p0
        obtain ⟨hl1, hu1⟩ := Mesher.newFacetOnEdge_unique env { s with m_edge_front := rest } s1
          edge candidate center ed hnew hlive hu hed hlink (Ne.symm hws) hwt (Ne.symm hne)
        have hfacets1 : ∀ x, s1.heap.facets x
            = if x = s.nextFacet then some ⟨ed.m_src, candidate, ed.m_tgt, center⟩
              else s.heap.facets x := by
          intro x
          rw [hfacets]
          rfl
        have hfnone : s.heap.facets s.nextFacet = none := hff _ le_rfl
        have hfne : f ≠ s.nextFacet := by
          intro hfe1
          rw [hfe1, hfnone] at hfc
          cases hfc
        have hedge1 : s1.heap.edges edge
            = some { ed with m_facet2 := some s.nextFacet, m_type := 2 } := by
          apply hfill _ hone.2
          rw [hf1]
          exact fun h => hfne (Option.some.inj h)
        have hsound1 : s1.heap.EdgeSound N := by
          apply p1.edgeSound hes
          · intro x fcx hx
            rw [hfacets1]
            by_cases hxn : x = s.nextFacet
            · rw [if_pos hxn]
              exact ⟨_, rfl⟩
            · rw [if_neg hxn]
              exact ⟨fcx, hx⟩
          · rw [hfacets1, if_pos rfl]
            exact ⟨_, rfl⟩
        have hnx3 : s2.nextFacet = s.nextFacet + 1 := hnx2
        refine ⟨s2, ed, hs2, ⟨⟨?_, ?_, ?_, ?_⟩, ?_, ?_⟩, hed, Or.inr ⟨ht, hmf, ?_, ?_, ?_⟩⟩
        · rw [hh]
          exact hl1
        · rw [hh]
          exact hu1
        · rw [hh]
          exact p1.fresh hfe
        · intro x hx
          rw [hh, hfacets1]
          rw [hnx3] at hx
          have hxn : x ≠ s.nextFacet := by omega
          rw [if_neg hxn]
          exact hff x (by omega)
        · rw [hh]
          exact hsound1
        · intro e he
          rw [hfr2] at he
          rw [hh]
          rcases List.mem_append.mp he with h1 | h1
          · obtain ⟨ed1, h2, -⟩ := hpushed e h1
            exact ⟨ed1, h2⟩
          · obtain ⟨ed1, h2⟩ := hrest e h1
            obtain ⟨ed2, h3, -⟩ := p1.2.2.1 e ed1 h2
            exact ⟨ed2, h3⟩
        · rw [hh]
          refine Mesh.innerCount_lt s.heap s1.heap edge p1.1 ?_ ?_ ?_ ?_
          · intro e he
            obtain ⟨ed1, h1, h2⟩ := (s.heap.edgeTypeIs_iff 2 e).mp he
            obtain ⟨ed2, h3, t⟩ := p1.2.2.1 e ed1 h1
            apply (s1.heap.edgeTypeIs_iff 2 e).mpr
            refine ⟨ed2, h3, ?_⟩
            rcases t.type with h4 | h4
            · rw [h4]
              exact h2
            · exact h4
          · exact lt_of_lt_of_le (hlive _ _ has).1 p1.1
          · cases hb : s.heap.edgeTypeIs 2 edge with
            | false => rfl
            | true =>
              obtain ⟨ed1, h1, h2⟩ := (s.heap.edgeTypeIs_iff 2 edge).mp hb
              rw [hed] at h1
              cases h1
              rw [ht] at h2
              exact absurd h2 (by decide)
          · exact (s1.heap.edgeTypeIs_iff 2 edge).mpr ⟨_, hedge1, rfl⟩
        · rw [hfr2, List.length_append]
          omega
        · rw [hh]
          exact hedge1

theorem Mesher.expandTriangulation_zero [LinearOrderedField K] (env : Env K) (s : Mesher K) :
    Mesher.expandTriangulation env 0 s = if s.m_edge_front = [] then some s else none := rfl

/-- A run of the loop that ends within the bound on its turns gives the same
state under every larger bound. -/
theorem Mesher.expandTriangulation_fuel [LinearOrderedField K] (env : Env K) (n : Nat) :
    ∀ s s1 : Mesher K, Mesher.expandTriangulation env n s = some s1 →
      ∀ k, Mesher.expandTriangulation env (n + k) s = some s1 := by
  induction n with
  | zero =>
    intro s s1 h k
    rw [Mesher.expandTriangulation_zero] at h
    by_cases hf : s.m_edge_front = []
    · rw [if_pos hf] at h
      rw [Nat.zero_add]
      cases k with
      | zero => rw [Mesher.expandTriangulation_zero, if_pos hf, h]
      | succ k => rw [Mesher.expandTriangulation_succ, if_pos hf, h]
    · rw [if_neg hf] at h
      cases h
  | succ n ih =>
    intro s s1 h k
    rw [Mesher.expandTriangulation_succ] at h
    have hk : n + 1 + k = (n + k) + 1 := by omega
    rw [hk, Mesher.expandTriangulation_succ]
    by_cases hf : s.m_edge_front = []
    · rw [if_pos hf] at h ⊢
      exact h
    · rw [if_neg hf] at h ⊢
      obtain ⟨s2, h2, h3⟩ := Option.bind_eq_some.mp h
      rw [h2, Option.some_bind]
      exact ih s2 s1 h3 k

/-- The loop of Mesher::expandTriangulation, started on a well-formed state,
empties the front within the bound. -/
theorem Mesher.expandTriangulation_runs [LinearOrderedField K] (env : Env K) (N : Nat)
    (henv : ∀ d p, ∀ w ∈ env.getNeighbors d p, w < N) :
    ∀ (n : Nat) (s : Mesher K), s.PivotInv N → s.pivotBound N ≤ n →
      ∃ s1, Mesher.expandTriangulation env n s = some s1 ∧ s1.m_edge_front = [] ∧
        s1.PivotInv N := by
  intro n
  induction n with
  | zero =>
    intro s hinv hb
    have hlen : s.m_edge_front.length = 0 := by
      unfold Mesher.pivotBound at hb
      omega
    have hf : s.m_edge_front = [] := List.length_eq_zero.mp hlen
    exact ⟨s, by rw [Mesher.expandTriangulation_zero, if_pos hf], hf, hinv⟩
  | succ n ih =>
    intro s hinv hb
    cases hfront : s.m_edge_front with
    | nil => exact ⟨s, by rw [Mesher.expandTriangulation_succ, if_pos hfront], hfront, hinv⟩
    | cons edge rest =>
      obtain ⟨s2, ed, hs2, hinv2, -, hcase⟩ := Mesher.expandStep_progress env N s edge rest henv
        hinv hfront
      have hle2 := Mesh.innerCount_le N s2.heap hinv2.1.2.1 hinv2.2.1
      have hb2 : s2.pivotBound N ≤ n := by
        unfold Mesher.pivotBound at hb ⊢
        rw [hfront, List.length_cons] at hb
        rcases hcase with ⟨-, h1, h2⟩ | ⟨-, -, h1, h2, -⟩
        · rw [h1, h2]
          omega
        · omega
      obtain ⟨s1, h1, h2, h3⟩ := ih s2 hinv2 hb2
      refine ⟨s1, ?_, h2, h3⟩
      have hne : s.m_edge_front ≠ [] := by
        rw [hfront]
        exact List.cons_ne_nil _ _
      rw [Mesher.expandTriangulation_succ, if_neg hne, hs2, Option.some_bind]
      exact h1

/-- C36: Mesher::expandTriangulation terminates.  On a well-formed state over
a cloud of `N` points (sound heap, well-formed live edges, a front of live
edges, neighbors among the `N` points) the number of inner edges is at most
the number `N choose 2` of vertex pairs; a turn on a front that is not empty
returns a well-formed state and either makes no facet, keeps the number of
inner edges and removes the head of the front, or makes one facet on the head
edge, a front edge that becomes inner with the facet in its second slot, so
that the number of inner edges grows, and lengthens the front by at most one;
and the loop returns with an empty front, within the length of the front plus
twice the number of vertex pairs without an inner edge turns. -/
theorem Mesher.expandTriangulation_terminates [LinearOrderedField K] (env : Env K) (N : Nat)
    (s : Mesher K) (henv : ∀ d p, ∀ w ∈ env.getNeighbors d p, w < N) (hinv : s.PivotInv N) :
    s.heap.innerCount ≤ N.choose 2 ∧
    (∀ edge rest, s.m_edge_front = edge :: rest →
      ∃ s2 ed, Mesher.expandStep env s = some s2 ∧ s2.PivotInv N ∧
        s.heap.edges edge = some ed ∧
        ((s2.m_facets = s.m_facets ∧ s2.heap.innerCount = s.heap.innerCount ∧
            s2.m_edge_front = rest) ∨
         (ed.m_type = 1 ∧ s2.m_facets = s.m_facets ++ [s.nextFacet] ∧
            s.heap.innerCount < s2.heap.innerCount ∧
            s2.m_edge_front.length ≤ rest.length + 2 ∧
            s2.heap.edges edge
              = some { ed with m_facet2 := some s.nextFacet, m_type := 2 }))) ∧
    ∃ s1, (∀ fuel, s.pivotBound N ≤ fuel → Mesher.expandTriangulation env fuel s = some s1) ∧
      s1.m_edge_front = [] ∧ s1.PivotInv N := by
  refine ⟨Mesh.innerCount_le N s.heap hinv.1.2.1 hinv.2.1,
    fun edge rest hfront => Mesher.expandStep_progress env N s edge rest henv hinv hfront, ?_⟩
  obtain ⟨s1, h1, h2, h3⟩ := Mesher.expandTriangulation_runs env N henv (s.pivotBound N) s hinv
    le_rfl
  refine ⟨s1, ?_, h2, h3⟩
  intro fuel hfuel
  obtain ⟨k, rfl⟩ : ∃ k, fuel = s.pivotBound N + k := ⟨fuel - s.pivotBound N, by omega⟩
  exact Mesher.expandTriangulation_fuel env _ s s1 h1 k

theorem pivot_adjacent (u e : Nat) (h : e ∈ (pivotMesher.heap.vertices u).m_adjacentEdges) :
    (u = 0 ∧ (e = 0 ∨ e = 2)) ∨ (u = 1 ∧ (e = 1 ∨ e = 2)) ∨ (u = 4 ∧ (e = 0 ∨ e = 1)) := by
  rcases u with _ | _ | _ | _ | _ | n <;>
    simp [pivotMesher, pivotHeap, rectVertex] at h <;> omega

/-- The sample rectangle is a well-formed state over its five samples. -/
theorem pivot_inv : pivotMesher.PivotInv 5 := by
  refine ⟨⟨?_, ?_, ?_, ?_⟩, ?_, ?_⟩
  · intro v e he
    have hmem : e = 0 ∨ e = 1 ∨ e = 2 := by
      have := pivot_adjacent v e he
      omega
    rcases hmem with rfl | rfl | rfl
    · exact ⟨by decide, _, rfl⟩
    · exact ⟨by decide, _, rfl⟩
    · exact ⟨by decide, _, rfl⟩
  · intro u v huv e1 e2 h1u h1v h2u h2v
    have a1 := pivot_adjacent u e1 h1u
    have a2 := pivot_adjacent v e1 h1v
    have a3 := pivot_adjacent u e2 h2u
    have a4 := pivot_adjacent v e2 h2v
    omega
  · intro e he
    have h3 : 3 ≤ e := he
    obtain ⟨n, rfl⟩ : ∃ n, e = n + 3 := ⟨e - 3, by omega⟩
    rfl
  · intro f hf
    have h1 : 1 ≤ f := hf
    obtain ⟨n, rfl⟩ : ∃ n, f = n + 1 := ⟨f - 1, by omega⟩
    rfl
  · intro e ed h
    rcases e with _ | _ | _ | n
    · cases h
      refine ⟨Or.inl ⟨Or.inl rfl, by decide, rfl⟩, by decide, by decide, by decide, ?_, ?_, ?_⟩
      · show (0 : Nat) ∈ [0, 2]
        decide
      · show (0 : Nat) ∈ [0, 1]
        decide
      · intro f hf
        cases hf
        exact ⟨_, rfl⟩
    · cases h
      refine ⟨Or.inl ⟨Or.inl rfl, by decide, rfl⟩, by decide, by decide, by decide, ?_, ?_, ?_⟩
      · show (1 : Nat) ∈ [0, 1]
        decide
      · show (1 : Nat) ∈ [1, 2]
        decide
      · intro f hf
        cases hf
        exact ⟨_, rfl⟩
    · cases h
      refine ⟨Or.inl ⟨Or.inr rfl, by decide, rfl⟩, by decide, by decide, by decide, ?_, ?_, ?_⟩
      · show (2 : Nat) ∈ [1, 2]
        decide
      · show (2 : Nat) ∈ [0, 2]
        decide
      · intro f hf
        cases hf
        exact ⟨_, rfl⟩
    · cases h
  · intro e he
    have h2 : e = 2 := by
      have hf : pivotMesher.m_edge_front = [2] := rfl
      rw [hf] at he
      simpa using he
    rw [h2]
    exact ⟨_, rfl⟩

theorem pivot_bound : pivotMesher.pivotBound 5 = 21 := by
  decide

/-- C36 on the sample rectangle with its five samples, the front holding the
edge 2: the loop returns within 21 turns. -/
theorem Mesher.expandTriangulation_terminates_witness :
    (∀ d p, ∀ w ∈ rectEnv.getNeighbors d p, w < 5) ∧ pivotMesher.PivotInv 5 ∧
    pivotMesher.pivotBound 5 = 21 ∧ pivotMesher.heap.innerCount ≤ Nat.choose 5 2 ∧
    (∀ edge rest, pivotMesher.m_edge_front = edge :: rest →
      ∃ s2 ed, Mesher.expandStep rectEnv pivotMesher = some s2 ∧ s2.PivotInv 5 ∧
        pivotMesher.heap.edges edge = some ed ∧
        ((s2.m_facets = pivotMesher.m_facets ∧
            s2.heap.innerCount = pivotMesher.heap.innerCount ∧ s2.m_edge_front = rest) ∨
         (ed.m_type = 1 ∧ s2.m_facets = pivotMesher.m_facets ++ [pivotMesher.nextFacet] ∧
            pivotMesher.heap.innerCount < s2.heap.innerCount ∧
            s2.m_edge_front.length ≤ rest.length + 2 ∧
            s2.heap.edges edge
              = some { ed with m_facet2 := some pivotMesher.nextFacet, m_type := 2 }))) ∧
    ∃ s1, (∀ fuel, pivotMesher.pivotBound 5 ≤ fuel →
        Mesher.expandTriangulation rectEnv fuel pivotMesher = some s1) ∧
      s1.m_edge_front = [] ∧ s1.PivotInv 5 := by
  have henv : ∀ d p, ∀ w ∈ rectEnv.getNeighbors d p, w < 5 := by
    intro d p w hw
    have hw1 : w ∈ [0, 1, 2, 3, 4] := hw
    simp at hw1
    omega
  exact ⟨henv, pivot_inv, pivot_bound,
    Mesher.expandTriangulation_terminates rectEnv 5 pivotMesher henv pivot_inv⟩

/-! ## Mesher::expandTriangulationAroundNode -/

/-- When every point is inside the dilated cell, a turn of the expansion
around the node is a turn of the plain expansion. -/
theorem Mesher.expandStepAroundNode_all [LinearOrderedField K] (env : Env K) (s : Mesher K) :
    Mesher.expandStepAroundNode env (fun _ => true) s = Mesher.expandStep env s := by
  unfold Mesher.expandStepAroundNode Mesher.expandStep
  cases s.m_edge_front with
  | nil => rfl
  | cons edge rest =>
    dsimp only
    cases s.heap.edges edge with
    | none => rfl
    | some ed =>
      dsimp only
      by_cases ht : ed.m_type ≠ 1
      · rw [if_pos ht, if_pos ht]
      · rw [if_neg ht, if_neg ht]
        cases Mesher.findCandidateVertex env { s with m_edge_front := rest } edge with
        | none => rfl
        | some r =>
          cases r with
          | none => rfl
          | some wc =>
            obtain ⟨candidate, center⟩ := wc
            dsimp only
            by_cases hg : (s.heap.vertices candidate).m_type = 2
                ∨ Vertex.isCompatibleWith (normalizeWith env.sqrt) (s.heap.vertices candidate)
                    (s.heap.vertices ed.m_src) (s.heap.vertices ed.m_tgt) = false
            · rw [if_pos hg, if_pos hg]
            · rw [if_neg hg, if_neg hg]
              cases s.heap.linkTypeIs candidate ed.m_src (fun t => t != 1) with
              | none => rfl
              | some b1 =>
                cases b1 with
                | true => rfl
                | false =>
                  dsimp only
                  cases s.heap.linkTypeIs candidate ed.m_tgt (fun t => t != 1) with
                  | none => rfl
                  | some b2 =>
                    cases b2 with
                    | true => rfl
                    | false => rfl

/-- The state written by the creation of a facet on an edge: the facet on the
source of the edge, the candidate and the target is written at the next facet
address, and the next facet address moves by one. -/
theorem Mesher.newFacetOnEdge_written [LinearOrderedField K] (env : Env K) (s s1 : Mesher K)
    (edge candidate : Nat) (center : Point K)
    (h : Mesher.newFacetOnEdge env s edge candidate center = some s1) :
    ∃ ed, s.heap.edges edge = some ed ∧
      s1.heap.facets = (s.heap.setFacet s.nextFacet
        (some ⟨ed.m_src, candidate, ed.m_tgt, center⟩)).facets ∧
      s1.nextFacet = s.nextFacet + 1 := by
  unfold Mesher.newFacetOnEdge at h
  obtain ⟨m1, hm1, hadd⟩ := Option.bind_eq_some.mp h
  obtain ⟨ed, hed, hfac⟩ := Facet.ctorOnEdge_facets (normalizeWith env.sqrt) s.heap m1
    s.nextFacet edge candidate center hm1
  obtain ⟨hse, -, -, -, -, hnx⟩ := Mesher.addFacet_spec _ s1 _ hadd
  have hse1 : m1.SameEdges s1.heap := hse
  exact ⟨ed, hed, by rw [hse1.2.1, hfac], hnx⟩

/-- A turn of Mesher::expandTriangulationAroundNode that returns, read
backwards: the head edge of the front is live, and either its type is not 1 and
it is dropped, or it is retired to the border list, or its candidate passed
every test but is outside the dilated cell and the edge is set aside, or the
candidate passed every test and is inside, and the facet on the edge and the
candidate was built and added, after which the linking edges of type 1 of the
candidate were put in front of the rest of the front. -/
theorem Mesher.expandStepAroundNode_inv [LinearOrderedField K] (env : Env K)
    (inside : Nat → Bool) (s s2 : Mesher K)
    (edge : Nat) (rest : List Nat) (hfront : s.m_edge_front = edge :: rest)
    (h : Mesher.expandStepAroundNode env inside s = some s2) :
    ∃ ed, s.heap.edges edge = some ed ∧
      ((ed.m_type ≠ 1 ∧ s2 = { s with m_edge_front := rest }) ∨
       (ed.m_type = 1 ∧ s2 = Mesher.retireEdge { s with m_edge_front := rest } edge ed) ∨
       (ed.m_type = 1 ∧ ∃ candidate center,
          Mesher.findCandidateVertex env { s with m_edge_front := rest } edge
            = some (some (candidate, center)) ∧ inside candidate = false ∧
          s2 = Mesher.setAside { s with m_edge_front := rest } edge ed) ∨
       (ed.m_type = 1 ∧ ∃ candidate center s1,
          Mesher.findCandidateVertex env { s with m_edge_front := rest } edge
            = some (some (candidate, center)) ∧ inside candidate = true ∧
          Mesher.newFacetOnEdge env { s with m_edge_front := rest } edge candidate center
            = some s1 ∧
          s2.heap = s1.heap ∧ s2.m_facets = s1.m_facets ∧
          s2.m_border_edges = s1.m_border_edges ∧ s2.nextFacet = s1.nextFacet)) := by
  unfold Mesher.expandStepAroundNode at h
  rw [hfront] at h
  dsimp only at h
  cases hed : s.heap.edges edge with
  | none => rw [hed] at h; cases h
  | some ed =>
    rw [hed] at h
    dsimp only at h
    refine ⟨ed, rfl, ?_⟩
    by_cases ht : ed.m_type ≠ 1
    · rw [if_pos ht] at h
      cases h
      exact Or.inl ⟨ht, rfl⟩
    · rw [if_neg ht] at h
      have ht1 : ed.m_type = 1 := not_not.mp ht
      cases hfind : Mesher.findCandidateVertex env { s with m_edge_front := rest } edge with
      | none => rw [hfind] at h; cases h
      | some r =>
        rw [hfind] at h
        cases r with
        | none =>
          dsimp only at h
          cases h
          exact Or.inr (Or.inl ⟨ht1, rfl⟩)
        | some wc =>
          obtain ⟨candidate, center⟩ := wc
          dsimp only at h
          by_cases hg : (s.heap.vertices candidate).m_type = 2
              ∨ Vertex.isCompatibleWith (normalizeWith env.sqrt) (s.heap.vertices candidate)
                  (s.heap.vertices ed.m_src) (s.heap.vertices ed.m_tgt) = false
          · rw [if_pos hg] at h
            cases h
            exact Or.inr (Or.inl ⟨ht1, rfl⟩)
          · rw [if_neg hg] at h
            cases h1 : s.heap.linkTypeIs candidate ed.m_src (fun t => t != 1) with
            | none => rw [h1] at h; cases h
            | some b1 =>
              rw [h1] at h
              cases b1 with
              | true =>
                dsimp only at h
                cases h
                exact Or.inr (Or.inl ⟨ht1, rfl⟩)
              | false =>
                dsimp only at h
                cases h2 : s.heap.linkTypeIs candidate ed.m_tgt (fun t => t != 1) with
                | none => rw [h2] at h; cases h
                | some b2 =>
                  rw [h2] at h
                  cases b2 with
                  | true =>
                    dsimp only at h
                    cases h
                    exact Or.inr (Or.inl ⟨ht1, rfl⟩)
                  | false =>
                    dsimp only at h
                    cases hin : inside candidate with
                    | false =>
                      rw [hin, if_pos rfl] at h
                      cases h
                      exact Or.inr (Or.inr (Or.inl ⟨ht1, candidate, center, rfl, hin, rfl⟩))
                    | true =>
                      rw [hin, if_neg (by decide)] at h
                      obtain ⟨s1, hs1, h⟩ := Option.bind_eq_some.mp h
                      cases he1 : s1.heap.edges edge with
                      | none => rw [he1] at h; cases h
                      | some ed1 =>
                        rw [he1] at h
                        dsimp only at h
                        obtain ⟨s3, hs3, h⟩ := Option.bind_eq_some.mp h
                        obtain ⟨hh3, hfa3, -, hbo3, hnx3, -⟩ :=
                          Mesher.pushIfFront_spec s1 s3 _ _ hs3
                        cases he2 : s3.heap.edges edge with
                        | none => rw [he2] at h; cases h
                        | some ed2 =>
                          rw [he2] at h
                          dsimp only at h
                          obtain ⟨hh4, hfa4, -, hbo4, hnx4, -⟩ :=
                            Mesher.pushIfFront_spec s3 s2 _ _ h
                          exact Or.inr (Or.inr (Or.inr ⟨ht1, candidate, center, s1, rfl, hin,
                            hs1, hh4.trans hh3, hfa4.trans hfa3, hbo4.trans hbo3,
                            hnx4.trans hnx3⟩))

/-- Writing back the fields of a live edge of type 1 with the type 1 leaves the
heap as it is. -/
theorem Mesh.setEdge_front (m : Mesh K) (edge : Nat) (ed : Edge)
    (hed : m.edges edge = some ed) (ht : ed.m_type = 1) :
    m.setEdge edge (some { ed with m_type := 1 }) = m := by
  have hsame : ({ ed with m_type := 1 } : Edge) = ed := by
    obtain ⟨a, b, c, d, t⟩ := ed
    have ht1 : t = 1 := ht
    rw [ht1]
  have hfun : (fun i => if i = edge then some ({ ed with m_type := 1 } : Edge) else m.edges i)
      = m.edges := by
    funext i
    by_cases hi : i = edge
    · rw [if_pos hi, hsame, hi, hed]
    · rw [if_neg hi]
  unfold Mesh.setEdge
  rw [hfun]

/-- A turn on a front edge whose candidate passes every test but is outside
the dilated cell, on a heap whose adjacent edges are live: the turn returns
the state with the head of the front removed and the edge appended to the
node-border list, and nothing else changed. -/
theorem Mesher.expandStepAroundNode_aside [LinearOrderedField K] (env : Env K)
    (inside : Nat → Bool) (s : Mesher K)
    (edge : Nat) (rest : List Nat) (ed : Edge) (candidate : Nat) (center : Point K)
    (hlive : s.heap.AdjacencyLive)
    (hfront : s.m_edge_front = edge :: rest) (hed : s.heap.edges edge = some ed)
    (ht : ed.m_type = 1)
    (hfind : Mesher.findCandidateVertex env { s with m_edge_front := rest } edge
      = some (some (candidate, center)))
    (hnrej : ¬ Mesher.Rejects env s ed (some (candidate, center)))
    (hin : inside candidate = false) :
    Mesher.expandStepAroundNode env inside s
      = some { s with m_edge_front := rest
                      m_node_border_edges := s.m_node_border_edges ++ [edge] } := by
  have hguard : ¬ ((s.heap.vertices candidate).m_type = 2
      ∨ Vertex.isCompatibleWith (normalizeWith env.sqrt) (s.heap.vertices candidate)
          (s.heap.vertices ed.m_src) (s.heap.vertices ed.m_tgt) = false) := by
    rintro (h | h)
    · exact hnrej (Or.inr ⟨candidate, center, rfl, Or.inl h⟩)
    · exact hnrej (Or.inr ⟨candidate, center, rfl, Or.inr (Or.inl h)⟩)
  have hP : ∀ t : Int, ((fun t => t != 1) t = true) → t ≠ 1 := by
    intro t h
    simpa using h
  obtain ⟨hd1, hi1⟩ := Mesh.linkTypeIs_live s.heap candidate ed.m_src (fun t => t != 1) hlive
  obtain ⟨hd2, hi2⟩ := Mesh.linkTypeIs_live s.heap candidate ed.m_tgt (fun t => t != 1) hlive
  have h1 : s.heap.linkTypeIs candidate ed.m_src (fun t => t != 1) = some false := by
    rcases hd1 with h | h
    · obtain ⟨e, ed1, hl, he, hp⟩ := hi1.mp h
      exact absurd (Or.inr ⟨candidate, center, rfl,
        Or.inr (Or.inr (Or.inl ⟨e, ed1, hl, he, hP _ hp⟩))⟩) hnrej
    · exact h
  have h2 : s.heap.linkTypeIs candidate ed.m_tgt (fun t => t != 1) = some false := by
    rcases hd2 with h | h
    · obtain ⟨e, ed1, hl, he, hp⟩ := hi2.mp h
      exact absurd (Or.inr ⟨candidate, center, rfl,
        Or.inr (Or.inr (Or.inr ⟨e, ed1, hl, he, hP _ hp⟩))⟩) hnrej
    · exact h
  have hheap : s.heap.setEdge edge (some { ed with m_type := 1 }) = s.heap :=
    Mesh.setEdge_front s.heap edge ed hed ht
  unfold Mesher.expandStepAroundNode
  rw [hfront]
  dsimp only
  rw [hed]
  dsimp only
  rw [if_neg (not_not.mpr ht), hfind]
  dsimp only
  rw [if_neg hguard, h1]
  dsimp only
  rw [h2]
  dsimp only
  rw [if_pos hin]
  unfold Mesher.setAside
  dsimp only
  rw [hheap]

/-- A turn of Mesher::expandTriangulationAroundNode that returns leaves the
facets alone or writes one facet, at the next facet address, which it appends
to the facet list: the facet on the source of the head edge of the front, a
candidate that is inside the dilated cell, and the target. -/
theorem Mesher.expandStepAroundNode_facet [LinearOrderedField K] (env : Env K)
    (inside : Nat → Bool) (s s2 : Mesher K)
    (h : Mesher.expandStepAroundNode env inside s = some s2) :
    (s2.m_facets = s.m_facets ∧ s2.heap.facets = s.heap.facets ∧
      s2.nextFacet = s.nextFacet) ∨
    (∃ edge rest ed candidate center, s.m_edge_front = edge :: rest ∧
      s.heap.edges edge = some ed ∧ ed.m_type = 1 ∧
      Mesher.findCandidateVertex env { s with m_edge_front := rest } edge
        = some (some (candidate, center)) ∧
      inside candidate = true ∧
      s2.m_facets = s.m_facets ++ [s.nextFacet] ∧
      s2.heap.facets = (s.heap.setFacet s.nextFacet
        (some ⟨ed.m_src, candidate, ed.m_tgt, center⟩)).facets ∧
      s2.nextFacet = s.nextFacet + 1) := by
  cases hfront : s.m_edge_front with
  | nil =>
    unfold Mesher.expandStepAroundNode at h
    rw [hfront] at h
    cases h
    exact Or.inl ⟨rfl, rfl, rfl⟩
  | cons edge rest =>
    obtain ⟨ed, hed, hcase⟩ := Mesher.expandStepAroundNode_inv env inside s s2 edge rest hfront h
    rcases hcase with ⟨-, rfl⟩ | ⟨-, rfl⟩ | ⟨-, -, -, -, -, rfl⟩ | ⟨ht, candidate, center, s1,
      hfind, hin, hnew, hh, hmf, -, hnx⟩
    · exact Or.inl ⟨rfl, rfl, rfl⟩
    · exact Or.inl ⟨rfl, rfl, rfl⟩
    · exact Or.inl ⟨rfl, rfl, rfl⟩
    · obtain ⟨ed0, hed0, hfac, hnx1⟩ := Mesher.newFacetOnEdge_written env _ s1 _ _ _ hnew
      have hed00 : s.heap.edges edge = some ed0 := hed0
      rw [hed] at hed00
      cases hed00
      have hmf1 := Mesher.newFacetOnEdge_facets env _ s1 _ _ _ hnew
      exact Or.inr ⟨edge, rest, ed, candidate, center, rfl, hed, ht, hfind, hin,
        hmf.trans hmf1, by rw [hh, hfac], hnx.trans hnx1⟩

theorem Mesher.expandTriangulationAroundNode_zero [LinearOrderedField K] (env : Env K)
    (inside : Nat → Bool) (s : Mesher K) :
    Mesher.expandTriangulationAroundNode env inside 0 s
      = if s.m_edge_front = [] then some s else none := rfl

theorem Mesher.expandTriangulationAroundNode_succ [LinearOrderedField K] (env : Env K)
    (inside : Nat → Bool) (fuel : Nat) (s : Mesher K) :
    Mesher.expandTriangulationAroundNode env inside (fuel + 1) s
      = if s.m_edge_front = [] then some s
        else (Mesher.expandStepAroundNode env inside s).bind
          (Mesher.expandTriangulationAroundNode env inside fuel) := rfl

/-- A run of Mesher::expandTriangulationAroundNode that returns has appended
to the facet list the facets it made, each written once at a facet address
handed out during the run, with a second vertex, its candidate, inside the
dilated cell; the facets at earlier addresses are as before. -/
theorem Mesher.expandTriangulationAroundNode_facets [LinearOrderedField K] (env : Env K)
    (inside : Nat → Bool) (fuel : Nat) :
    ∀ s s1 : Mesher K, Mesher.expandTriangulationAroundNode env inside fuel s = some s1 →
      s.nextFacet ≤ s1.nextFacet ∧
      (∀ f, f < s.nextFacet → s1.heap.facets f = s.heap.facets f) ∧
      ∃ made, s1.m_facets = s.m_facets ++ made ∧
        ∀ f ∈ made, s.nextFacet ≤ f ∧ f < s1.nextFacet ∧
          ∃ fc, s1.heap.facets f = some fc ∧ inside (fc.vertex 1) = true := by
  induction fuel with
  | zero =>
    intro s s1 h
    rw [Mesher.expandTriangulationAroundNode_zero] at h
    by_cases hf : s.m_edge_front = []
    · rw [if_pos hf] at h
      cases h
      exact ⟨le_rfl, fun _ _ => rfl, [], (List.append_nil _).symm, fun f hf => by cases hf⟩
    · rw [if_neg hf] at h
      cases h
  | succ fuel ih =>
    intro s s1 h
    rw [Mesher.expandTriangulationAroundNode_succ] at h
    by_cases hf : s.m_edge_front = []
    · rw [if_pos hf] at h
      cases h
      exact ⟨le_rfl, fun _ _ => rfl, [], (List.append_nil _).symm, fun f hf => by cases hf⟩
    · rw [if_neg hf] at h
      obtain ⟨s2, hs2, hrun⟩ := Option.bind_eq_some.mp h
      obtain ⟨hle, hold, made, hmade, hin⟩ := ih s2 s1 hrun
      rcases Mesher.expandStepAroundNode_facet env inside s s2 hs2 with ⟨a1, a2, a3⟩ |
        ⟨edge, rest, ed, candidate, center, -, -, -, -, hc, b1, b2, b3⟩
      · rw [a3] at hle hold hin
        rw [a1] at hmade
        rw [a2] at hold
        exact ⟨hle, hold, made, hmade, hin⟩
      · have hfacets2 : ∀ x, s2.heap.facets x
            = if x = s.nextFacet then some ⟨ed.m_src, candidate, ed.m_tgt, center⟩
              else s.heap.facets x := by
          intro x
          rw [b2]
          rfl
        rw [b3] at hle hold hin
        refine ⟨by omega, ?_, s.nextFacet :: made, ?_, ?_⟩
        · intro f hlt
          rw [hold f (by omega), hfacets2, if_neg (by omega)]
        · rw [hmade, b1, List.append_assoc]
          rfl
        · intro f hmem
          rcases List.mem_cons.mp hmem with hfe | hfm
          · rw [hfe]
            refine ⟨le_rfl, by omega, ⟨ed.m_src, candidate, ed.m_tgt, center⟩, ?_, hc⟩
            rw [hold s.nextFacet (by omega), hfacets2, if_pos rfl]
          · obtain ⟨c1, c2, c3⟩ := hin f hfm
            exact ⟨by omega, c2, c3⟩

/-- C40: in Mesher::expandTriangulationAroundNode, with `inside v` the value
of `isInside(v, d)` on the node, (1) a turn that returns leaves the facets
alone or makes one facet, on the head edge of the front and a candidate that
is inside the dilated cell; (2) a run that returns has appended to the facet
list the facets it made, each with its candidate, its second vertex, inside
the dilated cell; (3) on a heap whose adjacent edges are live, a turn on a
front edge whose candidate passes every test but is outside the dilated cell
returns the state with the head of the front removed and the edge appended to
the node-border list, and nothing else changed: the edge keeps its type 1 and
its facets, no facet is made, and the front and the border list do not
receive it. -/
theorem Mesher.expandTriangulationAroundNode_inside [LinearOrderedField K] (env : Env K)
    (inside : Nat → Bool) :
    (∀ s s2 : Mesher K, Mesher.expandStepAroundNode env inside s = some s2 →
      (s2.m_facets = s.m_facets ∧ s2.heap.facets = s.heap.facets ∧
        s2.nextFacet = s.nextFacet) ∨
      (∃ edge rest ed candidate center, s.m_edge_front = edge :: rest ∧
        s.heap.edges edge = some ed ∧ ed.m_type = 1 ∧
        Mesher.findCandidateVertex env { s with m_edge_front := rest } edge
          = some (some (candidate, center)) ∧
        inside candidate = true ∧
        s2.m_facets = s.m_facets ++ [s.nextFacet] ∧
        s2.heap.facets = (s.heap.setFacet s.nextFacet
          (some ⟨ed.m_src, candidate, ed.m_tgt, center⟩)).facets ∧
        s2.nextFacet = s.nextFacet + 1)) ∧
    (∀ (fuel : Nat) (s s1 : Mesher K),
      Mesher.expandTriangulationAroundNode env inside fuel s = some s1 →
      ∃ made, s1.m_facets = s.m_facets ++ made ∧
        ∀ f ∈ made, s.nextFacet ≤ f ∧ f < s1.nextFacet ∧
          ∃ fc, s1.heap.facets f = some fc ∧ inside (fc.vertex 1) = true) ∧
    (∀ (s : Mesher K) (edge : Nat) (rest : List Nat) (ed : Edge) (candidate : Nat)
      (center : Point K), s.heap.AdjacencyLive → s.m_edge_front = edge :: rest →
      s.heap.edges edge = some ed → ed.m_type = 1 →
      Mesher.findCandidateVertex env { s with m_edge_front := rest } edge
        = some (some (candidate, center)) →
      ¬ Mesher.Rejects env s ed (some (candidate, center)) →
      inside candidate = false →
      Mesher.expandStepAroundNode env inside s
        = some { s with m_edge_front := rest
                        m_node_border_edges := s.m_node_border_edges ++ [edge] }) := by
  refine ⟨Mesher.expandStepAroundNode_facet env inside, ?_,
    fun s edge rest ed candidate center hlive hfront hed ht hfind hnrej hin =>
      Mesher.expandStepAroundNode_aside env inside s edge rest ed candidate center hlive hfront
        hed ht hfind hnrej hin⟩
  intro fuel s s1 h
  exact (Mesher.expandTriangulationAroundNode_facets env inside fuel s s1 h).2.2

/-- C40 on the sample rectangle, whose front holds the edge 2 (1→0) with the
candidate 3.  With the corner 3 outside the cell the turn and the run set the
edge aside: the node-border list is [2], the front is empty, the facet list
and the border list are as before.  With every point inside, the turn makes
the facet 1 with the candidate 3. -/
theorem Mesher.expandTriangulationAroundNode_inside_witness :
    Mesher.expandStepAroundNode rectEnv (fun v => v != 3) rectMesher
      = some { rectMesher with m_edge_front := [], m_node_border_edges := [2] } ∧
    Mesher.expandTriangulationAroundNode rectEnv (fun v => v != 3) 1 rectMesher
      = some { rectMesher with m_edge_front := [], m_node_border_edges := [2] } ∧
    (∃ made, ({ rectMesher with m_edge_front := [], m_node_border_edges := [2] } :
        Mesher ℚ).m_facets = rectMesher.m_facets ++ made ∧
      ∀ f ∈ made, rectMesher.nextFacet ≤ f ∧ f < 1 ∧
        ∃ fc, rectMesher.heap.facets f = some fc ∧ (fun v => v != 3) (fc.vertex 1) = true) ∧
    ∃ s1, Mesher.expandStepAroundNode rectEnv (fun _ => true) rectMesher = some s1 ∧
      s1.m_facets = [0, 1] ∧
      s1.heap.facets 1 = some ⟨1, 3, 0, ⟨153 / 2, 52, 336⟩⟩ ∧
      ((s1.m_facets = rectMesher.m_facets ∧ s1.heap.facets = rectMesher.heap.facets ∧
          s1.nextFacet = rectMesher.nextFacet) ∨
        (∃ edge rest ed candidate center, rectMesher.m_edge_front = edge :: rest ∧
          rectMesher.heap.edges edge = some ed ∧ ed.m_type = 1 ∧
          Mesher.findCandidateVertex rectEnv { rectMesher with m_edge_front := rest } edge
            = some (some (candidate, center)) ∧
          (fun _ => true) candidate = true ∧
          s1.m_facets = rectMesher.m_facets ++ [rectMesher.nextFacet] ∧
          s1.heap.facets = (rectMesher.heap.setFacet rectMesher.nextFacet
            (some ⟨ed.m_src, candidate, ed.m_tgt, center⟩)).facets ∧
          s1.nextFacet = rectMesher.nextFacet + 1)) := by
  have hfind := (Mesher.findCandidateVertex_front rectEnv rectMesher [] 2).trans
    rect_findCandidateVertex
  have hstep := (Mesher.expandTriangulationAroundNode_inside rectEnv (fun v => v != 3)).2.2
    rectMesher 2 [] ⟨1, 0, some 0, none, 1⟩ 3 ⟨153 / 2, 52, 336⟩ rect_live rfl rect_edge2 rfl
    hfind rect_not_rejected rfl
  have hstep1 : Mesher.expandStepAroundNode rectEnv (fun v => v != 3) rectMesher
      = some { rectMesher with m_edge_front := [], m_node_border_edges := [2] } := hstep
  have hrun : Mesher.expandTriangulationAroundNode rectEnv (fun v => v != 3) 1 rectMesher
      = some { rectMesher with m_edge_front := [], m_node_border_edges := [2] } := by
    rw [Mesher.expandTriangulationAroundNode_succ, if_neg (by
      show ¬ ([2] : List Nat) = []
      decide), hstep1, Option.some_bind, Mesher.expandTriangulationAroundNode_zero, if_pos rfl]
  refine ⟨hstep1, hrun,
    (Mesher.expandTriangulationAroundNode_inside rectEnv (fun v => v != 3)).2.1 1 rectMesher _
      hrun, ?_⟩
  obtain ⟨s1, hs1, hfac, hmf, -⟩ := Mesher.expandStep_create rectEnv rectMesher 2 []
    ⟨1, 0, some 0, none, 1⟩ 3 ⟨153 / 2, 52, 336⟩ rect_live rfl rect_edge2 rfl rect_link
    hfind rect_not_rejected
  rw [← Mesher.expandStepAroundNode_all] at hs1
  refine ⟨s1, hs1, hmf, ?_,
    (Mesher.expandTriangulationAroundNode_inside rectEnv (fun _ => true)).1 rectMesher s1 hs1⟩
  rw [hfac]
  rfl

/-! ## Mesher::parallelReconstruct -/

/-- In an ascending list no element is above the last one. -/
theorem sorted_le_getLast [LinearOrder K] (l : List K) (back : K)
    (hs : l.Sorted (fun a b => a ≤ b)) (hb : l.getLast? = some back) :
    ∀ r ∈ l, r ≤ back := by
  obtain ⟨ys, rfl⟩ := List.getLast?_eq_some_iff.mp hb
  intro r hr
  rcases List.mem_append.mp hr with h | h
  · exact (List.pairwise_append.mp hs).2.2 r h back (List.mem_singleton.mpr rfl)
  · rw [List.mem_singleton.mp h]

/-- With one radius Mesher::parallelReconstruct is the loop over the groups of
nodes for that radius, and nothing after it. -/
theorem Mesher.parallelReconstruct_single [LinearOrderedField K] (env : Env K)
    (cells : Cells K) (fuel : Nat) (r : K) (g : Mesher K) :
    Mesher.parallelReconstruct env cells fuel [r] g
      = Mesher.nodeGroups env cells fuel
          (Mesher.processingDepth cells.floorLog2 cells.depth cells.size r) 0 r (21 / 10 * r)
          (List.range 8) g := by
  show ((Mesher.nodeGroups env cells fuel
      (Mesher.processingDepth cells.floorLog2 cells.depth cells.size r) 0 r (21 / 10 * r)
      (List.range 8) g).bind fun g1 => some g1).bind (fun g1 => some g1) = _
  rw [Option.bind_some, Option.bind_some]

/-- With more than one radius a run of Mesher::parallelReconstruct that
returns ends with the expansion of the front of the state left by the loop
over the radii, with the last radius. -/
theorem Mesher.parallelReconstruct_inv [LinearOrderedField K] (env : Env K)
    (cells : Cells K) (fuel : Nat) (radii : List K) (g g1 : Mesher K)
    (hlen : 2 ≤ radii.length)
    (h : Mesher.parallelReconstruct env cells fuel radii g = some g1) :
    ∃ back gw, radii.getLast? = some back ∧
      Mesher.radiusWaves env cells fuel
        (Mesher.processingDepth cells.floorLog2 cells.depth cells.size back)
        (21 / 10 * back) 0 radii g = some gw ∧
      Mesher.expandTriangulation env fuel (gw.setBallRadius back) = some g1 := by
  unfold Mesher.parallelReconstruct at h
  cases hb : radii.getLast? with
  | none => rw [hb] at h; cases h
  | some back =>
    rw [hb] at h
    dsimp only at h
    obtain ⟨gw, hw, hfin⟩ := Option.bind_eq_some.mp h
    rw [if_pos (by omega)] at hfin
    exact ⟨back, gw, rfl, hw, hfin⟩

theorem Mesher.nodeGroups_sample (env : Env ℚ) (nodes : List OctreeNode) (outside : List Nat)
    (fuel depth init : Nat) (radius d : ℚ) (g : Mesher ℚ) :
    Mesher.nodeGroups env (sampleCells nodes outside) fuel depth init radius d (List.range 8) g
      = Mesher.nodeTasks env (sampleCells nodes outside) fuel init radius d nodes g := by
  show ((Mesher.nodeTasks env (sampleCells nodes outside) fuel init radius d nodes g).bind
    fun g1 => some g1) = _
  rw [Option.bind_some]

theorem Mesher.nodeTasks_one [LinearOrderedField K] (env : Env K) (cells : Cells K)
    (fuel init : Nat) (radius d : K) (node : OctreeNode) (g : Mesher K) :
    Mesher.nodeTasks env cells fuel init radius d [node] g
      = Mesher.nodeTask env cells fuel init radius d node g := by
  show ((Mesher.nodeTask env cells fuel init radius d node g).bind fun g1 => some g1) = _
  rw [Option.bind_some]

/-- The task of a node for the first radius: the new mesher takes the radius
and runs reconstructAroundNode, and is merged. -/
theorem Mesher.nodeTask_first [LinearOrderedField K] (env : Env K) (cells : Cells K)
    (fuel : Nat) (radius d : K) (node : OctreeNode) (g : Mesher K) :
    Mesher.nodeTask env cells fuel 0 radius d node g
      = (Mesher.reconstructAroundNode env (cells.inside node d) fuel node
          { (Mesher.ctor g.heap g.nextFacet cells.iterR).setBallRadius radius with
            m_border_edges := [] }).bind fun l3 =>
        (Mesher.merge { g with heap := l3.heap, nextFacet := l3.nextFacet } l3).map
          Prod.fst := by
  unfold Mesher.nodeTask
  rw [if_neg (by decide), Option.some_bind, Mesher.changeRadius_nil _ _ _ rfl,
    Option.some_bind, if_pos rfl]

theorem Mesher.reconstructAroundNode_leaf [LinearOrderedField K] (env : Env K)
    (inside : Nat → Bool) (fuel : Nat) (points : List Nat) (s : Mesher K)
    (h : s.m_edge_front = []) :
    Mesher.reconstructAroundNode env inside fuel (OctreeNode.leaf points) s
      = Mesher.seedPointsAroundNode env inside fuel fuel points s := by
  unfold Mesher.reconstructAroundNode
  rw [if_pos h, Option.some_bind]
  rfl

/-- The turn of the loop of findSeedTriangle on a point of type 1: its
adjacent edges of type 1 are pushed on the front, which is expanded around the
node. -/
theorem Mesher.seedPointsAroundNode_front [LinearOrderedField K] (env : Env K)
    (inside : Nat → Bool) (fuel n p : Nat) (rest front : List Nat) (s : Mesher K)
    (ht : (s.heap.vertices p).m_type = 1)
    (hp : Mesher.pushFrontEdges s.heap (s.heap.vertices p).m_adjacentEdges s.m_edge_front
      = some front) :
    Mesher.seedPointsAroundNode env inside fuel (n + 1) (p :: rest) s
      = (Mesher.expandTriangulationAroundNode env inside fuel
          { s with m_edge_front := front }).bind fun s1 =>
        Mesher.seedPointsAroundNode env inside fuel n rest s1 := by
  conv_lhs => unfold Mesher.seedPointsAroundNode
  rw [if_pos ht, hp, Option.some_bind]

/-- On the store of the sample rectangle, with the corner 3 outside the
dilated cell, the expansion around the node of a front holding the edge 2
sets the edge aside. -/
theorem restart_aside :
    Mesher.expandTriangulationAroundNode rectEnv
      (restartCells.inside (OctreeNode.leaf [1]) (21 / 10 * (697 / 2))) 1
      { restartLocal with m_edge_front := [2] }
      = some { restartLocal with m_edge_front := [], m_node_border_edges := [2] } := by
  have hfind : Mesher.findCandidateVertex rectEnv
      { ({ restartLocal with m_edge_front := [2] } : Mesher ℚ) with m_edge_front := [] } 2
      = some (some (3, ⟨153 / 2, 52, 336⟩)) :=
    (Mesher.findCandidateVertex_congr rectEnv rectMesher
      { ({ restartLocal with m_edge_front := [2] } : Mesher ℚ) with m_edge_front := [] }
      rfl rfl (by
      show (697 / 2 : ℚ) * (697 / 2) = 485809 / 4
      norm_num) 2).trans rect_findCandidateVertex
  have hstep := Mesher.expandStepAroundNode_aside rectEnv
    (restartCells.inside (OctreeNode.leaf [1]) (21 / 10 * (697 / 2)))
    { restartLocal with m_edge_front := [2] } 2 [] ⟨1, 0, some 0, none, 1⟩ 3
    ⟨153 / 2, 52, 336⟩ rect_live rfl rect_edge2 rfl hfind rect_not_rejected rfl
  rw [Mesher.expandTriangulationAroundNode_succ, if_neg (by
    show ¬ ([2] : List Nat) = []
    decide), hstep, Option.some_bind, Mesher.expandTriangulationAroundNode_zero]
  rfl

/-- The task of the node of the sample run: the local mesher finds the front
edge 2 at the corner 1 and sets it aside, and the merge appends it to the
front of the global mesher. -/
theorem restart_task :
    ∃ g1, Mesher.nodeTask rectEnv restartCells 1 0 (697 / 2) (21 / 10 * (697 / 2))
        (OctreeNode.leaf [1]) restartMesher = some g1 ∧
      g1.m_edge_front = [2] ∧ g1.heap.edges 2 = some ⟨1, 0, some 0, none, 1⟩ := by
  have h1 : Mesher.nodeTask rectEnv restartCells 1 0 (697 / 2) (21 / 10 * (697 / 2))
      (OctreeNode.leaf [1]) restartMesher
      = (Mesher.reconstructAroundNode rectEnv
          (restartCells.inside (OctreeNode.leaf [1]) (21 / 10 * (697 / 2))) 1
          (OctreeNode.leaf [1]) restartLocal).bind fun l3 =>
        (Mesher.merge { restartMesher with heap := l3.heap, nextFacet := l3.nextFacet }
          l3).map Prod.fst :=
    Mesher.nodeTask_first rectEnv restartCells 1 (697 / 2) (21 / 10 * (697 / 2))
      (OctreeNode.leaf [1]) restartMesher
  have h2 : Mesher.seedPointsAroundNode rectEnv
      (restartCells.inside (OctreeNode.leaf [1]) (21 / 10 * (697 / 2))) 1 1 [1] restartLocal
      = (Mesher.expandTriangulationAroundNode rectEnv
          (restartCells.inside (OctreeNode.leaf [1]) (21 / 10 * (697 / 2))) 1
          { restartLocal with m_edge_front := [2] }).bind fun s1 =>
        Mesher.seedPointsAroundNode rectEnv
          (restartCells.inside (OctreeNode.leaf [1]) (21 / 10 * (697 / 2))) 1 0 [] s1 :=
    Mesher.seedPointsAroundNode_front rectEnv _ 1 0 1 [] [2] restartLocal rfl rfl
  rw [h1, Mesher.reconstructAroundNode_leaf _ _ _ _ _ rfl, h2, restart_aside]
  exact ⟨_, rfl, rfl, rfl⟩

/-- C33 as stated fails for a list of one radius, after which no final
expansion is run: Mesher::parallelReconstruct with the single radius 697/2 on
a new mesher over the store of the sample rectangle, with one node, which
holds the corner 1, and the corner 3 outside its dilated cell.  The front is
empty when the call starts; the local mesher finds the front edge 2 at the
corner 1 and sets it aside, the merge appends it to the global front, and the
call returns with the edge 2, of type 1 with one facet, on the front. -/
theorem Mesher.parallelReconstruct_single_radius_keeps_front :
    ∃ g1, Mesher.parallelReconstruct rectEnv restartCells 1 [697 / 2] restartMesher = some g1 ∧
      restartMesher.m_edge_front = [] ∧ g1.m_edge_front = [2] ∧
      g1.heap.edges 2 = some ⟨1, 0, some 0, none, 1⟩ := by
  obtain ⟨g1, h, hf, he⟩ := restart_task
  refine ⟨g1, ?_, rfl, hf, he⟩
  rw [Mesher.parallelReconstruct_single]
  exact (Mesher.nodeGroups_sample rectEnv [OctreeNode.leaf [1]] [3] 1 _ 0 _ _ _).trans
    ((Mesher.nodeTasks_one rectEnv restartCells 1 0 _ _ _ _).trans h)

/-- The well-formedness of a state and its bound depend on the heap, the next
facet address and the front only. -/
theorem Mesher.PivotInv.of_fields {N : Nat} {s s1 : Mesher K} (h : s.PivotInv N)
    (hh : s1.heap = s.heap) (hn : s1.nextFacet = s.nextFacet)
    (hf : s1.m_edge_front = s.m_edge_front) :
    s1.PivotInv N ∧ s1.pivotBound N = s.pivotBound N := by
  obtain ⟨⟨hlive, hu, hfe, hff⟩, hes, hfl⟩ := h
  refine ⟨⟨⟨?_, ?_, ?_, ?_⟩, ?_, ?_⟩, ?_⟩
  · rw [hh]
    exact hlive
  · rw [hh]
    exact hu
  · rw [hh]
    exact hfe
  · rw [hh, hn]
    exact hff
  · rw [hh]
    exact hes
  · rw [hh, hf]
    exact hfl
  · unfold Mesher.pivotBound
    rw [hh, hf]

/-- C33, for lists of at least two radii: Mesher::parallelReconstruct, called
with an ascending list of at least two radii whose last one is `back`, which
is then the largest, ends with one sequential expandTriangulation at the
radius `back` on the state left by the loop over the radii.  A call that
returns has run that expansion and returns its result, with an empty front;
and when the loop over the radii leaves a well-formed state over a cloud of
`N` points (with the neighbors among them and a bound on the turns of at
least the length of the front plus twice the number of vertex pairs without an
inner edge), the call returns, with an empty front. -/
theorem Mesher.parallelReconstruct_final [LinearOrderedField K] (env : Env K)
    (cells : Cells K) (fuel : Nat) (radii : List K) (back : K) (g : Mesher K)
    (hlen : 2 ≤ radii.length) (hsorted : radii.Sorted (fun a b => a ≤ b))
    (hb : radii.getLast? = some back) :
    (∀ r ∈ radii, r ≤ back) ∧
    (∀ g1, Mesher.parallelReconstruct env cells fuel radii g = some g1 →
      ∃ gw, Mesher.radiusWaves env cells fuel
          (Mesher.processingDepth cells.floorLog2 cells.depth cells.size back)
          (21 / 10 * back) 0 radii g = some gw ∧
        Mesher.expandTriangulation env fuel (gw.setBallRadius back) = some g1 ∧
        g1.m_edge_front = []) ∧
    (∀ N gw, Mesher.radiusWaves env cells fuel
        (Mesher.processingDepth cells.floorLog2 cells.depth cells.size back)
        (21 / 10 * back) 0 radii g = some gw →
      (∀ d p, ∀ w ∈ env.getNeighbors d p, w < N) → gw.PivotInv N → gw.pivotBound N ≤ fuel →
      ∃ g1, Mesher.parallelReconstruct env cells fuel radii g = some g1 ∧
        Mesher.expandTriangulation env fuel (gw.setBallRadius back) = some g1 ∧
        g1.m_edge_front = []) := by
  refine ⟨sorted_le_getLast radii back hsorted hb, ?_, ?_⟩
  · intro g1 h
    obtain ⟨back1, gw, hb1, hw, hfin⟩ := Mesher.parallelReconstruct_inv env cells fuel radii g g1
      hlen h
    rw [hb] at hb1
    cases hb1
    exact ⟨gw, hw, hfin, Mesher.expandTriangulation_front env fuel _ g1 hfin⟩
  · intro N gw hw henv hinv hbound
    obtain ⟨hinv1, hb1⟩ := hinv.of_fields (rfl : (gw.setBallRadius back).heap = gw.heap) rfl rfl
    obtain ⟨g1, hrun, hfront, -⟩ := Mesher.expandTriangulation_runs env N henv fuel
      (gw.setBallRadius back) hinv1 (by rw [hb1]; exact hbound)
    refine ⟨g1, ?_, hrun, hfront⟩
    unfold Mesher.parallelReconstruct
    rw [hb]
    dsimp only
    rw [hw, Option.some_bind, if_pos (by omega)]
    exact hrun

/-- The loop over the radii 697/2 and 400 of the sample run, with one node
that holds the orphan corner 2: the local meshers find nothing to do and the
global mesher keeps its heap and its front. -/
theorem pivot_waves :
    ∃ gw, Mesher.radiusWaves rectEnv (sampleCells [OctreeNode.leaf [2]] []) 21
        (Mesher.processingDepth (sampleCells [OctreeNode.leaf [2]] []).floorLog2
          (sampleCells [OctreeNode.leaf [2]] []).depth
          (sampleCells [OctreeNode.leaf [2]] []).size 400)
        (21 / 10 * 400) 0 [697 / 2, 400] pivotMesher = some gw ∧
      gw.heap = pivotMesher.heap ∧ gw.nextFacet = pivotMesher.nextFacet ∧
      gw.m_edge_front = pivotMesher.m_edge_front :=
  ⟨_, rfl, rfl, rfl, rfl⟩

/-- C33 on the sample rectangle with the radii 697/2 and 400 and one node,
which holds the orphan corner 2: the loop over the radii leaves the front
edge 2 on the global front, and the call returns, with an empty front. -/
theorem Mesher.parallelReconstruct_final_witness :
    2 ≤ ([697 / 2, 400] : List ℚ).length ∧
    ([697 / 2, 400] : List ℚ).Sorted (fun a b => a ≤ b) ∧
    ([697 / 2, 400] : List ℚ).getLast? = some 400 ∧
    (∃ gw, Mesher.radiusWaves rectEnv (sampleCells [OctreeNode.leaf [2]] []) 21
        (Mesher.processingDepth (sampleCells [OctreeNode.leaf [2]] []).floorLog2
          (sampleCells [OctreeNode.leaf [2]] []).depth
          (sampleCells [OctreeNode.leaf [2]] []).size 400)
        (21 / 10 * 400) 0 [697 / 2, 400] pivotMesher = some gw ∧ gw.m_edge_front = [2]) ∧
    ∃ g1, Mesher.parallelReconstruct rectEnv (sampleCells [OctreeNode.leaf [2]] []) 21
        [697 / 2, 400] pivotMesher = some g1 ∧ g1.m_edge_front = [] := by
  have hsorted : ([697 / 2, 400] : List ℚ).Sorted (fun a b => a ≤ b) := by
    simp only [List.Sorted, List.pairwise_cons, List.mem_singleton, forall_eq,
      List.not_mem_nil, false_implies, implies_true, List.Pairwise.nil, and_true]
    norm_num
  have henv : ∀ d p, ∀ w ∈ rectEnv.getNeighbors d p, w < 5 := by
    intro d p w hw
    have hw1 : w ∈ [0, 1, 2, 3, 4] := hw
    simp at hw1
    omega
  obtain ⟨gw, hw, hh, hn, hf⟩ := pivot_waves
  obtain ⟨hinv, hbound⟩ := pivot_inv.of_fields hh hn hf
  obtain ⟨g1, h1, -, h2⟩ := (Mesher.parallelReconstruct_final rectEnv
    (sampleCells [OctreeNode.leaf [2]] []) 21 [697 / 2, 400] 400 pivotMesher (by decide)
    hsorted rfl).2.2 5 gw hw henv hinv (by rw [hbound, pivot_bound])
  exact ⟨by decide, hsorted, rfl, ⟨gw, hw, hf⟩, g1, h1, h2⟩

/-! ## Mesher::trySeed on a vertex that is not an orphan -/

/-- Facet::Facet(Vertex*, Vertex*, Vertex*, Point&) on a heap whose edges all
have a first facet and whose edge allocator is ahead of the live edges, for
three pairwise distinct vertices: what it does to the edges. -/
theorem Facet.ctor_pivotStep [LinearOrderedCommRing K]
    (normalize : K × K × K → K × K × K) (V : Nat → Prop) (m m1 : Mesh K)
    (self v0 v1 v2 : Nat) (c : Point K)
    (h : Facet.ctor normalize m self v0 v1 v2 c = some m1)
    (hf : m.Facetted) (hfr : m.EdgesFresh)
    (h01 : v0 ≠ v1) (h12 : v1 ≠ v2) (h20 : v2 ≠ v0)
    (hv0 : V v0) (hv1 : V v1) (hv2 : V v2) :
    m.PivotStep V self m1 := by
  unfold Facet.ctor at h
  dsimp only at h
  obtain ⟨a1, h1, h⟩ := Option.bind_eq_some.mp h
  obtain ⟨a2, h2, h⟩ := Option.bind_eq_some.mp h
  obtain ⟨a3, h3, h⟩ := Option.bind_eq_some.mp h
  obtain ⟨a4, h4, h⟩ := Option.bind_eq_some.mp h
  obtain ⟨a5, h5, h⟩ := Option.bind_eq_some.mp h
  have p0 := Mesh.setFacet_pivotStep V self m self (some ⟨v0, v1, v2, c⟩)
  have hf0 : (m.setFacet self (some ⟨v0, v1, v2, c⟩)).Facetted := hf
  have hfr0 : (m.setFacet self (some ⟨v0, v1, v2, c⟩)).EdgesFresh := hfr
  obtain ⟨p1, -⟩ := Facet.attachEdge_pivotStep normalize V _ a1 self _ _ h1 hf0 hfr0 h01
    hv0 hv1
  obtain ⟨p2, -⟩ := Facet.attachEdge_pivotStep normalize V a1 a2 self _ _ h2
    (p1.facetted hf0) (p1.fresh hfr0) h12 hv1 hv2
  obtain ⟨p3, -⟩ := Facet.attachEdge_pivotStep normalize V a2 a3 self _ _ h3
    (p2.facetted (p1.facetted hf0)) (p2.fresh (p1.fresh hfr0)) h20 hv2 hv0
  have s4 := Facet.registerVertex_same _ _ _ _ h4
  have s5 := Facet.registerVertex_same _ _ _ _ h5
  have s6 := Facet.registerVertex_same _ _ _ _ h
  have s46 : a3.SameEdges m1 := (s4.trans s5).trans s6
  exact ((p0.composed p1).composed (p2.composed p3)).composed (s46.pivotStep V self)

/-- The push of the linking edge of two vertices that share an adjacent edge,
on a heap whose adjacent edges are live: it returns, the heap and the facet
list are as before, the front does not shrink, and it is not empty when the
linking edge has type 1. -/
theorem Mesher.pushIfFront_grows (s : Mesher K) (a b x : Nat) (hlive : s.heap.AdjacencyLive)
    (hxa : x ∈ (s.heap.vertices a).m_adjacentEdges)
    (hxb : x ∈ (s.heap.vertices b).m_adjacentEdges) :
    ∃ s1 e ed, s.pushIfFront a b = some s1 ∧ s1.heap = s.heap ∧ s1.m_facets = s.m_facets ∧
      (s.heap.vertices a).getLinkingEdge (s.heap.vertices b) = some e ∧
      s.heap.edges e = some ed ∧
      (0 < s.m_edge_front.length → 0 < s1.m_edge_front.length) ∧
      (ed.m_type = 1 → 0 < s1.m_edge_front.length) := by
  obtain ⟨e, ed, hl, hed, hrun⟩ := Mesher.pushIfFront_live s a b x hlive hxa hxb
  by_cases ht : ed.m_type = 1
  · rw [if_pos ht] at hrun
    exact ⟨_, e, ed, hrun, rfl, rfl, hl, hed, fun _ => Nat.succ_pos _, fun _ => Nat.succ_pos _⟩
  · rw [if_neg ht] at hrun
    exact ⟨_, e, ed, hrun, rfl, rfl, hl, hed, fun h => h, fun h => absurd h ht⟩

/-- The statements of Mesher::trySeed from `new Facet` to the third push, for
a vertex `v` of any type and two vertices `va`, `vb` without adjacent edges, the
three pairwise distinct, on a well-formed heap: they run to their end, the
facet on `v`, `va`, `vb` is written at the next facet address and listed, and
the front is not empty afterwards, the new edge between `va` and `vb` being a
front edge. -/
theorem Mesher.seed_on_front [LinearOrderedField K] (env : Env K) (s : Mesher K)
    (v va vb : Nat) (center : Point K) (hs : s.Sound) (hf : s.heap.Facetted)
    (h01 : v ≠ va) (h12 : va ≠ vb) (h20 : vb ≠ v)
    (ha1 : (s.heap.vertices va).m_adjacentEdges = [])
    (ha2 : (s.heap.vertices vb).m_adjacentEdges = []) :
    ∃ s4, ((Mesher.newFacet env s v va vb center).bind fun s1 =>
        (s1.pushIfFront v vb).bind fun s2 =>
        (s2.pushIfFront va vb).bind fun s3 =>
        s3.pushIfFront v va) = some s4 ∧
      s4.heap.facets = (s.heap.setFacet s.nextFacet (some ⟨v, va, vb, center⟩)).facets ∧
      s4.m_facets = s.m_facets ++ [s.nextFacet] ∧ 0 < s4.m_edge_front.length := by
  obtain ⟨hlive, hu, hfr, hff⟩ := hs
  obtain ⟨m6, hm6, l6, -, -, fill, hfac⟩ := Facet.ctor_step (normalizeWith env.sqrt) s.heap
    s.nextFacet v va vb center hlive hu hfr (hff _ le_rfl) h01 h12 h20
  obtain ⟨m6x, hm6x, -, -, -, -, -, -, hlink, -⟩ := Facet.ctor_spec (normalizeWith env.sqrt)
    s.heap s.nextFacet v va vb center hlive h01 h12 h20
  rw [hm6] at hm6x
  cases hm6x
  have n01 : (s.heap.vertices v).getLinkingEdge (s.heap.vertices va) = none := by
    unfold Vertex.getLinkingEdge
    rw [ha1]
    exact getCommonElement_nil_right _
  have n12 : (s.heap.vertices va).getLinkingEdge (s.heap.vertices vb) = none := by
    unfold Vertex.getLinkingEdge
    rw [ha1]
    rfl
  have n20 : (s.heap.vertices vb).getLinkingEdge (s.heap.vertices v) = none := by
    unfold Vertex.getLinkingEdge
    rw [ha2]
    rfl
  obtain ⟨k01, k12, k20⟩ := hlink
    (fun e ed hl _ => by rw [n01] at hl; cases hl)
    (fun e ed hl _ => by rw [n12] at hl; cases hl)
    (fun e ed hl _ => by rw [n20] at hl; cases hl)
  have p := Facet.ctor_pivotStep (normalizeWith env.sqrt) (fun _ => True) s.heap m6
    s.nextFacet v va vb center hm6 hf hfr h01 h12 h20 trivial trivial trivial
  -- the linking edge of va and vb is new, of type 1
  obtain ⟨e12, ed12, hl12, hed12, -⟩ := k12
  have ht12 : ed12.m_type = 1 := by
    have hmem := (getCommonElement_mem _ _ e12 hl12).1
    rcases fill.2.2.2.1 va e12 hmem with hold | hnew
    · rw [ha1] at hold
      cases hold
    · exact (p.2.2.2 e12 ed12 hed12 (hfr e12 hnew)).2.2.1
  obtain ⟨e01, ed01, hl01, -, -⟩ := k01
  obtain ⟨e20, ed20, hl20, -, -⟩ := k20
  have hfc : m6.facets s.nextFacet = some ⟨v, va, vb, center⟩ := by
    rw [hfac]
    show (if s.nextFacet = s.nextFacet then _ else _) = _
    rw [if_pos rfl]
  obtain ⟨s1, hadd⟩ := Mesher.addFacet_live
    { s with heap := m6, nextFacet := s.nextFacet + 1 } s.nextFacet _ hfc
  obtain ⟨hsame, hfl, -, -, -, -⟩ := Mesher.addFacet_spec _ s1 s.nextFacet hadd
  have hsame1 : m6.SameEdges s1.heap := hsame
  have hnew : Mesher.newFacet env s v va vb center = some s1 := by
    unfold Mesher.newFacet
    rw [hm6]
    exact hadd
  have hlive1 : s1.heap.AdjacencyLive := hsame1.live l6
  have adj : ∀ u, (s1.heap.vertices u).m_adjacentEdges = (m6.vertices u).m_adjacentEdges :=
    hsame1.2.2.2
  have m20 := getCommonElement_mem _ _ e20 hl20
  have m12 := getCommonElement_mem _ _ e12 hl12
  have m01 := getCommonElement_mem _ _ e01 hl01
  obtain ⟨s2, -, -, hp1, hh1, hf1, -, -, -, -⟩ := Mesher.pushIfFront_grows s1 v vb e20 hlive1
    (by rw [adj]; exact m20.2) (by rw [adj]; exact m20.1)
  obtain ⟨s3, e, ed, hp2, hh2, hf2, hle, hede, -, hpos2⟩ := Mesher.pushIfFront_grows s2 va vb
    e12 (by rw [hh1]; exact hlive1) (by rw [hh1, adj]; exact m12.1)
    (by rw [hh1, adj]; exact m12.2)
  have hEq : e = e12 ∧ ed = ed12 := by
    rw [hh1, hsame1.link va vb, hl12] at hle
    cases hle
    rw [hh1, hsame1.1, hed12] at hede
    cases hede
    exact ⟨rfl, rfl⟩
  have hlen3 : 0 < s3.m_edge_front.length := hpos2 (by rw [hEq.2]; exact ht12)
  obtain ⟨s4, -, -, hp3, hh3, hf3, -, -, hkeep, -⟩ := Mesher.pushIfFront_grows s3 v va e01
    (by rw [hh2, hh1]; exact hlive1) (by rw [hh2, hh1, adj]; exact m01.1)
    (by rw [hh2, hh1, adj]; exact m01.2)
  refine ⟨s4, ?_, ?_, ?_, hkeep hlen3⟩
  · rw [hnew, Option.some_bind, hp1, Option.some_bind, hp2, Option.some_bind]
    exact hp3
  · rw [hh3, hh2, hh1, hsame1.2.1]
    exact hfac
  · rw [hf3, hf2, hf1]
    exact hfl

/-- Mesher::tryTriangleSeed returns false on a third vertex that is not an
orphan. -/
theorem Mesher.tryTriangleSeed_typed [LinearOrderedField K] (env : Env K) (s : Mesher K)
    (v1 v2 v3 : Nat) (neighbors : List (K × Nat)) (h : (s.heap.vertices v3).m_type ≠ 0) :
    Mesher.tryTriangleSeed env s v1 v2 v3 neighbors = some none := by
  unfold Mesher.tryTriangleSeed
  rw [if_pos (Or.inl h)]

/-- The turn of the loop of trySeed on an orphan `ni` other than `v`, for a
vertex `v` of any type, when the inner loop returns the orphan `cand`: on a
well-formed heap in which `ni` and `cand` have no adjacent edge, the facet on
`v`, `ni`, `cand` is built and the call returns true. -/
theorem Mesher.trySeedLoop_build [LinearOrderedField K] (env : Env K) (s : Mesher K)
    (v : Nat) (neighbors : List (K × Nat)) (ni : K × Nat) (rest : List (K × Nat))
    (cand : Nat) (center : Point K) (hs : s.Sound) (hf : s.heap.Facetted)
    (h1 : (s.heap.vertices ni.2).m_type = 0) (hne : ni.2 ≠ v)
    (a1 : (s.heap.vertices ni.2).m_adjacentEdges = [])
    (a2 : (s.heap.vertices cand).m_adjacentEdges = [])
    (hinner : Mesher.trySeedInner env s v ni.2 neighbors rest = some (some (cand, center)))
    (htri : Mesher.tryTriangleSeed env s v ni.2 cand neighbors = some (some center)) :
    ∃ s4, Mesher.trySeedLoop env v neighbors (ni :: rest) s = some (s4, true) ∧
      s4.heap.facets = (s.heap.setFacet s.nextFacet (some ⟨v, ni.2, cand, center⟩)).facets ∧
      s4.m_facets = s.m_facets ++ [s.nextFacet] := by
  have hg : ¬ ((s.heap.vertices ni.2).m_type ≠ 0 ∨ ni.2 = v) := by
    rw [not_or, not_not]
    exact ⟨h1, hne⟩
  obtain ⟨-, -, -, -, hball, -⟩ :=
    (Mesher.tryTriangleSeed_some env s v ni.2 cand neighbors center).mp htri
  obtain ⟨d01, d12, d20⟩ := Mesher.computeBallCenter_distinct env s v ni.2 cand center hball
  have k1 : s.heap.linkTypeIs v cand (fun t => t != 1) = some false := by
    apply Mesh.linkTypeIs_none
    unfold Vertex.getLinkingEdge
    rw [a2]
    exact getCommonElement_nil_right _
  have k2 : s.heap.linkTypeIs ni.2 cand (fun t => t != 1) = some false := by
    apply Mesh.linkTypeIs_none
    unfold Vertex.getLinkingEdge
    rw [a1]
    rfl
  have k3 : s.heap.linkTypeIs v ni.2 (fun t => t != 1) = some false := by
    apply Mesh.linkTypeIs_none
    unfold Vertex.getLinkingEdge
    rw [a1]
    exact getCommonElement_nil_right _
  obtain ⟨s4, hrun, hfac, hfl, hlen⟩ := Mesher.seed_on_front env s v ni.2 cand center hs hf
    d01 d12 d20 a1 a2
  refine ⟨s4, ?_, hfac, hfl⟩
  conv_lhs => unfold Mesher.trySeedLoop
  rw [if_neg hg, hinner]
  dsimp only
  rw [k1]
  dsimp only
  rw [k2]
  dsimp only
  rw [k3]
  dsimp only
  rw [hrun]
  dsimp only
  rw [if_pos hlen]

/-- The inner loop of Mesher::trySeed when tryTriangleSeed returns false on
the first entry and true on the second. -/
theorem Mesher.trySeedInner_second [LinearOrderedField K] (env : Env K) (s : Mesher K)
    (v vtest : Nat) (neighbors : List (K × Nat)) (n1 n2 : K × Nat) (rest : List (K × Nat))
    (center : Point K)
    (h1 : Mesher.tryTriangleSeed env s v vtest n1.2 neighbors = some none)
    (h2 : Mesher.tryTriangleSeed env s v vtest n2.2 neighbors = some (some center)) :
    Mesher.trySeedInner env s v vtest neighbors (n1 :: n2 :: rest)
      = some (some (n2.2, center)) := by
  unfold Mesher.trySeedInner
  rw [h1]
  dsimp only
  unfold Mesher.trySeedInner
  rw [h2]

/-! ## A seed built from a front vertex of the sample rectangle -/

/-- The sample rectangle with its three edges on the border is a well-formed
state whose edges all have a first facet. -/
theorem border_sound : borderMesher.Sound ∧ borderMesher.heap.Facetted := by
  obtain ⟨hs, he, -⟩ := pivot_inv
  obtain ⟨h1, h2, -, -⟩ := Mesher.retireEdge_inv 5 { pivotMesher with m_edge_front := [] } 2
    ⟨1, 0, some 0, none, 1⟩ rfl rfl hs he
  refine ⟨h1, ?_⟩
  intro e ed hed
  have hc := (h2 e ed hed).1
  rcases hc with ⟨-, h, -⟩ | ⟨-, h, -⟩
  · exact h
  · exact h

/-- In that state every orphan has an empty adjacent-edge set. -/
theorem border_orphans (u : Nat) (_h : (borderMesher.heap.vertices u).m_type = 0) :
    (borderMesher.heap.vertices u).m_adjacentEdges = [] := by
  rcases u with _ | _ | _ | _ | _ | n
  · cases _h
  · cases _h
  · rfl
  · rfl
  · cases _h
  · rfl

theorem border_compatible :
    Vertex.isCompatibleWithPair (normalizeWith cloudEnv.sqrt) (borderMesher.heap.vertices 2)
      (borderMesher.heap.vertices 0) (borderMesher.heap.vertices 3) = true := by
  obtain ⟨-, -, -, h4, -⟩ := rect_sqrt_values
  have hn : normalizeWith cloudEnv.sqrt
      (cross_product ((borderMesher.heap.vertices 2).pos.x - (borderMesher.heap.vertices 0).pos.x)
        ((borderMesher.heap.vertices 2).pos.y - (borderMesher.heap.vertices 0).pos.y)
        ((borderMesher.heap.vertices 2).pos.z - (borderMesher.heap.vertices 0).pos.z)
        ((borderMesher.heap.vertices 3).pos.x - (borderMesher.heap.vertices 0).pos.x)
        ((borderMesher.heap.vertices 3).pos.y - (borderMesher.heap.vertices 0).pos.y)
        ((borderMesher.heap.vertices 3).pos.z - (borderMesher.heap.vertices 0).pos.z))
      = (0, 0, 1) := by
    simp only [normalizeWith, cross_product, cloudEnv, rectEnv, borderMesher,
      Mesher.retireEdge, Mesh.setEdge, pivotMesher, rectMesher, pivotHeap, rectHeap, rectVertex]
    norm_num [h4]
  apply Vertex.isCompatibleWithPair_of _ _ _ _ 0 0 1 hn
  · norm_num [borderMesher, Mesher.retireEdge, Mesh.setEdge, pivotMesher, rectMesher,
      pivotHeap, rectHeap, rectVertex]
  · norm_num [borderMesher, Mesher.retireEdge, Mesh.setEdge, pivotMesher, rectMesher,
      pivotHeap, rectHeap, rectVertex]
  · norm_num [borderMesher, Mesher.retireEdge, Mesh.setEdge, pivotMesher, rectMesher,
      pivotHeap, rectHeap, rectVertex]

theorem border_ball :
    Mesher.computeBallCenter cloudEnv borderMesher (borderMesher.heap.vertices 0)
      (borderMesher.heap.vertices 3) (borderMesher.heap.vertices 2)
      = some ⟨153 / 2, 52, 336⟩ := by
  obtain ⟨h1, h2, h3, h4, h5, h6, -⟩ := rect_sqrt_values
  simp only [Mesher.computeBallCenter, Mesher.computeNormal, normalizeWith, cross_product,
    dist2, rectVertex, cloudEnv, rectEnv, borderMesher, Mesher.retireEdge, Mesh.setEdge,
    pivotMesher, rectMesher, pivotHeap, rectHeap]
  norm_num [h1, h2, h3, h4, h5, h6]

theorem border_empty :
    Mesher.seedBallEmpty borderMesher 0 3 2 ⟨153 / 2, 52, 336⟩
      [(0, 0), (10816, 3), (23409, 1), (34225, 2)] = true := by
  rw [Mesher.seedBallEmpty_eq, Mesher.checkEmptyBallConfiguration_spec]
  intro v hv n0 n3 n2
  simp only [List.map_cons, List.map_nil, List.mem_cons, List.mem_singleton,
    List.not_mem_nil, or_false] at hv
  rcases hv with rfl | rfl | rfl | rfl
  · exact absurd rfl n0
  · exact absurd rfl n3
  · norm_num [dist2, borderMesher, Mesher.retireEdge, Mesh.setEdge, pivotMesher, rectMesher,
      pivotHeap, rectHeap, rectVertex]
  · exact absurd rfl n2

theorem border_triangle :
    Mesher.tryTriangleSeed cloudEnv borderMesher 0 3 2
      [(0, 0), (10816, 3), (23409, 1), (34225, 2)] = some (some ⟨153 / 2, 52, 336⟩) :=
  (Mesher.tryTriangleSeed_some cloudEnv borderMesher 0 3 2 _ _).mpr
    ⟨rfl, border_compatible, Mesh.linkTypeIs_none _ _ _ _ rfl, Mesh.linkTypeIs_none _ _ _ _ rfl,
      border_ball, border_empty⟩

/-- C23 as stated fails for a vertex v that is not an orphan: Mesher::trySeed does not test the type of v.  In the state of the sample rectangle whose facet 0 (on the corners 0, 4, 1) has its three edges on the border, the front is empty and every orphan vertex has an empty adjacent-edge set; the corner 0 has type Front(1).  With the sorted neighbors 0, 3, 1, 2 of the corner 0, trySeed(0) skips 0 itself, takes the orphan 3, turns down the corner 1 (not an orphan) and accepts the orphan 2: it returns true, having written the facet 1 on the vertices 0, 3, 2 (ball center at height 336) and listed it, so that the vertex v = 0 of the facet it created was not Orphan before the call. -/
theorem Mesher.trySeed_on_front_vertex :
    (∀ u, (borderMesher.heap.vertices u).m_type = 0 →
      (borderMesher.heap.vertices u).m_adjacentEdges = []) ∧
    borderMesher.m_edge_front = [] ∧ borderMesher.m_facets = [0] ∧
    borderMesher.heap.facets 1 = none ∧
    (borderMesher.heap.vertices 0).m_type = 1 ∧
    ∃ s1, Mesher.trySeed cloudEnv borderMesher 0 = some (s1, true) ∧
      s1.heap.facets 1 = some ⟨0, 3, 2, ⟨153 / 2, 52, 336⟩⟩ ∧ s1.m_facets = [0, 1] := by
  refine ⟨border_orphans, rfl, rfl, rfl, rfl, ?_⟩
  have hnb : cloudEnv.getSortedNeighbors (2 * borderMesher.m_ball_radius) 0
      = [(0, 0), (10816, 3), (23409, 1), (34225, 2)] := rfl
  have hinner : Mesher.trySeedInner cloudEnv borderMesher 0 3
      [(0, 0), (10816, 3), (23409, 1), (34225, 2)] [(23409, 1), (34225, 2)]
      = some (some (2, ⟨153 / 2, 52, 336⟩)) :=
    Mesher.trySeedInner_second cloudEnv borderMesher 0 3 _ (23409, 1) (34225, 2) []
      ⟨153 / 2, 52, 336⟩
      (Mesher.tryTriangleSeed_typed cloudEnv borderMesher 0 3 1 _ (by decide)) border_triangle
  obtain ⟨s4, hrun, hfac, hfl⟩ := Mesher.trySeedLoop_build cloudEnv borderMesher 0
    [(0, 0), (10816, 3), (23409, 1), (34225, 2)] (10816, 3) [(23409, 1), (34225, 2)] 2
    ⟨153 / 2, 52, 336⟩ border_sound.1 border_sound.2 rfl (by decide) rfl rfl hinner
    border_triangle
  refine ⟨s4, ?_, ?_, hfl⟩
  · rw [Mesher.trySeed_loop cloudEnv borderMesher 0 (by rw [hnb]; decide), hnb,
      Mesher.trySeedLoop_skip cloudEnv borderMesher 0 _ (0, 0) _ (Or.inr rfl)]
    exact hrun
  · rw [hfac]
    rfl

end MesherLists

end BallPivoting
